import Mathlib

/-!
# The CTCP layer of the client (`source/ctcp.c`)

A shallow embedding of `do_ctcp` (the decoder), `split_CTCP`, `send_ctcp` (the
encoder), the built-in handlers and the registry built by `init_ctcp`.

* A C string is the list of its characters up to the terminating NUL.
* Everything `ctcp.c` calls in other compilation units (ignore and flood
  predicates, hooks, the key store, recoding, output, ...) is a field of `Env`.
  Each of them is given the trace of the events that happened before the call,
  so that its answer may depend on everything the client did so far.
* Calls with an effect outside `ctcp.c` are appended to `State.trace`, in the
  order the code makes them.  Two kinds of events are bookkeeping only and mark
  a call inside `ctcp.c`: `Event.handler` (a registry handler is entered) and
  `Event.send_ctcp` (`send_ctcp` is entered).
* The parameters `from` and `to` of the C functions are called `sender` and
  `target`; line numbers are those of `source/ctcp.c`.
* A handler may return text that holds further CTCPs, and `do_crypto`
  re-enters `do_ctcp`; neither is bounded by the code, so the scan loop and the
  re-entry are driven by a fuel argument and `none` means the fuel ran out.
-/

namespace Ctcp

/-- A C string: its characters up to the terminating NUL. -/
abbrev CStr := List Char

/-- Modelled from the spec: the delimiter byte that opens and closes a CTCP
span.  It is the macro `CTCP_DELIM_CHAR` of ctcp.h, which is not among the
sources at hand; the comment on line 944 of ctcp.c names its value, \001. -/
def CTCP_DELIM_CHAR : Char := Char.ofNat 1

/-! ## CTCP bit flags (`ctcp.c` lines 68-73) -/

def CTCP_SPECIAL : Nat := 1
def CTCP_REPLY : Nat := 2
def CTCP_INLINE : Nat := 4
def CTCP_NOLIMIT : Nat := 8
def CTCP_TELLUSER : Nat := 16
def CTCP_NORECODE : Nat := 32

/-! ## libc and ircaux string helpers -/

/-- The libc `strlcpy(dst, src, size)`: at most `size - 1` characters of `src`. -/
def strlcpy (src : CStr) (size : Nat) : CStr := src.take (size - 1)

/-- The libc `strlcat(dst, src, size)`: `src` is appended as far as the total
stays within `size - 1` characters; a `dst` already that long is left alone. -/
def strlcat (dst src : CStr) (size : Nat) : CStr := dst ++ src.take (size - 1 - dst.length)

/-- The libc `snprintf(buf, size, ...)` for a positive `size`, given the fully
formatted text: at most `size - 1` characters of it. -/
def snprintf (size : Nat) (text : CStr) : CStr := text.take (size - 1)

/-- Modelled from the spec: `charcount` lives in ircaux.c, which is not part of
the sources at hand; the spec's pre-check is to "count delimiter bytes in the
raw message". -/
def charcount (s : CStr) (c : Char) : Nat := s.count c

/-- The pair `p = strchr(s, c)`, `*p++ = 0` as one step: the text left before the first
`c` and the text after it; `none` when `strchr` finds nothing. -/
def cut_at (c : Char) : CStr → Option (CStr × CStr)
  | [] => none
  | x :: xs =>
    if x = c then some ([], xs)
    else match cut_at c xs with
      | none => none
      | some (a, b) => some (x :: a, b)

/-- The `%ld` rendering of an integer. -/
def fmt_ld (n : Int) : CStr := (toString n).toList

/-- The function `split_CTCP` (lines 630-649).  `none` is the return value -1; on success the
three components are what is left in `raw_message` (the text before the first
delimiter), `ctcp_dest` and `after_ctcp`, the latter two copied with
`strlcpy(.., IRCD_BUFFER_SIZE - 1)`. -/
def split_CTCP (IRCD_BUFFER_SIZE : Nat) (raw_message : CStr) : Option (CStr × CStr × CStr) :=
  match cut_at CTCP_DELIM_CHAR raw_message with
  | none => none
  | some (before, ctcp_start) =>
    match cut_at CTCP_DELIM_CHAR ctcp_start with
    | none => none
    | some (body, ctcp_end) =>
      some (before, strlcpy body (IRCD_BUFFER_SIZE - 1), strlcpy ctcp_end (IRCD_BUFFER_SIZE - 1))

/-! ## Events, state and the environment -/

/-- The two message levels `ctcp.c` uses. -/
inductive Level
  | LEVEL_CTCP
  | LEVEL_ACTION
  deriving DecidableEq, Repr

/-- The hook lists `ctcp.c` offers events to. -/
inductive HookList
  | CTCP_REQUEST_LIST
  | CTCP_LIST
  | CTCP_REPLY_LIST
  | ACTION_LIST
  | SEND_CTCP_LIST
  deriving DecidableEq, Repr

/-- The C functions a registry entry can point to. -/
inductive CTCP_Handler
  | do_crypto
  | do_utc
  | do_atmosphere
  | do_dcc
  | do_clientinfo
  | do_version
  | do_time
  | do_userinfo
  | do_echo
  | do_ping
  | do_finger
  | do_dcc_reply
  | do_ping_reply
  deriving DecidableEq, Repr

/-- A handle on a `Crypt` key of the key store. -/
abbrev Crypt := Nat

/-- What `ctcp.c` does to the rest of the client, one constructor per callee.
`handler` and `send_ctcp` mark calls inside `ctcp.c` itself. -/
inductive Event
  | check_ignore_channel (nick userhost target : CStr) (level : Level)
  | new_check_flooding (nick userhost : CStr) (channel : Option CStr) (text : CStr) (level : Level)
  | message_from (who : CStr) (level : Level)
  | pop_message_from
  | do_hook (list : HookList) (text : CStr)
  | say (text : CStr)
  | put_it (text : CStr)
  | handler (h : CTCP_Handler) (sender target cmd args : CStr)
  | call_lambda_function (name code args : CStr)
  | is_crypted (who cmd : CStr)
  | decrypt_msg (args : CStr) (key : Crypt)
  | register_dcc_offer (sender type description inetaddr port : CStr)
      (size extra_flags : Option CStr) (rest : CStr)
  | dcc_reject (sender type args : CStr)
  | send_ctcp (request : Bool) (target type : CStr) (text : Option CStr)
  | send_text (target text protocol : CStr)
  deriving DecidableEq, Repr

abbrev Trace := List Event

/-- The globals `ctcp.c` writes, and the trace. -/
structure State where
  trace : Trace
  /-- The global `sed` (line 172). -/
  sed : Int
  /-- The static `in_ctcp` (line 128). -/
  in_ctcp : Int
  deriving DecidableEq, Repr

/-- Append an event to the trace. -/
def State.log (st : State) (e : Event) : State := { st with trace := st.trace ++ [e] }

/-- The statement `in_ctcp++`. -/
def State.in_ctcp_incr (st : State) : State := { st with in_ctcp := st.in_ctcp + 1 }

/-- The statement `in_ctcp--`. -/
def State.in_ctcp_decr (st : State) : State := { st with in_ctcp := st.in_ctcp - 1 }

/-- An assignment to `sed`. -/
def State.set_sed (st : State) (v : Int) : State := { st with sed := v }

/-- A record of the password database, as far as `do_finger` reads it. -/
structure Passwd where
  pw_name : Option CStr
  pw_gecos : Option CStr

/-- The constants and collaborators `ctcp.c` takes from other files.  Every
collaborator receives the trace so far as its first argument. -/
structure Env where
  IRCD_BUFFER_SIZE : Nat
  BIG_BUFFER_SIZE : Nat
  NAME_LEN : Nat
  /-- The value `IGNORED` of ignore.h. -/
  IGNORED : Int
  /-- The global `FromUserHost`. -/
  FromUserHost : CStr
  check_ignore_channel : Trace → CStr → CStr → CStr → Level → Int
  new_check_flooding : Trace → CStr → CStr → Option CStr → CStr → Level → Int
  is_channel : Trace → CStr → Bool
  im_on_channel : Trace → CStr → Bool
  is_me : Trace → CStr → Bool
  is_current_channel : Trace → CStr → Bool
  /-- The return value of `do_hook`: zero when a script took the event over. -/
  do_hook : Trace → HookList → CStr → Int
  /-- The text `inbound_recode` stores through its last argument, `none` for NULL. -/
  inbound_recode : Trace → CStr → CStr → CStr → Option CStr
  /-- The text `outbound_recode` returns. -/
  outbound_recode : Trace → CStr → CStr → CStr
  call_lambda_function : Trace → CStr → CStr → CStr → Option CStr
  is_crypted : Trace → CStr → CStr → Option Crypt
  decrypt_msg : Trace → CStr → Crypt → Option CStr
  get_server_doing_privmsg : Trace → Bool
  get_server_doing_notice : Trace → Bool
  my_atol : CStr → Int
  my_ctime : Int → CStr
  /-- The libc `time(NULL)`. -/
  time : Trace → Int
  /-- The pair `tv_sec`, `tv_usec` that `get_time` stores. -/
  get_time : Trace → Int × Int
  /-- The field `start_time.tv_sec`. -/
  start_time_sec : Int
  /-- The field `idle_time.tv_sec`. -/
  idle_time_sec : Trace → Int
  /-- The `%f` rendering of `(float)(tsec + (tusec / 1000000.0))`. -/
  fmt_f : Int → Int → CStr
  /-- The function `next_arg` of ircaux.c: the word returned (`none` for NULL), the text the
  second argument is left pointing at, and the text that stays readable at the
  old pointer once the word has been NUL-terminated. -/
  next_arg : CStr → Option CStr × CStr × CStr
  /-- The function `new_next_arg` of ircaux.c, read like `next_arg`. -/
  new_next_arg : CStr → Option CStr × CStr × CStr
  /-- Whether `get_int_var(DCC_DEQUOTE_FILENAMES_VAR)` is non-zero. -/
  dcc_dequote_filenames : Trace → Bool
  my_stricmp : CStr → CStr → Int
  /-- Whether `HAVE_UNAME` is defined and `UNAME_HACK` is not. -/
  have_uname : Bool
  /-- The field `sysname` after a successful `uname`, `none` when `uname` fails. -/
  uname_sysname : Trace → Option CStr
  irc_version : CStr
  IRCII_COMMENT : CStr
  /-- The call `get_string_var(CLIENT_INFORMATION_VAR)`. -/
  client_information : Trace → Option CStr
  /-- The call `get_string_var(USER_INFORMATION_VAR)`. -/
  user_information : Trace → Option CStr
  get_server_userhost : Trace → Option CStr
  hostname : CStr
  /-- The call `getpwuid(getuid())`. -/
  getpwuid : Trace → Option Passwd
  /-- Whether `ALLOW_USER_SPECIFIED_LOGIN` is defined. -/
  allow_user_specified_login : Bool
  getenv : Trace → CStr → Option CStr
  GECOS_DELIMITER : Char
  /-- The macro `plural`. -/
  plural : Int → CStr

/-! ## The registry (`CtcpEntry`, `add_ctcp`, `init_ctcp`) -/

/-- The struct `CtcpEntry` (lines 93-101). -/
structure CtcpEntry where
  flag : Nat
  desc : CStr
  func : Option CTCP_Handler
  repl : Option CTCP_Handler
  user_func : Option CStr
  user_repl : Option CStr
  deriving DecidableEq, Repr

/-- The bucket `ctcp_bucket`: name and value of each item, in insertion order. -/
abbrev Bucket := List (CStr × CtcpEntry)

/-- The function `add_ctcp` (lines 138-161): append one item to the bucket. -/
def add_ctcp (bucket : Bucket) (name : CStr) (flag : Nat) (desc : CStr)
    (func repl : Option CTCP_Handler) (user_func user_repl : Option CStr) : Bucket :=
  bucket ++ [(name, { flag := flag, desc := desc, func := func, repl := repl,
                      user_func := user_func, user_repl := user_repl })]

/-- The function `init_ctcp` (lines 1059-1124). -/
def init_ctcp : Bucket :=
  let b : Bucket := []
  let b := add_ctcp b "ACTION".toList (CTCP_SPECIAL ||| CTCP_NOLIMIT)
    "contains action descriptions for atmosphere".toList
    (some .do_atmosphere) (some .do_atmosphere) none none
  let b := add_ctcp b "DCC".toList (CTCP_SPECIAL ||| CTCP_NOLIMIT)
    "requests a direct_client_connection".toList
    (some .do_dcc) (some .do_dcc_reply) none none
  let b := add_ctcp b "AESSHA256-CBC".toList (CTCP_INLINE ||| CTCP_NOLIMIT ||| CTCP_NORECODE)
    "transmit aes256-cbc ciphertext using a sha256 key".toList
    (some .do_crypto) (some .do_crypto) none none
  let b := add_ctcp b "AES256-CBC".toList (CTCP_INLINE ||| CTCP_NOLIMIT ||| CTCP_NORECODE)
    "transmit aes256-cbc ciphertext".toList
    (some .do_crypto) (some .do_crypto) none none
  let b := add_ctcp b "CAST128ED-CBC".toList (CTCP_INLINE ||| CTCP_NOLIMIT ||| CTCP_NORECODE)
    "transmit cast5-cbc ciphertext".toList
    (some .do_crypto) (some .do_crypto) none none
  let b := add_ctcp b "BLOWFISH-CBC".toList (CTCP_INLINE ||| CTCP_NOLIMIT ||| CTCP_NORECODE)
    "transmit blowfish-cbc ciphertext".toList
    (some .do_crypto) (some .do_crypto) none none
  let b := add_ctcp b "FISH".toList (CTCP_INLINE ||| CTCP_NOLIMIT ||| CTCP_NORECODE)
    "transmit FiSH (blowfish-ecb with sha256'd key) ciphertext".toList
    (some .do_crypto) (some .do_crypto) none none
  let b := add_ctcp b "SED".toList (CTCP_INLINE ||| CTCP_NOLIMIT ||| CTCP_NORECODE)
    "transmit simple_encrypted_data ciphertext".toList
    (some .do_crypto) (some .do_crypto) none none
  let b := add_ctcp b "SEDSHA".toList (CTCP_INLINE ||| CTCP_NOLIMIT ||| CTCP_NORECODE)
    "transmit simple_encrypted_data ciphertext using a sha256 key".toList
    (some .do_crypto) (some .do_crypto) none none
  let b := add_ctcp b "UTC".toList (CTCP_INLINE ||| CTCP_NOLIMIT)
    "substitutes the local timezone".toList
    (some .do_utc) (some .do_utc) none none
  let b := add_ctcp b "VERSION".toList (CTCP_REPLY ||| CTCP_TELLUSER)
    "shows client type, version and environment".toList
    (some .do_version) none none none
  let b := add_ctcp b "PING".toList (CTCP_REPLY ||| CTCP_TELLUSER)
    "returns the arguments it receives".toList
    (some .do_ping) (some .do_ping_reply) none none
  let b := add_ctcp b "ECHO".toList (CTCP_REPLY ||| CTCP_TELLUSER)
    "returns the arguments it receives".toList
    (some .do_echo) none none none
  let b := add_ctcp b "CLIENTINFO".toList (CTCP_REPLY ||| CTCP_TELLUSER)
    "gives information about available CTCP commands".toList
    (some .do_clientinfo) none none none
  let b := add_ctcp b "USERINFO".toList (CTCP_REPLY ||| CTCP_TELLUSER)
    "returns user settable information".toList
    (some .do_userinfo) none none none
  let b := add_ctcp b "ERRMSG".toList (CTCP_REPLY ||| CTCP_TELLUSER)
    "returns error messages".toList
    (some .do_echo) none none none
  let b := add_ctcp b "FINGER".toList (CTCP_REPLY ||| CTCP_TELLUSER)
    "shows real name, login name and idle time of user".toList
    (some .do_finger) none none none
  let b := add_ctcp b "TIME".toList (CTCP_REPLY ||| CTCP_TELLUSER)
    "tells you the time on the user's host".toList
    (some .do_time) none none none
  b

/-! ## The encoder `send_ctcp` (lines 937-1003) -/

/-- The two stores `putbuf2[len - 2] = CTCP_DELIM_CHAR; putbuf2[len - 1] = 0`
(lines 998-999), applied to the `len`-byte buffer into which `snprintf` wrote
the text `s` (at most `len - 1` characters, then a NUL), read back as a C
string.  A text shorter than `len - 2` keeps its own NUL and is unchanged; a
text of `len - 2` characters has its NUL overwritten and grows by a delimiter;
a text of `len - 1` characters has its last character overwritten.  With
`len = 1` the first store lands before the buffer and the text stays empty. -/
def force_delim (len : Nat) (s : CStr) : CStr :=
  if len < 2 then s
  else if s.length < len - 2 then s
  else s.take (len - 2) ++ [CTCP_DELIM_CHAR]

/-- The value of `len` computed on line 945.  The C expression subtracts a
`size_t` and stores the result in an `int`; it is taken here as the signed
difference, which is what the conversion yields on two's complement targets. -/
def send_ctcp_len (env : Env) (target : CStr) : Int :=
  (env.IRCD_BUFFER_SIZE : Int) - (12 + (target.length : Int))

/-- The text `snprintf` leaves in `putbuf2` (lines 984 and 993), given `pb`,
the recoded argument, or `none` when `format` is NULL. -/
def send_ctcp_putbuf2 (len : Nat) (type : CStr) (pb : Option CStr) : CStr :=
  match pb with
  | some pb => snprintf len ([CTCP_DELIM_CHAR] ++ type ++ [' '] ++ pb ++ [CTCP_DELIM_CHAR])
  | none => snprintf len ([CTCP_DELIM_CHAR] ++ type ++ [CTCP_DELIM_CHAR])

/-- The function `send_ctcp` (lines 937-1003).  `format` is the text the format
and its arguments expand to, `none` for a NULL format. -/
def send_ctcp (env : Env) (request : Bool) (target type : CStr) (format : Option CStr)
    (st : State) : State :=
  let st := st.log (.send_ctcp request target type format)
  let len := send_ctcp_len env target
  if len ≤ 0 then st
  else
    let st := st.log (.message_from target .LEVEL_CTCP)
    let protocol : CStr := if request then "PRIVMSG".toList else "NOTICE".toList
    match format with
    | some text =>
      let putbuf := snprintf env.BIG_BUFFER_SIZE text
      let pb := env.outbound_recode st.trace target putbuf
      let st := st.log (.do_hook .SEND_CTCP_LIST
        (protocol ++ [' '] ++ target ++ [' '] ++ type ++ [' '] ++ pb))
      let putbuf2 := send_ctcp_putbuf2 len.toNat type (some pb)
      let st := st.log (.send_text target (force_delim len.toNat putbuf2) protocol)
      st.log .pop_message_from
    | none =>
      let st := st.log (.do_hook .SEND_CTCP_LIST (protocol ++ [' '] ++ target ++ [' '] ++ type))
      let putbuf2 := send_ctcp_putbuf2 len.toNat type none
      let st := st.log (.send_text target (force_delim len.toNat putbuf2) protocol)
      st.log .pop_message_from

/-! ## The built-in handlers

A handler receives `from`, `to`, `cmd` and `args` (here `sender`, `target`,
`cmd`, `args`) and yields the pointer it returns (`none` for NULL), the text
left in the `args` buffer, which some handlers write to, and the new state. -/

/-- What a handler call leaves behind: its return value, `args`, the state. -/
abbrev HandlerResult := Option CStr × CStr × State

/-- The type of `do_ctcp`, for the re-entry from `do_crypto`. -/
abbrev Decoder := Bool → CStr → CStr → CStr → State → Option (CStr × State)

/-- The peer `crypt_who` chosen on lines 198-203. -/
def crypt_who (env : Env) (sender target : CStr) (st : State) : CStr :=
  if sender.head? = some '=' then sender
  else if env.is_me st.trace target then sender
  else target

/-- The identity `tofrom` built on lines 205-206. -/
def tofrom (env : Env) (sender target : CStr) : CStr :=
  target ++ [','] ++ sender ++ ['!'] ++ env.FromUserHost

/-- The key lookup of lines 208-209: `tofrom` is asked for first, `crypt_who`
only when that finds nothing. -/
def crypto_key (env : Env) (sender target cmd : CStr) (st : State) : Option Crypt × State :=
  let who := crypt_who env sender target st
  match env.is_crypted st.trace (tofrom env sender target) cmd with
  | some key => (some key, st.log (.is_crypted (tofrom env sender target) cmd))
  | none =>
    let st := st.log (.is_crypted (tofrom env sender target) cmd)
    (env.is_crypted st.trace who cmd, st.log (.is_crypted who cmd))

/-- Lines 208-210: the key found, and what `decrypt_msg` returns with it
(`none` for a NULL `ret`, also when there is no key to call it with). -/
def crypto_decrypt (env : Env) (sender target cmd args : CStr) (st : State) :
    Option Crypt × Option CStr × State :=
  match crypto_key env sender target cmd st with
  | (some key, st) => (some key, env.decrypt_msg st.trace args key, st.log (.decrypt_msg args key))
  | (none, st) => (none, none, st)

/-- The handler `do_crypto` (lines 190-276). -/
def do_crypto (env : Env) (reenter : Decoder) (sender target cmd args : CStr) (st : State) :
    Option HandlerResult :=
  match crypto_decrypt env sender target cmd args st with
  | (some _, some ret, st) =>
    let nested : Option (CStr × State) :=
      if env.get_server_doing_privmsg st.trace then reenter true sender target ret st
      else if env.get_server_doing_notice st.trace then reenter false sender target ret st
      else some (ret, st)
    match nested with
    | none => none
    | some (ret, st) =>
      let ret := match env.inbound_recode st.trace sender target ret with
        | some extra => extra
        | none => ret
      some (some ret, args, st.set_sed 1)
  | (_, _, st) => some (some "[ENCRYPTED MESSAGE]".toList, args, st.set_sed 2)

/-- The handler `do_utc` (lines 282-288). -/
def do_utc (env : Env) (args : CStr) (st : State) : HandlerResult :=
  if args = [] then (some [], args, st)
  else (some (env.my_ctime (env.my_atol args)), args, st)

/-- The handler `do_atmosphere` (lines 296-333). -/
def do_atmosphere (env : Env) (sender target args : CStr) (st : State) : HandlerResult :=
  if args = [] then (none, args, st)
  else
    let ignore := env.check_ignore_channel st.trace sender env.FromUserHost target .LEVEL_ACTION
    let st := st.log (.check_ignore_channel sender env.FromUserHost target .LEVEL_ACTION)
    let chan := if env.is_channel st.trace target then some target else none
    let flood := env.new_check_flooding st.trace sender env.FromUserHost chan args .LEVEL_ACTION
    let st := st.log (.new_check_flooding sender env.FromUserHost chan args .LEVEL_ACTION)
    if ignore = env.IGNORED ∨ flood ≠ 0 then (none, args, st)
    else
      let text := sender ++ [' '] ++ target ++ [' '] ++ args
      if env.is_channel st.trace target then
        let st := st.log (.message_from target .LEVEL_ACTION)
        let hook := env.do_hook st.trace .ACTION_LIST text
        let st := st.log (.do_hook .ACTION_LIST text)
        let st :=
          if hook ≠ 0 then
            if env.is_current_channel st.trace target then
              st.log (.put_it ("* ".toList ++ sender ++ [' '] ++ args))
            else
              st.log (.put_it ("* ".toList ++ sender ++ [':'] ++ target ++ [' '] ++ args))
          else st
        (none, args, st.log .pop_message_from)
      else
        let st := st.log (.message_from sender .LEVEL_ACTION)
        let hook := env.do_hook st.trace .ACTION_LIST text
        let st := st.log (.do_hook .ACTION_LIST text)
        let st :=
          if hook ≠ 0 then st.log (.put_it ("*> ".toList ++ sender ++ [' '] ++ args))
          else st
        (none, args, st.log .pop_message_from)

/-- The handler `do_dcc` (lines 340-365).  The text left in `args` is what the
first `next_arg` leaves readable there. -/
def do_dcc (env : Env) (sender target args : CStr) (st : State) : HandlerResult :=
  if !env.is_me st.trace target && sender.head? ≠ some '=' then (none, args, st)
  else
    let (type, rest, seen) := env.next_arg args
    match type with
    | none => (none, seen, st)
    | some type =>
      let (description, rest) :=
        if env.dcc_dequote_filenames st.trace then
          ((env.new_next_arg rest).1, (env.new_next_arg rest).2.1)
        else ((env.next_arg rest).1, (env.next_arg rest).2.1)
      match description with
      | none => (none, seen, st)
      | some description =>
        match env.next_arg rest with
        | (none, _, _) => (none, seen, st)
        | (some inetaddr, rest, _) =>
          match env.next_arg rest with
          | (none, _, _) => (none, seen, st)
          | (some port, rest, _) =>
            let (size, rest, _) := env.next_arg rest
            let (extra_flags, rest, _) := env.next_arg rest
            (none, seen, st.log (.register_dcc_offer sender type description inetaddr port
              size extra_flags rest))

/-- The handler `do_clientinfo` (lines 377-407). -/
def do_clientinfo (env : Env) (bucket : Bucket) (sender cmd args : CStr) (st : State) :
    HandlerResult :=
  if args ≠ [] then
    match bucket.find? (fun item => env.my_stricmp args item.1 = 0) with
    | some item =>
      (none, args, send_ctcp env false sender "CLIENTINFO".toList
        (some (item.1 ++ [' '] ++ item.2.desc)) st)
    | none =>
      (none, args, send_ctcp env false sender "ERRMSG".toList
        (some ("CLIENTINFO".toList ++ ": ".toList ++ args ++ " is not a valid function".toList))
        st)
  else
    let buffer : CStr := bucket.foldl
      (fun buffer item =>
        strlcat (strlcat buffer item.1 (env.BIG_BUFFER_SIZE + 1)) [' '] (env.BIG_BUFFER_SIZE + 1))
      []
    (none, args, send_ctcp env false sender cmd
      (some (buffer ++ " :Use ".toList ++ cmd
        ++ " <COMMAND> to get more specific information".toList)) st)

/-- The text the format of `do_version` expands to (lines 431-437), in the
variant the preprocessor selects. -/
def version_text (env : Env) (tr : Trace) : CStr :=
  let comment := match env.client_information tr with
    | some tmp => tmp
    | none => env.IRCII_COMMENT
  if env.have_uname then
    let the_unix := match env.uname_sysname tr with
      | none => "unknown".toList
      | some sysname => sysname
    "ircII ".toList ++ env.irc_version ++ [' '] ++ the_unix ++ " - ".toList ++ comment
  else
    "ircII ".toList ++ env.irc_version ++ " *IX - ".toList ++ comment

/-- The handler `do_version` (lines 410-440). -/
def do_version (env : Env) (sender cmd args : CStr) (st : State) : HandlerResult :=
  (none, args, send_ctcp env false sender cmd (some (version_text env st.trace)) st)

/-- The handler `do_time` (lines 443-447). -/
def do_time (env : Env) (sender cmd args : CStr) (st : State) : HandlerResult :=
  (none, args, send_ctcp env false sender cmd (some (env.my_ctime (env.time st.trace))) st)

/-- The handler `do_userinfo` (lines 450-456). -/
def do_userinfo (env : Env) (sender cmd args : CStr) (st : State) : HandlerResult :=
  let text := match env.user_information st.trace with
    | some tmp => tmp
    | none => "<No User Information>".toList
  (none, args, send_ctcp env false sender cmd (some text) st)

/-- The handler `do_echo` (lines 462-467). -/
def do_echo (env : Env) (sender target cmd args : CStr) (st : State) : HandlerResult :=
  if !env.is_channel st.trace target then
    (none, args, send_ctcp env false sender cmd (some args) st)
  else (none, args, st)

/-- The handler `do_ping` (lines 469-473). -/
def do_ping (env : Env) (sender cmd args : CStr) (st : State) : HandlerResult :=
  (none, args, send_ctcp env false sender cmd (some args) st)

/-- The handler `do_finger` (lines 479-533). -/
def do_finger (env : Env) (sender cmd args : CStr) (st : State) : HandlerResult :=
  let my_host : CStr :=
    match env.get_server_userhost st.trace with
    | some userhost =>
      match cut_at '@' userhost with
      | some (_, host) => host
      | none => env.hostname
    | none => env.hostname
  let diff : Int := env.time st.trace - env.idle_time_sec st.trace
  match env.getpwuid st.trace with
  | none => (none, args, st)
  | some pwd =>
    let ircuser := if env.allow_user_specified_login then env.getenv st.trace "IRCUSER".toList
      else none
    let userbuff : CStr :=
      match ircuser with
      | some ctcpuser => strlcpy ctcpuser (env.NAME_LEN + 1)
      | none =>
        match pwd.pw_name with
        | some name => strlcpy name (env.NAME_LEN + 1)
        | none => strlcpy "epic-user".toList (env.NAME_LEN + 1)
    let ircfinger := if env.allow_user_specified_login then
        env.getenv st.trace "IRCFINGER".toList
      else none
    let gecosbuff : CStr :=
      match ircfinger with
      | some ctcpfinger => strlcpy ctcpfinger (env.NAME_LEN + 1)
      | none =>
        match pwd.pw_gecos with
        | some gecos => strlcpy gecos (env.NAME_LEN + 1)
        | none => strlcpy "Esteemed EPIC User".toList (env.NAME_LEN + 1)
    let gecosbuff : CStr :=
      match cut_at env.GECOS_DELIMITER gecosbuff with
      | some (before, _) => before
      | none => gecosbuff
    (none, args, send_ctcp env false sender cmd
      (some (gecosbuff ++ " (".toList ++ userbuff ++ ['@'] ++ my_host ++ ") Idle ".toList
        ++ fmt_ld diff ++ " second".toList ++ env.plural diff)) st)

/-- The handler `do_dcc_reply` (lines 540-557).  The text left in `args` is what
the first `next_arg` leaves readable there. -/
def do_dcc_reply (env : Env) (sender target args : CStr) (st : State) : HandlerResult :=
  if env.is_channel st.trace target then (none, args, st)
  else
    let (subargs, rest, seen) : Option CStr × CStr × CStr :=
      if args ≠ [] then env.next_arg args else (none, args, args)
    let (type, rest) : Option CStr × CStr :=
      if rest ≠ [] then ((env.next_arg rest).1, (env.next_arg rest).2.1) else (none, rest)
    match subargs, type with
    | some subargs, some type =>
      if subargs = "REJECT".toList then (none, seen, st.log (.dcc_reject sender type rest))
      else (none, seen, st)
    | _, _ => (none, seen, st)

/-- The handler `do_ping_reply` (lines 563-601). -/
def do_ping_reply (env : Env) (args : CStr) (st : State) : HandlerResult :=
  if args = [] then (none, args, st)
  else
    let orig := env.my_atol args
    let t := env.get_time st.trace
    if orig < env.start_time_sec ∨ orig > t.1 then
      (none, args, st.log (.say ("Invalid CTCP PING reply [".toList ++ args
        ++ "] dropped.".toList)))
    else
      let tsec := t.1 - orig
      let ptr : Option CStr :=
        match cut_at ' ' args with
        | some (_, ptr) => some ptr
        | none =>
          match cut_at '.' args with
          | some (_, ptr) => some ptr
          | none => none
      let tusec : Int :=
        match ptr with
        | some ptr => t.2 - env.my_atol ptr
        | none => 0
      (none, snprintf (env.IRCD_BUFFER_SIZE / 2) (env.fmt_f tsec tusec ++ " seconds".toList), st)

/-- The call `CTCP(i)->func(from, to, ctcp_command, ctcp_argument)` (lines 836
and 848), by the function the pointer holds.  Only `do_crypto` can run out of
fuel, through `reenter`. -/
def call_handler (env : Env) (bucket : Bucket) (reenter : Decoder) (h : CTCP_Handler)
    (sender target cmd args : CStr) (st : State) : Option HandlerResult :=
  match h with
  | .do_crypto => do_crypto env reenter sender target cmd args st
  | .do_utc => some (do_utc env args st)
  | .do_atmosphere => some (do_atmosphere env sender target args st)
  | .do_dcc => some (do_dcc env sender target args st)
  | .do_clientinfo => some (do_clientinfo env bucket sender cmd args st)
  | .do_version => some (do_version env sender cmd args st)
  | .do_time => some (do_time env sender cmd args st)
  | .do_userinfo => some (do_userinfo env sender cmd args st)
  | .do_echo => some (do_echo env sender target cmd args st)
  | .do_ping => some (do_ping env sender cmd args st)
  | .do_finger => some (do_finger env sender cmd args st)
  | .do_dcc_reply => some (do_dcc_reply env sender target args st)
  | .do_ping_reply => some (do_ping_reply env args st)

/-! ## The decoder `do_ctcp` (lines 669-910) -/

/-- The search of lines 805-815: the first item whose name is `ctcp_command`
(`strcmp`) and that has a function to call for the current mode. -/
def find_ctcp (bucket : Bucket) (request : Bool) (ctcp_command : CStr) :
    Option (CStr × CtcpEntry) :=
  bucket.find? fun item =>
    item.1 = ctcp_command &&
      (if request then item.2.func.isSome || item.2.user_func.isSome
       else item.2.repl.isSome || item.2.user_repl.isSome)

/-- Lines 750-754: the command, and the argument after the first space (empty
when there is no space). -/
def split_command (the_ctcp : CStr) : CStr × CStr :=
  match cut_at ' ' the_ctcp with
  | some (ctcp_command, ctcp_argument) => (ctcp_command, ctcp_argument)
  | none => (the_ctcp, [])

/-- The four-way call of lines 826-849 on the entry found, between the
`in_ctcp++` of line 823 and the `in_ctcp--` of line 850. -/
def call_entry (env : Env) (bucket : Bucket) (reenter : Decoder) (request : Bool)
    (entry : CtcpEntry) (sender target ctcp_command ctcp_argument : CStr) (st : State) :
    Option HandlerResult :=
  let st := st.in_ctcp_incr
  let lambda_args := sender ++ [' '] ++ target ++ [' '] ++ ctcp_command ++ [' '] ++ ctcp_argument
  let user := if request then entry.user_func else entry.user_repl
  let native := if request then entry.func else entry.repl
  let called : Option HandlerResult :=
    match user, native with
    | some code, _ =>
      some (env.call_lambda_function st.trace "CTCP".toList code lambda_args,
            ctcp_argument,
            st.log (.call_lambda_function "CTCP".toList code lambda_args))
    | none, some h =>
      call_handler env bucket reenter h sender target ctcp_command ctcp_argument
        (st.log (.handler h sender target ctcp_command ctcp_argument))
    | none, none => some (none, ctcp_argument, st)
  match called with
  | none => none
  | some (ptr, args, st) => some (ptr, args, st.in_ctcp_decr)

/-- The default handling of lines 867-898: the hook, and the line shown to the
user unless the hook returns zero. -/
def default_handling (env : Env) (request : Bool)
    (sender target ctcp_command ctcp_argument : CStr) (st : State) : State :=
  let st := st.in_ctcp_incr
  let text := sender ++ [' '] ++ target ++ [' '] ++ ctcp_command ++ [' '] ++ ctcp_argument
  let colon : CStr := if ctcp_argument ≠ [] then ": ".toList else []
  let st :=
    if request then
      let hook := env.do_hook st.trace .CTCP_LIST text
      let st := st.log (.do_hook .CTCP_LIST text)
      if hook ≠ 0 then
        if env.is_me st.trace target then
          st.log (.say ("CTCP ".toList ++ ctcp_command ++ " from ".toList ++ sender
            ++ colon ++ ctcp_argument))
        else
          st.log (.say ("CTCP ".toList ++ ctcp_command ++ " from ".toList ++ sender
            ++ " to ".toList ++ target ++ colon ++ ctcp_argument))
      else st
    else
      let hook := env.do_hook st.trace .CTCP_REPLY_LIST text
      let st := st.log (.do_hook .CTCP_REPLY_LIST text)
      if hook ≠ 0 then
        st.log (.say ("CTCP ".toList ++ ctcp_command ++ " reply from ".toList ++ sender
          ++ ": ".toList ++ ctcp_argument))
      else st
  st.in_ctcp_decr

/-- Lines 800-898 for one span, once the request hook has let it through: the
registry search, the handler call, and the default handling.  Yields the text
to splice in (`ptr`), the new value of `dont_process_more`, and the state.
`extra` is what `inbound_recode` stored for the argument. -/
def dispatch_span (env : Env) (bucket : Bucket) (reenter : Decoder) (request : Bool)
    (sender target ctcp_command original_ctcp_argument : CStr) (extra : Option CStr)
    (st : State) : Option (Option CStr × Bool × State) :=
  let ctcp_argument := extra.getD original_ctcp_argument
  match find_ctcp bucket request ctcp_command with
  | some (_, entry) =>
    let norecode : Bool := entry.flag &&& CTCP_NORECODE ≠ 0
    let passed := if norecode then original_ctcp_argument else ctcp_argument
    match call_entry env bucket reenter request entry sender target ctcp_command passed st with
    | none => none
    | some (some ptr, _, st) => some (some ptr, false, st)
    | some (none, args, st) =>
      if entry.flag &&& CTCP_SPECIAL ≠ 0 then some (none, false, st)
      else
        let shown := if extra.isSome && norecode then ctcp_argument else args
        some (none, true, default_handling env request sender target ctcp_command shown st)
  | none =>
    some (none, true, default_handling env request sender target ctcp_command ctcp_argument st)

/-- Lines 748-898 for one non-empty span met while `dont_process_more` is 0. -/
def process_span (env : Env) (bucket : Bucket) (reenter : Decoder) (request : Bool)
    (sender target the_ctcp : CStr) (st : State) : Option (Option CStr × Bool × State) :=
  let (ctcp_command, original_ctcp_argument) := split_command the_ctcp
  let extra := env.inbound_recode st.trace sender target original_ctcp_argument
  let ctcp_argument := extra.getD original_ctcp_argument
  if request then
    let st := st.in_ctcp_incr
    let text := sender ++ [' '] ++ target ++ [' '] ++ ctcp_command ++ [' '] ++ ctcp_argument
    let hook := env.do_hook st.trace .CTCP_REQUEST_LIST text
    let st := st.log (.do_hook .CTCP_REQUEST_LIST text)
    let st := st.in_ctcp_decr
    if hook = 0 then some (none, true, st)
    else dispatch_span env bucket reenter request sender target ctcp_command
      original_ctcp_argument extra st
  else dispatch_span env bucket reenter request sender target ctcp_command
    original_ctcp_argument extra st

/-- The loop of lines 733-899 on `local_ctcp_buffer`, with the current value of
`dont_process_more`.  One unit of fuel per call of `split_CTCP`. -/
def ctcp_loop (env : Env) (bucket : Bucket) (reenter : Decoder) (request : Bool)
    (sender target : CStr) : Nat → CStr → Bool → State → Option (CStr × State)
  | 0, _, _, _ => none
  | fuel + 1, local_ctcp_buffer, dont_process_more, st =>
    match split_CTCP env.IRCD_BUFFER_SIZE local_ctcp_buffer with
    | none => some (local_ctcp_buffer, st)
    | some (before, the_ctcp, after) =>
      if the_ctcp = [] ∨ dont_process_more = true then
        ctcp_loop env bucket reenter request sender target fuel
          (strlcat before after (env.BIG_BUFFER_SIZE + 1 - 2)) dont_process_more st
      else
        match process_span env bucket reenter request sender target the_ctcp st with
        | none => none
        | some (some ptr, dont_process_more, st) =>
          ctcp_loop env bucket reenter request sender target fuel
            (strlcat (strlcat before ptr (env.BIG_BUFFER_SIZE + 1)) after
              (env.BIG_BUFFER_SIZE + 1 - 2)) dont_process_more st
        | some (none, dont_process_more, st) =>
          ctcp_loop env bucket reenter request sender target fuel
            (strlcat before after (env.BIG_BUFFER_SIZE + 1 - 2)) dont_process_more st

/-- The value of `dont_process_more` when the loop is entered (lines 695-720),
given the number of delimiters and the two verdicts. -/
def gated (env : Env) (delim_char : Nat) (flag fflag : Int) (target : CStr) (tr : Trace) :
    Bool :=
  decide (delim_char > 8) || decide (flag = env.IGNORED) || decide (fflag = 1) ||
    (target.head? = some '$' || (target.head? = some '#' && !env.im_on_channel tr target))

/-- Lines 695-728, run once the text is known to hold two delimiters or more:
the two verdicts, the value `dont_process_more` has when the loop is entered,
and the window level. -/
def do_ctcp_entry (env : Env) (request : Bool) (sender target str : CStr) (st : State) :
    Bool × State :=
  let delim_char := charcount str CTCP_DELIM_CHAR
  let flag := env.check_ignore_channel st.trace sender env.FromUserHost target .LEVEL_CTCP
  let st := st.log (.check_ignore_channel sender env.FromUserHost target .LEVEL_CTCP)
  let chan := if env.is_channel st.trace target then some target else none
  let fflag : Int :=
    if request then env.new_check_flooding st.trace sender env.FromUserHost chan str .LEVEL_CTCP
    else 0
  let st :=
    if request then st.log (.new_check_flooding sender env.FromUserHost chan str .LEVEL_CTCP)
    else st
  let dont_process_more := gated env delim_char flag fflag target st.trace
  let st :=
    if env.im_on_channel st.trace target then st.log (.message_from target .LEVEL_CTCP)
    else st.log (.message_from sender .LEVEL_CTCP)
  (dont_process_more, st)

/-- The body of `do_ctcp` (lines 669-910), with the decoder `do_crypto` re-enters. -/
def do_ctcp_body (env : Env) (bucket : Bucket) (reenter : Decoder) (fuel : Nat)
    (request : Bool) (sender target str : CStr) (st : State) : Option (CStr × State) :=
  if charcount str CTCP_DELIM_CHAR < 2 then some (str, st)
  else
    match ctcp_loop env bucket reenter request sender target fuel
        (strlcpy str (env.BIG_BUFFER_SIZE + 1 - 2))
        (do_ctcp_entry env request sender target str st).1
        (do_ctcp_entry env request sender target str st).2 with
    | none => none
    | some (local_ctcp_buffer, st) =>
      some (strlcpy local_ctcp_buffer env.BIG_BUFFER_SIZE, st.log .pop_message_from)

/-- The function `do_ctcp` (lines 669-910).  The fuel bounds the calls of `split_CTCP` in
this activation, and the activations `do_crypto` can nest inside it. -/
def do_ctcp (env : Env) (bucket : Bucket) : Nat → Decoder
  | 0 => do_ctcp_body env bucket (fun _ _ _ _ _ => none) 0
  | fuel + 1 => do_ctcp_body env bucket (do_ctcp env bucket fuel) (fuel + 1)

/-! ## Conditions and concrete values used in the statements below -/

/-- Every collaborator that can supply inline text (a scripted handler,
`my_ctime` for `do_utc`, `decrypt_msg` and `inbound_recode` for `do_crypto`)
supplies text with at most one delimiter byte. -/
def inline_bounded (env : Env) : Prop :=
  (∀ tr name code args t, env.call_lambda_function tr name code args = some t →
    charcount t CTCP_DELIM_CHAR ≤ 1) ∧
  (∀ n, charcount (env.my_ctime n) CTCP_DELIM_CHAR ≤ 1) ∧
  (∀ tr args key t, env.decrypt_msg tr args key = some t → charcount t CTCP_DELIM_CHAR ≤ 1) ∧
  (∀ tr sender target text t, env.inbound_recode tr sender target text = some t →
    charcount t CTCP_DELIM_CHAR ≤ 1)

/-- A decoder that hands back, untouched, any text with fewer than two delimiters. -/
def returns_plain (reenter : Decoder) : Prop :=
  ∀ request sender target str st, charcount str CTCP_DELIM_CHAR < 2 →
    reenter request sender target str st = some (str, st)

/-- The sender is not ignored at the CTCP level. -/
def not_ignored (env : Env) (sender target : CStr) : Prop :=
  ∀ tr, env.check_ignore_channel tr sender env.FromUserHost target .LEVEL_CTCP ≠ env.IGNORED

/-- The flood predicate does not report a flood at the CTCP level. -/
def not_flooding (env : Env) (sender : CStr) : Prop :=
  ∀ tr chan text, env.new_check_flooding tr sender env.FromUserHost chan text .LEVEL_CTCP ≠ 1

/-- The target passes line 719: it does not begin with `$`, and if it begins
with `#` the client is on that channel. -/
def target_open (env : Env) (target : CStr) : Prop :=
  target.head? ≠ some '$' ∧ (target.head? = some '#' → ∀ tr, env.im_on_channel tr target = true)

/-- The hook on `CTCP_REQUEST_LIST` never takes a span over. -/
def request_hook_passes (env : Env) : Prop :=
  ∀ tr text, env.do_hook tr .CTCP_REQUEST_LIST text ≠ 0

/-- The text fits the protocol buffer, so that no `strlcpy` or `strlcat` of
`do_ctcp` and `split_CTCP` cuts it. -/
def fits (env : Env) (str : CStr) : Prop :=
  str.length + 2 ≤ env.IRCD_BUFFER_SIZE ∧ env.IRCD_BUFFER_SIZE ≤ env.BIG_BUFFER_SIZE

/-- Whether the event is an entry of `send_ctcp`. -/
def Event.is_send_ctcp : Event → Bool
  | .send_ctcp _ _ _ _ => true
  | _ => false

/-- Whether the event is a call of `send_text`. -/
def Event.is_send_text : Event → Bool
  | .send_text _ _ _ => true
  | _ => false

/-- Whether the event is an offer to a hook list. -/
def Event.is_do_hook : Event → Bool
  | .do_hook _ _ => true
  | _ => false

/-- Whether the event is a line shown with `say`. -/
def Event.is_say : Event → Bool
  | .say _ => true
  | _ => false

/-- Whether the event is the entry of a registry handler, native or scripted. -/
def Event.is_handler : Event → Bool
  | .handler _ _ _ _ _ => true
  | .call_lambda_function _ _ _ => true
  | _ => false

/-- The text `send_ctcp` hands to `send_text` (lines 984-1001) for a buffer of
`len` bytes, given the recoded argument `pb`, or `none` for a NULL format. -/
def send_ctcp_wire (len : Nat) (type : CStr) (pb : Option CStr) : CStr :=
  force_delim len (send_ctcp_putbuf2 len type pb)

/-- The name `protocol` chosen on lines 951-954. -/
def send_ctcp_protocol (request : Bool) : CStr :=
  if request then "PRIVMSG".toList else "NOTICE".toList

/-- The argument as `send_ctcp` recodes it (lines 970 and 980), `none` for a
NULL format.  `tr` is the trace when `send_ctcp` is entered. -/
def send_ctcp_pb (env : Env) (request : Bool) (target type : CStr) (format : Option CStr)
    (tr : Trace) : Option CStr :=
  match format with
  | some text =>
    some (env.outbound_recode
      (tr ++ [.send_ctcp request target type format, .message_from target .LEVEL_CTCP])
      target (snprintf env.BIG_BUFFER_SIZE text))
  | none => none

/-- The events one call of `send_ctcp` appends to the trace `tr`. -/
def send_ctcp_events (env : Env) (request : Bool) (target type : CStr) (format : Option CStr)
    (tr : Trace) : List Event :=
  if send_ctcp_len env target ≤ 0 then [.send_ctcp request target type format]
  else
    [.send_ctcp request target type format,
     .message_from target .LEVEL_CTCP,
     .do_hook .SEND_CTCP_LIST
       (match send_ctcp_pb env request target type format tr with
        | some pb => send_ctcp_protocol request ++ [' '] ++ target ++ [' '] ++ type ++ [' '] ++ pb
        | none => send_ctcp_protocol request ++ [' '] ++ target ++ [' '] ++ type),
     .send_text target
       (send_ctcp_wire (send_ctcp_len env target).toNat type
         (send_ctcp_pb env request target type format tr))
       (send_ctcp_protocol request),
     .pop_message_from]

/-- The events the default handling of one span appends to the trace `tr`:
the offer to the hook and, unless the hook returns zero, the line shown. -/
def default_events (env : Env) (request : Bool)
    (sender target ctcp_command ctcp_argument : CStr) (tr : Trace) : List Event :=
  let text := sender ++ [' '] ++ target ++ [' '] ++ ctcp_command ++ [' '] ++ ctcp_argument
  let colon : CStr := if ctcp_argument ≠ [] then ": ".toList else []
  if request then
    if env.do_hook tr .CTCP_LIST text ≠ 0 then
      if env.is_me (tr ++ [.do_hook .CTCP_LIST text]) target then
        [.do_hook .CTCP_LIST text,
         .say ("CTCP ".toList ++ ctcp_command ++ " from ".toList ++ sender
            ++ colon ++ ctcp_argument)]
      else
        [.do_hook .CTCP_LIST text,
         .say ("CTCP ".toList ++ ctcp_command ++ " from ".toList ++ sender
            ++ " to ".toList ++ target ++ colon ++ ctcp_argument)]
    else [.do_hook .CTCP_LIST text]
  else
    if env.do_hook tr .CTCP_REPLY_LIST text ≠ 0 then
      [.do_hook .CTCP_REPLY_LIST text,
       .say ("CTCP ".toList ++ ctcp_command ++ " reply from ".toList ++ sender
          ++ ": ".toList ++ ctcp_argument)]
    else [.do_hook .CTCP_REPLY_LIST text]

/-- The events lines 706-728 append to the trace `tr`: the ignore predicate,
in request mode the flood predicate, and the window level. -/
def entry_events (env : Env) (request : Bool) (sender target str : CStr) (tr : Trace) :
    List Event :=
  let e1 := Event.check_ignore_channel sender env.FromUserHost target .LEVEL_CTCP
  let chan := if env.is_channel (tr ++ [e1]) target then some target else none
  let e2 := Event.new_check_flooding sender env.FromUserHost chan str .LEVEL_CTCP
  let pre := if request then [e1, e2] else [e1]
  pre ++ [if env.im_on_channel (tr ++ pre) target then Event.message_from target .LEVEL_CTCP
          else Event.message_from sender .LEVEL_CTCP]

/-- The text with each pair of delimiters, taken from left to right, removed
together with what lies between them; `fuel` bounds the number of pairs. -/
def strip_spans_aux : Nat → CStr → CStr
  | 0, s => s
  | fuel + 1, s =>
    match cut_at CTCP_DELIM_CHAR s with
    | none => s
    | some (before, rest) =>
      match cut_at CTCP_DELIM_CHAR rest with
      | none => s
      | some (_, after) => before ++ strip_spans_aux fuel after

/-- The text with every left-to-right paired delimiter span removed. -/
def strip_spans (s : CStr) : CStr := strip_spans_aux s.length s

/-- A concrete environment: the buffer sizes 512 and 2048, nobody ignored, no
flood, the client is `me` and on every channel, hooks that take nothing over,
no recoding, no scripted handler, an empty key store. -/
def sample_env : Env where
  IRCD_BUFFER_SIZE := 512
  BIG_BUFFER_SIZE := 2048
  NAME_LEN := 10
  IGNORED := 1
  FromUserHost := "u@h".toList
  check_ignore_channel := fun _ _ _ _ _ => 0
  new_check_flooding := fun _ _ _ _ _ _ => 0
  is_channel := fun _ t => t.head? = some '#'
  im_on_channel := fun _ _ => true
  is_me := fun _ t => t = "me".toList
  is_current_channel := fun _ _ => false
  do_hook := fun _ _ _ => 1
  inbound_recode := fun _ _ _ _ => none
  outbound_recode := fun _ _ t => t
  call_lambda_function := fun _ _ _ _ => none
  is_crypted := fun _ _ _ => none
  decrypt_msg := fun _ _ _ => none
  get_server_doing_privmsg := fun _ => true
  get_server_doing_notice := fun _ => false
  my_atol := fun _ => 0
  my_ctime := fun _ => "Thu".toList
  time := fun _ => 100
  get_time := fun _ => (100, 0)
  start_time_sec := 50
  idle_time_sec := fun _ => 90
  fmt_f := fun _ _ => "1.0".toList
  next_arg := fun s => (none, s, s)
  new_next_arg := fun s => (none, s, s)
  dcc_dequote_filenames := fun _ => false
  my_stricmp := fun a b => if a = b then 0 else 1
  have_uname := false
  uname_sysname := fun _ => none
  irc_version := "EPIC5".toList
  IRCII_COMMENT := "c".toList
  client_information := fun _ => none
  user_information := fun _ => none
  get_server_userhost := fun _ => none
  hostname := "host".toList
  getpwuid := fun _ => none
  allow_user_specified_login := false
  getenv := fun _ _ => none
  GECOS_DELIMITER := ','
  plural := fun n => if n = 1 then [] else ['s']

/-- A fresh state: empty trace, `sed` and `in_ctcp` zero. -/
def sample_state : State := ⟨[], 0, 0⟩

/-- The concrete environment with a script on `CTCP_LIST` that takes every
span over: `do_hook` returns zero for that list. -/
def silent_env : Env :=
  { sample_env with do_hook := fun _ list _ => if list = .CTCP_LIST then 0 else 1 }

/-- The hook list the default handling offers a span to (lines 873 and 890). -/
def seen_list (request : Bool) : HookList :=
  if request then .CTCP_LIST else .CTCP_REPLY_LIST

/-- The offer to the request hook (line 785), made in request mode only. -/
def request_offer (request : Bool) (sender target ctcp_command ctcp_argument : CStr) :
    List Event :=
  if request then
    [.do_hook .CTCP_REQUEST_LIST
      (sender ++ [' '] ++ target ++ [' '] ++ ctcp_command ++ [' '] ++ ctcp_argument)]
  else []

/-- The framed message `send_ctcp` formats into `putbuf2` (lines 984 and 993):
delimiter, verb, then a space and the argument when there is one, delimiter. -/
def ctcp_frame (type : CStr) (pb : Option CStr) : CStr :=
  match pb with
  | some pb => [CTCP_DELIM_CHAR] ++ type ++ [' '] ++ pb ++ [CTCP_DELIM_CHAR]
  | none => [CTCP_DELIM_CHAR] ++ type ++ [CTCP_DELIM_CHAR]

/-- The indices of the two stores of lines 998-999 into the `len`-byte buffer. -/
def forced_store_indices (len : Int) : Int × Int := (len - 2, len - 1)

/-- Whether an index lies inside a buffer of `len` bytes. -/
def in_buffer (len : Int) (i : Int) : Prop := 0 ≤ i ∧ i < len

/-- Whether the event is a call into the key store or the cipher. -/
def Event.is_key_store : Event → Bool
  | .is_crypted _ _ => true
  | .decrypt_msg _ _ => true
  | _ => false

/-- The concrete environment with two keys in the store: key 1 for the
identity `me,bob!u@h` and key 2 for the identity `bob`. -/
def two_key_env : Env :=
  { sample_env with
    is_crypted := fun _ who _ =>
      if who = "me,bob!u@h".toList then some 1
      else if who = "bob".toList then some 2
      else none }

/-- The concrete environment with one key in the store, key 2 for the identity `bob`. -/
def peer_key_env : Env :=
  { sample_env with
    is_crypted := fun _ who _ => if who = "bob".toList then some 2 else none }

/-- The value of the decimal digits a text begins with, zero when there are none. -/
def leading_digits (s : CStr) : Nat :=
  (s.takeWhile Char.isDigit).foldl (fun n c => 10 * n + (c.toNat - '0'.toNat)) 0

/-- The concrete environment with a `my_atol` that reads leading decimal
digits, started at second 50, at second 100 now, and with the `%f` rendering
of a whole number of seconds. -/
def ping_env : Env :=
  { sample_env with
    my_atol := fun s => (leading_digits s : Int)
    fmt_f := fun tsec _ => fmt_ld tsec ++ ".000000".toList }

/-- The names of the bucket in insertion order, each followed by one space. -/
def verb_list : Bucket → CStr
  | [] => []
  | item :: rest => item.1 ++ [' '] ++ verb_list rest

/-- The concrete environment with a `my_stricmp` that compares two texts
without regard to the case of their letters. -/
def caseless_env : Env :=
  { sample_env with
    my_stricmp := fun a b => if a.map Char.toUpper = b.map Char.toUpper then 0 else 1 }

/-- The concrete environment in which the flood predicate reports a flood at
the CTCP level and none at the level of actions. -/
def flood_env : Env :=
  { sample_env with
    new_check_flooding := fun _ _ _ _ _ level => if level = .LEVEL_CTCP then 1 else 0 }

/-- Whether the event is an offer to the hook on `CTCP_REQUEST_LIST`. -/
def Event.is_request_offer : Event → Bool
  | .do_hook .CTCP_REQUEST_LIST _ => true
  | _ => false

/-- A decoder that, run in reply mode, adds to the trace no event that `p` marks. -/
def reply_quiet (p : Event → Bool) (reenter : Decoder) : Prop :=
  ∀ sender target str st out st', reenter false sender target str st = some (out, st') →
    st'.trace.filter p = st.trace.filter p

/-- The text `do_ctcp` offers to the hooks for the span `the_ctcp` met at the
trace `tr` (lines 750-772): sender, target, command and recoded argument. -/
def offer_text (env : Env) (sender target the_ctcp : CStr) (tr : Trace) : CStr :=
  sender ++ [' '] ++ target ++ [' '] ++ (split_command the_ctcp).1 ++ [' '] ++
    (env.inbound_recode tr sender target (split_command the_ctcp).2).getD
      (split_command the_ctcp).2

/-- The concrete environment with a script on `CTCP_REQUEST_LIST` that takes
every span over: `do_hook` returns zero for that list. -/
def claim_env : Env :=
  { sample_env with do_hook := fun _ list _ => if list = .CTCP_REQUEST_LIST then 0 else 1 }

/-- The concrete environment while the server handles a NOTICE. -/
def notice_env : Env :=
  { sample_env with
    get_server_doing_privmsg := fun _ => false
    get_server_doing_notice := fun _ => true }

/-- Whether the event is one a registry handler, or the call of a scripted
handler, logs without re-entering the decoder. -/
def Event.by_handler : Event → Bool
  | .handler _ _ _ _ _ => true
  | .call_lambda_function _ _ _ => true
  | .send_ctcp _ _ _ _ => true
  | .message_from _ _ => true
  | .pop_message_from => true
  | .do_hook .SEND_CTCP_LIST _ => true
  | .do_hook .ACTION_LIST _ => true
  | .send_text _ _ _ => true
  | .check_ignore_channel _ _ _ .LEVEL_ACTION => true
  | .new_check_flooding _ _ _ _ .LEVEL_ACTION => true
  | .put_it _ => true
  | .say _ => true
  | .register_dcc_offer _ _ _ _ _ _ _ _ => true
  | .dcc_reject _ _ _ => true
  | .is_crypted _ _ => true
  | .decrypt_msg _ _ => true
  | _ => false

/-- Whether the event is a call of the flood predicate at the CTCP level. -/
def Event.is_ctcp_flood : Event → Bool
  | .new_check_flooding _ _ _ _ .LEVEL_CTCP => true
  | _ => false

/-- A decoder that adds to the trace no event that `p` marks, in the calls
`do_crypto` can make of it: only when the key store holds a key, and in
request mode only while the server handles a PRIVMSG. -/
def crypto_quiet (env : Env) (p : Event → Bool) (reenter : Decoder) : Prop :=
  ∀ request sender target str st out st',
    (∃ tr who cmd key, env.is_crypted tr who cmd = some key) →
    (request = true → env.get_server_doing_privmsg st.trace = true) →
    reenter request sender target str st = some (out, st') →
    st'.trace.filter p = st.trace.filter p

/-- The event of the call of the ignore predicate on line 706. -/
def ignore_event (env : Env) (sender target : CStr) : Event :=
  .check_ignore_channel sender env.FromUserHost target .LEVEL_CTCP

/-- The event of the call of the flood predicate on lines 708-710, for a call
of `do_ctcp` entered at the trace `tr`. -/
def flood_event (env : Env) (sender target str : CStr) (tr : Trace) : Event :=
  .new_check_flooding sender env.FromUserHost
    (if env.is_channel (tr ++ [ignore_event env sender target]) target then some target
     else none)
    str .LEVEL_CTCP

/-- The verdict of the ignore predicate on line 706, for a call of `do_ctcp`
entered at the trace `tr`. -/
def ignore_verdict (env : Env) (sender target : CStr) (tr : Trace) : Int :=
  env.check_ignore_channel tr sender env.FromUserHost target .LEVEL_CTCP

/-- The verdict of the flood predicate on lines 708-710, for a request-mode
call of `do_ctcp` entered at the trace `tr`. -/
def flood_verdict (env : Env) (sender target str : CStr) (tr : Trace) : Int :=
  env.new_check_flooding (tr ++ [ignore_event env sender target]) sender env.FromUserHost
    (if env.is_channel (tr ++ [ignore_event env sender target]) target then some target
     else none)
    str .LEVEL_CTCP

/-- The events of the two verdicts (lines 706-712): the ignore predicate and,
in request mode, the flood predicate. -/
def verdict_events (env : Env) (request : Bool) (sender target str : CStr) (tr : Trace) :
    List Event :=
  if request then [ignore_event env sender target, flood_event env sender target str tr]
  else [ignore_event env sender target]

/-- The concrete environment in which everybody is ignored. -/
def ignoring_env : Env :=
  { sample_env with check_ignore_channel := fun _ _ _ _ _ => 1 }

/-- The concrete environment in which the client is on no channel. -/
def off_channel_env : Env :=
  { sample_env with im_on_channel := fun _ _ => false }

/-- The concrete environment with a protocol buffer of 15 bytes, which leaves
`send_ctcp` no room for a target of three bytes. -/
def small_buffer_env : Env :=
  { sample_env with IRCD_BUFFER_SIZE := 15 }

/-- The function `split_CTCP` (lines 630-649) with its three buffers and its
return value: the return value, then what is left in `raw_message`, in
`ctcp_dest` and in `after_ctcp`.  Line 635 empties the two destination buffers
before anything is looked for; `raw_message` is written to only after both
delimiters are found. -/
def split_CTCP_buffers (IRCD_BUFFER_SIZE : Nat) (raw_message _ctcp_dest _after_ctcp : CStr) :
    Int × CStr × CStr × CStr :=
  match cut_at CTCP_DELIM_CHAR raw_message with
  | none => (-1, raw_message, [], [])
  | some (before, ctcp_start) =>
    match cut_at CTCP_DELIM_CHAR ctcp_start with
    | none => (-1, raw_message, [], [])
    | some (body, ctcp_end) =>
      (0, before, strlcpy body (IRCD_BUFFER_SIZE - 1), strlcpy ctcp_end (IRCD_BUFFER_SIZE - 1))

/-- The end of `do_ctcp` (lines 906-908) applied to what the loop leaves: the
window level is released and the text copied back with
`strlcpy(str, local_ctcp_buffer, BIG_BUFFER_SIZE)`. -/
def do_ctcp_finish (env : Env) (r : Option (CStr × State)) : Option (CStr × State) :=
  match r with
  | none => none
  | some (local_ctcp_buffer, st) =>
    some (strlcpy local_ctcp_buffer env.BIG_BUFFER_SIZE, st.log .pop_message_from)

/-- The argument of the span `the_ctcp` after `inbound_recode` (lines 756-772),
for a span met at the trace `tr`. -/
def span_argument (env : Env) (sender target the_ctcp : CStr) (tr : Trace) : CStr :=
  (env.inbound_recode tr sender target (split_command the_ctcp).2).getD
    (split_command the_ctcp).2

/-- The state in which the registry is searched for the span `the_ctcp` met in
the state `st`: in request mode the offer to the request hook (line 785) has
been made. -/
def searched_state (env : Env) (request : Bool) (sender target the_ctcp : CStr) (st : State) :
    State :=
  if request then
    st.log (.do_hook .CTCP_REQUEST_LIST (offer_text env sender target the_ctcp st.trace))
  else st

/-- The argument the handler of `entry` is called with (lines 820-821): the
argument as received when the entry carries `CTCP_NORECODE`, the recoded
argument otherwise. -/
def handler_argument (env : Env) (entry : CtcpEntry) (sender target the_ctcp : CStr)
    (tr : Trace) : CStr :=
  if entry.flag &&& CTCP_NORECODE ≠ 0 then (split_command the_ctcp).2
  else span_argument env sender target the_ctcp tr

/-- The argument the default handling shows after a handler that returned NULL
(lines 868-869): the recoded argument when there is one the handler did not
get, else what the handler left in its argument. -/
def shown_argument (env : Env) (entry : CtcpEntry) (sender target the_ctcp : CStr)
    (tr : Trace) (args : CStr) : CStr :=
  if (env.inbound_recode tr sender target (split_command the_ctcp).2).isSome
      && decide (entry.flag &&& CTCP_NORECODE ≠ 0) then
    span_argument env sender target the_ctcp tr
  else args

/-- Whether the event is an offer to the CTCP-seen hook of either mode. -/
def Event.is_seen_offer : Event → Bool
  | .do_hook .CTCP_LIST _ => true
  | .do_hook .CTCP_REPLY_LIST _ => true
  | _ => false

/-- The entry `init_ctcp` registers for UTC. -/
def utc_entry : CtcpEntry :=
  { flag := CTCP_INLINE ||| CTCP_NOLIMIT, desc := "substitutes the local timezone".toList,
    func := some .do_utc, repl := some .do_utc, user_func := none, user_repl := none }

/-- The state `do_utc` leaves in `sample_env` when the request `UTC 1` from
`bob` to `me` is the first span of the message `str`, decoded from
`sample_state`. -/
def utc_state (str : CStr) : State :=
  { trace :=
      [.check_ignore_channel "bob".toList "u@h".toList "me".toList .LEVEL_CTCP,
       .new_check_flooding "bob".toList "u@h".toList none str .LEVEL_CTCP,
       .message_from "me".toList .LEVEL_CTCP,
       .do_hook .CTCP_REQUEST_LIST "bob me UTC 1".toList,
       .handler .do_utc "bob".toList "me".toList "UTC".toList "1".toList],
    sed := 0, in_ctcp := 0 }

/-- The verbs `init_ctcp` registers with `CTCP_REPLY | CTCP_TELLUSER`. -/
def reply_verbs : List CStr :=
  ["VERSION".toList, "PING".toList, "ECHO".toList, "CLIENTINFO".toList, "USERINFO".toList,
   "ERRMSG".toList, "FINGER".toList, "TIME".toList]

/-- The request handlers of the verbs of `reply_verbs`: each of them returns
NULL after at most one call of `send_ctcp`. -/
def CTCP_Handler.is_reply_handler : CTCP_Handler → Bool
  | .do_version => true
  | .do_ping => true
  | .do_echo => true
  | .do_clientinfo => true
  | .do_userinfo => true
  | .do_finger => true
  | .do_time => true
  | _ => false

/-- The entry `init_ctcp` registers for VERSION. -/
def version_entry : CtcpEntry :=
  { flag := CTCP_REPLY ||| CTCP_TELLUSER,
    desc := "shows client type, version and environment".toList,
    func := some .do_version, repl := none, user_func := none, user_repl := none }

/-- The state the call of the VERSION entry leaves in `sample_env` for the
request `VERSION` from `bob` to `me` met in `sample_state`: the offer to the
request hook, the entry of `do_version`, and its one reply. -/
def version_state : State :=
  { trace :=
      [.do_hook .CTCP_REQUEST_LIST "bob me VERSION ".toList,
       .handler .do_version "bob".toList "me".toList "VERSION".toList [],
       .send_ctcp false "bob".toList "VERSION".toList (some "ircII EPIC5 *IX - c".toList),
       .message_from "bob".toList .LEVEL_CTCP,
       .do_hook .SEND_CTCP_LIST "NOTICE bob VERSION ircII EPIC5 *IX - c".toList,
       .send_text "bob".toList "\x01VERSION ircII EPIC5 *IX - c\x01".toList "NOTICE".toList,
       .pop_message_from],
    sed := 0, in_ctcp := 0 }

/-- A message of ACTION spans: each item gives the plain text before a span
and the argument of the span; `rest` is the plain text after the last span. -/
def action_message : List (CStr × CStr) → CStr → CStr
  | [], rest => rest
  | (before, arg) :: spans, rest =>
    before ++ CTCP_DELIM_CHAR ::
      ("ACTION ".toList ++ arg ++ CTCP_DELIM_CHAR :: action_message spans rest)

/-- The plain text of a message of ACTION spans: the message with its spans removed. -/
def action_plain : List (CStr × CStr) → CStr → CStr
  | [], rest => rest
  | (before, _) :: spans, rest => before ++ action_plain spans rest

/-- The event is the entry of `do_atmosphere` for the ACTION span with the
argument `span.2`, as recoded at some point of the run. -/
def is_action_call (env : Env) (sender target : CStr) (e : Event) (span : CStr × CStr) :
    Prop :=
  ∃ tr, e = .handler .do_atmosphere sender target "ACTION".toList
    ((env.inbound_recode tr sender target span.2).getD span.2)

/-- The entry `init_ctcp` registers for ACTION. -/
def action_entry : CtcpEntry :=
  { flag := CTCP_SPECIAL ||| CTCP_NOLIMIT,
    desc := "contains action descriptions for atmosphere".toList,
    func := some .do_atmosphere, repl := some .do_atmosphere,
    user_func := none, user_repl := none }

/-- One turn of the loop of lines 733-899, increment of line 733 included:
`some none` when `split_CTCP` fails and the loop is left, otherwise the
buffer, the value of `dont_process_more` and the state the next turn starts
from; `none` when a nested decoder runs out of fuel. -/
def ctcp_turn (env : Env) (bucket : Bucket) (reenter : Decoder) (request : Bool)
    (sender target : CStr) (local_ctcp_buffer : CStr) (dont_process_more : Bool) (st : State) :
    Option (Option (CStr × Bool × State)) :=
  match split_CTCP env.IRCD_BUFFER_SIZE local_ctcp_buffer with
  | none => some none
  | some (before, the_ctcp, after) =>
    if the_ctcp = [] ∨ dont_process_more = true then
      some (some (strlcat before after (env.BIG_BUFFER_SIZE + 1 - 2), dont_process_more, st))
    else
      match process_span env bucket reenter request sender target the_ctcp st with
      | none => none
      | some (some ptr, dont_process_more, st) =>
        some (some (strlcat (strlcat before ptr (env.BIG_BUFFER_SIZE + 1)) after
          (env.BIG_BUFFER_SIZE + 1 - 2), dont_process_more, st))
      | some (none, dont_process_more, st) =>
        some (some (strlcat before after (env.BIG_BUFFER_SIZE + 1 - 2), dont_process_more, st))

/-- The number of turns of the loop in which `split_CTCP` finds a span, when
the loop is given fuel for `fuel` calls of `split_CTCP`. -/
def ctcp_loop_turns (env : Env) (bucket : Bucket) (reenter : Decoder) (request : Bool)
    (sender target : CStr) : Nat → CStr → Bool → State → Option Nat
  | 0, _, _, _ => none
  | fuel + 1, local_ctcp_buffer, dont_process_more, st =>
    match ctcp_turn env bucket reenter request sender target local_ctcp_buffer
        dont_process_more st with
    | none => none
    | some none => some 0
    | some (some (buffer, dpm, st)) =>
      (ctcp_loop_turns env bucket reenter request sender target fuel buffer dpm st).map
        (fun n => n + 1)

/-- The verbs `init_ctcp` registers without a function for reply mode. -/
def request_only_verbs : List CStr :=
  ["VERSION".toList, "ECHO".toList, "CLIENTINFO".toList, "USERINFO".toList,
   "ERRMSG".toList, "FINGER".toList, "TIME".toList]

/-- The bodies of the delimiter spans of a text, the delimiters being paired
from left to right; `fuel` bounds the number of pairs. -/
def span_bodies_aux : Nat → CStr → List CStr
  | 0, _ => []
  | fuel + 1, s =>
    match cut_at CTCP_DELIM_CHAR s with
    | none => []
    | some (_, rest) =>
      match cut_at CTCP_DELIM_CHAR rest with
      | none => []
      | some (body, after) => body :: span_bodies_aux fuel after

/-- The bodies of the left-to-right paired delimiter spans of a text. -/
def span_bodies (s : CStr) : List CStr := span_bodies_aux s.length s

/-- Nothing is spliced inline: whatever the state, lines 748-898 run on a
non-empty span of `str` return, and hand no text back to the loop. -/
def no_inline_text (env : Env) (bucket : Bucket) (reenter : Decoder) (request : Bool)
    (sender target str : CStr) : Prop :=
  ∀ b ∈ span_bodies str, b ≠ [] → ∀ st : State, ∃ dpm st',
    process_span env bucket reenter request sender target b st = some (none, dpm, st')

/-- The handlers of ctcp.c that return NULL on every path. -/
def CTCP_Handler.is_plain : CTCP_Handler → Bool
  | .do_crypto => false
  | .do_utc => false
  | _ => true

/-- The verb has no function for the mode, or a native one that returns NULL
on every path. -/
def plain_verb (bucket : Bucket) (request : Bool) (cmd : CStr) : Bool :=
  match find_ctcp bucket request cmd with
  | none => true
  | some (_, entry) =>
    (if request then entry.user_func else entry.user_repl).isNone &&
      match (if request then entry.func else entry.repl) with
      | none => true
      | some h => h.is_plain

/-- The premise on the handlers of a registry: every function the registry
holds for the mode, called for `sender` and `target` with whatever command,
argument and state, returns, and the inline text it returns, if any, holds at
most one delimiter byte. -/
def handlers_bounded (env : Env) (bucket : Bucket) (reenter : Decoder) (request : Bool)
    (sender target : CStr) : Prop :=
  ∀ (name : CStr) (entry : CtcpEntry) (cmd arg : CStr) (st : State),
    find_ctcp bucket request cmd = some (name, entry) →
    ∃ ptr args st',
      call_entry env bucket reenter request entry sender target cmd arg st
        = some (ptr, args, st') ∧
      ∀ t, ptr = some t → charcount t CTCP_DELIM_CHAR ≤ 1

/-- An environment in which `do_crypto` may hand the nested decoder plaintext
with any number of delimiters: scripted handlers and `my_ctime` supply at most
one delimiter, the nested call of lines 240-243 returns on every plaintext
`decrypt_msg` can produce and leaves at most one delimiter, and
`inbound_recode` adds no delimiter to a text that holds at most one. -/
def decoded_bounded (env : Env) (reenter : Decoder) : Prop :=
  (∀ tr name code args t, env.call_lambda_function tr name code args = some t →
    charcount t CTCP_DELIM_CHAR ≤ 1) ∧
  (∀ n, charcount (env.my_ctime n) CTCP_DELIM_CHAR ≤ 1) ∧
  (∀ tr args key ret, env.decrypt_msg tr args key = some ret →
    ∀ (sender target : CStr) (st : State), ∃ out st',
      (if env.get_server_doing_privmsg st.trace then reenter true sender target ret st
       else if env.get_server_doing_notice st.trace then reenter false sender target ret st
       else some (ret, st)) = some (out, st') ∧
      charcount out CTCP_DELIM_CHAR ≤ 1) ∧
  (∀ tr sender target text t, charcount text CTCP_DELIM_CHAR ≤ 1 →
    env.inbound_recode tr sender target text = some t → charcount t CTCP_DELIM_CHAR ≤ 1)

/-- The concrete environment with key 2 for the identity `bob`, a `decrypt_msg`
whose plaintext holds a VERSION span, and an `inbound_recode` that stores the
text it is given, byte for byte. -/
def nested_env : Env :=
  { sample_env with
    is_crypted := fun _ who _ => if who = "bob".toList then some 2 else none
    decrypt_msg := fun _ _ _ => some "hi \x01VERSION\x01 there".toList
    inbound_recode := fun _ _ _ text => some text }

/-! # Properties -/

/-! ## Lemmas on the string helpers -/

theorem cut_at_eq_none_iff (c : Char) (s : CStr) : cut_at c s = none ↔ c ∉ s := by
  induction s with
  | nil => simp [cut_at]
  | cons x xs ih =>
    unfold cut_at
    by_cases hx : x = c
    · simp [hx]
    · simp only [hx, if_false]
      cases hc : cut_at c xs with
      | none =>
        have := ih.mp hc
        simp [this, Ne.symm hx]
      | some ab =>
        have : c ∈ xs := by
          by_contra hn
          rw [ih.mpr hn] at hc
          cases hc
        simp [this]

theorem cut_at_some_spec {c : Char} {s a b : CStr} (h : cut_at c s = some (a, b)) :
    s = a ++ c :: b ∧ c ∉ a := by
  induction s generalizing a with
  | nil => simp [cut_at] at h
  | cons x xs ih =>
    unfold cut_at at h
    by_cases hx : x = c
    · simp only [hx, if_true, Option.some.injEq, Prod.mk.injEq] at h
      obtain ⟨rfl, rfl⟩ := h
      simp [hx]
    · simp only [hx, if_false] at h
      cases hc : cut_at c xs with
      | none => simp [hc] at h
      | some ab =>
        obtain ⟨a', b'⟩ := ab
        simp only [hc, Option.some.injEq, Prod.mk.injEq] at h
        obtain ⟨rfl, rfl⟩ := h
        obtain ⟨h1, h2⟩ := ih hc
        refine ⟨by simp [h1], ?_⟩
        simp [h2, Ne.symm hx]

theorem cut_at_append_cons {c : Char} {p : CStr} (r : CStr) (h : c ∉ p) :
    cut_at c (p ++ c :: r) = some (p, r) := by
  induction p with
  | nil => simp [cut_at]
  | cons x xs ih =>
    have hx : x ≠ c := fun e => h (by simp [e])
    have hxs : c ∉ xs := fun e => h (by simp [e])
    simp [cut_at, hx, ih hxs]

theorem cut_at_append_left {c : Char} {p : CStr} (r : CStr) (h : c ∉ p) :
    cut_at c (p ++ r) = (cut_at c r).map (fun ab => (p ++ ab.1, ab.2)) := by
  induction p with
  | nil => simp
  | cons x xs ih =>
    have hx : x ≠ c := fun e => h (by simp [e])
    have hxs : c ∉ xs := fun e => h (by simp [e])
    rw [List.cons_append, cut_at, if_neg hx, ih hxs]
    cases cut_at c r <;> simp

theorem count_take_le (c : Char) (n : Nat) (s : CStr) : (s.take n).count c ≤ s.count c :=
  (List.take_sublist n s).count_le c

theorem split_CTCP_eq_none_iff (n : Nat) (s : CStr) :
    split_CTCP n s = none ↔ charcount s CTCP_DELIM_CHAR < 2 := by
  unfold split_CTCP charcount
  cases h1 : cut_at CTCP_DELIM_CHAR s with
  | none =>
    have := (cut_at_eq_none_iff _ _).mp h1
    simp [List.count_eq_zero_of_not_mem this]
  | some ab =>
    obtain ⟨a, b⟩ := ab
    obtain ⟨hs, ha⟩ := cut_at_some_spec h1
    cases h2 : cut_at CTCP_DELIM_CHAR b with
    | none =>
      have hb := (cut_at_eq_none_iff _ _).mp h2
      simp [hs, h2, List.count_eq_zero_of_not_mem ha, List.count_eq_zero_of_not_mem hb]
    | some cd =>
      obtain ⟨c, d⟩ := cd
      obtain ⟨hb, _⟩ := cut_at_some_spec h2
      have hcount : 1 ≤ b.count CTCP_DELIM_CHAR := by
        rw [hb]; simp; omega
      simp [hs, h2]
      omega

/-- What a successful `split_CTCP` says about its input. -/
theorem split_CTCP_some_spec {n : Nat} {s before body after : CStr}
    (h : split_CTCP n s = some (before, body, after)) :
    ∃ b r, s = before ++ CTCP_DELIM_CHAR :: (b ++ CTCP_DELIM_CHAR :: r) ∧
      CTCP_DELIM_CHAR ∉ before ∧ CTCP_DELIM_CHAR ∉ b ∧
      body = strlcpy b (n - 1) ∧ after = strlcpy r (n - 1) := by
  unfold split_CTCP at h
  cases h1 : cut_at CTCP_DELIM_CHAR s with
  | none => simp [h1] at h
  | some ab =>
    obtain ⟨a, b⟩ := ab
    obtain ⟨hs, ha⟩ := cut_at_some_spec h1
    cases h2 : cut_at CTCP_DELIM_CHAR b with
    | none => simp [h1, h2] at h
    | some cd =>
      obtain ⟨c, d⟩ := cd
      obtain ⟨hb, hc⟩ := cut_at_some_spec h2
      simp only [h1, h2, Option.some.injEq, Prod.mk.injEq] at h
      obtain ⟨rfl, rfl, rfl⟩ := h
      exact ⟨c, d, by rw [hs, hb], ha, hc, rfl, rfl⟩

theorem split_CTCP_append_span {n : Nat} {p b : CStr} (r : CStr)
    (hp : CTCP_DELIM_CHAR ∉ p) (hb : CTCP_DELIM_CHAR ∉ b) :
    split_CTCP n (p ++ CTCP_DELIM_CHAR :: (b ++ CTCP_DELIM_CHAR :: r)) =
      some (p, strlcpy b (n - 1), strlcpy r (n - 1)) := by
  simp [split_CTCP, cut_at_append_cons _ hp, cut_at_append_cons _ hb]

theorem count_strlcat_le (c : Char) (a b : CStr) (n : Nat) :
    (strlcat a b n).count c ≤ a.count c + b.count c := by
  unfold strlcat
  rw [List.count_append]
  exact Nat.add_le_add_left (count_take_le c _ b) _

theorem split_CTCP_some_count {n : Nat} {s before body after : CStr}
    (h : split_CTCP n s = some (before, body, after)) :
    before.count CTCP_DELIM_CHAR = 0 ∧
      after.count CTCP_DELIM_CHAR + 2 ≤ s.count CTCP_DELIM_CHAR := by
  obtain ⟨b, r, hs, hb, _, _, ha⟩ := split_CTCP_some_spec h
  refine ⟨List.count_eq_zero_of_not_mem hb, ?_⟩
  have := count_take_le CTCP_DELIM_CHAR (n - 1 - 1) r
  rw [ha, hs]
  simp [strlcpy]
  omega

/-! ## The decoder on a text without a span -/

theorem do_ctcp_body_of_lt_two (env : Env) (bucket : Bucket) (reenter : Decoder) (fuel : Nat)
    (request : Bool) (sender target str : CStr) (st : State)
    (h : charcount str CTCP_DELIM_CHAR < 2) :
    do_ctcp_body env bucket reenter fuel request sender target str st = some (str, st) := by
  simp [do_ctcp_body, h]

theorem do_ctcp_of_lt_two (env : Env) (bucket : Bucket) (fuel : Nat)
    (request : Bool) (sender target str : CStr) (st : State)
    (h : charcount str CTCP_DELIM_CHAR < 2) :
    do_ctcp env bucket fuel request sender target str st = some (str, st) := by
  cases fuel <;> simp [do_ctcp, do_ctcp_body_of_lt_two, h]

/-! ## What the loop leaves in the buffer -/

theorem ctcp_loop_result_lt_two (env : Env) (bucket : Bucket) (reenter : Decoder)
    (request : Bool) (sender target : CStr) :
    ∀ (fuel : Nat) (buffer : CStr) (dpm : Bool) (st : State) (out : CStr) (st' : State),
      ctcp_loop env bucket reenter request sender target fuel buffer dpm st = some (out, st') →
      charcount out CTCP_DELIM_CHAR < 2 := by
  intro fuel
  induction fuel with
  | zero => intro buffer dpm st out st' h; simp [ctcp_loop] at h
  | succ fuel ih =>
    intro buffer dpm st out st' h
    unfold ctcp_loop at h
    cases hs : split_CTCP env.IRCD_BUFFER_SIZE buffer with
    | none =>
      simp only [hs, Option.some.injEq, Prod.mk.injEq] at h
      rw [← h.1]
      exact (split_CTCP_eq_none_iff _ _).mp hs
    | some parts =>
      obtain ⟨before, the_ctcp, after⟩ := parts
      simp only [hs] at h
      split at h
      · exact ih _ _ _ _ _ h
      · split at h
        · cases h
        · exact ih _ _ _ _ _ h
        · exact ih _ _ _ _ _ h

theorem do_ctcp_body_result_lt_two (env : Env) (bucket : Bucket) (reenter : Decoder)
    (fuel : Nat) (request : Bool) (sender target str : CStr) (st : State)
    (out : CStr) (st' : State)
    (h : do_ctcp_body env bucket reenter fuel request sender target str st = some (out, st')) :
    charcount out CTCP_DELIM_CHAR < 2 := by
  unfold do_ctcp_body at h
  split at h
  · rename_i hlt
    simp only [Option.some.injEq, Prod.mk.injEq] at h
    rw [← h.1]; exact hlt
  · split at h
    · cases h
    · rename_i buf st1 hloop
      simp only [Option.some.injEq, Prod.mk.injEq] at h
      rw [← h.1]
      have := ctcp_loop_result_lt_two _ _ _ _ _ _ _ _ _ _ _ _ hloop
      exact lt_of_le_of_lt (count_take_le _ _ _) this

theorem do_ctcp_result_lt_two (env : Env) (bucket : Bucket)
    (fuel : Nat) (request : Bool) (sender target str : CStr) (st : State)
    (out : CStr) (st' : State)
    (h : do_ctcp env bucket fuel request sender target str st = some (out, st')) :
    charcount out CTCP_DELIM_CHAR < 2 := by
  cases fuel <;> exact do_ctcp_body_result_lt_two _ _ _ _ _ _ _ _ _ _ _ h



/-! ## The loop ends when inline text is bounded -/

theorem do_ctcp_returns_plain (env : Env) (bucket : Bucket) (fuel : Nat) :
    returns_plain (do_ctcp env bucket fuel) :=
  fun request sender target str st h => do_ctcp_of_lt_two env bucket fuel request sender target str st h

theorem do_crypto_bounded (env : Env) (reenter : Decoder) (sender target cmd args : CStr)
    (st : State) (hb : inline_bounded env) (hr : returns_plain reenter) :
    ∃ t args' st', do_crypto env reenter sender target cmd args st = some (some t, args', st') ∧
      charcount t CTCP_DELIM_CHAR ≤ 1 := by
  obtain ⟨_, _, hdec, hrec⟩ := hb
  unfold do_crypto
  rcases hcd : crypto_decrypt env sender target cmd args st with ⟨key, ret, st1⟩
  have hret : ∀ k r, key = some k → ret = some r → charcount r CTCP_DELIM_CHAR ≤ 1 := by
    intro k r hk hr'
    unfold crypto_decrypt at hcd
    rcases hck : crypto_key env sender target cmd st with ⟨key0, st0⟩
    rw [hck] at hcd
    cases key0 with
    | none => simp at hcd; rw [← hcd.1] at hk; cases hk
    | some k0 =>
      simp only [Prod.mk.injEq] at hcd
      rw [← hcd.2.1] at hr'
      exact hdec _ _ _ _ hr'
  cases key with
  | none => exact ⟨_, _, _, rfl, by decide⟩
  | some k =>
    cases ret with
    | none => exact ⟨_, _, _, rfl, by decide⟩
    | some r =>
      have hr1 := hret k r rfl rfl
      have hr2 : charcount r CTCP_DELIM_CHAR < 2 := by omega
      simp only
      have hnest : (if env.get_server_doing_privmsg st1.trace = true then
            reenter true sender target r st1
          else if env.get_server_doing_notice st1.trace = true then
            reenter false sender target r st1
          else some (r, st1)) = some (r, st1) := by
        split
        · exact hr _ _ _ _ _ hr2
        · split
          · exact hr _ _ _ _ _ hr2
          · rfl
      rw [hnest]
      simp only
      cases hre : env.inbound_recode st1.trace sender target r with
      | none => exact ⟨_, _, _, rfl, hr1⟩
      | some x => exact ⟨_, _, _, rfl, hrec _ _ _ _ _ hre⟩



/-! ## Which handlers return text -/

theorem do_atmosphere_ptr (env : Env) (sender target args : CStr) (st : State) :
    (do_atmosphere env sender target args st).1 = none := by
  unfold do_atmosphere
  dsimp only
  repeat' split
  all_goals rfl

theorem do_dcc_ptr (env : Env) (sender target args : CStr) (st : State) :
    (do_dcc env sender target args st).1 = none := by
  unfold do_dcc
  simp only
  repeat' split
  all_goals rfl

theorem do_clientinfo_ptr (env : Env) (bucket : Bucket) (sender cmd args : CStr) (st : State) :
    (do_clientinfo env bucket sender cmd args st).1 = none := by
  unfold do_clientinfo
  repeat' split
  all_goals rfl

theorem do_version_ptr (env : Env) (sender cmd args : CStr) (st : State) :
    (do_version env sender cmd args st).1 = none := rfl

theorem do_echo_ptr (env : Env) (sender target cmd args : CStr) (st : State) :
    (do_echo env sender target cmd args st).1 = none := by
  unfold do_echo
  split <;> rfl

theorem do_finger_ptr (env : Env) (sender cmd args : CStr) (st : State) :
    (do_finger env sender cmd args st).1 = none := by
  unfold do_finger
  simp only
  split <;> rfl

theorem do_dcc_reply_ptr (env : Env) (sender target args : CStr) (st : State) :
    (do_dcc_reply env sender target args st).1 = none := by
  unfold do_dcc_reply
  simp only
  repeat' split
  all_goals rfl

theorem do_ping_reply_ptr (env : Env) (args : CStr) (st : State) :
    (do_ping_reply env args st).1 = none := by
  unfold do_ping_reply
  simp only
  repeat' split
  all_goals rfl

/-- Under `inline_bounded`, and with a re-entry that returns plain text at
once, every native handler returns, and what it returns has at most one
delimiter. -/
theorem call_handler_bounded (env : Env) (bucket : Bucket) (reenter : Decoder)
    (h : CTCP_Handler) (sender target cmd args : CStr) (st : State)
    (hb : inline_bounded env) (hr : returns_plain reenter) :
    ∃ ptr args' st', call_handler env bucket reenter h sender target cmd args st
        = some (ptr, args', st') ∧
      ∀ t, ptr = some t → charcount t CTCP_DELIM_CHAR ≤ 1 := by
  have none_case : ∀ r : HandlerResult, r.1 = none →
      ∃ ptr args' st', some r = some (ptr, args', st') ∧
        ∀ t, ptr = some t → charcount t CTCP_DELIM_CHAR ≤ 1 := by
    intro r hr1
    refine ⟨r.1, r.2.1, r.2.2, rfl, ?_⟩
    intro t ht; rw [hr1] at ht; cases ht
  cases h with
  | do_crypto =>
    obtain ⟨t, args', st', he, ht⟩ := do_crypto_bounded env reenter sender target cmd args st hb hr
    exact ⟨some t, args', st', he, fun t' ht' => by cases ht'; exact ht⟩
  | do_utc =>
    simp only [call_handler, do_utc]
    split
    · exact ⟨_, _, _, rfl, fun t ht => by cases ht; decide⟩
    · exact ⟨_, _, _, rfl, fun t ht => by cases ht; exact hb.2.1 _⟩
  | do_atmosphere => exact none_case _ (do_atmosphere_ptr _ _ _ _ _)
  | do_dcc => exact none_case _ (do_dcc_ptr _ _ _ _ _)
  | do_clientinfo => exact none_case _ (do_clientinfo_ptr _ _ _ _ _ _)
  | do_version => exact none_case _ (do_version_ptr _ _ _ _ _)
  | do_time => exact none_case _ rfl
  | do_userinfo => exact none_case _ rfl
  | do_echo => exact none_case _ (do_echo_ptr _ _ _ _ _ _)
  | do_ping => exact none_case _ rfl
  | do_finger => exact none_case _ (do_finger_ptr _ _ _ _ _)
  | do_dcc_reply => exact none_case _ (do_dcc_reply_ptr _ _ _ _ _)
  | do_ping_reply => exact none_case _ (do_ping_reply_ptr _ _ _)



theorem call_entry_bounded (env : Env) (bucket : Bucket) (reenter : Decoder) (request : Bool)
    (entry : CtcpEntry) (sender target cmd arg : CStr) (st : State)
    (hb : inline_bounded env) (hr : returns_plain reenter) :
    ∃ ptr args' st', call_entry env bucket reenter request entry sender target cmd arg st
        = some (ptr, args', st') ∧
      ∀ t, ptr = some t → charcount t CTCP_DELIM_CHAR ≤ 1 := by
  unfold call_entry
  dsimp only
  cases (if request = true then entry.user_func else entry.user_repl) with
  | some code => exact ⟨_, _, _, rfl, fun t ht => hb.1 _ _ _ _ _ ht⟩
  | none =>
    cases (if request = true then entry.func else entry.repl) with
    | none => exact ⟨_, _, _, rfl, fun t ht => by cases ht⟩
    | some h =>
      obtain ⟨ptr, args', st', he, ht⟩ := call_handler_bounded env bucket reenter h sender target
        cmd arg (State.log st.in_ctcp_incr (.handler h sender target cmd arg))
        hb hr
      dsimp only
      rw [he]
      exact ⟨_, _, _, rfl, ht⟩

theorem dispatch_span_bounded (env : Env) (bucket : Bucket) (reenter : Decoder) (request : Bool)
    (sender target cmd orig : CStr) (extra : Option CStr) (st : State)
    (hb : inline_bounded env) (hr : returns_plain reenter) :
    ∃ ptr dpm st', dispatch_span env bucket reenter request sender target cmd orig extra st
        = some (ptr, dpm, st') ∧
      ∀ t, ptr = some t → charcount t CTCP_DELIM_CHAR ≤ 1 := by
  unfold dispatch_span
  dsimp only
  split
  · rename_i name entry _
    obtain ⟨ptr, args', st', he, ht⟩ := call_entry_bounded env bucket reenter request entry
      sender target cmd
      (if (decide (entry.flag &&& CTCP_NORECODE ≠ 0)) = true then orig else extra.getD orig) st
      hb hr
    rw [he]
    cases ptr with
    | some t => exact ⟨_, _, _, rfl, ht⟩
    | none =>
      dsimp only
      split
      · exact ⟨_, _, _, rfl, fun t ht => by cases ht⟩
      · exact ⟨_, _, _, rfl, fun t ht => by cases ht⟩
  · exact ⟨_, _, _, rfl, fun t ht => by cases ht⟩

theorem process_span_bounded (env : Env) (bucket : Bucket) (reenter : Decoder) (request : Bool)
    (sender target the_ctcp : CStr) (st : State)
    (hb : inline_bounded env) (hr : returns_plain reenter) :
    ∃ ptr dpm st', process_span env bucket reenter request sender target the_ctcp st
        = some (ptr, dpm, st') ∧
      ∀ t, ptr = some t → charcount t CTCP_DELIM_CHAR ≤ 1 := by
  unfold process_span
  dsimp only
  split
  · split
    · exact ⟨_, _, _, rfl, fun t ht => by cases ht⟩
    · exact dispatch_span_bounded _ _ _ _ _ _ _ _ _ _ hb hr
  · exact dispatch_span_bounded _ _ _ _ _ _ _ _ _ _ hb hr

/-- With bounded inline text every turn of the loop lowers the number of
delimiters in the buffer, so fuel for that many turns is enough. -/
theorem ctcp_loop_terminates (env : Env) (bucket : Bucket) (reenter : Decoder)
    (request : Bool) (sender target : CStr)
    (hb : inline_bounded env) (hr : returns_plain reenter) :
    ∀ (fuel : Nat) (buffer : CStr) (dpm : Bool) (st : State),
      charcount buffer CTCP_DELIM_CHAR ≤ fuel → 0 < fuel →
      ∃ out st', ctcp_loop env bucket reenter request sender target fuel buffer dpm st
        = some (out, st') := by
  intro fuel
  induction fuel with
  | zero => intro _ _ _ _ h; omega
  | succ fuel ih =>
    intro buffer dpm st hc _
    unfold ctcp_loop
    cases hs : split_CTCP env.IRCD_BUFFER_SIZE buffer with
    | none => exact ⟨_, _, rfl⟩
    | some parts =>
      obtain ⟨before, the_ctcp, after⟩ := parts
      obtain ⟨hb0, hac⟩ := split_CTCP_some_count hs
      unfold charcount at hc
      have hplain : charcount (strlcat before after (env.BIG_BUFFER_SIZE + 1 - 2))
          CTCP_DELIM_CHAR ≤ fuel := by
        have := count_strlcat_le CTCP_DELIM_CHAR before after (env.BIG_BUFFER_SIZE + 1 - 2)
        unfold charcount; omega
      have hfuel : 0 < fuel := by omega
      dsimp only
      split
      · exact ih _ _ _ hplain hfuel
      · obtain ⟨ptr, dpm', st', he, ht⟩ := process_span_bounded env bucket reenter request
          sender target the_ctcp st hb hr
        rw [he]
        cases ptr with
        | none => exact ih _ _ _ hplain hfuel
        | some t =>
          dsimp only
          refine ih _ _ _ ?_ hfuel
          have h1 := count_strlcat_le CTCP_DELIM_CHAR
            (strlcat before t (env.BIG_BUFFER_SIZE + 1)) after (env.BIG_BUFFER_SIZE + 1 - 2)
          have h2 := count_strlcat_le CTCP_DELIM_CHAR before t (env.BIG_BUFFER_SIZE + 1)
          have h3 := ht t rfl
          unfold charcount at h3 ⊢
          omega

theorem do_ctcp_body_terminates (env : Env) (bucket : Bucket) (reenter : Decoder)
    (fuel : Nat) (request : Bool) (sender target str : CStr) (st : State)
    (hb : inline_bounded env) (hr : returns_plain reenter)
    (hf : charcount str CTCP_DELIM_CHAR ≤ fuel) :
    ∃ out st', do_ctcp_body env bucket reenter fuel request sender target str st
      = some (out, st') := by
  by_cases hlt : charcount str CTCP_DELIM_CHAR < 2
  · exact ⟨_, _, do_ctcp_body_of_lt_two _ _ _ _ _ _ _ _ _ hlt⟩
  · unfold do_ctcp_body
    simp only [hlt, if_false]
    have hc : charcount (strlcpy str (env.BIG_BUFFER_SIZE + 1 - 2)) CTCP_DELIM_CHAR ≤ fuel :=
      le_trans (count_take_le _ _ _) hf
    obtain ⟨out, st', he⟩ := ctcp_loop_terminates env bucket reenter request sender target hb hr
      fuel (strlcpy str (env.BIG_BUFFER_SIZE + 1 - 2))
      (do_ctcp_entry env request sender target str st).1
      (do_ctcp_entry env request sender target str st).2 hc (by omega)
    rw [he]
    exact ⟨_, _, rfl⟩

theorem do_ctcp_terminates (env : Env) (bucket : Bucket)
    (fuel : Nat) (request : Bool) (sender target str : CStr) (st : State)
    (hb : inline_bounded env) (hf : charcount str CTCP_DELIM_CHAR ≤ fuel) :
    ∃ out st', do_ctcp env bucket fuel request sender target str st = some (out, st') := by
  cases fuel with
  | zero =>
    exact ⟨_, _, do_ctcp_of_lt_two _ _ _ _ _ _ _ _ (by omega)⟩
  | succ fuel =>
    exact do_ctcp_body_terminates env bucket (do_ctcp env bucket fuel) (fuel + 1) request sender
      target str st hb (do_ctcp_returns_plain env bucket fuel) hf

/-! ## The state after each step -/

@[simp]
theorem log_trace (st : State) (e : Event) : (st.log e).trace = st.trace ++ [e] := rfl
@[simp]
theorem log_sed (st : State) (e : Event) : (st.log e).sed = st.sed := rfl
@[simp]
theorem log_in_ctcp (st : State) (e : Event) : (st.log e).in_ctcp = st.in_ctcp := rfl
@[simp]
theorem in_ctcp_incr_trace (st : State) : st.in_ctcp_incr.trace = st.trace := rfl
@[simp]
theorem in_ctcp_incr_sed (st : State) : st.in_ctcp_incr.sed = st.sed := rfl
@[simp]
theorem in_ctcp_decr_trace (st : State) : st.in_ctcp_decr.trace = st.trace := rfl
@[simp]
theorem in_ctcp_decr_sed (st : State) : st.in_ctcp_decr.sed = st.sed := rfl
@[simp]
theorem set_sed_trace (st : State) (v : Int) : (st.set_sed v).trace = st.trace := rfl
@[simp]
theorem set_sed_sed (st : State) (v : Int) : (st.set_sed v).sed = v := rfl

theorem send_ctcp_trace (env : Env) (request : Bool) (target type : CStr)
    (format : Option CStr) (st : State) :
    (send_ctcp env request target type format st).trace
      = st.trace ++ send_ctcp_events env request target type format st.trace := by
  unfold send_ctcp send_ctcp_events
  by_cases hlen : send_ctcp_len env target ≤ 0
  · simp [hlen]
  · cases format <;>
      simp [hlen, send_ctcp_pb, send_ctcp_wire, send_ctcp_protocol]

theorem send_ctcp_sed (env : Env) (request : Bool) (target type : CStr)
    (format : Option CStr) (st : State) :
    (send_ctcp env request target type format st).sed = st.sed := by
  unfold send_ctcp
  by_cases hlen : send_ctcp_len env target ≤ 0
  · simp [hlen]
  · cases format <;> simp [hlen]

theorem default_handling_trace (env : Env) (request : Bool)
    (sender target cmd arg : CStr) (st : State) :
    (default_handling env request sender target cmd arg st).trace
      = st.trace ++ default_events env request sender target cmd arg st.trace := by
  unfold default_handling default_events
  cases request <;> simp <;> split_ifs <;> simp

theorem default_handling_sed (env : Env) (request : Bool)
    (sender target cmd arg : CStr) (st : State) :
    (default_handling env request sender target cmd arg st).sed = st.sed := by
  unfold default_handling
  cases request <;> simp <;> split_ifs <;> simp



theorem strlcpy_of_le {s : CStr} {n : Nat} (h : s.length + 1 ≤ n) : strlcpy s n = s := by
  unfold strlcpy
  exact List.take_of_length_le (by omega)

theorem strlcat_of_le {a b : CStr} {n : Nat} (h : a.length + b.length + 1 ≤ n) :
    strlcat a b n = a ++ b := by
  unfold strlcat
  rw [List.take_of_length_le (by omega)]

/-! ## One span, step by step -/

/-- In request mode, a span the request hook lets through goes on to the registry. -/
theorem process_span_request (env : Env) (bucket : Bucket) (reenter : Decoder)
    (sender target the_ctcp : CStr) (st : State) (hhook : request_hook_passes env) :
    process_span env bucket reenter true sender target the_ctcp st =
      dispatch_span env bucket reenter true sender target (split_command the_ctcp).1
        (split_command the_ctcp).2
        (env.inbound_recode st.trace sender target (split_command the_ctcp).2)
        ((st.in_ctcp_incr.log (.do_hook .CTCP_REQUEST_LIST
          (sender ++ [' '] ++ target ++ [' '] ++ (split_command the_ctcp).1 ++ [' '] ++
            (env.inbound_recode st.trace sender target (split_command the_ctcp).2).getD
              (split_command the_ctcp).2))).in_ctcp_decr) := by
  unfold process_span
  simp only [if_true, in_ctcp_incr_trace]
  rw [if_neg (hhook _ _)]

/-- In reply mode a span goes to the registry at once. -/
theorem process_span_reply (env : Env) (bucket : Bucket) (reenter : Decoder)
    (sender target the_ctcp : CStr) (st : State) :
    process_span env bucket reenter false sender target the_ctcp st =
      dispatch_span env bucket reenter false sender target (split_command the_ctcp).1
        (split_command the_ctcp).2
        (env.inbound_recode st.trace sender target (split_command the_ctcp).2) st := by
  unfold process_span
  simp

/-- A span the registry has no handler for gets the default handling. -/
theorem dispatch_span_unrecognized (env : Env) (bucket : Bucket) (reenter : Decoder)
    (request : Bool) (sender target cmd orig : CStr) (extra : Option CStr) (st : State)
    (h : find_ctcp bucket request cmd = none) :
    dispatch_span env bucket reenter request sender target cmd orig extra st =
      some (none, true,
        default_handling env request sender target cmd (extra.getD orig) st) := by
  unfold dispatch_span
  simp only [h]

theorem find_ctcp_version :
    find_ctcp init_ctcp true "VERSION".toList =
      some ("VERSION".toList,
        { flag := CTCP_REPLY ||| CTCP_TELLUSER,
          desc := "shows client type, version and environment".toList,
          func := some .do_version, repl := none, user_func := none, user_repl := none }) := by
  decide

/-- A VERSION request that reaches the registry: `do_version` runs, sends its
reply, and the span then gets the default handling. -/
theorem dispatch_span_version (env : Env) (reenter : Decoder)
    (sender target orig : CStr) (extra : Option CStr) (st : State) :
    dispatch_span env init_ctcp reenter true sender target "VERSION".toList orig extra st =
      some (none, true,
        default_handling env true sender target "VERSION".toList (extra.getD orig)
          (send_ctcp env false sender "VERSION".toList (some (version_text env (st.trace ++
              [.handler .do_version sender target "VERSION".toList (extra.getD orig)])))
            (st.in_ctcp_incr.log
              (.handler .do_version sender target "VERSION".toList (extra.getD orig)))
            ).in_ctcp_decr) := by
  unfold dispatch_span
  rw [find_ctcp_version]
  have hn : (CTCP_REPLY ||| CTCP_TELLUSER) &&& CTCP_NORECODE = 0 := by decide
  have hs : (CTCP_REPLY ||| CTCP_TELLUSER) &&& CTCP_SPECIAL = 0 := by decide
  simp [hn, hs, call_entry, call_handler, do_version]

/-! ## The entry of `do_ctcp` -/

theorem do_ctcp_entry_trace (env : Env) (request : Bool) (sender target str : CStr)
    (st : State) :
    (do_ctcp_entry env request sender target str st).2.trace
      = st.trace ++ entry_events env request sender target str st.trace := by
  unfold do_ctcp_entry entry_events
  cases request <;> simp <;> split_ifs <;> simp

theorem do_ctcp_entry_sed (env : Env) (request : Bool) (sender target str : CStr)
    (st : State) : (do_ctcp_entry env request sender target str st).2.sed = st.sed := by
  unfold do_ctcp_entry
  cases request <;> simp <;> split_ifs <;> simp

/-- More than eight delimiters set `dont_process_more` before the loop. -/
theorem do_ctcp_entry_many (env : Env) (request : Bool) (sender target str : CStr)
    (st : State) (h : 8 < charcount str CTCP_DELIM_CHAR) :
    (do_ctcp_entry env request sender target str st).1 = true := by
  unfold do_ctcp_entry gated
  simp [h]

/-- A message that passes every gate enters the loop with `dont_process_more` clear. -/
theorem do_ctcp_entry_open (env : Env) (request : Bool) (sender target str : CStr)
    (st : State) (hc : charcount str CTCP_DELIM_CHAR ≤ 8)
    (hi : not_ignored env sender target) (hf : not_flooding env sender)
    (ht : target_open env target) :
    (do_ctcp_entry env request sender target str st).1 = false := by
  unfold do_ctcp_entry gated
  have h8 : ¬ (8 < charcount str CTCP_DELIM_CHAR) := by omega
  obtain ⟨ht1, ht2⟩ := ht
  by_cases hh : target.head? = some '#'
  · cases request <;> simp [h8, hi _, hf _ _ _, ht1, hh, ht2 hh]
  · cases request <;> simp [h8, hi _, hf _ _ _, ht1, hh]

/-! ## The loop, one turn at a time -/

/-- With fewer than two delimiters in the buffer the loop stops at once. -/
theorem ctcp_loop_done (env : Env) (bucket : Bucket) (reenter : Decoder) (request : Bool)
    (sender target : CStr) (fuel : Nat) (buffer : CStr) (dpm : Bool) (st : State)
    (h : charcount buffer CTCP_DELIM_CHAR < 2) :
    ctcp_loop env bucket reenter request sender target (fuel + 1) buffer dpm st
      = some (buffer, st) := by
  unfold ctcp_loop
  rw [(split_CTCP_eq_none_iff _ _).mpr h]

/-- A turn of the loop on a non-empty span in a text that fits, with
`dont_process_more` clear. -/
theorem ctcp_loop_span (env : Env) (bucket : Bucket) (reenter : Decoder) (request : Bool)
    (sender target : CStr) (fuel : Nat) (p b r : CStr) (st : State)
    (hp : CTCP_DELIM_CHAR ∉ p) (hb : CTCP_DELIM_CHAR ∉ b) (hne : b ≠ [])
    (hfit : fits env (p ++ CTCP_DELIM_CHAR :: (b ++ CTCP_DELIM_CHAR :: r))) :
    ctcp_loop env bucket reenter request sender target (fuel + 1)
        (p ++ CTCP_DELIM_CHAR :: (b ++ CTCP_DELIM_CHAR :: r)) false st =
      match process_span env bucket reenter request sender target b st with
      | none => none
      | some (some ptr, dpm, st) =>
        ctcp_loop env bucket reenter request sender target fuel
          (strlcat (strlcat p ptr (env.BIG_BUFFER_SIZE + 1)) r (env.BIG_BUFFER_SIZE + 1 - 2))
          dpm st
      | some (none, dpm, st) =>
        ctcp_loop env bucket reenter request sender target fuel (p ++ r) dpm st := by
  obtain ⟨h1, h2⟩ := hfit
  simp only [List.length_append, List.length_cons] at h1
  have e1 : strlcpy b (env.IRCD_BUFFER_SIZE - 1) = b := strlcpy_of_le (by omega)
  have e2 : strlcpy r (env.IRCD_BUFFER_SIZE - 1) = r := strlcpy_of_le (by omega)
  have e3 : strlcat p r (env.BIG_BUFFER_SIZE + 1 - 2) = p ++ r := strlcat_of_le (by omega)
  rw [ctcp_loop, split_CTCP_append_span r hp hb, e1, e2]
  simp only [hne, false_or, Bool.false_eq_true, if_false, e3]

/-- A turn of the loop on a span that is empty or met with `dont_process_more`
set, in a text that fits: the span is dropped and nothing else happens. -/
theorem ctcp_loop_drop (env : Env) (bucket : Bucket) (reenter : Decoder) (request : Bool)
    (sender target : CStr) (fuel : Nat) (p b r : CStr) (dpm : Bool) (st : State)
    (hp : CTCP_DELIM_CHAR ∉ p) (hb : CTCP_DELIM_CHAR ∉ b) (hd : b = [] ∨ dpm = true)
    (hfit : fits env (p ++ CTCP_DELIM_CHAR :: (b ++ CTCP_DELIM_CHAR :: r))) :
    ctcp_loop env bucket reenter request sender target (fuel + 1)
        (p ++ CTCP_DELIM_CHAR :: (b ++ CTCP_DELIM_CHAR :: r)) dpm st =
      ctcp_loop env bucket reenter request sender target fuel (p ++ r) dpm st := by
  obtain ⟨h1, h2⟩ := hfit
  simp only [List.length_append, List.length_cons] at h1
  have e1 : strlcpy b (env.IRCD_BUFFER_SIZE - 1) = b := strlcpy_of_le (by omega)
  have e2 : strlcpy r (env.IRCD_BUFFER_SIZE - 1) = r := strlcpy_of_le (by omega)
  have e3 : strlcat p r (env.BIG_BUFFER_SIZE + 1 - 2) = p ++ r := strlcat_of_le (by omega)
  rw [ctcp_loop, split_CTCP_append_span r hp hb, e1, e2]
  simp only [hd, if_true, e3]

/-! ## Removing the spans of a text -/

theorem cut_at_count {c : Char} {s a b : CStr} (h : cut_at c s = some (a, b)) :
    s.count c = b.count c + 1 := by
  obtain ⟨hs, ha⟩ := cut_at_some_spec h
  rw [hs]
  simp [List.count_eq_zero_of_not_mem ha]

theorem strip_spans_aux_of_lt_two (n : Nat) (s : CStr)
    (h : s.count CTCP_DELIM_CHAR < 2) : strip_spans_aux n s = s := by
  cases n with
  | zero => rfl
  | succ n =>
    cases h1 : cut_at CTCP_DELIM_CHAR s with
    | none => simp only [strip_spans_aux, h1]
    | some ab =>
      obtain ⟨a, b⟩ := ab
      have c1 := cut_at_count h1
      cases h2 : cut_at CTCP_DELIM_CHAR b with
      | none => simp only [strip_spans_aux, h1, h2]
      | some cd =>
        obtain ⟨c, d⟩ := cd
        have c2 := cut_at_count h2
        omega

/-- Fuel beyond the number of pairs changes nothing. -/
theorem strip_spans_aux_fuel (n : Nat) : ∀ (m : Nat) (s : CStr),
    s.count CTCP_DELIM_CHAR < 2 * n + 2 → s.count CTCP_DELIM_CHAR < 2 * m + 2 →
    strip_spans_aux n s = strip_spans_aux m s := by
  induction n with
  | zero =>
    intro m s hn _
    rw [strip_spans_aux_of_lt_two 0 s (by omega), strip_spans_aux_of_lt_two m s (by omega)]
  | succ n ih =>
    intro m s hn hm
    cases m with
    | zero =>
      rw [strip_spans_aux_of_lt_two _ s (by omega), strip_spans_aux_of_lt_two 0 s (by omega)]
    | succ m =>
      cases h1 : cut_at CTCP_DELIM_CHAR s with
      | none => simp only [strip_spans_aux, h1]
      | some ab =>
        obtain ⟨a, b⟩ := ab
        have c1 := cut_at_count h1
        cases h2 : cut_at CTCP_DELIM_CHAR b with
        | none => simp only [strip_spans_aux, h1, h2]
        | some cd =>
          obtain ⟨c, d⟩ := cd
          have c2 := cut_at_count h2
          simp only [strip_spans_aux, h1, h2]
          rw [ih m d (by omega) (by omega)]

theorem strip_spans_eq_aux (n : Nat) (s : CStr) (h : s.count CTCP_DELIM_CHAR < 2 * n + 2) :
    strip_spans s = strip_spans_aux n s := by
  unfold strip_spans
  apply strip_spans_aux_fuel
  · have := List.count_le_length CTCP_DELIM_CHAR s
    omega
  · exact h

theorem strip_spans_of_lt_two (s : CStr) (h : s.count CTCP_DELIM_CHAR < 2) :
    strip_spans s = s :=
  strip_spans_aux_of_lt_two _ s h

/-- The first span goes, the text before it stays, the rest is treated alike. -/
theorem strip_spans_span (p b r : CStr) (hp : CTCP_DELIM_CHAR ∉ p) (hb : CTCP_DELIM_CHAR ∉ b) :
    strip_spans (p ++ CTCP_DELIM_CHAR :: (b ++ CTCP_DELIM_CHAR :: r)) = p ++ strip_spans r := by
  have hc : (p ++ CTCP_DELIM_CHAR :: (b ++ CTCP_DELIM_CHAR :: r)).count CTCP_DELIM_CHAR
      = r.count CTCP_DELIM_CHAR + 2 := by
    simp [List.count_eq_zero_of_not_mem hp, List.count_eq_zero_of_not_mem hb]
  rw [strip_spans_eq_aux (r.count CTCP_DELIM_CHAR + 1) _ (by omega),
    strip_spans_eq_aux (r.count CTCP_DELIM_CHAR) r (by omega)]
  rw [strip_spans_aux, cut_at_append_cons _ hp]
  simp only
  rw [cut_at_append_cons _ hb]

/-- Text without a delimiter in front of a text stays in front of the result. -/
theorem strip_spans_append_left (p r : CStr) (hp : CTCP_DELIM_CHAR ∉ p) :
    strip_spans (p ++ r) = p ++ strip_spans r := by
  by_cases h : r.count CTCP_DELIM_CHAR < 2
  · rw [strip_spans_of_lt_two r h, strip_spans_of_lt_two]
    simp [List.count_eq_zero_of_not_mem hp]; exact h
  · have hne : cut_at CTCP_DELIM_CHAR r ≠ none := by
      intro hn
      have := (cut_at_eq_none_iff _ _).mp hn
      rw [List.count_eq_zero_of_not_mem this] at h
      omega
    cases h1 : cut_at CTCP_DELIM_CHAR r with
    | none => exact absurd h1 hne
    | some ab =>
      obtain ⟨a, b⟩ := ab
      obtain ⟨hr, ha⟩ := cut_at_some_spec h1
      have c1 := cut_at_count h1
      cases h2 : cut_at CTCP_DELIM_CHAR b with
      | none =>
        have := (cut_at_eq_none_iff _ _).mp h2
        rw [List.count_eq_zero_of_not_mem this] at c1
        omega
      | some cd =>
        obtain ⟨c, d⟩ := cd
        obtain ⟨hbd, hc⟩ := cut_at_some_spec h2
        have hpa : CTCP_DELIM_CHAR ∉ p ++ a := by simp [hp, ha]
        rw [hr, hbd, ← List.append_assoc, strip_spans_span (p ++ a) c d hpa hc,
          strip_spans_span a c d ha hc, List.append_assoc]

/-! ## The loop once `dont_process_more` is set -/

/-- With `dont_process_more` set the loop ends and leaves the state alone. -/
theorem ctcp_loop_latched (env : Env) (bucket : Bucket) (reenter : Decoder) (request : Bool)
    (sender target : CStr) :
    ∀ (fuel : Nat) (buffer : CStr) (st : State),
      charcount buffer CTCP_DELIM_CHAR ≤ fuel → 0 < fuel →
      ∃ out, ctcp_loop env bucket reenter request sender target fuel buffer true st
        = some (out, st) := by
  intro fuel
  induction fuel with
  | zero => intro _ _ _ h; omega
  | succ fuel ih =>
    intro buffer st hc _
    unfold ctcp_loop
    cases hs : split_CTCP env.IRCD_BUFFER_SIZE buffer with
    | none => exact ⟨_, rfl⟩
    | some parts =>
      obtain ⟨before, the_ctcp, after⟩ := parts
      obtain ⟨hb0, hac⟩ := split_CTCP_some_count hs
      unfold charcount at hc
      have hplain : charcount (strlcat before after (env.BIG_BUFFER_SIZE + 1 - 2))
          CTCP_DELIM_CHAR ≤ fuel := by
        have := count_strlcat_le CTCP_DELIM_CHAR before after (env.BIG_BUFFER_SIZE + 1 - 2)
        unfold charcount; omega
      simp only [or_true, if_true]
      exact ih _ _ hplain (by omega)

theorem fits_of_length_le {env : Env} {s t : CStr} (h : fits env s) (hl : t.length ≤ s.length) :
    fits env t :=
  ⟨by have := h.1; omega, h.2⟩

/-- With `dont_process_more` set, a text that fits comes out with its spans
removed and the state as it was. -/
theorem ctcp_loop_latched_fits (env : Env) (bucket : Bucket) (reenter : Decoder)
    (request : Bool) (sender target : CStr) :
    ∀ (fuel : Nat) (buffer : CStr) (st : State),
      charcount buffer CTCP_DELIM_CHAR ≤ fuel → 0 < fuel → fits env buffer →
      ctcp_loop env bucket reenter request sender target fuel buffer true st
        = some (strip_spans buffer, st) := by
  intro fuel
  induction fuel with
  | zero => intro _ _ _ h; omega
  | succ fuel ih =>
    intro buffer st hc _ hfit
    by_cases hlt : charcount buffer CTCP_DELIM_CHAR < 2
    · rw [ctcp_loop_done _ _ _ _ _ _ _ _ _ _ hlt, strip_spans_of_lt_two _ hlt]
    · cases hs : split_CTCP env.IRCD_BUFFER_SIZE buffer with
      | none => exact absurd ((split_CTCP_eq_none_iff _ _).mp hs) hlt
      | some parts =>
        obtain ⟨before, the_ctcp, after⟩ := parts
        obtain ⟨b, r, hbuf, hp, hb, _, _⟩ := split_CTCP_some_spec hs
        subst hbuf
        have hcount : charcount (before ++ r) CTCP_DELIM_CHAR ≤ fuel := by
          unfold charcount at hc ⊢
          simp [List.count_eq_zero_of_not_mem hp, List.count_eq_zero_of_not_mem hb] at hc ⊢
          omega
        have hfuel : 0 < fuel := by
          unfold charcount at hc
          simp at hc
          omega
        rw [ctcp_loop_drop _ _ _ _ _ _ _ _ _ _ _ _ hp hb (Or.inr rfl) hfit,
          ih _ _ hcount hfuel (fits_of_length_le hfit (by simp; omega)),
          strip_spans_span _ _ _ hp hb, strip_spans_append_left _ _ hp]

/-! ## The body of `do_ctcp` around the loop -/

/-- For a text that fits and holds a span, `do_ctcp` is its entry, the loop on
the text itself, and the copy back. -/
theorem do_ctcp_body_fits (env : Env) (bucket : Bucket) (reenter : Decoder) (fuel : Nat)
    (request : Bool) (sender target str : CStr) (st : State)
    (h2 : 2 ≤ charcount str CTCP_DELIM_CHAR) (hfit : fits env str) :
    do_ctcp_body env bucket reenter fuel request sender target str st =
      match ctcp_loop env bucket reenter request sender target fuel str
          (do_ctcp_entry env request sender target str st).1
          (do_ctcp_entry env request sender target str st).2 with
      | none => none
      | some (buffer, st) =>
        some (strlcpy buffer env.BIG_BUFFER_SIZE, st.log .pop_message_from) := by
  unfold do_ctcp_body
  have e : strlcpy str (env.BIG_BUFFER_SIZE + 1 - 2) = str :=
    strlcpy_of_le (by have := hfit.1; have := hfit.2; omega)
  rw [if_neg (by omega), e]

/-- The decoder at any fuel is its body with some decoder to re-enter. -/
theorem do_ctcp_eq_body (env : Env) (bucket : Bucket) (fuel : Nat) :
    ∃ reenter, do_ctcp env bucket fuel = do_ctcp_body env bucket reenter fuel := by
  cases fuel with
  | zero => exact ⟨_, rfl⟩
  | succ n => exact ⟨_, rfl⟩

/-! ## Events by kind -/

theorem entry_events_filter (env : Env) (request : Bool) (sender target str : CStr)
    (tr : Trace) (p : Event → Bool)
    (h1 : ∀ a b c d, p (.check_ignore_channel a b c d) = false)
    (h2 : ∀ a b c d e, p (.new_check_flooding a b c d e) = false)
    (h3 : ∀ a b, p (.message_from a b) = false) :
    (entry_events env request sender target str tr).filter p = [] := by
  unfold entry_events
  cases request <;> simp [h1, h2] <;> split_ifs <;> simp [h3]

theorem default_events_filter (env : Env) (request : Bool) (sender target cmd arg : CStr)
    (tr : Trace) (p : Event → Bool)
    (h1 : ∀ a b, p (.do_hook a b) = false) (h2 : ∀ a, p (.say a) = false) :
    (default_events env request sender target cmd arg tr).filter p = [] := by
  unfold default_events
  cases request <;> simp <;> split_ifs <;> simp [h1, h2]

theorem send_ctcp_events_is_send_ctcp (env : Env) (request : Bool) (target type : CStr)
    (format : Option CStr) (tr : Trace) :
    (send_ctcp_events env request target type format tr).filter Event.is_send_ctcp
      = [.send_ctcp request target type format] := by
  unfold send_ctcp_events
  split_ifs <;> simp [Event.is_send_ctcp]

theorem send_ctcp_events_is_send_text (env : Env) (request : Bool) (target type : CStr)
    (format : Option CStr) (tr : Trace) :
    (send_ctcp_events env request target type format tr).filter Event.is_send_text
      = if send_ctcp_len env target ≤ 0 then []
        else [.send_text target
          (send_ctcp_wire (send_ctcp_len env target).toNat type
            (send_ctcp_pb env request target type format tr))
          (send_ctcp_protocol request)] := by
  unfold send_ctcp_events
  split_ifs <;> simp [Event.is_send_text]

/-! ## A VERSION request -/

theorem version_no_delim : CTCP_DELIM_CHAR ∉ "VERSION".toList := by decide

theorem count_span (p b r : CStr) (hp : CTCP_DELIM_CHAR ∉ p) (hb : CTCP_DELIM_CHAR ∉ b) :
    charcount (p ++ CTCP_DELIM_CHAR :: (b ++ CTCP_DELIM_CHAR :: r)) CTCP_DELIM_CHAR
      = charcount r CTCP_DELIM_CHAR + 2 := by
  unfold charcount
  rw [List.count_append, List.count_cons, List.count_append, List.count_cons,
    List.count_eq_zero_of_not_mem hp, List.count_eq_zero_of_not_mem hb]
  simp

/-- The body of `do_ctcp` on a text that fits and whose only span is VERSION:
the text comes back without the span, and the trace grows by the entry, the
offer to the request hook, `do_version` with its reply, the default handling
and the final `pop_message_from`. -/
theorem do_ctcp_body_version (env : Env) (reenter : Decoder) (fuel : Nat)
    (sender target P S : CStr) (st : State)
    (hP : CTCP_DELIM_CHAR ∉ P) (hS : CTCP_DELIM_CHAR ∉ S)
    (hfit : fits env (P ++ CTCP_DELIM_CHAR :: ("VERSION".toList ++ CTCP_DELIM_CHAR :: S)))
    (hi : not_ignored env sender target) (hf : not_flooding env sender)
    (ht : target_open env target) (hh : request_hook_passes env) :
    ∃ st',
      do_ctcp_body env init_ctcp reenter (fuel + 2) true sender target
        (P ++ CTCP_DELIM_CHAR :: ("VERSION".toList ++ CTCP_DELIM_CHAR :: S)) st
        = some (P ++ S, st') ∧
      let tr0 := st.trace ++ entry_events env true sender target
        (P ++ CTCP_DELIM_CHAR :: ("VERSION".toList ++ CTCP_DELIM_CHAR :: S)) st.trace
      let arg := (env.inbound_recode tr0 sender target []).getD []
      let tr1 := tr0 ++ [.do_hook .CTCP_REQUEST_LIST
          (sender ++ [' '] ++ target ++ [' '] ++ "VERSION".toList ++ [' '] ++ arg),
        .handler .do_version sender target "VERSION".toList arg]
      let tr2 := tr1 ++ send_ctcp_events env false sender "VERSION".toList
        (some (version_text env tr1)) tr1
      st'.trace = tr2 ++ default_events env true sender target "VERSION".toList arg tr2
        ++ [.pop_message_from] := by
  have hcount : charcount (P ++ CTCP_DELIM_CHAR :: ("VERSION".toList ++ CTCP_DELIM_CHAR :: S))
      CTCP_DELIM_CHAR = 2 := by
    rw [count_span _ _ _ hP version_no_delim]
    unfold charcount
    rw [List.count_eq_zero_of_not_mem hS]
  have hPS : charcount (P ++ S) CTCP_DELIM_CHAR < 2 := by
    unfold charcount
    simp [List.count_eq_zero_of_not_mem hP, List.count_eq_zero_of_not_mem hS]
  have hlen : (P ++ S).length + 1 ≤ env.BIG_BUFFER_SIZE := by
    have h1 := hfit.1
    have h2 := hfit.2
    simp at h1 ⊢
    omega
  rw [do_ctcp_body_fits _ _ _ _ _ _ _ _ _ (by omega) hfit,
    do_ctcp_entry_open _ _ _ _ _ _ (by omega) hi hf ht,
    ctcp_loop_span _ _ _ _ _ _ _ _ _ _ _ hP version_no_delim (by decide) hfit,
    process_span_request _ _ _ _ _ _ _ hh]
  have hsc : split_command "VERSION".toList = ("VERSION".toList, []) := by decide
  rw [hsc]
  simp only []
  rw [dispatch_span_version]
  simp only []
  rw [ctcp_loop_done _ _ _ _ _ _ _ _ _ _ hPS]
  simp only []
  rw [strlcpy_of_le hlen]
  refine ⟨_, rfl, ?_⟩
  simp only [log_trace, default_handling_trace, in_ctcp_decr_trace, send_ctcp_trace,
    in_ctcp_incr_trace, do_ctcp_entry_trace, List.append_assoc, List.singleton_append,
    List.cons_append, List.nil_append]

/-! # The claims -/

/-- C1: a text with fewer than two delimiter bytes comes back unchanged, for
every mode, sender, target, registry and amount of fuel; the state comes back
unchanged too, so no predicate was consulted, nothing was offered to a hook
and no handler was invoked. -/
theorem do_ctcp_unchanged_below_two_delims (env : Env) (bucket : Bucket) (fuel : Nat)
    (request : Bool) (sender target str : CStr) (st : State)
    (h : charcount str CTCP_DELIM_CHAR < 2) :
    do_ctcp env bucket fuel request sender target str st = some (str, st) :=
  do_ctcp_of_lt_two env bucket fuel request sender target str st h

theorem do_ctcp_unchanged_below_two_delims_witness :
    charcount "hello \x01VERSION".toList CTCP_DELIM_CHAR < 2 ∧
    do_ctcp sample_env init_ctcp 0 true "bob".toList "me".toList
        "hello \x01VERSION".toList sample_state
      = some ("hello \x01VERSION".toList, sample_state) :=
  ⟨by decide, do_ctcp_unchanged_below_two_delims _ _ _ _ _ _ _ _ (by decide)⟩

theorem sample_env_inline_bounded : inline_bounded sample_env := by
  refine ⟨?_, ?_, ?_, ?_⟩
  · intro tr name code args t h; simp [sample_env] at h
  · intro n; show charcount "Thu".toList CTCP_DELIM_CHAR ≤ 1; decide
  · intro tr args key t h; simp [sample_env] at h
  · intro tr sender target text t h; simp [sample_env] at h

/-- C2: whatever `do_ctcp` returns holds fewer than two delimiter bytes, hence
no delimiter-bounded span, for every environment, registry, mode, sender,
target and text; and it does return, with fuel for as many turns as the text
has delimiters, whenever no collaborator supplies inline text with two
delimiters or more. -/
theorem do_ctcp_returns_no_span :
    (∀ (env : Env) (bucket : Bucket) (fuel : Nat) (request : Bool)
        (sender target str : CStr) (st : State) (out : CStr) (st' : State),
        do_ctcp env bucket fuel request sender target str st = some (out, st') →
        charcount out CTCP_DELIM_CHAR < 2) ∧
    (∀ (env : Env) (bucket : Bucket) (fuel : Nat) (request : Bool)
        (sender target str : CStr) (st : State),
        inline_bounded env → charcount str CTCP_DELIM_CHAR ≤ fuel →
        ∃ out st', do_ctcp env bucket fuel request sender target str st = some (out, st') ∧
          charcount out CTCP_DELIM_CHAR < 2) := by
  refine ⟨do_ctcp_result_lt_two, ?_⟩
  intro env bucket fuel request sender target str st hb hf
  obtain ⟨out, st', h⟩ := do_ctcp_terminates env bucket fuel request sender target str st hb hf
  exact ⟨out, st', h, do_ctcp_result_lt_two _ _ _ _ _ _ _ _ _ _ h⟩

theorem do_ctcp_returns_no_span_witness :
    (do_ctcp sample_env init_ctcp 2 true "bob".toList "me".toList "\x01\x01".toList sample_state
      = some ([], ⟨[.check_ignore_channel "bob".toList "u@h".toList "me".toList .LEVEL_CTCP,
          .new_check_flooding "bob".toList "u@h".toList none "\x01\x01".toList .LEVEL_CTCP,
          .message_from "me".toList .LEVEL_CTCP, .pop_message_from], 0, 0⟩) ∧
      charcount ([] : CStr) CTCP_DELIM_CHAR < 2) ∧
    inline_bounded sample_env ∧
    charcount "a\x01FOO x\x01b\x01PING 1\x01\x01".toList CTCP_DELIM_CHAR ≤ 5 ∧
    ∃ out st', do_ctcp sample_env init_ctcp 5 true "bob".toList "me".toList
        "a\x01FOO x\x01b\x01PING 1\x01\x01".toList sample_state = some (out, st') ∧
      charcount out CTCP_DELIM_CHAR < 2 :=
  ⟨(fun h => ⟨h, do_ctcp_returns_no_span.1 _ _ _ _ _ _ _ _ _ _ h⟩)
      (by decide :
        do_ctcp sample_env init_ctcp 2 true "bob".toList "me".toList "\x01\x01".toList
          sample_state
        = some ([], ⟨[.check_ignore_channel "bob".toList "u@h".toList "me".toList .LEVEL_CTCP,
            .new_check_flooding "bob".toList "u@h".toList none "\x01\x01".toList .LEVEL_CTCP,
            .message_from "me".toList .LEVEL_CTCP, .pop_message_from], 0, 0⟩)),
    sample_env_inline_bounded, by decide,
    do_ctcp_returns_no_span.2 _ _ _ _ _ _ _ _ sample_env_inline_bounded (by decide)⟩

theorem sample_env_not_ignored (sender target : CStr) : not_ignored sample_env sender target := by
  intro tr; show (0 : Int) ≠ 1; decide

theorem sample_env_not_flooding (sender : CStr) : not_flooding sample_env sender := by
  intro tr chan text; show (0 : Int) ≠ 1; decide

theorem sample_env_target_open : target_open sample_env "me".toList :=
  ⟨by decide, fun h => absurd h (by decide)⟩

theorem sample_env_request_hook_passes : request_hook_passes sample_env := by
  intro tr text; show (1 : Int) ≠ 0; decide

/-- C3 (as stated, refuted): with the buffer sizes 512 and 2048, a sender that
is neither ignored nor flooding, the client as target and a request hook that
takes nothing over, a VERSION span followed by 511 delimiter-free bytes comes
back with only 510 of them, because `split_CTCP` copies the text after the span
with `strlcpy(.., IRCD_BUFFER_SIZE - 1)`; the claim promises all of `P ++ S`. -/
theorem do_ctcp_version_long_suffix :
    CTCP_DELIM_CHAR ∉ ([] : CStr) ∧ CTCP_DELIM_CHAR ∉ List.replicate 511 'a' ∧
    not_ignored sample_env "bob".toList "me".toList ∧ not_flooding sample_env "bob".toList ∧
    target_open sample_env "me".toList ∧ request_hook_passes sample_env ∧
    (do_ctcp sample_env init_ctcp 2 true "bob".toList "me".toList
        ([] ++ CTCP_DELIM_CHAR :: ("VERSION".toList ++ CTCP_DELIM_CHAR :: List.replicate 511 'a'))
        sample_state).map Prod.fst = some (List.replicate 510 'a') ∧
    List.replicate 510 'a' ≠ [] ++ List.replicate 511 'a' := by
  refine ⟨by decide, ?_, sample_env_not_ignored _ _, sample_env_not_flooding _,
    sample_env_target_open, sample_env_request_hook_passes, ?_, ?_⟩
  · set_option maxRecDepth 100000 in decide
  · set_option maxRecDepth 100000 in decide
  · set_option maxRecDepth 100000 in decide

/-- C3 (amended): for delimiter-free `P` and `S` such that the whole message
fits the protocol buffer, a request-mode `do_ctcp` of
`P ++ DELIM ++ "VERSION" ++ DELIM ++ S` from a sender that is neither ignored
nor flooding, to a target that passes the gate, with a request hook that does
not take the span over, returns exactly `P ++ S`; the trace gains exactly one
entry of `send_ctcp`, a reply (request = 0) to the sender with verb VERSION,
and `send_text` is called once, for the sender with protocol NOTICE, unless
the sender's name leaves no room (`len <= 0`), in which case it is not called. -/
theorem do_ctcp_version_request (env : Env) (fuel : Nat) (sender target P S : CStr)
    (st : State)
    (hP : CTCP_DELIM_CHAR ∉ P) (hS : CTCP_DELIM_CHAR ∉ S)
    (hfit : fits env (P ++ CTCP_DELIM_CHAR :: ("VERSION".toList ++ CTCP_DELIM_CHAR :: S)))
    (hi : not_ignored env sender target) (hf : not_flooding env sender)
    (ht : target_open env target) (hh : request_hook_passes env) (hfuel : 2 ≤ fuel) :
    ∃ st' text pb,
      do_ctcp env init_ctcp fuel true sender target
        (P ++ CTCP_DELIM_CHAR :: ("VERSION".toList ++ CTCP_DELIM_CHAR :: S)) st
        = some (P ++ S, st') ∧
      st'.trace.filter Event.is_send_ctcp = st.trace.filter Event.is_send_ctcp ++
        [.send_ctcp false sender "VERSION".toList (some text)] ∧
      st'.trace.filter Event.is_send_text = st.trace.filter Event.is_send_text ++
        (if send_ctcp_len env sender ≤ 0 then []
         else [.send_text sender
           (send_ctcp_wire (send_ctcp_len env sender).toNat "VERSION".toList (some pb))
           "NOTICE".toList]) := by
  obtain ⟨n, rfl⟩ : ∃ n, fuel = n + 2 := ⟨fuel - 2, by omega⟩
  obtain ⟨reenter, hre⟩ := do_ctcp_eq_body env init_ctcp (n + 2)
  obtain ⟨st', hst', htr⟩ := do_ctcp_body_version env reenter n sender target P S st
    hP hS hfit hi hf ht hh
  simp only [] at htr
  rw [hre]
  refine ⟨st', ?_⟩
  apply Exists.intro
  apply Exists.intro
  refine ⟨hst', ?_, ?_⟩
  · rw [htr]
    simp only [List.filter_append, send_ctcp_events_is_send_ctcp]
    rw [entry_events_filter _ _ _ _ _ _ _ (by simp [Event.is_send_ctcp])
        (by simp [Event.is_send_ctcp]) (by simp [Event.is_send_ctcp]),
      default_events_filter _ _ _ _ _ _ _ _ (by simp [Event.is_send_ctcp])
        (by simp [Event.is_send_ctcp])]
    simp [Event.is_send_ctcp]
    rfl
  · rw [htr]
    simp only [List.filter_append, send_ctcp_events_is_send_text]
    rw [entry_events_filter _ _ _ _ _ _ _ (by simp [Event.is_send_text])
        (by simp [Event.is_send_text]) (by simp [Event.is_send_text]),
      default_events_filter _ _ _ _ _ _ _ _ (by simp [Event.is_send_text])
        (by simp [Event.is_send_text])]
    simp [Event.is_send_text, send_ctcp_protocol, send_ctcp_pb]
    rfl

theorem do_ctcp_version_request_witness :
    CTCP_DELIM_CHAR ∉ "hi ".toList ∧ CTCP_DELIM_CHAR ∉ " bye".toList ∧
    fits sample_env
      ("hi ".toList ++ CTCP_DELIM_CHAR :: ("VERSION".toList ++ CTCP_DELIM_CHAR :: " bye".toList)) ∧
    not_ignored sample_env "bob".toList "me".toList ∧ not_flooding sample_env "bob".toList ∧
    target_open sample_env "me".toList ∧ request_hook_passes sample_env ∧
    ∃ st' text pb,
      do_ctcp sample_env init_ctcp 2 true "bob".toList "me".toList
        ("hi ".toList ++ CTCP_DELIM_CHAR :: ("VERSION".toList ++ CTCP_DELIM_CHAR :: " bye".toList))
        sample_state = some ("hi ".toList ++ " bye".toList, st') ∧
      st'.trace.filter Event.is_send_ctcp = sample_state.trace.filter Event.is_send_ctcp ++
        [.send_ctcp false "bob".toList "VERSION".toList (some text)] ∧
      st'.trace.filter Event.is_send_text = sample_state.trace.filter Event.is_send_text ++
        (if send_ctcp_len sample_env "bob".toList ≤ 0 then []
         else [.send_text "bob".toList
           (send_ctcp_wire (send_ctcp_len sample_env "bob".toList).toNat "VERSION".toList
             (some pb))
           "NOTICE".toList]) :=
  ⟨by decide, by decide, by unfold fits; decide, sample_env_not_ignored _ _,
    sample_env_not_flooding _, sample_env_target_open, sample_env_request_hook_passes,
    do_ctcp_version_request sample_env 2 "bob".toList "me".toList "hi ".toList " bye".toList
      sample_state (by decide) (by decide) (by unfold fits; decide) (sample_env_not_ignored _ _)
      (sample_env_not_flooding _) sample_env_target_open sample_env_request_hook_passes
      (by decide)⟩

/-! ## More than eight delimiters -/

theorem strip_spans_aux_length_le (n : Nat) : ∀ s : CStr,
    (strip_spans_aux n s).length ≤ s.length := by
  induction n with
  | zero => intro s; exact le_refl _
  | succ n ih =>
    intro s
    cases h1 : cut_at CTCP_DELIM_CHAR s with
    | none => simp only [strip_spans_aux, h1]; exact le_refl _
    | some ab =>
      obtain ⟨a, b⟩ := ab
      obtain ⟨hs, _⟩ := cut_at_some_spec h1
      cases h2 : cut_at CTCP_DELIM_CHAR b with
      | none => simp only [strip_spans_aux, h1, h2]; exact le_refl _
      | some cd =>
        obtain ⟨c, d⟩ := cd
        obtain ⟨hb, _⟩ := cut_at_some_spec h2
        simp only [strip_spans_aux, h1, h2]
        have := ih d
        rw [hs, hb]
        simp
        omega

theorem strip_spans_length_le (s : CStr) : (strip_spans s).length ≤ s.length :=
  strip_spans_aux_length_le _ s

/-- The body of `do_ctcp` on a text with more than eight delimiters: the loop
runs with `dont_process_more` set, so the trace gains the entry and the final
`pop_message_from` and nothing else; a text that fits loses exactly its spans. -/
theorem do_ctcp_body_many (env : Env) (bucket : Bucket) (reenter : Decoder) (fuel : Nat)
    (request : Bool) (sender target str : CStr) (st : State)
    (h9 : 9 ≤ charcount str CTCP_DELIM_CHAR) (hfuel : charcount str CTCP_DELIM_CHAR ≤ fuel) :
    ∃ out st', do_ctcp_body env bucket reenter fuel request sender target str st
        = some (out, st') ∧
      st'.trace = st.trace ++ entry_events env request sender target str st.trace
        ++ [.pop_message_from] ∧
      st'.sed = st.sed ∧
      (fits env str → out = strip_spans str) := by
  have hc : charcount (strlcpy str (env.BIG_BUFFER_SIZE + 1 - 2)) CTCP_DELIM_CHAR ≤ fuel :=
    le_trans (count_take_le _ _ _) hfuel
  obtain ⟨out, hout⟩ := ctcp_loop_latched env bucket reenter request sender target fuel
    (strlcpy str (env.BIG_BUFFER_SIZE + 1 - 2)) (do_ctcp_entry env request sender target str st).2
    hc (by omega)
  refine ⟨strlcpy out env.BIG_BUFFER_SIZE,
    (do_ctcp_entry env request sender target str st).2.log .pop_message_from, ?_, ?_, ?_, ?_⟩
  · unfold do_ctcp_body
    rw [if_neg (by omega), do_ctcp_entry_many _ _ _ _ _ _ (by omega), hout]
  · rw [log_trace, do_ctcp_entry_trace]
  · rw [log_sed, do_ctcp_entry_sed]
  · intro hfit
    have e : strlcpy str (env.BIG_BUFFER_SIZE + 1 - 2) = str :=
      strlcpy_of_le (by have := hfit.1; have := hfit.2; omega)
    rw [e, ctcp_loop_latched_fits env bucket reenter request sender target fuel str _
      hfuel (by omega) hfit] at hout
    simp only [Option.some.injEq, Prod.mk.injEq, and_true] at hout
    rw [← hout]
    apply strlcpy_of_le
    have := strip_spans_length_le str
    have := hfit.1
    have := hfit.2
    omega

/-- C4 (as stated, refuted): with the buffer sizes 512 and 2048, ten delimiters
followed by 511 bytes of plain text come back as 502 bytes, because each turn
of the loop copies the text after the span with
`strlcpy(.., IRCD_BUFFER_SIZE - 1)`; removing the spans alone leaves all 511. -/
theorem do_ctcp_many_delims_long_text :
    9 ≤ charcount (List.replicate 10 CTCP_DELIM_CHAR ++ List.replicate 511 'a')
      CTCP_DELIM_CHAR ∧
    (do_ctcp sample_env init_ctcp 20 true "bob".toList "me".toList
        (List.replicate 10 CTCP_DELIM_CHAR ++ List.replicate 511 'a')
        sample_state).map Prod.fst = some (List.replicate 502 'a') ∧
    strip_spans (List.replicate 10 CTCP_DELIM_CHAR ++ List.replicate 511 'a')
      = List.replicate 511 'a' ∧
    List.replicate 502 'a' ≠ List.replicate 511 'a' := by
  refine ⟨?_, ?_, ?_, ?_⟩
  · set_option maxRecDepth 100000 in decide
  · set_option maxRecDepth 100000 in decide
  · set_option maxRecDepth 100000 in decide
  · set_option maxRecDepth 100000 in decide

/-- C4 (amended): for every message with nine or more delimiter bytes, in
either mode, `do_ctcp` returns and dispatches nothing: the trace gains the
ignore predicate, in request mode the flood predicate, the window level and
its release, so no hook is offered anything, no handler is entered and no line
is shown; and when the message fits the protocol buffer the text returned is
the message with every left-to-right paired delimiter span removed. -/
theorem do_ctcp_many_delims (env : Env) (bucket : Bucket) (fuel : Nat)
    (request : Bool) (sender target str : CStr) (st : State)
    (h9 : 9 ≤ charcount str CTCP_DELIM_CHAR) (hfuel : charcount str CTCP_DELIM_CHAR ≤ fuel) :
    ∃ out st', do_ctcp env bucket fuel request sender target str st = some (out, st') ∧
      st'.trace = st.trace ++ entry_events env request sender target str st.trace
        ++ [.pop_message_from] ∧
      st'.trace.filter Event.is_do_hook = st.trace.filter Event.is_do_hook ∧
      st'.trace.filter Event.is_handler = st.trace.filter Event.is_handler ∧
      st'.trace.filter Event.is_say = st.trace.filter Event.is_say ∧
      (fits env str → out = strip_spans str) := by
  obtain ⟨reenter, hre⟩ := do_ctcp_eq_body env bucket fuel
  obtain ⟨out, st', h, htr, _, hout⟩ := do_ctcp_body_many env bucket reenter fuel request
    sender target str st h9 hfuel
  rw [hre]
  refine ⟨out, st', h, htr, ?_, ?_, ?_, hout⟩
  · rw [htr, List.filter_append, List.filter_append,
      entry_events_filter _ _ _ _ _ _ _ (by simp [Event.is_do_hook])
        (by simp [Event.is_do_hook]) (by simp [Event.is_do_hook])]
    simp [Event.is_do_hook]
  · rw [htr, List.filter_append, List.filter_append,
      entry_events_filter _ _ _ _ _ _ _ (by simp [Event.is_handler])
        (by simp [Event.is_handler]) (by simp [Event.is_handler])]
    simp [Event.is_handler]
  · rw [htr, List.filter_append, List.filter_append,
      entry_events_filter _ _ _ _ _ _ _ (by simp [Event.is_say])
        (by simp [Event.is_say]) (by simp [Event.is_say])]
    simp [Event.is_say]

theorem do_ctcp_many_delims_witness :
    9 ≤ charcount "\x01A\x01p\x01VERSION\x01q\x01PING 1\x01\x01\x01r\x01D\x01s".toList
      CTCP_DELIM_CHAR ∧
    charcount "\x01A\x01p\x01VERSION\x01q\x01PING 1\x01\x01\x01r\x01D\x01s".toList
      CTCP_DELIM_CHAR ≤ 10 ∧
    fits sample_env "\x01A\x01p\x01VERSION\x01q\x01PING 1\x01\x01\x01r\x01D\x01s".toList ∧
    ∃ out st', do_ctcp sample_env init_ctcp 10 true "bob".toList "me".toList
        "\x01A\x01p\x01VERSION\x01q\x01PING 1\x01\x01\x01r\x01D\x01s".toList sample_state
        = some (out, st') ∧
      out = "pqrs".toList ∧
      st'.trace.filter Event.is_do_hook = [] ∧
      st'.trace.filter Event.is_handler = [] ∧
      st'.trace.filter Event.is_say = [] :=
  ⟨by decide, by decide, by unfold fits; decide,
    (do_ctcp_many_delims sample_env init_ctcp 10 true "bob".toList "me".toList
      "\x01A\x01p\x01VERSION\x01q\x01PING 1\x01\x01\x01r\x01D\x01s".toList sample_state
      (by decide) (by decide)).imp fun _ h => h.imp fun _ h =>
        ⟨h.1, (h.2.2.2.2.2 (by unfold fits; decide)).trans (by decide), h.2.2.1, h.2.2.2.1,
          h.2.2.2.2.1⟩⟩

/-! ## The first span of a message, when the registry has no handler for it -/

/-- The body of `do_ctcp` on a text that fits, passes every gate, and whose
first span is not empty and has no handler: the span gets the default
handling, and everything after it is dropped without a trace. -/
theorem do_ctcp_body_unrecognized (env : Env) (bucket : Bucket) (reenter : Decoder)
    (fuel : Nat) (request : Bool) (sender target P b R : CStr) (st : State)
    (hP : CTCP_DELIM_CHAR ∉ P) (hb : CTCP_DELIM_CHAR ∉ b) (hne : b ≠ [])
    (hcount : charcount (P ++ CTCP_DELIM_CHAR :: (b ++ CTCP_DELIM_CHAR :: R))
      CTCP_DELIM_CHAR ≤ 8)
    (hfit : fits env (P ++ CTCP_DELIM_CHAR :: (b ++ CTCP_DELIM_CHAR :: R)))
    (hi : not_ignored env sender target) (hf : not_flooding env sender)
    (ht : target_open env target) (hh : request = true → request_hook_passes env)
    (hu : find_ctcp bucket request (split_command b).1 = none)
    (hfuel : charcount (P ++ CTCP_DELIM_CHAR :: (b ++ CTCP_DELIM_CHAR :: R))
      CTCP_DELIM_CHAR ≤ fuel) :
    ∃ st',
      do_ctcp_body env bucket reenter fuel request sender target
        (P ++ CTCP_DELIM_CHAR :: (b ++ CTCP_DELIM_CHAR :: R)) st
        = some (P ++ strip_spans R, st') ∧
      let tr0 := st.trace ++ entry_events env request sender target
        (P ++ CTCP_DELIM_CHAR :: (b ++ CTCP_DELIM_CHAR :: R)) st.trace
      let arg := (env.inbound_recode tr0 sender target (split_command b).2).getD
        (split_command b).2
      let offer : List Event := if request then
          [.do_hook .CTCP_REQUEST_LIST
            (sender ++ [' '] ++ target ++ [' '] ++ (split_command b).1 ++ [' '] ++ arg)]
        else []
      st'.trace = tr0 ++ offer
        ++ default_events env request sender target (split_command b).1 arg (tr0 ++ offer)
        ++ [.pop_message_from] := by
  have hc := count_span P b R hP hb
  obtain ⟨n, rfl⟩ : ∃ n, fuel = n + 1 := ⟨fuel - 1, by omega⟩
  have hPR : fits env (P ++ R) := fits_of_length_le hfit (by simp; omega)
  have hcPR : charcount (P ++ R) CTCP_DELIM_CHAR ≤ n := by
    have : charcount (P ++ R) CTCP_DELIM_CHAR = charcount R CTCP_DELIM_CHAR := by
      unfold charcount
      simp [List.count_eq_zero_of_not_mem hP]
    omega
  have hlen : (P ++ strip_spans R).length + 1 ≤ env.BIG_BUFFER_SIZE := by
    have h1 := hPR.1
    have h2 := hPR.2
    have h3 := strip_spans_length_le R
    simp at h1 ⊢
    omega
  rw [do_ctcp_body_fits _ _ _ _ _ _ _ _ _ (by omega) hfit,
    do_ctcp_entry_open _ _ _ _ _ _ hcount hi hf ht,
    ctcp_loop_span _ _ _ _ _ _ _ _ _ _ _ hP hb hne hfit]
  cases request with
  | true =>
    rw [process_span_request _ _ _ _ _ _ _ (hh rfl), dispatch_span_unrecognized _ _ _ _ _ _ _ _ _ _ hu]
    simp only []
    rw [ctcp_loop_latched_fits _ _ _ _ _ _ _ _ _ hcPR (by omega) hPR]
    simp only []
    rw [strip_spans_append_left _ _ hP, strlcpy_of_le hlen]
    refine ⟨_, rfl, ?_⟩
    simp only [log_trace, default_handling_trace, in_ctcp_decr_trace,
      in_ctcp_incr_trace, do_ctcp_entry_trace, List.append_assoc, List.singleton_append,
      List.cons_append, List.nil_append, if_true]
  | false =>
    rw [process_span_reply, dispatch_span_unrecognized _ _ _ _ _ _ _ _ _ _ hu]
    simp only []
    rw [ctcp_loop_latched_fits _ _ _ _ _ _ _ _ _ hcPR (by omega) hPR]
    simp only []
    rw [strip_spans_append_left _ _ hP, strlcpy_of_le hlen]
    refine ⟨_, rfl, ?_⟩
    simp only [log_trace, default_handling_trace, do_ctcp_entry_trace, List.append_assoc,
      List.nil_append, List.append_nil, Bool.false_eq_true, if_false]

theorem default_events_is_do_hook (env : Env) (request : Bool)
    (sender target cmd arg : CStr) (tr : Trace) :
    (default_events env request sender target cmd arg tr).filter Event.is_do_hook
      = [.do_hook (seen_list request)
          (sender ++ [' '] ++ target ++ [' '] ++ cmd ++ [' '] ++ arg)] := by
  unfold default_events seen_list
  cases request <;> simp <;> split_ifs <;> simp [Event.is_do_hook]

theorem default_events_is_say (env : Env) (request : Bool)
    (sender target cmd arg : CStr) (tr : Trace) :
    ((default_events env request sender target cmd arg tr).filter Event.is_say).length
      = if env.do_hook tr (seen_list request)
            (sender ++ [' '] ++ target ++ [' '] ++ cmd ++ [' '] ++ arg) ≠ 0 then 1 else 0 := by
  unfold default_events seen_list
  cases request <;> simp <;> split_ifs <;> simp_all [Event.is_say]

theorem request_offer_filter (request : Bool) (sender target cmd arg : CStr)
    (p : Event → Bool) (h : ∀ a b, p (.do_hook a b) = false) :
    (request_offer request sender target cmd arg).filter p = [] := by
  unfold request_offer
  cases request <;> simp [h]

/-- When the copy of the text into `local_ctcp_buffer` leaves fewer than two
delimiters, the loop finds no span and nothing is dispatched. -/
theorem do_ctcp_body_cut (env : Env) (bucket : Bucket) (reenter : Decoder) (fuel : Nat)
    (request : Bool) (sender target str : CStr) (st : State)
    (h2 : 2 ≤ charcount str CTCP_DELIM_CHAR)
    (hcut : charcount (strlcpy str (env.BIG_BUFFER_SIZE + 1 - 2)) CTCP_DELIM_CHAR < 2) :
    do_ctcp_body env bucket reenter (fuel + 1) request sender target str st =
      some (strlcpy (strlcpy str (env.BIG_BUFFER_SIZE + 1 - 2)) env.BIG_BUFFER_SIZE,
        (do_ctcp_entry env request sender target str st).2.log .pop_message_from) := by
  unfold do_ctcp_body
  rw [if_neg (by omega), ctcp_loop_done _ _ _ _ _ _ _ _ _ _ hcut]

/-- C5 (as stated, refuted), in two ways.  First, with a script on `CTCP_LIST`
that takes spans over, two unrecognized spans in an ungated message are offered
to the hooks once each list, and no line is shown at all: the first span does
not produce its display line.  Second, with the buffer sizes 512 and 2048 and
2046 bytes of plain text in front of the two spans, `do_ctcp` copies only the
plain text into its buffer and offers nothing to any hook. -/
theorem latch_display_suppressed_or_cut :
    (charcount "\x01FOO a\x01 \x01BAR\x01".toList CTCP_DELIM_CHAR ≤ 8 ∧
      not_ignored silent_env "bob".toList "me".toList ∧
      not_flooding silent_env "bob".toList ∧ target_open silent_env "me".toList ∧
      find_ctcp init_ctcp true (split_command "FOO a".toList).1 = none ∧
      find_ctcp init_ctcp true (split_command "BAR".toList).1 = none ∧
      (∀ tr text, silent_env.do_hook tr .CTCP_REQUEST_LIST text ≠ 0) ∧
      (do_ctcp silent_env init_ctcp 4 true "bob".toList "me".toList
          "\x01FOO a\x01 \x01BAR\x01".toList sample_state).map
        (fun r => (r.2.trace.filter Event.is_do_hook, r.2.trace.filter Event.is_say))
        = some ([.do_hook .CTCP_REQUEST_LIST "bob me FOO a".toList,
                 .do_hook .CTCP_LIST "bob me FOO a".toList], [])) ∧
    (do_ctcp sample_env init_ctcp 4 true "bob".toList "me".toList
        (List.replicate 2046 'a' ++ "\x01FOO a\x01 \x01BAR\x01".toList) sample_state).map
      (fun r => r.2.trace.filter Event.is_do_hook) = some [] := by
  refine ⟨⟨by decide, ?_, ?_, ⟨by decide, fun h => absurd h (by decide)⟩,
    by decide, by decide, ?_, by decide⟩, ?_⟩
  · intro tr; show (0 : Int) ≠ 1; decide
  · intro tr chan text; show (0 : Int) ≠ 1; decide
  · intro tr text
    show (if HookList.CTCP_REQUEST_LIST = HookList.CTCP_LIST then (0 : Int) else 1) ≠ 0
    decide
  · have h2 : 2 ≤ charcount (List.replicate 2046 'a' ++ "\x01FOO a\x01 \x01BAR\x01".toList)
        CTCP_DELIM_CHAR := by
      unfold charcount
      rw [List.count_append]
      have : List.count CTCP_DELIM_CHAR "\x01FOO a\x01 \x01BAR\x01".toList = 4 := by decide
      omega
    have hcut : charcount (strlcpy (List.replicate 2046 'a' ++
        "\x01FOO a\x01 \x01BAR\x01".toList) (sample_env.BIG_BUFFER_SIZE + 1 - 2))
        CTCP_DELIM_CHAR < 2 := by
      show charcount (List.take 2046 (List.replicate 2046 'a' ++ _)) _ < 2
      rw [List.take_left' (List.length_replicate _ _)]
      unfold charcount
      rw [List.count_replicate]
      decide
    show (do_ctcp_body sample_env init_ctcp (do_ctcp sample_env init_ctcp 3) (3 + 1) true
      "bob".toList "me".toList _ sample_state).map _ = _
    rw [do_ctcp_body_cut _ _ _ _ _ _ _ _ _ h2 hcut]
    simp only [Option.map, log_trace, do_ctcp_entry_trace, List.filter_append]
    rw [entry_events_filter _ _ _ _ _ _ _ (by simp [Event.is_do_hook])
      (by simp [Event.is_do_hook]) (by simp [Event.is_do_hook])]
    rfl

/-- C5 (amended): take a message that fits the protocol buffer, passes every
gate (at most eight delimiters, sender not ignored and not flooding, target
open, request hook not taking spans over) and holds two consecutive spans, the
first of which is the first span of the message, is not empty and has a verb
without a handler for the current mode.  Then the first span is offered to the
CTCP-seen hook and shown with one default display line unless that hook
returns zero; the second span, whatever its verb, is removed from the text
with no hook offer, no handler call and no display: the trace gains nothing
but the entry, the events of the first span and the final release. -/
theorem latch_after_unrecognized (env : Env) (bucket : Bucket) (fuel : Nat) (request : Bool)
    (sender target P b1 M b2 S : CStr) (st : State)
    (hP : CTCP_DELIM_CHAR ∉ P) (hb1 : CTCP_DELIM_CHAR ∉ b1) (hM : CTCP_DELIM_CHAR ∉ M)
    (hb2 : CTCP_DELIM_CHAR ∉ b2) (hne : b1 ≠ [])
    (hcount : charcount (P ++ CTCP_DELIM_CHAR :: (b1 ++ CTCP_DELIM_CHAR ::
      (M ++ CTCP_DELIM_CHAR :: (b2 ++ CTCP_DELIM_CHAR :: S)))) CTCP_DELIM_CHAR ≤ 8)
    (hfit : fits env (P ++ CTCP_DELIM_CHAR :: (b1 ++ CTCP_DELIM_CHAR ::
      (M ++ CTCP_DELIM_CHAR :: (b2 ++ CTCP_DELIM_CHAR :: S)))))
    (hi : not_ignored env sender target) (hf : not_flooding env sender)
    (ht : target_open env target) (hh : request = true → request_hook_passes env)
    (hu : find_ctcp bucket request (split_command b1).1 = none)
    (hfuel : charcount (P ++ CTCP_DELIM_CHAR :: (b1 ++ CTCP_DELIM_CHAR ::
      (M ++ CTCP_DELIM_CHAR :: (b2 ++ CTCP_DELIM_CHAR :: S)))) CTCP_DELIM_CHAR ≤ fuel) :
    ∃ st',
      do_ctcp env bucket fuel request sender target
        (P ++ CTCP_DELIM_CHAR :: (b1 ++ CTCP_DELIM_CHAR ::
          (M ++ CTCP_DELIM_CHAR :: (b2 ++ CTCP_DELIM_CHAR :: S)))) st
        = some (P ++ (M ++ strip_spans S), st') ∧
      let tr0 := st.trace ++ entry_events env request sender target
        (P ++ CTCP_DELIM_CHAR :: (b1 ++ CTCP_DELIM_CHAR ::
          (M ++ CTCP_DELIM_CHAR :: (b2 ++ CTCP_DELIM_CHAR :: S)))) st.trace
      let cmd := (split_command b1).1
      let arg := (env.inbound_recode tr0 sender target (split_command b1).2).getD
        (split_command b1).2
      let offer := request_offer request sender target cmd arg
      let text := sender ++ [' '] ++ target ++ [' '] ++ cmd ++ [' '] ++ arg
      st'.trace = tr0 ++ offer
        ++ default_events env request sender target cmd arg (tr0 ++ offer)
        ++ [.pop_message_from] ∧
      st'.trace.filter Event.is_do_hook = st.trace.filter Event.is_do_hook ++ offer
        ++ [.do_hook (seen_list request) text] ∧
      (st'.trace.filter Event.is_say).length = (st.trace.filter Event.is_say).length
        + (if env.do_hook (tr0 ++ offer) (seen_list request) text ≠ 0 then 1 else 0) ∧
      st'.trace.filter Event.is_handler = st.trace.filter Event.is_handler := by
  obtain ⟨reenter, hre⟩ := do_ctcp_eq_body env bucket fuel
  obtain ⟨st', h, htr⟩ := do_ctcp_body_unrecognized env bucket reenter fuel request sender
    target P b1 (M ++ CTCP_DELIM_CHAR :: (b2 ++ CTCP_DELIM_CHAR :: S)) st hP hb1 hne hcount hfit
    hi hf ht hh hu hfuel
  rw [strip_spans_span M b2 S hM hb2] at h
  rw [hre]
  refine ⟨st', h, ?_⟩
  have ho : (if request = true then
        [Event.do_hook .CTCP_REQUEST_LIST
          (sender ++ [' '] ++ target ++ [' '] ++ (split_command b1).1 ++ [' '] ++
            (env.inbound_recode (st.trace ++ entry_events env request sender target
              (P ++ CTCP_DELIM_CHAR :: (b1 ++ CTCP_DELIM_CHAR ::
                (M ++ CTCP_DELIM_CHAR :: (b2 ++ CTCP_DELIM_CHAR :: S)))) st.trace)
              sender target (split_command b1).2).getD (split_command b1).2)]
      else []) = request_offer request sender target (split_command b1).1
        ((env.inbound_recode (st.trace ++ entry_events env request sender target
          (P ++ CTCP_DELIM_CHAR :: (b1 ++ CTCP_DELIM_CHAR ::
            (M ++ CTCP_DELIM_CHAR :: (b2 ++ CTCP_DELIM_CHAR :: S)))) st.trace)
          sender target (split_command b1).2).getD (split_command b1).2) := rfl
  simp only [ho] at htr
  simp only []
  refine ⟨htr, ?_, ?_, ?_⟩
  · rw [htr]
    simp only [List.filter_append, default_events_is_do_hook]
    rw [entry_events_filter _ _ _ _ _ _ _ (by simp [Event.is_do_hook])
      (by simp [Event.is_do_hook]) (by simp [Event.is_do_hook])]
    have : (request_offer request sender target (split_command b1).1
        ((env.inbound_recode (st.trace ++ entry_events env request sender target
          (P ++ CTCP_DELIM_CHAR :: (b1 ++ CTCP_DELIM_CHAR ::
            (M ++ CTCP_DELIM_CHAR :: (b2 ++ CTCP_DELIM_CHAR :: S)))) st.trace)
          sender target (split_command b1).2).getD (split_command b1).2)).filter
        Event.is_do_hook = request_offer request sender target (split_command b1).1
        ((env.inbound_recode (st.trace ++ entry_events env request sender target
          (P ++ CTCP_DELIM_CHAR :: (b1 ++ CTCP_DELIM_CHAR ::
            (M ++ CTCP_DELIM_CHAR :: (b2 ++ CTCP_DELIM_CHAR :: S)))) st.trace)
          sender target (split_command b1).2).getD (split_command b1).2) := by
      unfold request_offer
      cases request <;> simp [Event.is_do_hook]
    rw [this]
    simp [Event.is_do_hook]
  · rw [htr]
    simp only [List.filter_append, List.length_append, default_events_is_say]
    rw [entry_events_filter _ _ _ _ _ _ _ (by simp [Event.is_say])
      (by simp [Event.is_say]) (by simp [Event.is_say]),
      request_offer_filter _ _ _ _ _ _ (by simp [Event.is_say])]
    simp [Event.is_say]
  · rw [htr]
    simp only [List.filter_append]
    rw [entry_events_filter _ _ _ _ _ _ _ (by simp [Event.is_handler])
      (by simp [Event.is_handler]) (by simp [Event.is_handler]),
      request_offer_filter _ _ _ _ _ _ (by simp [Event.is_handler]),
      default_events_filter _ _ _ _ _ _ _ _ (by simp [Event.is_handler])
        (by simp [Event.is_handler])]
    simp [Event.is_handler]

theorem latch_after_unrecognized_witness :
    CTCP_DELIM_CHAR ∉ ([] : CStr) ∧ CTCP_DELIM_CHAR ∉ "FOO a".toList ∧
    CTCP_DELIM_CHAR ∉ " ".toList ∧ CTCP_DELIM_CHAR ∉ "BAR".toList ∧ "FOO a".toList ≠ [] ∧
    charcount ([] ++ CTCP_DELIM_CHAR :: ("FOO a".toList ++ CTCP_DELIM_CHAR ::
      (" ".toList ++ CTCP_DELIM_CHAR :: ("BAR".toList ++ CTCP_DELIM_CHAR :: " z".toList))))
      CTCP_DELIM_CHAR ≤ 8 ∧
    fits sample_env ([] ++ CTCP_DELIM_CHAR :: ("FOO a".toList ++ CTCP_DELIM_CHAR ::
      (" ".toList ++ CTCP_DELIM_CHAR :: ("BAR".toList ++ CTCP_DELIM_CHAR :: " z".toList)))) ∧
    not_ignored sample_env "bob".toList "me".toList ∧ not_flooding sample_env "bob".toList ∧
    target_open sample_env "me".toList ∧ (true = true → request_hook_passes sample_env) ∧
    find_ctcp init_ctcp true (split_command "FOO a".toList).1 = none ∧
    ∃ st',
      do_ctcp sample_env init_ctcp 4 true "bob".toList "me".toList
        ([] ++ CTCP_DELIM_CHAR :: ("FOO a".toList ++ CTCP_DELIM_CHAR ::
          (" ".toList ++ CTCP_DELIM_CHAR :: ("BAR".toList ++ CTCP_DELIM_CHAR :: " z".toList))))
        sample_state = some ("  z".toList, st') ∧
      st'.trace.filter Event.is_do_hook =
        [.do_hook .CTCP_REQUEST_LIST "bob me FOO a".toList,
         .do_hook .CTCP_LIST "bob me FOO a".toList] ∧
      (st'.trace.filter Event.is_say).length = 1 ∧
      st'.trace.filter Event.is_handler = [] :=
  ⟨by decide, by decide, by decide, by decide, by decide, by decide, by unfold fits; decide,
    sample_env_not_ignored _ _, sample_env_not_flooding _, sample_env_target_open,
    fun _ => sample_env_request_hook_passes, by decide,
    (latch_after_unrecognized sample_env init_ctcp 4 true "bob".toList "me".toList
      [] "FOO a".toList " ".toList "BAR".toList " z".toList sample_state
      (by decide) (by decide) (by decide) (by decide) (by decide) (by decide)
      (by unfold fits; decide) (sample_env_not_ignored _ _) (sample_env_not_flooding _)
      sample_env_target_open (fun _ => sample_env_request_hook_passes) (by decide)
      (by decide)).imp fun _ h => ⟨h.1, h.2.2.1, h.2.2.2.1, h.2.2.2.2⟩⟩

/-! ## The encoder -/

theorem send_ctcp_putbuf2_eq (len : Nat) (type : CStr) (pb : Option CStr) :
    send_ctcp_putbuf2 len type pb = (ctcp_frame type pb).take (len - 1) := by
  cases pb <;> rfl

theorem ctcp_frame_eq (type : CStr) (pb : Option CStr) :
    ∃ body, ctcp_frame type pb = CTCP_DELIM_CHAR :: (type ++ body) ++ [CTCP_DELIM_CHAR] := by
  cases pb with
  | none => exact ⟨[], by simp [ctcp_frame]⟩
  | some pb => exact ⟨' ' :: pb, by simp [ctcp_frame]⟩

/-- A frame at least three bytes shorter than the buffer is sent as it is. -/
theorem send_ctcp_wire_short (len : Nat) (type : CStr) (pb : Option CStr)
    (h : (ctcp_frame type pb).length + 3 ≤ len) :
    send_ctcp_wire len type pb = ctcp_frame type pb := by
  unfold send_ctcp_wire force_delim
  rw [send_ctcp_putbuf2_eq, List.take_of_length_le (by omega)]
  rw [if_neg (by omega), if_pos (by omega)]

/-- A frame exactly two bytes shorter than the buffer is sent with one more
delimiter behind it: the store of line 998 lands on its terminating NUL. -/
theorem send_ctcp_wire_extra (len : Nat) (type : CStr) (pb : Option CStr)
    (h : (ctcp_frame type pb).length + 2 = len) :
    send_ctcp_wire len type pb = ctcp_frame type pb ++ [CTCP_DELIM_CHAR] := by
  unfold send_ctcp_wire force_delim
  rw [send_ctcp_putbuf2_eq, List.take_of_length_le (by omega)]
  rw [if_neg (by omega), if_neg (by omega), List.take_of_length_le (by omega)]

/-- A frame exactly one byte shorter than the buffer is sent as it is: the
store of line 998 lands on its closing delimiter. -/
theorem send_ctcp_wire_exact (len : Nat) (type : CStr) (pb : Option CStr)
    (h : (ctcp_frame type pb).length + 1 = len) :
    send_ctcp_wire len type pb = ctcp_frame type pb := by
  obtain ⟨body, hf⟩ := ctcp_frame_eq type pb
  have hl : (CTCP_DELIM_CHAR :: (type ++ body)).length = len - 2 := by
    rw [hf] at h
    simp at h ⊢
    omega
  unfold send_ctcp_wire force_delim
  rw [send_ctcp_putbuf2_eq, List.take_of_length_le (by omega)]
  have h2 : ¬ len < 2 := by
    rw [hf] at h
    simp at h
    omega
  rw [if_neg h2, if_neg (by omega), hf, List.take_left' hl]

/-- With room for two bytes or more, what is sent is not empty and begins and
ends with the delimiter. -/
theorem send_ctcp_wire_delimited (len : Nat) (type : CStr) (pb : Option CStr)
    (h : 2 ≤ len) :
    send_ctcp_wire len type pb ≠ [] ∧
    (send_ctcp_wire len type pb).head? = some CTCP_DELIM_CHAR ∧
    (send_ctcp_wire len type pb).getLast? = some CTCP_DELIM_CHAR := by
  obtain ⟨body, hf⟩ := ctcp_frame_eq type pb
  by_cases hs : (ctcp_frame type pb).length + 3 ≤ len
  · rw [send_ctcp_wire_short len type pb hs, hf]
    exact ⟨by simp, by simp, List.getLast?_concat _⟩
  · unfold send_ctcp_wire force_delim
    rw [send_ctcp_putbuf2_eq, if_neg (by omega)]
    have hlen : ¬ ((ctcp_frame type pb).take (len - 1)).length < len - 2 := by
      rw [List.length_take]
      omega
    rw [if_neg hlen, List.take_take, hf]
    refine ⟨by simp, ?_, by simp⟩
    by_cases h2 : len = 2
    · subst h2; simp
    · have : min (len - 2) (len - 1) = (len - 3) + 1 := by omega
      rw [this]
      simp

/-- What is sent begins with the delimiter and the whole verb as soon as the
buffer has room for the verb and three bytes more. -/
theorem send_ctcp_wire_verb (len : Nat) (type : CStr) (pb : Option CStr)
    (h : type.length + 3 ≤ len) :
    (send_ctcp_wire len type pb).take (type.length + 1) = CTCP_DELIM_CHAR :: type := by
  obtain ⟨body, hf⟩ := ctcp_frame_eq type pb
  have hpre : ∀ n, type.length + 1 ≤ n →
      ((ctcp_frame type pb).take n).take (type.length + 1) = CTCP_DELIM_CHAR :: type := by
    intro n hn
    rw [List.take_take, min_eq_left hn, hf]
    simp [List.take_append_of_le_length]
  unfold send_ctcp_wire force_delim
  rw [send_ctcp_putbuf2_eq, if_neg (by omega)]
  split
  · exact hpre _ (by omega)
  · rw [List.take_take, List.take_append_of_le_length]
    · exact hpre _ (by omega)
    · rw [List.length_take, hf]
      simp
      omega

/-- C6 (the code departs from it): with `IRCD_BUFFER_SIZE` 512 and the target
`#chan` the buffer has 495 bytes.  The frame of verb ACTION and `waves` is sent
as it is, as the claim says.  The frame of verb ACTION and an argument of 484
bytes has 493 bytes, so it fits untruncated, yet what `send_text` receives is
the frame followed by a second closing delimiter: the store
`putbuf2[len - 2] = CTCP_DELIM_CHAR` overwrites the NUL that ends the frame. -/
theorem send_ctcp_frame_two_short_of_buffer :
    send_ctcp_len sample_env "#chan".toList = 495 ∧
    (send_ctcp sample_env true "#chan".toList "ACTION".toList (some "waves".toList)
        sample_state).trace.filter Event.is_send_text
      = [.send_text "#chan".toList "\x01ACTION waves\x01".toList "PRIVMSG".toList] ∧
    (ctcp_frame "ACTION".toList (some (List.replicate 484 'a'))).length = 493 ∧
    (send_ctcp sample_env true "#chan".toList "ACTION".toList (some (List.replicate 484 'a'))
        sample_state).trace.filter Event.is_send_text
      = [.send_text "#chan".toList
          (ctcp_frame "ACTION".toList (some (List.replicate 484 'a')) ++ [CTCP_DELIM_CHAR])
          "PRIVMSG".toList] := by
  refine ⟨by decide, by decide, ?_, ?_⟩
  · set_option maxRecDepth 100000 in decide
  · set_option maxRecDepth 100000 in decide

/-- C7 (the code departs from it): with `IRCD_BUFFER_SIZE` 512 and a target of
499 bytes, `len` is 1, which passes the test `len <= 0`; the store of line 998
then goes to index -1, outside the one-byte buffer, and `send_text` receives an
empty text, which neither begins nor ends with the delimiter. -/
theorem send_ctcp_one_byte_buffer :
    send_ctcp_len sample_env (List.replicate 499 'x') = 1 ∧
    (forced_store_indices 1).1 = -1 ∧
    ¬ in_buffer 1 (forced_store_indices 1).1 ∧
    (send_ctcp sample_env true (List.replicate 499 'x') "VERSION".toList none
        sample_state).trace.filter Event.is_send_text
      = [.send_text (List.replicate 499 'x') [] "PRIVMSG".toList] := by
  refine ⟨?_, by decide, ?_, ?_⟩
  · set_option maxRecDepth 100000 in decide
  · unfold in_buffer forced_store_indices; decide
  · set_option maxRecDepth 100000 in decide

/-- C8 (as stated, refuted): with `IRCD_BUFFER_SIZE` 512 and a target of 495
bytes, `len` is 5 and a VERSION request is delivered as delimiter, `VE`,
delimiter: the verb is cut. -/
theorem send_ctcp_cuts_verb :
    send_ctcp_len sample_env (List.replicate 495 'x') = 5 ∧
    (send_ctcp sample_env true (List.replicate 495 'x') "VERSION".toList none
        sample_state).trace.filter Event.is_send_text
      = [.send_text (List.replicate 495 'x') "\x01VE\x01".toList "PRIVMSG".toList] := by
  constructor
  · set_option maxRecDepth 100000 in decide
  · set_option maxRecDepth 100000 in decide

/-- C8 (amended): the payload length `send_ctcp` computes depends on the target
alone, `len = IRCD_BUFFER_SIZE - (12 + |target|)`.  When `len <= 0` nothing is
delivered.  Otherwise exactly one text is delivered to the target, and it
begins with the delimiter followed by the complete verb whenever the verb and
three more bytes fit in `len`. -/
theorem send_ctcp_verb_kept (env : Env) (request : Bool) (target type : CStr)
    (format : Option CStr) (st : State) :
    (send_ctcp_len env target ≤ 0 →
      (send_ctcp env request target type format st).trace.filter Event.is_send_text
        = st.trace.filter Event.is_send_text) ∧
    (0 < send_ctcp_len env target →
      ∃ wire,
        (send_ctcp env request target type format st).trace.filter Event.is_send_text
          = st.trace.filter Event.is_send_text
            ++ [.send_text target wire (send_ctcp_protocol request)] ∧
        ((type.length : Int) + 3 ≤ send_ctcp_len env target →
          wire.take (type.length + 1) = CTCP_DELIM_CHAR :: type)) := by
  constructor
  · intro h
    rw [send_ctcp_trace, List.filter_append, send_ctcp_events_is_send_text, if_pos h]
    simp
  · intro h
    refine ⟨send_ctcp_wire (send_ctcp_len env target).toNat type
      (send_ctcp_pb env request target type format st.trace), ?_, ?_⟩
    · rw [send_ctcp_trace, List.filter_append, send_ctcp_events_is_send_text,
        if_neg (by omega)]
    · intro hv
      exact send_ctcp_wire_verb _ _ _ (by omega)

theorem send_ctcp_verb_kept_witness :
    0 < send_ctcp_len sample_env "#chan".toList ∧
    (("ACTION".toList.length : Int) + 3 ≤ send_ctcp_len sample_env "#chan".toList) ∧
    ∃ wire,
      (send_ctcp sample_env true "#chan".toList "ACTION".toList (some "waves".toList)
          sample_state).trace.filter Event.is_send_text
        = sample_state.trace.filter Event.is_send_text
          ++ [.send_text "#chan".toList wire (send_ctcp_protocol true)] ∧
      wire.take ("ACTION".toList.length + 1) = CTCP_DELIM_CHAR :: "ACTION".toList :=
  ⟨by decide, by decide,
    ((send_ctcp_verb_kept sample_env true "#chan".toList "ACTION".toList (some "waves".toList)
      sample_state).2 (by decide)).imp fun _ h => ⟨h.1, h.2 (by decide)⟩⟩

/-! ## The crypto handler -/

/-- The key lookup when the identity `tofrom` has a key: the peer is not asked for. -/
theorem crypto_decrypt_composite (env : Env) (sender target cmd args : CStr) (st : State)
    (k : Crypt) (h : env.is_crypted st.trace (tofrom env sender target) cmd = some k) :
    crypto_decrypt env sender target cmd args st =
      (some k,
       env.decrypt_msg (st.trace ++ [.is_crypted (tofrom env sender target) cmd]) args k,
       (st.log (.is_crypted (tofrom env sender target) cmd)).log (.decrypt_msg args k)) := by
  simp [crypto_decrypt, crypto_key, h]

/-- The key lookup when the identity `tofrom` has no key and the peer has one. -/
theorem crypto_decrypt_peer (env : Env) (sender target cmd args : CStr) (st : State)
    (k : Crypt) (h1 : env.is_crypted st.trace (tofrom env sender target) cmd = none)
    (h2 : env.is_crypted (st.trace ++ [.is_crypted (tofrom env sender target) cmd])
      (crypt_who env sender target st) cmd = some k) :
    crypto_decrypt env sender target cmd args st =
      (some k,
       env.decrypt_msg (st.trace ++ [.is_crypted (tofrom env sender target) cmd,
         .is_crypted (crypt_who env sender target st) cmd]) args k,
       ((st.log (.is_crypted (tofrom env sender target) cmd)).log
         (.is_crypted (crypt_who env sender target st) cmd)).log (.decrypt_msg args k)) := by
  simp [crypto_decrypt, crypto_key, h1, h2]

/-- The key lookup when neither identity has a key. -/
theorem crypto_decrypt_no_key (env : Env) (sender target cmd args : CStr) (st : State)
    (h1 : env.is_crypted st.trace (tofrom env sender target) cmd = none)
    (h2 : env.is_crypted (st.trace ++ [.is_crypted (tofrom env sender target) cmd])
      (crypt_who env sender target st) cmd = none) :
    crypto_decrypt env sender target cmd args st =
      (none, none,
       (st.log (.is_crypted (tofrom env sender target) cmd)).log
         (.is_crypted (crypt_who env sender target st) cmd)) := by
  simp [crypto_decrypt, crypto_key, h1, h2]

/-- The lookup and the decryption touch nothing but the key store and the cipher. -/
theorem crypto_decrypt_trace (env : Env) (sender target cmd args : CStr) (st : State) :
    ∃ new, (crypto_decrypt env sender target cmd args st).2.2.trace = st.trace ++ new ∧
      new.all Event.is_key_store = true ∧
      (crypto_decrypt env sender target cmd args st).2.2.sed = st.sed := by
  cases h1 : env.is_crypted st.trace (tofrom env sender target) cmd with
  | some k =>
    rw [crypto_decrypt_composite _ _ _ _ _ _ k h1]
    exact ⟨[.is_crypted (tofrom env sender target) cmd, .decrypt_msg args k],
      by simp, by simp [Event.is_key_store], rfl⟩
  | none =>
    cases h2 : env.is_crypted (st.trace ++ [.is_crypted (tofrom env sender target) cmd])
        (crypt_who env sender target st) cmd with
    | some k =>
      rw [crypto_decrypt_peer _ _ _ _ _ _ k h1 h2]
      exact ⟨[.is_crypted (tofrom env sender target) cmd,
        .is_crypted (crypt_who env sender target st) cmd, .decrypt_msg args k],
        by simp, by simp [Event.is_key_store], rfl⟩
    | none =>
      rw [crypto_decrypt_no_key _ _ _ _ _ _ h1 h2]
      exact ⟨[.is_crypted (tofrom env sender target) cmd,
        .is_crypted (crypt_who env sender target st) cmd],
        by simp, by simp [Event.is_key_store], rfl⟩

/-- Without a key, or without output from `decrypt_msg`, `do_crypto` answers
with the placeholder, whatever decoder it could re-enter. -/
theorem do_crypto_placeholder (env : Env) (reenter : Decoder) (sender target cmd args : CStr)
    (st : State)
    (h : (crypto_decrypt env sender target cmd args st).1 = none ∨
      (crypto_decrypt env sender target cmd args st).2.1 = none) :
    do_crypto env reenter sender target cmd args st =
      some (some "[ENCRYPTED MESSAGE]".toList, args,
        (crypto_decrypt env sender target cmd args st).2.2.set_sed 2) := by
  unfold do_crypto
  rcases hcd : crypto_decrypt env sender target cmd args st with ⟨key, ret, st1⟩
  rw [hcd] at h
  cases key with
  | none => rfl
  | some k =>
    cases ret with
    | none => rfl
    | some r => simp at h

/-- C9: when the key store has no key for either identity tried, or
`decrypt_msg` yields no output, `do_crypto` returns a text, never NULL and
never a failure, and the text is exactly `[ENCRYPTED MESSAGE]`; the argument is
left as it was; `sed` is 2; the outcome is the same whatever decoder is passed
for the re-entry, so `do_ctcp` is not re-entered; and the trace gains only
calls into the key store and the cipher. -/
theorem do_crypto_unreadable (env : Env) (reenter : Decoder) (sender target cmd args : CStr)
    (st : State)
    (h : (∀ tr, env.is_crypted tr (tofrom env sender target) cmd = none ∧
            env.is_crypted tr (crypt_who env sender target st) cmd = none) ∨
         (∀ tr key, env.decrypt_msg tr args key = none)) :
    ∃ st' new,
      do_crypto env reenter sender target cmd args st
        = some (some "[ENCRYPTED MESSAGE]".toList, args, st') ∧
      do_crypto env (fun _ _ _ _ _ => none) sender target cmd args st
        = some (some "[ENCRYPTED MESSAGE]".toList, args, st') ∧
      st'.sed = 2 ∧ st'.trace = st.trace ++ new ∧ new.all Event.is_key_store = true := by
  have hcd : (crypto_decrypt env sender target cmd args st).1 = none ∨
      (crypto_decrypt env sender target cmd args st).2.1 = none := by
    rcases h with h | h
    · left
      rw [crypto_decrypt_no_key _ _ _ _ _ _ (h _).1 (h _).2]
    · right
      cases h1 : env.is_crypted st.trace (tofrom env sender target) cmd with
      | some k => rw [crypto_decrypt_composite _ _ _ _ _ _ k h1]; exact h _ _
      | none =>
        cases h2 : env.is_crypted (st.trace ++ [.is_crypted (tofrom env sender target) cmd])
            (crypt_who env sender target st) cmd with
        | some k => rw [crypto_decrypt_peer _ _ _ _ _ _ k h1 h2]; exact h _ _
        | none => rw [crypto_decrypt_no_key _ _ _ _ _ _ h1 h2]
  obtain ⟨new, htr, hall, _⟩ := crypto_decrypt_trace env sender target cmd args st
  exact ⟨_, new, do_crypto_placeholder env reenter sender target cmd args st hcd,
    do_crypto_placeholder env _ sender target cmd args st hcd, rfl, htr, hall⟩

theorem do_crypto_unreadable_witness :
    ((∀ tr, sample_env.is_crypted tr (tofrom sample_env "bob".toList "me".toList) "SED".toList
          = none ∧
        sample_env.is_crypted tr (crypt_who sample_env "bob".toList "me".toList sample_state)
          "SED".toList = none) ∨
      (∀ tr key, sample_env.decrypt_msg tr "q1w2".toList key = none)) ∧
    ∃ st' new,
      do_crypto sample_env (do_ctcp sample_env init_ctcp 5) "bob".toList "me".toList
        "SED".toList "q1w2".toList sample_state
        = some (some "[ENCRYPTED MESSAGE]".toList, "q1w2".toList, st') ∧
      do_crypto sample_env (fun _ _ _ _ _ => none) "bob".toList "me".toList
        "SED".toList "q1w2".toList sample_state
        = some (some "[ENCRYPTED MESSAGE]".toList, "q1w2".toList, st') ∧
      st'.sed = 2 ∧ st'.trace = sample_state.trace ++ new ∧
      new.all Event.is_key_store = true :=
  ⟨Or.inl fun _ => ⟨rfl, rfl⟩,
    do_crypto_unreadable sample_env _ "bob".toList "me".toList "SED".toList "q1w2".toList
      sample_state (Or.inl fun _ => ⟨rfl, rfl⟩)⟩

/-- C10 (as stated, refuted): with key 1 stored for the composite identity
`me,bob!u@h` and key 2 for the peer `bob`, a SED message from `bob` to the
client is decrypted with key 1: the key store is asked for the composite
identity first, the peer is never asked for, and key 2 is not used. -/
theorem do_crypto_composite_before_peer :
    crypt_who two_key_env "bob".toList "me".toList sample_state = "bob".toList ∧
    tofrom two_key_env "bob".toList "me".toList = "me,bob!u@h".toList ∧
    (∀ tr, two_key_env.is_crypted tr "bob".toList "SED".toList = some 2) ∧
    (∀ tr, two_key_env.is_crypted tr "me,bob!u@h".toList "SED".toList = some 1) ∧
    (do_crypto two_key_env (fun _ _ _ _ _ => none) "bob".toList "me".toList "SED".toList
        "q1w2".toList sample_state).map (fun r => r.2.2.trace)
      = some [.is_crypted "me,bob!u@h".toList "SED".toList, .decrypt_msg "q1w2".toList 1] := by
  refine ⟨by decide, by decide, fun _ => rfl, fun _ => rfl, by decide⟩

/-- C10 (amended): the peer is the sender when the sender begins with `=` or
the target is the client itself, and the target otherwise; the composite
identity is target, comma, sender, `!`, the sender's userhost.  `do_crypto`
asks the key store for the composite identity first: a key found there is the
one `decrypt_msg` is called with, and the peer is not asked for.  Only when the
composite identity has no key is the peer asked for, and then the peer's key is
the one `decrypt_msg` is called with. -/
theorem do_crypto_key_order (env : Env) (sender target cmd args : CStr) (st : State) :
    crypt_who env sender target st
      = (if sender.head? = some '=' ∨ env.is_me st.trace target = true then sender
         else target) ∧
    tofrom env sender target = target ++ [','] ++ sender ++ ['!'] ++ env.FromUserHost ∧
    (∀ k, env.is_crypted st.trace (tofrom env sender target) cmd = some k →
      crypto_decrypt env sender target cmd args st =
        (some k,
         env.decrypt_msg (st.trace ++ [.is_crypted (tofrom env sender target) cmd]) args k,
         (st.log (.is_crypted (tofrom env sender target) cmd)).log (.decrypt_msg args k))) ∧
    (env.is_crypted st.trace (tofrom env sender target) cmd = none →
      ∀ k, env.is_crypted (st.trace ++ [.is_crypted (tofrom env sender target) cmd])
          (crypt_who env sender target st) cmd = some k →
        crypto_decrypt env sender target cmd args st =
          (some k,
           env.decrypt_msg (st.trace ++ [.is_crypted (tofrom env sender target) cmd,
             .is_crypted (crypt_who env sender target st) cmd]) args k,
           ((st.log (.is_crypted (tofrom env sender target) cmd)).log
             (.is_crypted (crypt_who env sender target st) cmd)).log
               (.decrypt_msg args k))) := by
  refine ⟨?_, rfl, fun k h => crypto_decrypt_composite _ _ _ _ _ _ k h,
    fun h1 k h2 => crypto_decrypt_peer _ _ _ _ _ _ k h1 h2⟩
  unfold crypt_who
  by_cases h1 : sender.head? = some '='
  · simp [h1]
  · by_cases h2 : env.is_me st.trace target = true
    · simp [h1, h2]
    · simp [h1, h2]

theorem do_crypto_key_order_witness :
    two_key_env.is_crypted sample_state.trace (tofrom two_key_env "bob".toList "me".toList)
      "SED".toList = some 1 ∧
    crypto_decrypt two_key_env "bob".toList "me".toList "SED".toList "q1w2".toList sample_state
      = (some 1, none,
         ⟨[.is_crypted "me,bob!u@h".toList "SED".toList, .decrypt_msg "q1w2".toList 1], 0, 0⟩) ∧
    peer_key_env.is_crypted sample_state.trace (tofrom peer_key_env "bob".toList "me".toList)
      "SED".toList = none ∧
    peer_key_env.is_crypted
      (sample_state.trace ++
        [.is_crypted (tofrom peer_key_env "bob".toList "me".toList) "SED".toList])
      (crypt_who peer_key_env "bob".toList "me".toList sample_state) "SED".toList = some 2 ∧
    crypto_decrypt peer_key_env "bob".toList "me".toList "SED".toList "q1w2".toList sample_state
      = (some 2, none,
         ⟨[.is_crypted "me,bob!u@h".toList "SED".toList, .is_crypted "bob".toList "SED".toList,
           .decrypt_msg "q1w2".toList 2], 0, 0⟩) :=
  ⟨by decide,
    (do_crypto_key_order two_key_env "bob".toList "me".toList "SED".toList "q1w2".toList
      sample_state).2.2.1 1 (by decide),
    by decide, by decide,
    (do_crypto_key_order peer_key_env "bob".toList "me".toList "SED".toList "q1w2".toList
      sample_state).2.2.2 (by decide) 2 (by decide)⟩

/-! ## PING replies -/

/-- A PING reply whose timestamp lies outside the life of the process is
reported and otherwise left alone. -/
theorem do_ping_reply_invalid (env : Env) (args : CStr) (st : State) (hne : args ≠ [])
    (h : env.my_atol args < env.start_time_sec ∨ env.my_atol args > (env.get_time st.trace).1) :
    do_ping_reply env args st =
      (none, args,
        st.log (.say ("Invalid CTCP PING reply [".toList ++ args ++ "] dropped.".toList))) := by
  unfold do_ping_reply
  simp only [hne, if_false]
  rw [if_pos h]

/-- A PING reply whose timestamp lies within the life of the process has its
argument overwritten with the elapsed time. -/
theorem do_ping_reply_valid (env : Env) (args : CStr) (st : State) (hne : args ≠ [])
    (h1 : env.start_time_sec ≤ env.my_atol args)
    (h2 : env.my_atol args ≤ (env.get_time st.trace).1) :
    ∃ tusec, do_ping_reply env args st =
      (none,
        snprintf (env.IRCD_BUFFER_SIZE / 2)
          (env.fmt_f ((env.get_time st.trace).1 - env.my_atol args) tusec ++ " seconds".toList),
        st) := by
  unfold do_ping_reply
  simp only [hne, if_false]
  rw [if_neg (by omega)]
  exact ⟨_, rfl⟩

theorem snprintf_of_le {s : CStr} {n : Nat} (h : s.length + 1 ≤ n) : snprintf n s = s := by
  unfold snprintf
  exact List.take_of_length_le (by omega)

/-- C11: for a non-empty PING reply argument whose leading integer `t`, as
`my_atol` reads it, is before the start of the process or after the current
time, `do_ping_reply` shows the diagnostic `Invalid CTCP PING reply [..]
dropped.`, returns NULL and leaves the argument as it was.  For `t` between
start and now it shows nothing, returns NULL, and overwrites the argument with
`snprintf(args, IRCD_BUFFER_SIZE / 2, "%f seconds", ..)`, the number being the
`%f` rendering of the seconds elapsed since `t`; that is the text
`<number> seconds` in full whenever it fits in `IRCD_BUFFER_SIZE / 2` bytes. -/
theorem do_ping_reply_range (env : Env) (args : CStr) (st : State) (hne : args ≠ []) :
    ((env.my_atol args < env.start_time_sec ∨
        env.my_atol args > (env.get_time st.trace).1) →
      do_ping_reply env args st =
        (none, args,
          st.log (.say ("Invalid CTCP PING reply [".toList ++ args
            ++ "] dropped.".toList)))) ∧
    (env.start_time_sec ≤ env.my_atol args → env.my_atol args ≤ (env.get_time st.trace).1 →
      ∃ tusec,
        do_ping_reply env args st =
          (none,
            snprintf (env.IRCD_BUFFER_SIZE / 2)
              (env.fmt_f ((env.get_time st.trace).1 - env.my_atol args) tusec
                ++ " seconds".toList),
            st) ∧
        ((env.fmt_f ((env.get_time st.trace).1 - env.my_atol args) tusec).length + 9
            ≤ env.IRCD_BUFFER_SIZE / 2 →
          (do_ping_reply env args st).2.1 =
            env.fmt_f ((env.get_time st.trace).1 - env.my_atol args) tusec
              ++ " seconds".toList)) := by
  refine ⟨do_ping_reply_invalid env args st hne, ?_⟩
  intro h1 h2
  obtain ⟨tusec, h⟩ := do_ping_reply_valid env args st hne h1 h2
  refine ⟨tusec, h, ?_⟩
  intro hfit
  rw [h]
  exact snprintf_of_le (by simp; omega)

theorem do_ping_reply_range_witness :
    "20".toList ≠ [] ∧
    (ping_env.my_atol "20".toList < ping_env.start_time_sec ∨
      ping_env.my_atol "20".toList > (ping_env.get_time sample_state.trace).1) ∧
    do_ping_reply ping_env "20".toList sample_state =
      (none, "20".toList,
        sample_state.log (.say "Invalid CTCP PING reply [20] dropped.".toList)) ∧
    "75".toList ≠ [] ∧
    ping_env.start_time_sec ≤ ping_env.my_atol "75".toList ∧
    ping_env.my_atol "75".toList ≤ (ping_env.get_time sample_state.trace).1 ∧
    do_ping_reply ping_env "75".toList sample_state
      = (none, "25.000000 seconds".toList, sample_state) :=
  ⟨by decide, by decide,
    (do_ping_reply_range ping_env "20".toList sample_state (by decide)).1 (by decide),
    by decide, by decide, by decide,
    (((do_ping_reply_range ping_env "75".toList sample_state (by decide)).2
      (by decide) (by decide)).elim fun _ h => h.1.trans rfl)⟩

/-! ## CLIENTINFO -/

/-- The loop of lines 398-403 appends the names in order as long as the
buffer of `BIG_BUFFER_SIZE + 1` bytes holds them. -/
theorem clientinfo_buffer (size : Nat) : ∀ (bucket : Bucket) (acc : CStr),
    acc.length + (verb_list bucket).length ≤ size →
    bucket.foldl (fun buffer item =>
        strlcat (strlcat buffer item.1 (size + 1)) [' '] (size + 1)) acc
      = acc ++ verb_list bucket := by
  intro bucket
  induction bucket with
  | nil => intro acc _; simp [verb_list]
  | cons item rest ih =>
    intro acc h
    simp only [verb_list, List.length_append, List.length_singleton] at h
    have e1 : strlcat acc item.1 (size + 1) = acc ++ item.1 := strlcat_of_le (by omega)
    have e2 : strlcat (acc ++ item.1) [' '] (size + 1) = acc ++ item.1 ++ [' '] :=
      strlcat_of_le (by simp; omega)
    rw [List.foldl_cons, e1, e2, ih _ (by simp; omega)]
    simp [verb_list]

theorem verb_list_init_ctcp :
    verb_list init_ctcp =
      ("ACTION DCC AESSHA256-CBC AES256-CBC CAST128ED-CBC BLOWFISH-CBC FISH SED SEDSHA UTC "
        ++ "VERSION PING ECHO CLIENTINFO USERINFO ERRMSG FINGER TIME ").toList := by
  decide

/-- C12: for a CLIENTINFO request with an empty argument, `do_clientinfo`
returns NULL and enters `send_ctcp` exactly once, with a reply (request = 0)
to the sender under the verb received; whenever the names fit the buffer of
`BIG_BUFFER_SIZE + 1` bytes, the text of the reply is every name of the
registry once, in registration order, each followed by one space, then
` :Use `, the verb received, and ` <COMMAND> to get more specific information`.
For the registry built by `init_ctcp` the names are ACTION DCC AESSHA256-CBC
AES256-CBC CAST128ED-CBC BLOWFISH-CBC FISH SED SEDSHA UTC VERSION PING ECHO
CLIENTINFO USERINFO ERRMSG FINGER TIME. -/
theorem do_clientinfo_lists_verbs (env : Env) (bucket : Bucket) (sender cmd : CStr)
    (st : State) (hcap : (verb_list bucket).length ≤ env.BIG_BUFFER_SIZE) :
    do_clientinfo env bucket sender cmd [] st =
      (none, [],
        send_ctcp env false sender cmd
          (some (verb_list bucket ++ " :Use ".toList ++ cmd
            ++ " <COMMAND> to get more specific information".toList)) st) ∧
    (do_clientinfo env bucket sender cmd [] st).2.2.trace.filter Event.is_send_ctcp =
      st.trace.filter Event.is_send_ctcp ++
        [.send_ctcp false sender cmd
          (some (verb_list bucket ++ " :Use ".toList ++ cmd
            ++ " <COMMAND> to get more specific information".toList))] ∧
    verb_list init_ctcp =
      ("ACTION DCC AESSHA256-CBC AES256-CBC CAST128ED-CBC BLOWFISH-CBC FISH SED SEDSHA UTC "
        ++ "VERSION PING ECHO CLIENTINFO USERINFO ERRMSG FINGER TIME ").toList := by
  have h : do_clientinfo env bucket sender cmd [] st =
      (none, [],
        send_ctcp env false sender cmd
          (some (verb_list bucket ++ " :Use ".toList ++ cmd
            ++ " <COMMAND> to get more specific information".toList)) st) := by
    unfold do_clientinfo
    rw [if_neg (by simp), clientinfo_buffer env.BIG_BUFFER_SIZE bucket [] (by simpa using hcap)]
    rfl
  refine ⟨h, ?_, verb_list_init_ctcp⟩
  rw [h]
  simp only [send_ctcp_trace, List.filter_append, send_ctcp_events_is_send_ctcp]

theorem do_clientinfo_lists_verbs_witness :
    (verb_list init_ctcp).length ≤ sample_env.BIG_BUFFER_SIZE ∧
    (do_clientinfo sample_env init_ctcp "bob".toList "CLIENTINFO".toList [] sample_state
        ).2.2.trace.filter Event.is_send_ctcp =
      sample_state.trace.filter Event.is_send_ctcp ++
        [.send_ctcp false "bob".toList "CLIENTINFO".toList
          (some (verb_list init_ctcp ++ " :Use ".toList ++ "CLIENTINFO".toList
            ++ " <COMMAND> to get more specific information".toList))] ∧
    (do_clientinfo sample_env init_ctcp "bob".toList "CLIENTINFO".toList [] sample_state
        ).2.2.trace.filter Event.is_send_text =
      [.send_text "bob".toList
        ("\x01CLIENTINFO ACTION DCC AESSHA256-CBC AES256-CBC CAST128ED-CBC BLOWFISH-CBC FISH "
          ++ "SED SEDSHA UTC VERSION PING ECHO CLIENTINFO USERINFO ERRMSG FINGER TIME  "
          ++ ":Use CLIENTINFO <COMMAND> to get more specific information\x01").toList
        "NOTICE".toList] :=
  ⟨by set_option maxRecDepth 100000 in decide,
    (do_clientinfo_lists_verbs sample_env init_ctcp "bob".toList "CLIENTINFO".toList
      sample_state (by set_option maxRecDepth 100000 in decide)).2.1,
    by set_option maxRecDepth 100000 in decide⟩

/-- C13 (the code departs from it): the search of lines 805-815 compares with
`strcmp`.  A request `\x01VERSION\x01` reaches `do_version`, which replies; the
request `\x01version\x01` finds no entry, no handler is entered, no reply is sent
and the span is shown as an unknown CTCP.  The lookup of `do_clientinfo` in the
same registry (line 385) uses `my_stricmp`: asked about `version`, it answers
with the entry of VERSION. -/
theorem do_ctcp_lookup_case_sensitive :
    (find_ctcp init_ctcp true "VERSION".toList).map (fun item => item.2.func)
      = some (some .do_version) ∧
    find_ctcp init_ctcp true "version".toList = none ∧
    (do_ctcp sample_env init_ctcp 3 true "bob".toList "me".toList "\x01VERSION\x01".toList
        sample_state).map
      (fun r => (r.1, r.2.trace.filter Event.is_handler,
        (r.2.trace.filter Event.is_send_ctcp).length))
      = some ([], [.handler .do_version "bob".toList "me".toList "VERSION".toList []], 1) ∧
    (do_ctcp sample_env init_ctcp 3 true "bob".toList "me".toList "\x01version\x01".toList
        sample_state).map
      (fun r => (r.1, r.2.trace.filter Event.is_handler,
        (r.2.trace.filter Event.is_send_ctcp).length, r.2.trace.filter Event.is_say))
      = some ([], [], 0, [.say "CTCP version from bob".toList]) ∧
    (do_clientinfo caseless_env init_ctcp "bob".toList "CLIENTINFO".toList "version".toList
        sample_state).2.2.trace.filter Event.is_send_ctcp
      = [.send_ctcp false "bob".toList "CLIENTINFO".toList
          (some "VERSION shows client type, version and environment".toList)] := by
  refine ⟨by decide, by decide, by decide, by decide, ?_⟩
  set_option maxRecDepth 100000 in decide

/-- C14 (as stated, refuted): ACTION carries `CTCP_NOLIMIT`.  Without a flood
the request `\x01ACTION waves\x01` enters `do_atmosphere`.  When the flood
predicate returns 1 at the CTCP level (sender not ignored, target open, two
delimiters), `dont_process_more` is set on line 716 before the loop and before
any flag is read: the span is removed, `do_atmosphere` is not entered and
nothing is shown. -/
theorem do_ctcp_flood_drops_nolimit_verb :
    (find_ctcp init_ctcp true "ACTION".toList).map
        (fun item => (item.2.func, item.2.flag &&& CTCP_NOLIMIT))
      = some (some .do_atmosphere, CTCP_NOLIMIT) ∧
    charcount "\x01ACTION waves\x01".toList CTCP_DELIM_CHAR ≤ 8 ∧
    (∀ tr, flood_env.check_ignore_channel tr "bob".toList flood_env.FromUserHost "me".toList
      .LEVEL_CTCP ≠ flood_env.IGNORED) ∧
    target_open flood_env "me".toList ∧
    (do_ctcp sample_env init_ctcp 3 true "bob".toList "me".toList
        "\x01ACTION waves\x01".toList sample_state).map
      (fun r => (r.1, r.2.trace.filter Event.is_handler))
      = some ([], [.handler .do_atmosphere "bob".toList "me".toList "ACTION".toList
          "waves".toList]) ∧
    (do_ctcp flood_env init_ctcp 3 true "bob".toList "me".toList
        "\x01ACTION waves\x01".toList sample_state).map
      (fun r => (r.1, r.2.trace.filter Event.is_handler,
        r.2.trace.filter (fun e => decide (e = .put_it "*> bob waves".toList))))
      = some ([], [], []) := by
  refine ⟨by decide, by decide, fun _ => ?_, ⟨by decide, fun h => absurd h (by decide)⟩,
    by decide, by decide⟩
  show (0 : Int) ≠ 1
  decide

/-! ## Events a run cannot add

The lemmas of this section take a predicate `p` on events and show that a
run of the decoder adds no event that `p` marks, provided `p` marks none of
the events the code on the way logs. -/

theorem filter_append_new (p : Event → Bool) (tr new : List Event)
    (h : ∀ e ∈ new, p e = false) : (tr ++ new).filter p = tr.filter p := by
  have hnil : new.filter p = [] := List.filter_eq_nil_iff.mpr (fun e he => by simp [h e he])
  rw [List.filter_append, hnil, List.append_nil]

theorem send_ctcp_events_filter (env : Env) (request : Bool) (target type : CStr)
    (format : Option CStr) (tr : Trace) (p : Event → Bool)
    (h1 : ∀ a b c d, p (.send_ctcp a b c d) = false)
    (h2 : ∀ a, p (.message_from a .LEVEL_CTCP) = false)
    (h3 : ∀ a, p (.do_hook .SEND_CTCP_LIST a) = false)
    (h4 : ∀ a b c, p (.send_text a b c) = false)
    (h5 : p .pop_message_from = false) :
    (send_ctcp_events env request target type format tr).filter p = [] := by
  unfold send_ctcp_events
  split_ifs <;> simp [h1, h2, h3, h4, h5]

theorem send_ctcp_filter (env : Env) (request : Bool) (target type : CStr)
    (format : Option CStr) (st : State) (p : Event → Bool)
    (hp : ∀ e, e.by_handler = true → p e = false) :
    (send_ctcp env request target type format st).trace.filter p = st.trace.filter p := by
  rw [send_ctcp_trace, List.filter_append,
    send_ctcp_events_filter _ _ _ _ _ _ _ (fun _ _ _ _ => hp _ rfl) (fun _ => hp _ rfl)
      (fun _ => hp _ rfl) (fun _ _ _ => hp _ rfl) (hp _ rfl),
    List.append_nil]

theorem do_atmosphere_filter (env : Env) (sender target args : CStr) (st : State)
    (p : Event → Bool) (hp : ∀ e, e.by_handler = true → p e = false) :
    (do_atmosphere env sender target args st).2.2.trace.filter p = st.trace.filter p := by
  unfold do_atmosphere
  simp only
  split_ifs <;> simp [List.filter_append, hp, Event.by_handler]

theorem do_dcc_filter (env : Env) (sender target args : CStr) (st : State)
    (p : Event → Bool) (hp : ∀ e, e.by_handler = true → p e = false) :
    (do_dcc env sender target args st).2.2.trace.filter p = st.trace.filter p := by
  unfold do_dcc
  simp only
  repeat' split
  all_goals simp [List.filter_append, hp, Event.by_handler]

theorem do_clientinfo_filter (env : Env) (bucket : Bucket) (sender cmd args : CStr)
    (st : State) (p : Event → Bool) (hp : ∀ e, e.by_handler = true → p e = false) :
    (do_clientinfo env bucket sender cmd args st).2.2.trace.filter p = st.trace.filter p := by
  unfold do_clientinfo
  repeat' split
  all_goals exact send_ctcp_filter _ _ _ _ _ _ _ hp

theorem do_finger_filter (env : Env) (sender cmd args : CStr) (st : State)
    (p : Event → Bool) (hp : ∀ e, e.by_handler = true → p e = false) :
    (do_finger env sender cmd args st).2.2.trace.filter p = st.trace.filter p := by
  unfold do_finger
  simp only
  split
  · rfl
  · exact send_ctcp_filter _ _ _ _ _ _ _ hp

theorem do_echo_filter (env : Env) (sender target cmd args : CStr) (st : State)
    (p : Event → Bool) (hp : ∀ e, e.by_handler = true → p e = false) :
    (do_echo env sender target cmd args st).2.2.trace.filter p = st.trace.filter p := by
  unfold do_echo
  split
  · exact send_ctcp_filter _ _ _ _ _ _ _ hp
  · rfl

theorem do_dcc_reply_filter (env : Env) (sender target args : CStr) (st : State)
    (p : Event → Bool) (hp : ∀ a b c, p (.dcc_reject a b c) = false) :
    (do_dcc_reply env sender target args st).2.2.trace.filter p = st.trace.filter p := by
  unfold do_dcc_reply
  simp only
  repeat' split
  all_goals simp [List.filter_append, hp]

theorem do_ping_reply_filter (env : Env) (args : CStr) (st : State)
    (p : Event → Bool) (hp : ∀ a, p (.say a) = false) :
    (do_ping_reply env args st).2.2.trace.filter p = st.trace.filter p := by
  unfold do_ping_reply
  simp only
  split_ifs <;> simp [List.filter_append, hp]

theorem do_utc_filter (env : Env) (args : CStr) (st : State) (p : Event → Bool) :
    (do_utc env args st).2.2.trace.filter p = st.trace.filter p := by
  unfold do_utc
  split <;> rfl

/-- A key `do_crypto` decrypts with is one the key store holds. -/
theorem crypto_decrypt_key (env : Env) (sender target cmd args : CStr) (st : State) :
    ∀ k, (crypto_decrypt env sender target cmd args st).1 = some k →
      ∃ tr who cmd key, env.is_crypted tr who cmd = some key := by
  intro k hk
  cases h1 : env.is_crypted st.trace (tofrom env sender target) cmd with
  | some k1 => exact ⟨_, _, _, _, h1⟩
  | none =>
    cases h2 : env.is_crypted (st.trace ++ [.is_crypted (tofrom env sender target) cmd])
        (crypt_who env sender target st) cmd with
    | some k2 => exact ⟨_, _, _, _, h2⟩
    | none =>
      rw [crypto_decrypt_no_key _ _ _ _ _ _ h1 h2] at hk
      cases hk

/-- The handler `do_crypto` adds nothing `p` marks beyond what the decoder it
re-enters adds, when `p` marks no call into the key store or the cipher. -/
theorem do_crypto_filter (env : Env) (reenter : Decoder) (p : Event → Bool)
    (hk : ∀ e, e.is_key_store = true → p e = false)
    (hr : crypto_quiet env p reenter)
    (sender target cmd args : CStr) (st : State) (r : HandlerResult)
    (h : do_crypto env reenter sender target cmd args st = some r) :
    r.2.2.trace.filter p = st.trace.filter p := by
  obtain ⟨new, htr, hnew, -⟩ := crypto_decrypt_trace env sender target cmd args st
  have hq : (crypto_decrypt env sender target cmd args st).2.2.trace.filter p
      = st.trace.filter p := by
    rw [htr]
    exact filter_append_new _ _ _ (fun e he => hk e (List.all_eq_true.mp hnew e he))
  have hkey := crypto_decrypt_key env sender target cmd args st
  unfold do_crypto at h
  rcases hd : crypto_decrypt env sender target cmd args st with ⟨key, ret, st1⟩
  rw [hd] at h hq hkey
  cases key with
  | none =>
    simp only [Option.some.injEq] at h
    rw [← h]; exact hq
  | some k =>
    cases ret with
    | none =>
      simp only [Option.some.injEq] at h
      rw [← h]; exact hq
    | some t =>
      have hstore := hkey k rfl
      dsimp only at h
      by_cases hpm : env.get_server_doing_privmsg st1.trace = true
      · simp only [hpm, if_true] at h
        cases hre : reenter true sender target t st1 with
        | none => rw [hre] at h; cases h
        | some res =>
          obtain ⟨out, st2⟩ := res
          rw [hre] at h
          simp only [Option.some.injEq] at h
          rw [← h]
          exact (hr _ _ _ _ _ _ _ hstore (fun _ => hpm) hre).trans hq
      · simp only [hpm, Bool.false_eq_true, if_false] at h
        by_cases hn : env.get_server_doing_notice st1.trace = true
        · simp only [hn, if_true] at h
          cases hre : reenter false sender target t st1 with
          | none => rw [hre] at h; cases h
          | some res =>
            obtain ⟨out, st2⟩ := res
            rw [hre] at h
            simp only [Option.some.injEq] at h
            rw [← h]
            exact (hr _ _ _ _ _ _ _ hstore (fun hc => by cases hc) hre).trans hq
        · simp only [hn, Bool.false_eq_true, if_false, Option.some.injEq] at h
          rw [← h]; exact hq

theorem is_key_store_by_handler (e : Event) (h : e.is_key_store = true) :
    e.by_handler = true := by
  cases e <;> simp [Event.is_key_store] at h <;> rfl

theorem call_handler_filter (env : Env) (bucket : Bucket) (reenter : Decoder)
    (p : Event → Bool) (hp : ∀ e, e.by_handler = true → p e = false)
    (hr : crypto_quiet env p reenter)
    (hd : CTCP_Handler) (sender target cmd args : CStr) (st : State) (r : HandlerResult)
    (h : call_handler env bucket reenter hd sender target cmd args st = some r) :
    r.2.2.trace.filter p = st.trace.filter p := by
  cases hd with
  | do_crypto =>
    exact do_crypto_filter env reenter p (fun e he => hp e (is_key_store_by_handler e he)) hr
      _ _ _ _ _ _ h
  | do_utc => cases h; exact do_utc_filter _ _ _ _
  | do_atmosphere => cases h; exact do_atmosphere_filter _ _ _ _ _ _ hp
  | do_dcc => cases h; exact do_dcc_filter _ _ _ _ _ _ hp
  | do_clientinfo => cases h; exact do_clientinfo_filter _ _ _ _ _ _ _ hp
  | do_version => cases h; exact send_ctcp_filter _ _ _ _ _ _ _ hp
  | do_time => cases h; exact send_ctcp_filter _ _ _ _ _ _ _ hp
  | do_userinfo => cases h; exact send_ctcp_filter _ _ _ _ _ _ _ hp
  | do_echo => cases h; exact do_echo_filter _ _ _ _ _ _ _ hp
  | do_ping => cases h; exact send_ctcp_filter _ _ _ _ _ _ _ hp
  | do_finger => cases h; exact do_finger_filter _ _ _ _ _ _ hp
  | do_dcc_reply => cases h; exact do_dcc_reply_filter _ _ _ _ _ _ (fun _ _ _ => hp _ rfl)
  | do_ping_reply => cases h; exact do_ping_reply_filter _ _ _ _ (fun _ => hp _ rfl)

/-- The call of a registry entry, scripted or native, adds nothing `p` marks
beyond what the decoder `do_crypto` re-enters adds. -/
theorem call_entry_filter (env : Env) (bucket : Bucket) (reenter : Decoder)
    (p : Event → Bool) (hp : ∀ e, e.by_handler = true → p e = false)
    (hr : crypto_quiet env p reenter)
    (request : Bool) (entry : CtcpEntry) (sender target cmd arg : CStr) (st : State)
    (r : HandlerResult)
    (h : call_entry env bucket reenter request entry sender target cmd arg st = some r) :
    r.2.2.trace.filter p = st.trace.filter p := by
  unfold call_entry at h
  dsimp only at h
  cases hu : (if request = true then entry.user_func else entry.user_repl) with
  | some code =>
    rw [hu] at h
    simp only [Option.some.injEq] at h
    rw [← h]
    simp [List.filter_append, hp, Event.by_handler]
  | none =>
    rw [hu] at h
    cases hn : (if request = true then entry.func else entry.repl) with
    | none =>
      rw [hn] at h
      simp only [Option.some.injEq] at h
      rw [← h]
      rfl
    | some hd =>
      rw [hn] at h
      dsimp only at h
      cases hc : call_handler env bucket reenter hd sender target cmd arg
          (State.log st.in_ctcp_incr (.handler hd sender target cmd arg)) with
      | none => rw [hc] at h; cases h
      | some res =>
        rw [hc] at h
        simp only [Option.some.injEq] at h
        rw [← h]
        have := call_handler_filter env bucket reenter p hp hr hd _ _ _ _ _ _ hc
        simpa [List.filter_append, hp, Event.by_handler] using this

/-- The default handling adds an offer to the CTCP-seen hook of the mode and
at most a line shown. -/
theorem default_handling_seen_filter (env : Env) (request : Bool)
    (sender target cmd arg : CStr) (st : State) (p : Event → Bool)
    (h1 : ∀ a, p (.do_hook (seen_list request) a) = false) (h2 : ∀ a, p (.say a) = false) :
    (default_handling env request sender target cmd arg st).trace.filter p
      = st.trace.filter p := by
  rw [default_handling_trace, List.filter_append]
  unfold default_events
  cases request with
  | false =>
    simp only [Bool.false_eq_true, if_false]
    have h1 : ∀ a, p (.do_hook .CTCP_REPLY_LIST a) = false := h1
    split_ifs <;> simp [h1, h2]
  | true =>
    simp only [if_true]
    have h1 : ∀ a, p (.do_hook .CTCP_LIST a) = false := h1
    split_ifs <;> simp [h1, h2]

theorem dispatch_span_filter (env : Env) (bucket : Bucket) (reenter : Decoder)
    (request : Bool) (p : Event → Bool)
    (hseen : ∀ a, p (.do_hook (seen_list request) a) = false)
    (hsay : ∀ a, p (.say a) = false)
    (hcall : ∀ name entry sender target cmd arg st r,
      find_ctcp bucket request cmd = some (name, entry) →
      call_entry env bucket reenter request entry sender target cmd arg st = some r →
      r.2.2.trace.filter p = st.trace.filter p)
    (sender target cmd orig : CStr) (extra : Option CStr) (st : State)
    (r : Option CStr × Bool × State)
    (h : dispatch_span env bucket reenter request sender target cmd orig extra st = some r) :
    r.2.2.trace.filter p = st.trace.filter p := by
  unfold dispatch_span at h
  dsimp only at h
  cases hf : find_ctcp bucket request cmd with
  | none =>
    rw [hf] at h
    simp only [Option.some.injEq] at h
    rw [← h]
    exact default_handling_seen_filter _ _ _ _ _ _ _ _ hseen hsay
  | some item =>
    obtain ⟨name, entry⟩ := item
    rw [hf] at h
    dsimp only at h
    cases hc : call_entry env bucket reenter request entry sender target cmd
        (if (decide (entry.flag &&& CTCP_NORECODE ≠ 0)) = true then orig else extra.getD orig)
        st with
    | none => rw [hc] at h; cases h
    | some res =>
      obtain ⟨ptr, args, st1⟩ := res
      have hq := hcall name entry _ _ _ _ _ _ hf hc
      rw [hc] at h
      cases ptr with
      | some t =>
        simp only [Option.some.injEq] at h
        rw [← h]; exact hq
      | none =>
        dsimp only at h
        split at h
        · simp only [Option.some.injEq] at h
          rw [← h]; exact hq
        · simp only [Option.some.injEq] at h
          rw [← h]
          exact (default_handling_seen_filter _ _ _ _ _ _ _ _ hseen hsay).trans hq

theorem process_span_filter (env : Env) (bucket : Bucket) (reenter : Decoder)
    (request : Bool) (p : Event → Bool)
    (hoffer : request = true → ∀ a, p (.do_hook .CTCP_REQUEST_LIST a) = false)
    (hseen : ∀ a, p (.do_hook (seen_list request) a) = false)
    (hsay : ∀ a, p (.say a) = false)
    (hcall : ∀ name entry sender target cmd arg st r,
      find_ctcp bucket request cmd = some (name, entry) →
      call_entry env bucket reenter request entry sender target cmd arg st = some r →
      r.2.2.trace.filter p = st.trace.filter p)
    (sender target the_ctcp : CStr) (st : State) (r : Option CStr × Bool × State)
    (h : process_span env bucket reenter request sender target the_ctcp st = some r) :
    r.2.2.trace.filter p = st.trace.filter p := by
  cases request with
  | false =>
    rw [process_span_reply] at h
    exact dispatch_span_filter env bucket reenter false p hseen hsay hcall _ _ _ _ _ _ _ h
  | true =>
    have ho := hoffer rfl
    unfold process_span at h
    simp only [if_true] at h
    split at h
    · simp only [Option.some.injEq] at h
      rw [← h]
      simp [List.filter_append, ho]
    · have := dispatch_span_filter env bucket reenter true p hseen hsay hcall _ _ _ _ _ _ _ h
      rw [this]
      simp [List.filter_append, ho]

theorem ctcp_loop_filter (env : Env) (bucket : Bucket) (reenter : Decoder)
    (request : Bool) (p : Event → Bool) (sender target : CStr)
    (hoffer : request = true → ∀ a, p (.do_hook .CTCP_REQUEST_LIST a) = false)
    (hseen : ∀ a, p (.do_hook (seen_list request) a) = false)
    (hsay : ∀ a, p (.say a) = false)
    (hcall : ∀ name entry sender target cmd arg st r,
      find_ctcp bucket request cmd = some (name, entry) →
      call_entry env bucket reenter request entry sender target cmd arg st = some r →
      r.2.2.trace.filter p = st.trace.filter p) :
    ∀ (fuel : Nat) (buffer : CStr) (dpm : Bool) (st : State) (out : CStr) (st' : State),
      ctcp_loop env bucket reenter request sender target fuel buffer dpm st = some (out, st') →
      st'.trace.filter p = st.trace.filter p := by
  intro fuel
  induction fuel with
  | zero => intro buffer dpm st out st' h; simp [ctcp_loop] at h
  | succ fuel ih =>
    intro buffer dpm st out st' h
    unfold ctcp_loop at h
    cases hs : split_CTCP env.IRCD_BUFFER_SIZE buffer with
    | none =>
      simp only [hs, Option.some.injEq, Prod.mk.injEq] at h
      rw [← h.2]
    | some parts =>
      obtain ⟨before, the_ctcp, after⟩ := parts
      simp only [hs] at h
      split at h
      · exact ih _ _ _ _ _ h
      · cases hps : process_span env bucket reenter request sender target the_ctcp st with
        | none => rw [hps] at h; cases h
        | some res =>
          obtain ⟨ptr, dpm', st1⟩ := res
          have hq : st1.trace.filter p = st.trace.filter p :=
            process_span_filter env bucket reenter request p hoffer hseen hsay hcall _ _ _ _ _
              hps
          rw [hps] at h
          cases ptr with
          | some t => exact (ih _ _ _ _ _ h).trans hq
          | none => exact (ih _ _ _ _ _ h).trans hq

/-- One activation of the decoder on a text with two delimiters or more: of
the events `p` marks it adds those of its entry (lines 706-728), when neither
its hooks nor its handlers add any. -/
theorem do_ctcp_body_filter (env : Env) (bucket : Bucket) (reenter : Decoder)
    (request : Bool) (p : Event → Bool)
    (hpop : p .pop_message_from = false)
    (hoffer : request = true → ∀ a, p (.do_hook .CTCP_REQUEST_LIST a) = false)
    (hseen : ∀ a, p (.do_hook (seen_list request) a) = false)
    (hsay : ∀ a, p (.say a) = false)
    (hcall : ∀ name entry sender target cmd arg st r,
      find_ctcp bucket request cmd = some (name, entry) →
      call_entry env bucket reenter request entry sender target cmd arg st = some r →
      r.2.2.trace.filter p = st.trace.filter p)
    (fuel : Nat) (sender target str : CStr) (st : State) (out : CStr) (st' : State)
    (h2 : 2 ≤ charcount str CTCP_DELIM_CHAR)
    (h : do_ctcp_body env bucket reenter fuel request sender target str st = some (out, st')) :
    st'.trace.filter p = st.trace.filter p
      ++ (entry_events env request sender target str st.trace).filter p := by
  unfold do_ctcp_body at h
  rw [if_neg (by omega)] at h
  split at h
  · cases h
  · rename_i buf st1 hloop
    simp only [Option.some.injEq, Prod.mk.injEq] at h
    rw [← h.2, log_trace, List.filter_append,
      ctcp_loop_filter env bucket reenter request p sender target hoffer hseen hsay hcall
        _ _ _ _ _ _ hloop,
      do_ctcp_entry_trace, List.filter_append]
    simp [hpop]

theorem do_ctcp_body_reply_filter (env : Env) (bucket : Bucket) (reenter : Decoder)
    (p : Event → Bool)
    (hign : ∀ a b c, p (.check_ignore_channel a b c .LEVEL_CTCP) = false)
    (hfrom : ∀ a, p (.message_from a .LEVEL_CTCP) = false)
    (hpop : p .pop_message_from = false)
    (hseen : ∀ a, p (.do_hook .CTCP_REPLY_LIST a) = false) (hsay : ∀ a, p (.say a) = false)
    (hcall : ∀ name entry sender target cmd arg st r,
      find_ctcp bucket false cmd = some (name, entry) →
      call_entry env bucket reenter false entry sender target cmd arg st = some r →
      r.2.2.trace.filter p = st.trace.filter p)
    (fuel : Nat) (sender target str : CStr) (st : State) (out : CStr) (st' : State)
    (h : do_ctcp_body env bucket reenter fuel false sender target str st = some (out, st')) :
    st'.trace.filter p = st.trace.filter p := by
  by_cases h2 : 2 ≤ charcount str CTCP_DELIM_CHAR
  · rw [do_ctcp_body_filter env bucket reenter false p hpop (fun hc => by cases hc) hseen hsay
      hcall fuel sender target str st out st' h2 h]
    unfold entry_events
    simp only [Bool.false_eq_true, if_false]
    split_ifs <;> simp [hign, hfrom]
  · unfold do_ctcp_body at h
    rw [if_pos (by omega)] at h
    simp only [Option.some.injEq, Prod.mk.injEq] at h
    rw [← h.2]

/-- A reply-mode run adds no event that `p` marks, when `p` marks none of the
events of the decoder itself and the handlers of the registry, called in reply
mode with a decoder that adds none, add none. -/
theorem do_ctcp_reply_filter (env : Env) (bucket : Bucket) (p : Event → Bool)
    (hign : ∀ a b c, p (.check_ignore_channel a b c .LEVEL_CTCP) = false)
    (hfrom : ∀ a, p (.message_from a .LEVEL_CTCP) = false)
    (hpop : p .pop_message_from = false)
    (hseen : ∀ a, p (.do_hook .CTCP_REPLY_LIST a) = false) (hsay : ∀ a, p (.say a) = false)
    (hcall : ∀ reenter, reply_quiet p reenter →
      ∀ name entry sender target cmd arg st r,
        find_ctcp bucket false cmd = some (name, entry) →
        call_entry env bucket reenter false entry sender target cmd arg st = some r →
        r.2.2.trace.filter p = st.trace.filter p) :
    ∀ fuel, reply_quiet p (do_ctcp env bucket fuel) := by
  intro fuel
  induction fuel with
  | zero =>
    intro sender target str st out st' h
    exact do_ctcp_body_reply_filter env bucket _ p hign hfrom hpop hseen hsay
      (hcall _ (fun _ _ _ _ _ _ h => by cases h)) 0 sender target str st out st' h
  | succ fuel ih =>
    intro sender target str st out st' h
    exact do_ctcp_body_reply_filter env bucket _ p hign hfrom hpop hseen hsay
      (hcall _ ih) (fuel + 1) sender target str st out st' h

/-- While the server is never in the middle of a PRIVMSG, `do_crypto` re-enters
the decoder in reply mode or not at all. -/
theorem crypto_quiet_of_reply_quiet (env : Env) (p : Event → Bool) (reenter : Decoder)
    (hpriv : ∀ tr, env.get_server_doing_privmsg tr = false) (hr : reply_quiet p reenter) :
    crypto_quiet env p reenter := by
  intro request sender target str st out st' _ hreq h
  cases request with
  | false => exact hr _ _ _ _ _ _ h
  | true =>
    have := hreq rfl
    rw [hpriv] at this
    cases this

/-- In reply mode, with every re-entry from `do_crypto` in reply mode too, the
decoder adds no event `p` marks, when `p` marks no event of a handler, of the
reply-mode entry or of the reply-mode default handling. -/
theorem do_ctcp_reply_quiet (env : Env) (bucket : Bucket) (p : Event → Bool)
    (hp : ∀ e, e.by_handler = true → p e = false)
    (hign : ∀ a b c, p (.check_ignore_channel a b c .LEVEL_CTCP) = false)
    (hseen : ∀ a, p (.do_hook .CTCP_REPLY_LIST a) = false)
    (hpriv : ∀ tr, env.get_server_doing_privmsg tr = false) (fuel : Nat) :
    reply_quiet p (do_ctcp env bucket fuel) :=
  do_ctcp_reply_filter env bucket p hign (fun _ => hp _ rfl) (hp _ rfl) hseen
    (fun _ => hp _ rfl)
    (fun reenter hr _ entry sender target cmd arg st r _ h =>
      call_entry_filter env bucket reenter p hp
        (crypto_quiet_of_reply_quiet env p reenter hpriv hr) false entry sender target cmd arg
        st r h)
    fuel

theorem not_request_offer_of_by_handler (e : Event) (h : e.by_handler = true) :
    e.is_request_offer = false := by
  cases e <;> first | rfl | (rename_i l _; cases l <;> first | rfl | cases h)

theorem not_ctcp_flood_of_by_handler (e : Event) (h : e.by_handler = true) :
    e.is_ctcp_flood = false := by
  cases e <;> first | rfl | (rename_i l; cases l <;> first | rfl | cases h)

/-- In reply mode, with every re-entry from `do_crypto` in reply mode too, the
decoder offers nothing to the hook on `CTCP_REQUEST_LIST`. -/
theorem do_ctcp_reply_no_request_offer (env : Env) (bucket : Bucket)
    (hpriv : ∀ tr, env.get_server_doing_privmsg tr = false) (fuel : Nat) :
    reply_quiet Event.is_request_offer (do_ctcp env bucket fuel) :=
  do_ctcp_reply_quiet env bucket _ not_request_offer_of_by_handler (fun _ _ _ => rfl)
    (fun _ => rfl) hpriv fuel

/-- In reply mode, with every re-entry from `do_crypto` in reply mode too, the
decoder never consults the flood predicate at the CTCP level. -/
theorem do_ctcp_reply_no_ctcp_flood (env : Env) (bucket : Bucket)
    (hpriv : ∀ tr, env.get_server_doing_privmsg tr = false) (fuel : Nat) :
    reply_quiet Event.is_ctcp_flood (do_ctcp env bucket fuel) :=
  do_ctcp_reply_quiet env bucket _ not_ctcp_flood_of_by_handler (fun _ _ _ => rfl)
    (fun _ => rfl) hpriv fuel

theorem incr_log_decr (st : State) (e : Event) :
    (st.in_ctcp_incr.log e).in_ctcp_decr = st.log e := by
  cases st
  simp [State.in_ctcp_incr, State.log, State.in_ctcp_decr]

/-- A span the request hook takes over: nothing is searched, called or shown,
and the latch is set. -/
theorem process_span_claimed (env : Env) (bucket : Bucket) (reenter : Decoder)
    (sender target the_ctcp : CStr) (st : State)
    (hclaim : env.do_hook st.trace .CTCP_REQUEST_LIST
      (offer_text env sender target the_ctcp st.trace) = 0) :
    process_span env bucket reenter true sender target the_ctcp st =
      some (none, true,
        st.log (.do_hook .CTCP_REQUEST_LIST (offer_text env sender target the_ctcp st.trace))) := by
  unfold offer_text at hclaim
  unfold process_span
  simp only [if_true, in_ctcp_incr_trace, hclaim, incr_log_decr]
  rfl

theorem ctcp_loop_claimed (env : Env) (bucket : Bucket) (reenter : Decoder)
    (sender target : CStr) (fuel : Nat) (buffer : CStr) (st : State)
    (before the_ctcp after : CStr)
    (hsplit : split_CTCP env.IRCD_BUFFER_SIZE buffer = some (before, the_ctcp, after))
    (hne : the_ctcp ≠ [])
    (hclaim : env.do_hook st.trace .CTCP_REQUEST_LIST
      (offer_text env sender target the_ctcp st.trace) = 0)
    (hfuel : charcount buffer CTCP_DELIM_CHAR ≤ fuel + 1) :
    ∃ out,
      ctcp_loop env bucket reenter true sender target (fuel + 1) buffer false st =
        some (out, st.log (.do_hook .CTCP_REQUEST_LIST
          (offer_text env sender target the_ctcp st.trace))) ∧
      charcount out CTCP_DELIM_CHAR < 2 ∧
      (fits env buffer → out = strip_spans buffer) := by
  have hcnt := split_CTCP_some_count hsplit
  have hres : charcount (strlcat before after (env.BIG_BUFFER_SIZE + 1 - 2)) CTCP_DELIM_CHAR
      ≤ fuel := by
    have := count_strlcat_le CTCP_DELIM_CHAR before after (env.BIG_BUFFER_SIZE + 1 - 2)
    unfold charcount at hfuel ⊢
    omega
  have hpos : 0 < fuel := by
    unfold charcount at hfuel
    omega
  have hstep : ctcp_loop env bucket reenter true sender target (fuel + 1) buffer false st =
      ctcp_loop env bucket reenter true sender target fuel
        (strlcat before after (env.BIG_BUFFER_SIZE + 1 - 2)) true
        (st.log (.do_hook .CTCP_REQUEST_LIST
          (offer_text env sender target the_ctcp st.trace))) := by
    rw [ctcp_loop, hsplit]
    simp only [hne, Bool.false_eq_true, or_self, if_false,
      process_span_claimed env bucket reenter sender target the_ctcp st hclaim]
  obtain ⟨out, hout⟩ := ctcp_loop_latched env bucket reenter true sender target fuel
    (strlcat before after (env.BIG_BUFFER_SIZE + 1 - 2))
    (st.log (.do_hook .CTCP_REQUEST_LIST (offer_text env sender target the_ctcp st.trace)))
    hres hpos
  refine ⟨out, hstep.trans hout, ctcp_loop_result_lt_two _ _ _ _ _ _ _ _ _ _ _ _ hout, ?_⟩
  intro hfit
  obtain ⟨b, r, hbuf, hbefore, hb, -, hafter⟩ := split_CTCP_some_spec hsplit
  have hlen : buffer.length = before.length + b.length + r.length + 2 := by
    rw [hbuf]; simp; omega
  have hr : after = r := by
    rw [hafter]
    apply strlcpy_of_le
    have := hfit.1
    omega
  have hcat : strlcat before after (env.BIG_BUFFER_SIZE + 1 - 2) = before ++ r := by
    rw [hr]
    apply strlcat_of_le
    have := hfit.1
    have := hfit.2
    omega
  rw [hcat] at hout
  have hfit2 : fits env (before ++ r) :=
    fits_of_length_le hfit (by rw [hlen]; simp; omega)
  have hpos2 : charcount (before ++ r) CTCP_DELIM_CHAR ≤ fuel := by rw [← hcat]; exact hres
  rw [ctcp_loop_latched_fits env bucket reenter true sender target fuel (before ++ r) _ hpos2
    hpos hfit2] at hout
  simp only [Option.some.injEq, Prod.mk.injEq] at hout
  rw [← hout.1, hbuf, strip_spans_span before b r hbefore hb,
    strip_spans_append_left before r hbefore]

/-- A request the gates let through and whose first span the request hook
takes over: the run ends, and gains the entry events, the one offer and the
final release. -/
theorem do_ctcp_body_claimed (env : Env) (bucket : Bucket) (reenter : Decoder) (fuel : Nat)
    (sender target str : CStr) (st : State) (before the_ctcp after : CStr)
    (hopen : (do_ctcp_entry env true sender target str st).1 = false)
    (hsplit : split_CTCP env.IRCD_BUFFER_SIZE (strlcpy str (env.BIG_BUFFER_SIZE + 1 - 2))
      = some (before, the_ctcp, after))
    (hne : the_ctcp ≠ [])
    (hclaim : env.do_hook (do_ctcp_entry env true sender target str st).2.trace
      .CTCP_REQUEST_LIST
      (offer_text env sender target the_ctcp
        (do_ctcp_entry env true sender target str st).2.trace) = 0)
    (hfuel : charcount str CTCP_DELIM_CHAR ≤ fuel) :
    ∃ out st',
      do_ctcp_body env bucket reenter fuel true sender target str st = some (out, st') ∧
      st'.trace = st.trace ++ entry_events env true sender target str st.trace ++
        [.do_hook .CTCP_REQUEST_LIST
          (offer_text env sender target the_ctcp
            (st.trace ++ entry_events env true sender target str st.trace)),
         .pop_message_from] ∧
      charcount out CTCP_DELIM_CHAR < 2 ∧
      (fits env str → out = strip_spans str) := by
  have hc2 : 2 ≤ charcount (strlcpy str (env.BIG_BUFFER_SIZE + 1 - 2)) CTCP_DELIM_CHAR := by
    by_contra hlt
    rw [(split_CTCP_eq_none_iff _ _).mpr (by omega)] at hsplit
    cases hsplit
  have hle : charcount (strlcpy str (env.BIG_BUFFER_SIZE + 1 - 2)) CTCP_DELIM_CHAR
      ≤ charcount str CTCP_DELIM_CHAR := count_take_le _ _ _
  obtain ⟨fuel', rfl⟩ : ∃ fuel', fuel = fuel' + 1 := ⟨fuel - 1, by omega⟩
  obtain ⟨out, hloop, hlt, hstrip⟩ := ctcp_loop_claimed env bucket reenter sender target fuel'
    (strlcpy str (env.BIG_BUFFER_SIZE + 1 - 2)) (do_ctcp_entry env true sender target str st).2
    before the_ctcp after hsplit hne hclaim (by omega)
  refine ⟨strlcpy out env.BIG_BUFFER_SIZE,
    (((do_ctcp_entry env true sender target str st).2.log (.do_hook .CTCP_REQUEST_LIST
      (offer_text env sender target the_ctcp
        (do_ctcp_entry env true sender target str st).2.trace))).log .pop_message_from),
    ?_, ?_, ?_, ?_⟩
  · unfold do_ctcp_body
    rw [if_neg (by omega), hopen, hloop]
  · simp only [log_trace, do_ctcp_entry_trace, List.append_assoc, List.singleton_append]
  · exact lt_of_le_of_lt (count_take_le _ _ _) hlt
  · intro hfit
    have h1 : strlcpy str (env.BIG_BUFFER_SIZE + 1 - 2) = str :=
      strlcpy_of_le (by have := hfit.1; have := hfit.2; omega)
    rw [h1] at hstrip
    rw [hstrip hfit]
    apply strlcpy_of_le
    have := strip_spans_length_le str
    have := hfit.1
    have := hfit.2
    omega

/-- C15: a span the request hook takes over (its `do_hook` on
`CTCP_REQUEST_LIST` returns 0) is processed with the latch set and nothing
spliced, and from there the loop ends in the state that holds that one offer
more: no handler, no CTCP-seen hook and no display for that span or any later
one, and what is left has fewer than two delimiters (the text with every span
removed when it fits the protocol buffer).  For a request the gates let
through whose first non-empty span is taken over, the whole run adds the entry
events, the one offer and the final release.  In reply mode, with every
re-entry from `do_crypto` in reply mode too, the run adds no offer to the
request hook. -/
theorem request_hook_claims_span (env : Env) (bucket : Bucket) :
    (∀ (reenter : Decoder) (sender target : CStr) (fuel : Nat) (buffer : CStr) (st : State)
        (before the_ctcp after : CStr),
      split_CTCP env.IRCD_BUFFER_SIZE buffer = some (before, the_ctcp, after) →
      the_ctcp ≠ [] →
      env.do_hook st.trace .CTCP_REQUEST_LIST
        (offer_text env sender target the_ctcp st.trace) = 0 →
      charcount buffer CTCP_DELIM_CHAR ≤ fuel + 1 →
      process_span env bucket reenter true sender target the_ctcp st =
        some (none, true,
          st.log (.do_hook .CTCP_REQUEST_LIST
            (offer_text env sender target the_ctcp st.trace))) ∧
      ∃ out,
        ctcp_loop env bucket reenter true sender target (fuel + 1) buffer false st =
          some (out, st.log (.do_hook .CTCP_REQUEST_LIST
            (offer_text env sender target the_ctcp st.trace))) ∧
        charcount out CTCP_DELIM_CHAR < 2 ∧
        (fits env buffer → out = strip_spans buffer)) ∧
    (∀ (fuel : Nat) (sender target str : CStr) (st : State) (before the_ctcp after : CStr),
      (do_ctcp_entry env true sender target str st).1 = false →
      split_CTCP env.IRCD_BUFFER_SIZE (strlcpy str (env.BIG_BUFFER_SIZE + 1 - 2))
        = some (before, the_ctcp, after) →
      the_ctcp ≠ [] →
      env.do_hook (do_ctcp_entry env true sender target str st).2.trace .CTCP_REQUEST_LIST
        (offer_text env sender target the_ctcp
          (do_ctcp_entry env true sender target str st).2.trace) = 0 →
      charcount str CTCP_DELIM_CHAR ≤ fuel →
      ∃ out st',
        do_ctcp env bucket fuel true sender target str st = some (out, st') ∧
        st'.trace = st.trace ++ entry_events env true sender target str st.trace ++
          [.do_hook .CTCP_REQUEST_LIST
            (offer_text env sender target the_ctcp
              (st.trace ++ entry_events env true sender target str st.trace)),
           .pop_message_from] ∧
        st'.trace.filter Event.is_handler = st.trace.filter Event.is_handler ∧
        st'.trace.filter Event.is_say = st.trace.filter Event.is_say ∧
        st'.trace.filter Event.is_do_hook = st.trace.filter Event.is_do_hook ++
          [.do_hook .CTCP_REQUEST_LIST
            (offer_text env sender target the_ctcp
              (st.trace ++ entry_events env true sender target str st.trace))] ∧
        charcount out CTCP_DELIM_CHAR < 2 ∧
        (fits env str → out = strip_spans str)) ∧
    ((∀ tr, env.get_server_doing_privmsg tr = false) →
      ∀ (fuel : Nat) (sender target str : CStr) (st : State) (out : CStr) (st' : State),
        do_ctcp env bucket fuel false sender target str st = some (out, st') →
        st'.trace.filter Event.is_request_offer = st.trace.filter Event.is_request_offer) := by
  refine ⟨?_, ?_, ?_⟩
  · intro reenter sender target fuel buffer st before the_ctcp after hsplit hne hclaim hfuel
    exact ⟨process_span_claimed env bucket reenter sender target the_ctcp st hclaim,
      ctcp_loop_claimed env bucket reenter sender target fuel buffer st before the_ctcp after
        hsplit hne hclaim hfuel⟩
  · intro fuel sender target str st before the_ctcp after hopen hsplit hne hclaim hfuel
    obtain ⟨reenter, hre⟩ := do_ctcp_eq_body env bucket fuel
    obtain ⟨out, st', hrun, htr, hlt, hstrip⟩ := do_ctcp_body_claimed env bucket reenter fuel
      sender target str st before the_ctcp after hopen hsplit hne hclaim hfuel
    rw [hre]
    refine ⟨out, st', hrun, htr, ?_, ?_, ?_, hlt, hstrip⟩
    · rw [htr]
      simp only [List.filter_append]
      rw [entry_events_filter _ _ _ _ _ _ _ (fun _ _ _ _ => rfl) (fun _ _ _ _ _ => rfl)
        (fun _ _ => rfl)]
      simp [Event.is_handler]
    · rw [htr]
      simp only [List.filter_append]
      rw [entry_events_filter _ _ _ _ _ _ _ (fun _ _ _ _ => rfl) (fun _ _ _ _ _ => rfl)
        (fun _ _ => rfl)]
      simp [Event.is_say]
    · rw [htr]
      simp only [List.filter_append]
      rw [entry_events_filter _ _ _ _ _ _ _ (fun _ _ _ _ => rfl) (fun _ _ _ _ _ => rfl)
        (fun _ _ => rfl)]
      simp [Event.is_do_hook]
  · intro hpriv fuel sender target str st out st' h
    exact do_ctcp_reply_no_request_offer env bucket hpriv fuel sender target str st out st' h

theorem request_hook_claims_span_witness :
    (split_CTCP claim_env.IRCD_BUFFER_SIZE "\x01VERSION\x01 hi \x01PING 1\x01".toList
        = some ([], "VERSION".toList, " hi \x01PING 1\x01".toList) ∧
      "VERSION".toList ≠ [] ∧
      claim_env.do_hook sample_state.trace .CTCP_REQUEST_LIST
        (offer_text claim_env "bob".toList "me".toList "VERSION".toList sample_state.trace)
        = 0 ∧
      charcount "\x01VERSION\x01 hi \x01PING 1\x01".toList CTCP_DELIM_CHAR ≤ 3 + 1 ∧
      fits claim_env "\x01VERSION\x01 hi \x01PING 1\x01".toList ∧
      ctcp_loop claim_env init_ctcp (do_ctcp claim_env init_ctcp 3) true "bob".toList
          "me".toList (3 + 1) "\x01VERSION\x01 hi \x01PING 1\x01".toList false sample_state =
        some (strip_spans "\x01VERSION\x01 hi \x01PING 1\x01".toList,
          sample_state.log (.do_hook .CTCP_REQUEST_LIST
            (offer_text claim_env "bob".toList "me".toList "VERSION".toList
              sample_state.trace)))) ∧
    ((do_ctcp_entry claim_env true "bob".toList "me".toList
          "\x01VERSION\x01 hi \x01PING 1\x01".toList sample_state).1 = false ∧
      split_CTCP claim_env.IRCD_BUFFER_SIZE
          (strlcpy "\x01VERSION\x01 hi \x01PING 1\x01".toList
            (claim_env.BIG_BUFFER_SIZE + 1 - 2))
        = some ([], "VERSION".toList, " hi \x01PING 1\x01".toList) ∧
      charcount "\x01VERSION\x01 hi \x01PING 1\x01".toList CTCP_DELIM_CHAR ≤ 4 ∧
      ∃ out st',
        do_ctcp claim_env init_ctcp 4 true "bob".toList "me".toList
          "\x01VERSION\x01 hi \x01PING 1\x01".toList sample_state = some (out, st') ∧
        st'.trace.filter Event.is_handler = [] ∧
        st'.trace.filter Event.is_say = [] ∧
        st'.trace.filter Event.is_do_hook =
          [.do_hook .CTCP_REQUEST_LIST "bob me VERSION ".toList] ∧
        out = " hi ".toList) ∧
    ((∀ tr, notice_env.get_server_doing_privmsg tr = false) ∧
      do_ctcp notice_env init_ctcp 4 false "bob".toList "me".toList
          "\x01VERSION\x01 hi \x01PING 1\x01".toList sample_state =
        some (" hi ".toList, ⟨[.check_ignore_channel "bob".toList "u@h".toList "me".toList
            .LEVEL_CTCP,
          .message_from "me".toList .LEVEL_CTCP,
          .do_hook .CTCP_REPLY_LIST "bob me VERSION ".toList,
          .say "CTCP VERSION reply from bob: ".toList,
          .pop_message_from], 0, 0⟩) ∧
      List.filter Event.is_request_offer
        [.check_ignore_channel "bob".toList "u@h".toList "me".toList .LEVEL_CTCP,
          .message_from "me".toList .LEVEL_CTCP,
          .do_hook .CTCP_REPLY_LIST "bob me VERSION ".toList,
          .say "CTCP VERSION reply from bob: ".toList,
          .pop_message_from] = List.filter Event.is_request_offer sample_state.trace) :=
  ⟨⟨by decide, by decide, by decide, by decide, by unfold fits; decide,
      (((request_hook_claims_span claim_env init_ctcp).1 (do_ctcp claim_env init_ctcp 3)
        "bob".toList "me".toList 3 "\x01VERSION\x01 hi \x01PING 1\x01".toList sample_state
        [] "VERSION".toList " hi \x01PING 1\x01".toList (by decide) (by decide) (by decide)
        (by decide)).2).elim fun out h => by rw [h.1, ← h.2.2 (by unfold fits; decide)]⟩,
    ⟨by decide, by decide, by decide,
      ((request_hook_claims_span claim_env init_ctcp).2.1 4 "bob".toList "me".toList
        "\x01VERSION\x01 hi \x01PING 1\x01".toList sample_state
        [] "VERSION".toList " hi \x01PING 1\x01".toList (by decide) (by decide) (by decide)
        (by decide) (by decide)).imp fun out h => h.imp fun st' h =>
          ⟨h.1, h.2.2.1, h.2.2.2.1, h.2.2.2.2.1.trans (by decide),
            (h.2.2.2.2.2.2 (by unfold fits; decide)).trans (by decide)⟩⟩,
    ⟨fun _ => rfl, by decide,
      (request_hook_claims_span notice_env init_ctcp).2.2 (fun _ => rfl) 4 "bob".toList
        "me".toList "\x01VERSION\x01 hi \x01PING 1\x01".toList sample_state " hi ".toList
        ⟨[.check_ignore_channel "bob".toList "u@h".toList "me".toList .LEVEL_CTCP,
          .message_from "me".toList .LEVEL_CTCP,
          .do_hook .CTCP_REPLY_LIST "bob me VERSION ".toList,
          .say "CTCP VERSION reply from bob: ".toList,
          .pop_message_from], 0, 0⟩
        (by decide)⟩⟩

/-! ## Messages removed without being processed -/

theorem entry_events_eq_verdict_events (env : Env) (request : Bool)
    (sender target str : CStr) (tr : Trace) :
    entry_events env request sender target str tr =
      verdict_events env request sender target str tr ++
        [if env.im_on_channel (tr ++ verdict_events env request sender target str tr) target
          then Event.message_from target .LEVEL_CTCP
          else Event.message_from sender .LEVEL_CTCP] := by
  cases request <;> rfl

/-- The entry of `do_ctcp` sets `dont_process_more` when the sender is
ignored, when a request comes during a flood, and when the target is global or
a channel the client is not on. -/
theorem do_ctcp_entry_gated (env : Env) (request : Bool) (sender target str : CStr)
    (st : State)
    (hgate : ignore_verdict env sender target st.trace = env.IGNORED ∨
      (request = true ∧ flood_verdict env sender target str st.trace = 1) ∨
      target.head? = some '$' ∨
      (target.head? = some '#' ∧
        env.im_on_channel (st.trace ++ verdict_events env request sender target str st.trace)
          target = false)) :
    (do_ctcp_entry env request sender target str st).1 = true := by
  unfold do_ctcp_entry gated
  unfold ignore_verdict at hgate
  unfold flood_verdict verdict_events flood_event ignore_event at hgate
  rcases hgate with h | ⟨hr, h⟩ | h | ⟨h1, h2⟩
  · simp [h]
  · subst hr
    simp only [log_trace, if_true] at h ⊢
    simp [h]
  · simp [h]
  · cases request <;> simp only [log_trace, if_true, Bool.false_eq_true, if_false] at h2 ⊢ <;>
      simp [h1, h2]

/-- A message that enters the loop with `dont_process_more` set: the run ends,
and gains the entry events and the final release only. -/
theorem do_ctcp_body_latched (env : Env) (bucket : Bucket) (reenter : Decoder) (fuel : Nat)
    (request : Bool) (sender target str : CStr) (st : State)
    (h2 : 2 ≤ charcount str CTCP_DELIM_CHAR)
    (hg : (do_ctcp_entry env request sender target str st).1 = true)
    (hfuel : charcount str CTCP_DELIM_CHAR ≤ fuel) :
    ∃ out st', do_ctcp_body env bucket reenter fuel request sender target str st
        = some (out, st') ∧
      st'.trace = st.trace ++ entry_events env request sender target str st.trace
        ++ [.pop_message_from] ∧
      st'.sed = st.sed ∧
      charcount out CTCP_DELIM_CHAR < 2 ∧
      (fits env str → out = strip_spans str) := by
  have hc : charcount (strlcpy str (env.BIG_BUFFER_SIZE + 1 - 2)) CTCP_DELIM_CHAR ≤ fuel :=
    le_trans (count_take_le _ _ _) hfuel
  obtain ⟨out, hout⟩ := ctcp_loop_latched env bucket reenter request sender target fuel
    (strlcpy str (env.BIG_BUFFER_SIZE + 1 - 2)) (do_ctcp_entry env request sender target str st).2
    hc (by omega)
  refine ⟨strlcpy out env.BIG_BUFFER_SIZE,
    (do_ctcp_entry env request sender target str st).2.log .pop_message_from, ?_, ?_, ?_, ?_, ?_⟩
  · unfold do_ctcp_body
    rw [if_neg (by omega), hg, hout]
  · rw [log_trace, do_ctcp_entry_trace]
  · rw [log_sed, do_ctcp_entry_sed]
  · exact lt_of_le_of_lt (count_take_le _ _ _)
      (ctcp_loop_result_lt_two _ _ _ _ _ _ _ _ _ _ _ _ hout)
  · intro hfit
    have e : strlcpy str (env.BIG_BUFFER_SIZE + 1 - 2) = str :=
      strlcpy_of_le (by have := hfit.1; have := hfit.2; omega)
    rw [e, ctcp_loop_latched_fits env bucket reenter request sender target fuel str _
      hfuel (by omega) hfit] at hout
    simp only [Option.some.injEq, Prod.mk.injEq, and_true] at hout
    rw [← hout]
    apply strlcpy_of_le
    have := strip_spans_length_le str
    have := hfit.1
    have := hfit.2
    omega

/-- The calls of the flood predicate at the CTCP level among the entry events:
one in request mode, none in reply mode. -/
theorem entry_events_ctcp_flood (env : Env) (request : Bool) (sender target str : CStr)
    (tr : Trace) :
    (entry_events env request sender target str tr).filter Event.is_ctcp_flood =
      if request then [flood_event env sender target str tr] else [] := by
  rw [entry_events_eq_verdict_events, List.filter_append]
  have hlast : ∀ c : Prop, ∀ _ : Decidable c,
      List.filter Event.is_ctcp_flood
        [if c then Event.message_from target .LEVEL_CTCP
          else Event.message_from sender .LEVEL_CTCP] = [] := by
    intro c _
    split_ifs <;> rfl
  rw [hlast, List.append_nil]
  cases request <;> rfl

/-- One activation of the decoder on a text with two delimiters or more
consults the flood predicate at the CTCP level once in request mode and never
in reply mode, apart from what the decoder `do_crypto` re-enters does. -/
theorem do_ctcp_body_ctcp_flood (env : Env) (bucket : Bucket) (reenter : Decoder)
    (hr : crypto_quiet env Event.is_ctcp_flood reenter)
    (fuel : Nat) (request : Bool) (sender target str : CStr) (st : State)
    (out : CStr) (st' : State)
    (h2 : 2 ≤ charcount str CTCP_DELIM_CHAR)
    (h : do_ctcp_body env bucket reenter fuel request sender target str st = some (out, st')) :
    st'.trace.filter Event.is_ctcp_flood = st.trace.filter Event.is_ctcp_flood ++
      (if request then [flood_event env sender target str st.trace] else []) := by
  rw [do_ctcp_body_filter env bucket reenter request Event.is_ctcp_flood rfl
    (fun _ _ => rfl) (fun _ => by cases request <;> rfl) (fun _ => rfl)
    (fun _ entry sender target cmd arg st r _ hc =>
      call_entry_filter env bucket reenter _ not_ctcp_flood_of_by_handler hr request entry
        sender target cmd arg st r hc)
    fuel sender target str st out st' h2 h, entry_events_ctcp_flood]

/-- With an empty key store `do_crypto` never re-enters the decoder. -/
theorem crypto_quiet_of_no_key (env : Env) (p : Event → Bool) (reenter : Decoder)
    (hk : ∀ tr who cmd, env.is_crypted tr who cmd = none) : crypto_quiet env p reenter := by
  intro request sender target str st out st' hstore
  obtain ⟨tr, who, cmd, key, h⟩ := hstore
  rw [hk] at h
  cases h

/-- C16: a message with two delimiters or more whose sender the ignore
predicate reports as ignored, or that is a request while the flood predicate
returns 1, or whose target begins with `$`, or begins with `#` while the
client is not on that channel, is decoded to the end with every span removed
and none dispatched: the trace gains the entry events and the final release
only, so no hook offer, no handler call and no display, and the text returned
has fewer than two delimiters (it is the text with every span removed when it
fits the protocol buffer).  Such a run consults the flood predicate at the
CTCP level once in request mode and never in reply mode; so does every run on
a text with two delimiters or more while the key store is empty, and a
reply-mode run never consults it while every re-entry from `do_crypto` is in
reply mode too. -/
theorem gated_message_not_dispatched (env : Env) (bucket : Bucket) :
    (∀ (fuel : Nat) (request : Bool) (sender target str : CStr) (st : State),
      2 ≤ charcount str CTCP_DELIM_CHAR →
      (ignore_verdict env sender target st.trace = env.IGNORED ∨
        (request = true ∧ flood_verdict env sender target str st.trace = 1) ∨
        target.head? = some '$' ∨
        (target.head? = some '#' ∧
          env.im_on_channel
            (st.trace ++ verdict_events env request sender target str st.trace) target
            = false)) →
      charcount str CTCP_DELIM_CHAR ≤ fuel →
      ∃ out st',
        do_ctcp env bucket fuel request sender target str st = some (out, st') ∧
        st'.trace = st.trace ++ entry_events env request sender target str st.trace
          ++ [.pop_message_from] ∧
        st'.trace.filter Event.is_do_hook = st.trace.filter Event.is_do_hook ∧
        st'.trace.filter Event.is_handler = st.trace.filter Event.is_handler ∧
        st'.trace.filter Event.is_say = st.trace.filter Event.is_say ∧
        st'.trace.filter Event.is_ctcp_flood = st.trace.filter Event.is_ctcp_flood ++
          (if request then [flood_event env sender target str st.trace] else []) ∧
        charcount out CTCP_DELIM_CHAR < 2 ∧
        (fits env str → out = strip_spans str)) ∧
    ((∀ tr who cmd, env.is_crypted tr who cmd = none) →
      ∀ (fuel : Nat) (request : Bool) (sender target str : CStr) (st : State)
        (out : CStr) (st' : State),
        2 ≤ charcount str CTCP_DELIM_CHAR →
        do_ctcp env bucket fuel request sender target str st = some (out, st') →
        st'.trace.filter Event.is_ctcp_flood = st.trace.filter Event.is_ctcp_flood ++
          (if request then [flood_event env sender target str st.trace] else [])) ∧
    ((∀ tr, env.get_server_doing_privmsg tr = false) →
      ∀ (fuel : Nat) (sender target str : CStr) (st : State) (out : CStr) (st' : State),
        do_ctcp env bucket fuel false sender target str st = some (out, st') →
        st'.trace.filter Event.is_ctcp_flood = st.trace.filter Event.is_ctcp_flood) := by
  refine ⟨?_, ?_, ?_⟩
  · intro fuel request sender target str st h2 hgate hfuel
    obtain ⟨reenter, hre⟩ := do_ctcp_eq_body env bucket fuel
    obtain ⟨out, st', hrun, htr, -, hlt, hstrip⟩ := do_ctcp_body_latched env bucket reenter fuel
      request sender target str st h2
      (do_ctcp_entry_gated env request sender target str st hgate) hfuel
    rw [hre]
    refine ⟨out, st', hrun, htr, ?_, ?_, ?_, ?_, hlt, hstrip⟩
    · rw [htr]
      simp only [List.filter_append]
      rw [entry_events_filter _ _ _ _ _ _ _ (fun _ _ _ _ => rfl) (fun _ _ _ _ _ => rfl)
        (fun _ _ => rfl)]
      simp [Event.is_do_hook]
    · rw [htr]
      simp only [List.filter_append]
      rw [entry_events_filter _ _ _ _ _ _ _ (fun _ _ _ _ => rfl) (fun _ _ _ _ _ => rfl)
        (fun _ _ => rfl)]
      simp [Event.is_handler]
    · rw [htr]
      simp only [List.filter_append]
      rw [entry_events_filter _ _ _ _ _ _ _ (fun _ _ _ _ => rfl) (fun _ _ _ _ _ => rfl)
        (fun _ _ => rfl)]
      simp [Event.is_say]
    · rw [htr]
      simp only [List.filter_append]
      rw [entry_events_ctcp_flood]
      simp [Event.is_ctcp_flood]
  · intro hk fuel request sender target str st out st' h2 h
    obtain ⟨reenter, hre⟩ := do_ctcp_eq_body env bucket fuel
    rw [hre] at h
    exact do_ctcp_body_ctcp_flood env bucket reenter
      (crypto_quiet_of_no_key env _ reenter hk) fuel request sender target str st out st' h2 h
  · intro hpriv fuel sender target str st out st' h
    exact do_ctcp_reply_no_ctcp_flood env bucket hpriv fuel sender target str st out st' h

theorem gated_message_not_dispatched_witness :
    (2 ≤ charcount "\x01VERSION\x01".toList CTCP_DELIM_CHAR ∧
      ignore_verdict ignoring_env "bob".toList "me".toList sample_state.trace
        = ignoring_env.IGNORED ∧
      ∃ out st',
        do_ctcp ignoring_env init_ctcp 2 false "bob".toList "me".toList
          "\x01VERSION\x01".toList sample_state = some (out, st') ∧
        st'.trace = [.check_ignore_channel "bob".toList "u@h".toList "me".toList .LEVEL_CTCP,
          .message_from "me".toList .LEVEL_CTCP, .pop_message_from] ∧
        out = []) ∧
    (flood_verdict flood_env "bob".toList "me".toList "\x01VERSION\x01".toList
        sample_state.trace = 1 ∧
      ∃ out st',
        do_ctcp flood_env init_ctcp 2 true "bob".toList "me".toList
          "\x01VERSION\x01".toList sample_state = some (out, st') ∧
        st'.trace = [.check_ignore_channel "bob".toList "u@h".toList "me".toList .LEVEL_CTCP,
          .new_check_flooding "bob".toList "u@h".toList none "\x01VERSION\x01".toList
            .LEVEL_CTCP,
          .message_from "me".toList .LEVEL_CTCP, .pop_message_from] ∧
        st'.trace.filter Event.is_ctcp_flood =
          [.new_check_flooding "bob".toList "u@h".toList none "\x01VERSION\x01".toList
            .LEVEL_CTCP] ∧
        out = []) ∧
    ("$*".toList.head? = some '$' ∧
      ∃ out st',
        do_ctcp sample_env init_ctcp 2 true "bob".toList "$*".toList
          "\x01VERSION\x01".toList sample_state = some (out, st') ∧
        st'.trace.filter Event.is_do_hook = [] ∧
        st'.trace.filter Event.is_handler = [] ∧
        st'.trace.filter Event.is_say = [] ∧
        out = []) ∧
    ("#c".toList.head? = some '#' ∧
      off_channel_env.im_on_channel
        (sample_state.trace ++ verdict_events off_channel_env true "bob".toList "#c".toList
          "\x01VERSION\x01".toList sample_state.trace) "#c".toList = false ∧
      ∃ out st',
        do_ctcp off_channel_env init_ctcp 2 true "bob".toList "#c".toList
          "\x01VERSION\x01".toList sample_state = some (out, st') ∧
        st'.trace.filter Event.is_do_hook = [] ∧
        st'.trace.filter Event.is_handler = [] ∧
        st'.trace.filter Event.is_say = [] ∧
        out = []) ∧
    ((∀ tr who cmd, sample_env.is_crypted tr who cmd = none) ∧
      (do_ctcp sample_env init_ctcp 2 true "bob".toList "me".toList
          "\x01VERSION\x01".toList sample_state).isSome = true ∧
      ∀ out st',
        do_ctcp sample_env init_ctcp 2 true "bob".toList "me".toList
          "\x01VERSION\x01".toList sample_state = some (out, st') →
        st'.trace.filter Event.is_ctcp_flood =
          [.new_check_flooding "bob".toList "u@h".toList none "\x01VERSION\x01".toList
            .LEVEL_CTCP]) ∧
    ((∀ tr, notice_env.get_server_doing_privmsg tr = false) ∧
      (do_ctcp notice_env init_ctcp 2 false "bob".toList "me".toList
          "\x01VERSION\x01".toList sample_state).isSome = true ∧
      ∀ out st',
        do_ctcp notice_env init_ctcp 2 false "bob".toList "me".toList
          "\x01VERSION\x01".toList sample_state = some (out, st') →
        st'.trace.filter Event.is_ctcp_flood = []) :=
  ⟨⟨by decide, by decide,
      ((gated_message_not_dispatched ignoring_env init_ctcp).1 2 false "bob".toList "me".toList
        "\x01VERSION\x01".toList sample_state (by decide) (Or.inl (by decide))
        (by decide)).imp fun _ h => h.imp fun _ h =>
          ⟨h.1, h.2.1.trans (by decide),
            (h.2.2.2.2.2.2.2 (by unfold fits; decide)).trans (by decide)⟩⟩,
    ⟨by decide,
      ((gated_message_not_dispatched flood_env init_ctcp).1 2 true "bob".toList "me".toList
        "\x01VERSION\x01".toList sample_state (by decide) (Or.inr (Or.inl ⟨rfl, by decide⟩))
        (by decide)).imp fun _ h => h.imp fun _ h =>
          ⟨h.1, h.2.1.trans (by decide), h.2.2.2.2.2.1.trans (by decide),
            (h.2.2.2.2.2.2.2 (by unfold fits; decide)).trans (by decide)⟩⟩,
    ⟨by decide,
      ((gated_message_not_dispatched sample_env init_ctcp).1 2 true "bob".toList "$*".toList
        "\x01VERSION\x01".toList sample_state (by decide)
        (Or.inr (Or.inr (Or.inl (by decide)))) (by decide)).imp fun _ h => h.imp fun _ h =>
          ⟨h.1, h.2.2.1, h.2.2.2.1, h.2.2.2.2.1,
            (h.2.2.2.2.2.2.2 (by unfold fits; decide)).trans (by decide)⟩⟩,
    ⟨by decide, by decide,
      ((gated_message_not_dispatched off_channel_env init_ctcp).1 2 true "bob".toList
        "#c".toList "\x01VERSION\x01".toList sample_state (by decide)
        (Or.inr (Or.inr (Or.inr ⟨by decide, by decide⟩))) (by decide)).imp
        fun _ h => h.imp fun _ h =>
          ⟨h.1, h.2.2.1, h.2.2.2.1, h.2.2.2.2.1,
            (h.2.2.2.2.2.2.2 (by unfold fits; decide)).trans (by decide)⟩⟩,
    ⟨fun _ _ _ => rfl, by decide, fun out st' h =>
      ((gated_message_not_dispatched sample_env init_ctcp).2.1 (fun _ _ _ => rfl) 2 true
        "bob".toList "me".toList "\x01VERSION\x01".toList sample_state out st' (by decide)
        h).trans (by decide)⟩,
    ⟨fun _ => rfl, by decide, fun out st' h =>
      (gated_message_not_dispatched notice_env init_ctcp).2.2 (fun _ => rfl) 2
        "bob".toList "me".toList "\x01VERSION\x01".toList sample_state out st' h⟩⟩

/-! ## The handler `do_echo` -/

theorem do_echo_channel (env : Env) (sender target cmd args : CStr) (st : State)
    (h : env.is_channel st.trace target = true) :
    do_echo env sender target cmd args st = (none, args, st) := by
  simp [do_echo, h]

theorem do_echo_private (env : Env) (sender target cmd args : CStr) (st : State)
    (h : env.is_channel st.trace target = false) :
    do_echo env sender target cmd args st
      = (none, args, send_ctcp env false sender cmd (some args) st) := by
  simp [do_echo, h]

theorem send_ctcp_is_send_ctcp (env : Env) (request : Bool) (target type : CStr)
    (format : Option CStr) (st : State) :
    (send_ctcp env request target type format st).trace.filter Event.is_send_ctcp
      = st.trace.filter Event.is_send_ctcp ++ [.send_ctcp request target type format] := by
  rw [send_ctcp_trace, List.filter_append, send_ctcp_events_is_send_ctcp]

theorem send_ctcp_is_send_text (env : Env) (request : Bool) (target type : CStr)
    (format : Option CStr) (st : State) :
    (send_ctcp env request target type format st).trace.filter Event.is_send_text
      = st.trace.filter Event.is_send_text ++
        if send_ctcp_len env target ≤ 0 then []
        else [.send_text target
          (send_ctcp_wire (send_ctcp_len env target).toNat type
            (send_ctcp_pb env request target type format st.trace))
          (send_ctcp_protocol request)] := by
  rw [send_ctcp_trace, List.filter_append, send_ctcp_events_is_send_text]

/-- C17: `do_echo` returns NULL and leaves `args` as it is.  When the target
is a channel it does nothing else: the state is unchanged.  When the target is
not a channel it calls `send_ctcp` once, in reply form, to the sender, with
the verb it was called for and the received argument as the text; where
`send_ctcp` has room for a frame, that one call hands `send_text` one NOTICE
to the sender, which is the frame of the verb and the recoded argument when
the argument and the frame are not cut.  In the registry of `init_ctcp` ECHO
and ERRMSG call `do_echo` for a request and nothing for a reply. -/
theorem do_echo_replies_off_channel (env : Env) (sender target cmd args : CStr) (st : State) :
    (do_echo env sender target cmd args st).1 = none ∧
    (do_echo env sender target cmd args st).2.1 = args ∧
    (env.is_channel st.trace target = true →
      do_echo env sender target cmd args st = (none, args, st)) ∧
    (env.is_channel st.trace target = false →
      do_echo env sender target cmd args st
        = (none, args, send_ctcp env false sender cmd (some args) st) ∧
      (do_echo env sender target cmd args st).2.2.trace.filter Event.is_send_ctcp
        = st.trace.filter Event.is_send_ctcp ++ [.send_ctcp false sender cmd (some args)] ∧
      (0 < send_ctcp_len env sender →
        (do_echo env sender target cmd args st).2.2.trace.filter Event.is_send_text
          = st.trace.filter Event.is_send_text ++
            [.send_text sender
              (send_ctcp_wire (send_ctcp_len env sender).toNat cmd
                (some (env.outbound_recode
                  (st.trace ++ [.send_ctcp false sender cmd (some args),
                    .message_from sender .LEVEL_CTCP])
                  sender (snprintf env.BIG_BUFFER_SIZE args))))
              "NOTICE".toList]) ∧
      (args.length + 1 ≤ env.BIG_BUFFER_SIZE →
        (ctcp_frame cmd (some (env.outbound_recode
            (st.trace ++ [.send_ctcp false sender cmd (some args),
              .message_from sender .LEVEL_CTCP]) sender args))).length + 3
          ≤ (send_ctcp_len env sender).toNat →
        (do_echo env sender target cmd args st).2.2.trace.filter Event.is_send_text
          = st.trace.filter Event.is_send_text ++
            [.send_text sender
              (ctcp_frame cmd (some (env.outbound_recode
                (st.trace ++ [.send_ctcp false sender cmd (some args),
                  .message_from sender .LEVEL_CTCP]) sender args)))
              "NOTICE".toList])) ∧
    (find_ctcp init_ctcp true "ECHO".toList).map (fun item => item.2.func)
      = some (some .do_echo) ∧
    (find_ctcp init_ctcp true "ERRMSG".toList).map (fun item => item.2.func)
      = some (some .do_echo) ∧
    find_ctcp init_ctcp false "ECHO".toList = none ∧
    find_ctcp init_ctcp false "ERRMSG".toList = none ∧
    (∀ bucket reenter, call_handler env bucket reenter .do_echo sender target cmd args st
      = some (do_echo env sender target cmd args st)) := by
  refine ⟨do_echo_ptr _ _ _ _ _ _, ?_, do_echo_channel _ _ _ _ _ _, ?_, by decide, by decide,
    by decide, by decide, fun _ _ => rfl⟩
  · unfold do_echo
    split <;> rfl
  · intro h
    rw [do_echo_private _ _ _ _ _ _ h]
    refine ⟨rfl, send_ctcp_is_send_ctcp _ _ _ _ _ _, ?_, ?_⟩
    · intro hlen
      show (send_ctcp env false sender cmd (some args) st).trace.filter Event.is_send_text = _
      rw [send_ctcp_is_send_text, if_neg (by omega)]
      rfl
    · intro hargs hframe
      have hlen : 0 < send_ctcp_len env sender := by omega
      show (send_ctcp env false sender cmd (some args) st).trace.filter Event.is_send_text = _
      rw [send_ctcp_is_send_text, if_neg (by omega)]
      have hpb : send_ctcp_pb env false sender cmd (some args) st.trace
          = some (env.outbound_recode
            (st.trace ++ [.send_ctcp false sender cmd (some args),
              .message_from sender .LEVEL_CTCP]) sender args) := by
        unfold send_ctcp_pb
        dsimp only
        rw [snprintf_of_le hargs]
      rw [hpb, send_ctcp_wire_short _ _ _ hframe]
      rfl

theorem do_echo_replies_off_channel_witness :
    (sample_env.is_channel sample_state.trace "#c".toList = true ∧
      do_echo sample_env "bob".toList "#c".toList "ECHO".toList "hi".toList sample_state
        = (none, "hi".toList, sample_state)) ∧
    (sample_env.is_channel sample_state.trace "me".toList = false ∧
      0 < send_ctcp_len sample_env "bob".toList ∧
      "hi".toList.length + 1 ≤ sample_env.BIG_BUFFER_SIZE ∧
      (do_echo sample_env "bob".toList "me".toList "ERRMSG".toList "hi".toList
          sample_state).2.2.trace.filter Event.is_send_ctcp
        = [.send_ctcp false "bob".toList "ERRMSG".toList (some "hi".toList)] ∧
      (do_echo sample_env "bob".toList "me".toList "ERRMSG".toList "hi".toList
          sample_state).2.2.trace.filter Event.is_send_text
        = [.send_text "bob".toList "\x01ERRMSG hi\x01".toList "NOTICE".toList]) :=
  ⟨⟨by decide,
      (do_echo_replies_off_channel sample_env "bob".toList "#c".toList "ECHO".toList
        "hi".toList sample_state).2.2.1 (by decide)⟩,
    ⟨by decide, by decide, by decide,
      ((do_echo_replies_off_channel sample_env "bob".toList "me".toList "ERRMSG".toList
        "hi".toList sample_state).2.2.2.1 (by decide)).2.1,
      (((do_echo_replies_off_channel sample_env "bob".toList "me".toList "ERRMSG".toList
        "hi".toList sample_state).2.2.2.1 (by decide)).2.2.2 (by decide) (by decide)).trans
        (by decide)⟩⟩

/-! ## The guard of `send_ctcp` -/

theorem send_ctcp_events_is_do_hook (env : Env) (request : Bool) (target type : CStr)
    (format : Option CStr) (tr : Trace) :
    (send_ctcp_events env request target type format tr).filter Event.is_do_hook
      = if send_ctcp_len env target ≤ 0 then []
        else [.do_hook .SEND_CTCP_LIST
          (match send_ctcp_pb env request target type format tr with
           | some pb =>
             send_ctcp_protocol request ++ [' '] ++ target ++ [' '] ++ type ++ [' '] ++ pb
           | none => send_ctcp_protocol request ++ [' '] ++ target ++ [' '] ++ type)] := by
  unfold send_ctcp_events
  split_ifs <;> simp [Event.is_do_hook]

theorem send_ctcp_is_do_hook (env : Env) (request : Bool) (target type : CStr)
    (format : Option CStr) (st : State) :
    (send_ctcp env request target type format st).trace.filter Event.is_do_hook
      = st.trace.filter Event.is_do_hook ++
        (send_ctcp_events env request target type format st.trace).filter Event.is_do_hook := by
  rw [send_ctcp_trace, List.filter_append]

/-- C18: when `IRCD_BUFFER_SIZE - (12 + strlen(to))` is zero or less,
`send_ctcp` returns at once: the trace gains nothing but the mark of the call,
so no hook is offered anything and nothing is handed to `send_text`.  In every
other case the hook on `SEND_CTCP_LIST` is offered one text, which begins with
the protocol and the target, and `send_text` is called once, for the target,
with the protocol PRIVMSG when `request` is set and NOTICE when it is not. -/
theorem send_ctcp_guard_and_delivery (env : Env) (request : Bool) (target type : CStr)
    (format : Option CStr) (st : State) :
    ((env.IRCD_BUFFER_SIZE : Int) - (12 + (target.length : Int)) ≤ 0 →
      (send_ctcp env request target type format st).trace
        = st.trace ++ [.send_ctcp request target type format] ∧
      (send_ctcp env request target type format st).trace.filter Event.is_do_hook
        = st.trace.filter Event.is_do_hook ∧
      (send_ctcp env request target type format st).trace.filter Event.is_send_text
        = st.trace.filter Event.is_send_text) ∧
    (0 < (env.IRCD_BUFFER_SIZE : Int) - (12 + (target.length : Int)) →
      (∃ rest, (send_ctcp env request target type format st).trace.filter Event.is_do_hook
        = st.trace.filter Event.is_do_hook ++
          [.do_hook .SEND_CTCP_LIST
            ((if request then "PRIVMSG".toList else "NOTICE".toList) ++ [' '] ++ target
              ++ [' '] ++ type ++ rest)]) ∧
      (send_ctcp env request target type format st).trace.filter Event.is_send_text
        = st.trace.filter Event.is_send_text ++
          [.send_text target
            (send_ctcp_wire
              ((env.IRCD_BUFFER_SIZE : Int) - (12 + (target.length : Int))).toNat type
              (send_ctcp_pb env request target type format st.trace))
            (if request then "PRIVMSG".toList else "NOTICE".toList)]) := by
  refine ⟨fun hle => ?_, fun hlt => ?_⟩
  · have hlen : send_ctcp_len env target ≤ 0 := hle
    refine ⟨?_, ?_, ?_⟩
    · rw [send_ctcp_trace]
      unfold send_ctcp_events
      rw [if_pos hlen]
    · rw [send_ctcp_is_do_hook, send_ctcp_events_is_do_hook, if_pos hlen, List.append_nil]
    · rw [send_ctcp_is_send_text, if_pos hlen, List.append_nil]
  · have hlen : ¬ send_ctcp_len env target ≤ 0 := not_le.mpr hlt
    refine ⟨?_, ?_⟩
    · rw [send_ctcp_is_do_hook, send_ctcp_events_is_do_hook, if_neg hlen]
      cases hpb : send_ctcp_pb env request target type format st.trace with
      | none => exact ⟨[], by simp [send_ctcp_protocol]⟩
      | some pb => exact ⟨' ' :: pb, by simp [send_ctcp_protocol]⟩
    · rw [send_ctcp_is_send_text, if_neg hlen]
      rfl

theorem send_ctcp_guard_and_delivery_witness :
    ((small_buffer_env.IRCD_BUFFER_SIZE : Int)
        - (12 + ("bob".toList.length : Int)) ≤ 0 ∧
      (send_ctcp small_buffer_env true "bob".toList "PING".toList
          (some "1".toList) sample_state).trace
        = [.send_ctcp true "bob".toList "PING".toList (some "1".toList)]) ∧
    (0 < (sample_env.IRCD_BUFFER_SIZE : Int) - (12 + ("bob".toList.length : Int)) ∧
      (send_ctcp sample_env true "bob".toList "PING".toList (some "1".toList)
          sample_state).trace.filter Event.is_send_text
        = [.send_text "bob".toList "\x01PING 1\x01".toList "PRIVMSG".toList] ∧
      (send_ctcp sample_env false "bob".toList "PING".toList (some "1".toList)
          sample_state).trace.filter Event.is_send_text
        = [.send_text "bob".toList "\x01PING 1\x01".toList "NOTICE".toList] ∧
      (send_ctcp sample_env false "bob".toList "PING".toList (some "1".toList)
          sample_state).trace.filter Event.is_do_hook
        = [.do_hook .SEND_CTCP_LIST "NOTICE bob PING 1".toList]) :=
  ⟨⟨by decide,
      ((send_ctcp_guard_and_delivery small_buffer_env true
        "bob".toList "PING".toList (some "1".toList) sample_state).1 (by decide)).1⟩,
    ⟨by decide,
      ((send_ctcp_guard_and_delivery sample_env true "bob".toList "PING".toList
        (some "1".toList) sample_state).2 (by decide)).2.trans (by decide),
      ((send_ctcp_guard_and_delivery sample_env false "bob".toList "PING".toList
        (some "1".toList) sample_state).2 (by decide)).2.trans (by decide),
      by decide⟩⟩

/-! ## The registry of `init_ctcp` -/

/-- C19: the registry `init_ctcp` builds has 18 entries with pairwise distinct
names.  In insertion order, ACTION and DCC carry SPECIAL|NOLIMIT; the seven
crypto verbs carry INLINE|NOLIMIT|NORECODE; UTC carries INLINE|NOLIMIT;
VERSION, PING, ECHO, CLIENTINFO, USERINFO, ERRMSG, FINGER and TIME carry
REPLY|TELLUSER.  The entries with a function for reply mode are ACTION
(`do_atmosphere`), DCC (`do_dcc_reply`), the seven crypto verbs (`do_crypto`),
UTC (`do_utc`) and PING (`do_ping_reply`); every entry has a function for
request mode, and none has a scripted handler. -/
theorem init_ctcp_registry :
    init_ctcp.length = 18 ∧
    (init_ctcp.map Prod.fst).Nodup ∧
    init_ctcp.map (fun item => (item.1, item.2.flag)) =
      [("ACTION".toList, CTCP_SPECIAL ||| CTCP_NOLIMIT),
       ("DCC".toList, CTCP_SPECIAL ||| CTCP_NOLIMIT),
       ("AESSHA256-CBC".toList, CTCP_INLINE ||| CTCP_NOLIMIT ||| CTCP_NORECODE),
       ("AES256-CBC".toList, CTCP_INLINE ||| CTCP_NOLIMIT ||| CTCP_NORECODE),
       ("CAST128ED-CBC".toList, CTCP_INLINE ||| CTCP_NOLIMIT ||| CTCP_NORECODE),
       ("BLOWFISH-CBC".toList, CTCP_INLINE ||| CTCP_NOLIMIT ||| CTCP_NORECODE),
       ("FISH".toList, CTCP_INLINE ||| CTCP_NOLIMIT ||| CTCP_NORECODE),
       ("SED".toList, CTCP_INLINE ||| CTCP_NOLIMIT ||| CTCP_NORECODE),
       ("SEDSHA".toList, CTCP_INLINE ||| CTCP_NOLIMIT ||| CTCP_NORECODE),
       ("UTC".toList, CTCP_INLINE ||| CTCP_NOLIMIT),
       ("VERSION".toList, CTCP_REPLY ||| CTCP_TELLUSER),
       ("PING".toList, CTCP_REPLY ||| CTCP_TELLUSER),
       ("ECHO".toList, CTCP_REPLY ||| CTCP_TELLUSER),
       ("CLIENTINFO".toList, CTCP_REPLY ||| CTCP_TELLUSER),
       ("USERINFO".toList, CTCP_REPLY ||| CTCP_TELLUSER),
       ("ERRMSG".toList, CTCP_REPLY ||| CTCP_TELLUSER),
       ("FINGER".toList, CTCP_REPLY ||| CTCP_TELLUSER),
       ("TIME".toList, CTCP_REPLY ||| CTCP_TELLUSER)] ∧
    init_ctcp.map (fun item => item.2.flag) =
      [9, 9, 44, 44, 44, 44, 44, 44, 44, 12, 18, 18, 18, 18, 18, 18, 18, 18] ∧
    (init_ctcp.filter (fun item => item.2.repl.isSome || item.2.user_repl.isSome)).map
        (fun item => (item.1, item.2.repl)) =
      [("ACTION".toList, some .do_atmosphere),
       ("DCC".toList, some .do_dcc_reply),
       ("AESSHA256-CBC".toList, some .do_crypto),
       ("AES256-CBC".toList, some .do_crypto),
       ("CAST128ED-CBC".toList, some .do_crypto),
       ("BLOWFISH-CBC".toList, some .do_crypto),
       ("FISH".toList, some .do_crypto),
       ("SED".toList, some .do_crypto),
       ("SEDSHA".toList, some .do_crypto),
       ("UTC".toList, some .do_utc),
       ("PING".toList, some .do_ping_reply)] ∧
    (init_ctcp.filter (fun item => !(item.2.repl.isSome || item.2.user_repl.isSome))).map
        Prod.fst =
      ["VERSION".toList, "ECHO".toList, "CLIENTINFO".toList, "USERINFO".toList,
       "ERRMSG".toList, "FINGER".toList, "TIME".toList] ∧
    (∀ item ∈ init_ctcp, item.2.func.isSome = true ∧ item.2.user_func = none ∧
      item.2.user_repl = none) ∧
    (∀ name, (find_ctcp init_ctcp false name).isSome = true ↔
      name ∈ ["ACTION".toList, "DCC".toList, "AESSHA256-CBC".toList, "AES256-CBC".toList,
        "CAST128ED-CBC".toList, "BLOWFISH-CBC".toList, "FISH".toList, "SED".toList,
        "SEDSHA".toList, "UTC".toList, "PING".toList]) := by
  refine ⟨by decide, by decide, by decide, by decide, by decide, by decide, by decide, ?_⟩
  intro name
  rw [find_ctcp, List.find?_isSome]
  constructor
  · rintro ⟨item, hmem, hp⟩
    have hall : ∀ item ∈ init_ctcp,
        (item.2.repl.isSome || item.2.user_repl.isSome) = true →
        item.1 ∈ ["ACTION".toList, "DCC".toList, "AESSHA256-CBC".toList, "AES256-CBC".toList,
          "CAST128ED-CBC".toList, "BLOWFISH-CBC".toList, "FISH".toList, "SED".toList,
          "SEDSHA".toList, "UTC".toList, "PING".toList] := by decide
    simp only [Bool.false_eq_true, if_false, Bool.and_eq_true, decide_eq_true_eq] at hp
    rw [← hp.1]
    exact hall item hmem hp.2
  · intro hname
    have hall : ∀ n ∈ ["ACTION".toList, "DCC".toList, "AESSHA256-CBC".toList,
          "AES256-CBC".toList, "CAST128ED-CBC".toList, "BLOWFISH-CBC".toList, "FISH".toList,
          "SED".toList, "SEDSHA".toList, "UTC".toList, "PING".toList],
        ∃ item ∈ init_ctcp, item.1 = n ∧
          (item.2.repl.isSome || item.2.user_repl.isSome) = true := by decide
    obtain ⟨item, hmem, h1, h2⟩ := hall name hname
    exact ⟨item, hmem, by simp [h1, h2]⟩

/-! ## The function `split_CTCP` -/

/-- The two renderings of `split_CTCP` agree: `none` is the return value -1
with `raw_message` as it was, and a triple is the return value 0 with the
three buffers holding its components. -/
theorem split_CTCP_buffers_eq (n : Nat) (s d a : CStr) :
    split_CTCP_buffers n s d a =
      match split_CTCP n s with
      | none => (-1, s, [], [])
      | some (before, body, after) => (0, before, body, after) := by
  unfold split_CTCP_buffers split_CTCP
  cases cut_at CTCP_DELIM_CHAR s with
  | none => rfl
  | some p =>
    obtain ⟨before, rest⟩ := p
    dsimp only
    cases cut_at CTCP_DELIM_CHAR rest with
    | none => rfl
    | some q => rfl

theorem not_mem_take {c : Char} {s : CStr} (n : Nat) (h : c ∉ s) : c ∉ s.take n :=
  fun hm => h (List.mem_of_mem_take hm)

/-- C20: `split_CTCP` returns 0 exactly when the buffer holds two delimiter
bytes or more.  On success the buffer is cut down to the text before the first
delimiter, and the buffer that was passed is that prefix, a delimiter, the text
up to the next delimiter, a delimiter and the rest; neither the prefix nor the
body stored holds a delimiter, the body stored and the suffix stored are those
two texts cut to `IRCD_BUFFER_SIZE - 2` bytes, so prefix, delimiter, body,
delimiter and suffix make up the buffer again whenever the two texts are
shorter than `IRCD_BUFFER_SIZE - 1`; two adjacent delimiters give an empty
body.  On failure the return value is -1 and the buffer is as it was. -/
theorem split_CTCP_partition (n : Nat) (buffer dest after : CStr) :
    ((split_CTCP_buffers n buffer dest after).1 = 0 ↔ 2 ≤ charcount buffer CTCP_DELIM_CHAR) ∧
    ((split_CTCP n buffer).isSome = true ↔ 2 ≤ charcount buffer CTCP_DELIM_CHAR) ∧
    (∀ pre body suf, split_CTCP n buffer = some (pre, body, suf) →
      split_CTCP_buffers n buffer dest after = (0, pre, body, suf) ∧
      CTCP_DELIM_CHAR ∉ pre ∧ CTCP_DELIM_CHAR ∉ body ∧
      ∃ b r, buffer = pre ++ CTCP_DELIM_CHAR :: (b ++ CTCP_DELIM_CHAR :: r) ∧
        CTCP_DELIM_CHAR ∉ b ∧
        body = b.take (n - 2) ∧ suf = r.take (n - 2) ∧
        (b.length < n - 1 → r.length < n - 1 →
          body = b ∧ suf = r ∧
          pre ++ CTCP_DELIM_CHAR :: (body ++ CTCP_DELIM_CHAR :: suf) = buffer)) ∧
    (∀ pre b r, CTCP_DELIM_CHAR ∉ pre → CTCP_DELIM_CHAR ∉ b →
      split_CTCP n (pre ++ CTCP_DELIM_CHAR :: (b ++ CTCP_DELIM_CHAR :: r))
        = some (pre, b.take (n - 2), r.take (n - 2)) ∧
      (b.length < n - 1 → r.length < n - 1 →
        split_CTCP n (pre ++ CTCP_DELIM_CHAR :: (b ++ CTCP_DELIM_CHAR :: r))
          = some (pre, b, r))) ∧
    (charcount buffer CTCP_DELIM_CHAR < 2 →
      split_CTCP n buffer = none ∧
      split_CTCP_buffers n buffer dest after = (-1, buffer, [], [])) := by
  have hiff : (split_CTCP n buffer).isSome = true ↔ 2 ≤ charcount buffer CTCP_DELIM_CHAR := by
    rw [← not_iff_not, Bool.not_eq_true, Option.not_isSome, Option.isNone_iff_eq_none,
      split_CTCP_eq_none_iff]
    omega
  refine ⟨?_, hiff, ?_, ?_, ?_⟩
  · rw [← hiff, split_CTCP_buffers_eq]
    cases split_CTCP n buffer with
    | none => simp
    | some t => simp
  · intro pre body suf h
    obtain ⟨b, r, hbuf, hpre, hb, hbody, hsuf⟩ := split_CTCP_some_spec h
    have hbody2 : body = b.take (n - 2) := by rw [hbody]; unfold strlcpy; rfl
    have hsuf2 : suf = r.take (n - 2) := by rw [hsuf]; unfold strlcpy; rfl
    refine ⟨by rw [split_CTCP_buffers_eq, h], hpre, ?_, b, r, hbuf, hb, hbody2, hsuf2, ?_⟩
    · rw [hbody2]; exact not_mem_take _ hb
    · intro hbl hrl
      have e1 : body = b := by rw [hbody2]; exact List.take_of_length_le (by omega)
      have e2 : suf = r := by rw [hsuf2]; exact List.take_of_length_le (by omega)
      exact ⟨e1, e2, by rw [e1, e2, hbuf]⟩
  · intro pre b r hpre hb
    have h := split_CTCP_append_span (n := n) r hpre hb
    have h2 : split_CTCP n (pre ++ CTCP_DELIM_CHAR :: (b ++ CTCP_DELIM_CHAR :: r))
        = some (pre, b.take (n - 2), r.take (n - 2)) := h
    refine ⟨h2, fun hbl hrl => ?_⟩
    rw [h2, List.take_of_length_le (by omega), List.take_of_length_le (by omega)]
  · intro hlt
    have hnone := (split_CTCP_eq_none_iff n buffer).mpr hlt
    exact ⟨hnone, by rw [split_CTCP_buffers_eq, hnone]⟩

theorem split_CTCP_partition_witness :
    (split_CTCP 512 "a\x01PING 1\x01b\x01c".toList
        = some ("a".toList, "PING 1".toList, "b\x01c".toList) ∧
      split_CTCP_buffers 512 "a\x01PING 1\x01b\x01c".toList "x".toList "y".toList
        = (0, "a".toList, "PING 1".toList, "b\x01c".toList)) ∧
    (CTCP_DELIM_CHAR ∉ "a".toList ∧ CTCP_DELIM_CHAR ∉ "PING 1".toList ∧
      "PING 1".toList.length < 512 - 1 ∧ "b\x01c".toList.length < 512 - 1 ∧
      split_CTCP 512
          ("a".toList ++ CTCP_DELIM_CHAR :: ("PING 1".toList ++ CTCP_DELIM_CHAR ::
            "b\x01c".toList))
        = some ("a".toList, "PING 1".toList, "b\x01c".toList)) ∧
    (CTCP_DELIM_CHAR ∉ ([] : CStr) ∧ "b".toList.length < 512 - 1 ∧
      split_CTCP 512 ("a".toList ++ CTCP_DELIM_CHAR :: ([] ++ CTCP_DELIM_CHAR :: "b".toList))
        = some ("a".toList, [], "b".toList)) ∧
    (charcount "a\x01b".toList CTCP_DELIM_CHAR < 2 ∧
      split_CTCP 512 "a\x01b".toList = none ∧
      split_CTCP_buffers 512 "a\x01b".toList "x".toList "y".toList
        = (-1, "a\x01b".toList, [], [])) :=
  ⟨⟨by decide,
      ((split_CTCP_partition 512 "a\x01PING 1\x01b\x01c".toList "x".toList "y".toList).2.2.1
        "a".toList "PING 1".toList "b\x01c".toList (by decide)).1⟩,
    ⟨by decide, by decide, by decide, by decide,
      ((split_CTCP_partition 512 [] [] []).2.2.2.1 "a".toList "PING 1".toList
        "b\x01c".toList (by decide) (by decide)).2 (by decide) (by decide)⟩,
    ⟨by decide, by decide,
      ((split_CTCP_partition 512 [] [] []).2.2.2.1 "a".toList [] "b".toList (by decide)
        (by decide)).2 (by decide) (by decide)⟩,
    ⟨by decide,
      (split_CTCP_partition 512 "a\x01b".toList "x".toList "y".toList).2.2.2.2 (by decide)⟩⟩

/-! ## A span the registry has a handler for -/

theorem do_ctcp_body_open (env : Env) (bucket : Bucket) (reenter : Decoder) (fuel : Nat)
    (request : Bool) (sender target str : CStr) (st : State)
    (h2 : 2 ≤ charcount str CTCP_DELIM_CHAR) (hfit : fits env str)
    (hopen : (do_ctcp_entry env request sender target str st).1 = false) :
    do_ctcp_body env bucket reenter fuel request sender target str st =
      do_ctcp_finish env (ctcp_loop env bucket reenter request sender target fuel str false
        (do_ctcp_entry env request sender target str st).2) := by
  rw [do_ctcp_body_fits _ _ _ _ _ _ _ _ _ h2 hfit, hopen]
  rfl

theorem searched_state_trace (env : Env) (request : Bool) (sender target the_ctcp : CStr)
    (st : State) :
    (searched_state env request sender target the_ctcp st).trace =
      st.trace ++ request_offer request sender target (split_command the_ctcp).1
        (span_argument env sender target the_ctcp st.trace) := by
  unfold searched_state request_offer
  cases request <;> simp [offer_text, span_argument]

/-- A span the request hook lets through and the registry has an entry for:
the entry is called; inline text is handed on with the latch clear, NULL from
a SPECIAL entry ends the span with the latch clear, and NULL from any other
entry is followed by the default handling, which sets the latch. -/
theorem process_span_found (env : Env) (bucket : Bucket) (reenter : Decoder)
    (request : Bool) (sender target the_ctcp : CStr) (st : State)
    (name : CStr) (entry : CtcpEntry)
    (hh : request = true → env.do_hook st.trace .CTCP_REQUEST_LIST
      (offer_text env sender target the_ctcp st.trace) ≠ 0)
    (hfind : find_ctcp bucket request (split_command the_ctcp).1 = some (name, entry)) :
    process_span env bucket reenter request sender target the_ctcp st =
      match call_entry env bucket reenter request entry sender target
          (split_command the_ctcp).1
          (handler_argument env entry sender target the_ctcp st.trace)
          (searched_state env request sender target the_ctcp st) with
      | none => none
      | some (some ptr, _, st1) => some (some ptr, false, st1)
      | some (none, args, st1) =>
        if entry.flag &&& CTCP_SPECIAL ≠ 0 then some (none, false, st1)
        else some (none, true,
          default_handling env request sender target (split_command the_ctcp).1
            (shown_argument env entry sender target the_ctcp st.trace args) st1) := by
  have hd : ∀ s : State,
      dispatch_span env bucket reenter request sender target (split_command the_ctcp).1
        (split_command the_ctcp).2
        (env.inbound_recode st.trace sender target (split_command the_ctcp).2) s =
      match call_entry env bucket reenter request entry sender target
          (split_command the_ctcp).1
          (handler_argument env entry sender target the_ctcp st.trace) s with
      | none => none
      | some (some ptr, _, st1) => some (some ptr, false, st1)
      | some (none, args, st1) =>
        if entry.flag &&& CTCP_SPECIAL ≠ 0 then some (none, false, st1)
        else some (none, true,
          default_handling env request sender target (split_command the_ctcp).1
            (shown_argument env entry sender target the_ctcp st.trace args) st1) := by
    intro s
    unfold dispatch_span handler_argument shown_argument span_argument
    rw [hfind]
    dsimp only
    by_cases hn : entry.flag &&& CTCP_NORECODE ≠ 0
    · simp [hn]
    · simp [hn]
  cases request with
  | false =>
    rw [process_span_reply, hd]
    rfl
  | true =>
    have hh := hh rfl
    unfold offer_text at hh
    unfold process_span
    simp only [if_true, in_ctcp_incr_trace]
    rw [if_neg hh, incr_log_decr, hd]
    rfl

/-! ## Inline text -/

/-- A first span whose handler returns inline text: the text takes the place
of the span and the loop goes on with the latch clear, in the state the
handler left. -/
theorem do_ctcp_body_inline (env : Env) (bucket : Bucket) (reenter : Decoder) (fuel : Nat)
    (request : Bool) (sender target P b R : CStr) (st : State)
    (name : CStr) (entry : CtcpEntry) (t args : CStr) (st1 : State)
    (hP : CTCP_DELIM_CHAR ∉ P) (hb : CTCP_DELIM_CHAR ∉ b) (hne : b ≠ [])
    (hcount : charcount (P ++ CTCP_DELIM_CHAR :: (b ++ CTCP_DELIM_CHAR :: R))
      CTCP_DELIM_CHAR ≤ 8)
    (hfit : fits env (P ++ CTCP_DELIM_CHAR :: (b ++ CTCP_DELIM_CHAR :: R)))
    (hi : not_ignored env sender target) (hf : not_flooding env sender)
    (ht : target_open env target) (hh : request = true → request_hook_passes env)
    (hfind : find_ctcp bucket request (split_command b).1 = some (name, entry))
    (hcall : call_entry env bucket reenter request entry sender target (split_command b).1
        (handler_argument env entry sender target b
          (do_ctcp_entry env request sender target
            (P ++ CTCP_DELIM_CHAR :: (b ++ CTCP_DELIM_CHAR :: R)) st).2.trace)
        (searched_state env request sender target b
          (do_ctcp_entry env request sender target
            (P ++ CTCP_DELIM_CHAR :: (b ++ CTCP_DELIM_CHAR :: R)) st).2)
      = some (some t, args, st1))
    (hcap : P.length + t.length + R.length + 2 ≤ env.BIG_BUFFER_SIZE) :
    do_ctcp_body env bucket reenter (fuel + 1) request sender target
        (P ++ CTCP_DELIM_CHAR :: (b ++ CTCP_DELIM_CHAR :: R)) st =
      do_ctcp_finish env
        (ctcp_loop env bucket reenter request sender target fuel (P ++ t ++ R) false st1) := by
  have hc := count_span P b R hP hb
  rw [do_ctcp_body_open _ _ _ _ _ _ _ _ _ (by omega) hfit
      (do_ctcp_entry_open _ _ _ _ _ _ hcount hi hf ht),
    ctcp_loop_span _ _ _ _ _ _ _ _ _ _ _ hP hb hne hfit,
    process_span_found env bucket reenter request sender target b _ name entry
      (fun hr => hh hr _ _) hfind, hcall]
  dsimp only
  rw [strlcat_of_le (a := P) (b := t) (by omega),
    strlcat_of_le (a := P ++ t) (b := R) (by simp; omega)]

theorem do_ctcp_finish_some (env : Env) (buf : CStr) (st : State)
    (h : buf.length + 1 ≤ env.BIG_BUFFER_SIZE) :
    do_ctcp_finish env (some (buf, st)) = some (buf, st.log .pop_message_from) := by
  show some (strlcpy buf env.BIG_BUFFER_SIZE, st.log .pop_message_from) = _
  rw [strlcpy_of_le h]

/-- C21: take a message that fits the protocol buffer and passes every gate,
whose first span is not empty, is let through by the request hook, and has a
registry entry whose handler returns the inline text `t`, with room in the
working buffer for the prefix, `t` and what follows the span.  Then the run
is the rest of the loop on the text in which `t` stands where the span stood,
started with the latch clear in the state the handler left: nothing is offered
to the CTCP-seen hook and nothing is shown for the span.  When `t` and what
follows hold no delimiter, the text returned is prefix, `t`, suffix, and the
trace ends with the handler's events and the final release.  When a second
span follows, it is processed next, as the first span of the remaining text,
with the latch clear. -/
theorem inline_text_replaces_span (env : Env) (bucket : Bucket) (fuel : Nat)
    (request : Bool) (sender target P b R : CStr) (st : State)
    (name : CStr) (entry : CtcpEntry) (t args : CStr) (st1 : State)
    (hP : CTCP_DELIM_CHAR ∉ P) (hb : CTCP_DELIM_CHAR ∉ b) (hne : b ≠ [])
    (ht : CTCP_DELIM_CHAR ∉ t)
    (hcount : charcount (P ++ CTCP_DELIM_CHAR :: (b ++ CTCP_DELIM_CHAR :: R))
      CTCP_DELIM_CHAR ≤ 8)
    (hfit : fits env (P ++ CTCP_DELIM_CHAR :: (b ++ CTCP_DELIM_CHAR :: R)))
    (hi : not_ignored env sender target) (hf : not_flooding env sender)
    (hopen : target_open env target) (hh : request = true → request_hook_passes env)
    (hfind : find_ctcp bucket request (split_command b).1 = some (name, entry))
    (hcall : call_entry env bucket (do_ctcp env bucket fuel) request entry sender target
        (split_command b).1
        (handler_argument env entry sender target b
          (do_ctcp_entry env request sender target
            (P ++ CTCP_DELIM_CHAR :: (b ++ CTCP_DELIM_CHAR :: R)) st).2.trace)
        (searched_state env request sender target b
          (do_ctcp_entry env request sender target
            (P ++ CTCP_DELIM_CHAR :: (b ++ CTCP_DELIM_CHAR :: R)) st).2)
      = some (some t, args, st1))
    (hcap : P.length + t.length + R.length + 2 ≤ env.BIG_BUFFER_SIZE) :
    do_ctcp env bucket (fuel + 1) request sender target
        (P ++ CTCP_DELIM_CHAR :: (b ++ CTCP_DELIM_CHAR :: R)) st =
      do_ctcp_finish env
        (ctcp_loop env bucket (do_ctcp env bucket fuel) request sender target fuel
          (P ++ t ++ R) false st1) ∧
    (CTCP_DELIM_CHAR ∉ R → 0 < fuel →
      do_ctcp env bucket (fuel + 1) request sender target
          (P ++ CTCP_DELIM_CHAR :: (b ++ CTCP_DELIM_CHAR :: R)) st =
        some (P ++ t ++ R, st1.log .pop_message_from)) ∧
    (∀ (M b2 S : CStr) (f : Nat), R = M ++ CTCP_DELIM_CHAR :: (b2 ++ CTCP_DELIM_CHAR :: S) →
      CTCP_DELIM_CHAR ∉ M → CTCP_DELIM_CHAR ∉ b2 → b2 ≠ [] → fuel = f + 1 →
      fits env (P ++ t ++ R) →
      do_ctcp env bucket (fuel + 1) request sender target
          (P ++ CTCP_DELIM_CHAR :: (b ++ CTCP_DELIM_CHAR :: R)) st =
        do_ctcp_finish env
          (match process_span env bucket (do_ctcp env bucket fuel) request sender target b2
              st1 with
           | none => none
           | some (some ptr, dpm, st2) =>
             ctcp_loop env bucket (do_ctcp env bucket fuel) request sender target f
               (strlcat (strlcat (P ++ t ++ M) ptr (env.BIG_BUFFER_SIZE + 1)) S
                 (env.BIG_BUFFER_SIZE + 1 - 2)) dpm st2
           | some (none, dpm, st2) =>
             ctcp_loop env bucket (do_ctcp env bucket fuel) request sender target f
               (P ++ t ++ M ++ S) dpm st2)) := by
  have hrun := do_ctcp_body_inline env bucket (do_ctcp env bucket fuel) fuel request sender
    target P b R st name entry t args st1 hP hb hne hcount hfit hi hf hopen hh hfind hcall hcap
  have hrun2 : do_ctcp env bucket (fuel + 1) request sender target
        (P ++ CTCP_DELIM_CHAR :: (b ++ CTCP_DELIM_CHAR :: R)) st =
      do_ctcp_finish env
        (ctcp_loop env bucket (do_ctcp env bucket fuel) request sender target fuel
          (P ++ t ++ R) false st1) := hrun
  refine ⟨hrun2, ?_, ?_⟩
  · intro hR hfuel
    obtain ⟨f, rfl⟩ : ∃ f, fuel = f + 1 := ⟨fuel - 1, by omega⟩
    have hnone : charcount (P ++ t ++ R) CTCP_DELIM_CHAR < 2 := by
      unfold charcount
      simp [List.count_eq_zero_of_not_mem hP, List.count_eq_zero_of_not_mem ht,
        List.count_eq_zero_of_not_mem hR]
    rw [hrun2, ctcp_loop_done _ _ _ _ _ _ _ _ _ _ hnone,
      do_ctcp_finish_some _ _ _ (by simp; omega)]
  · intro M b2 S f hR hM hb2 hne2 hfuel hfit2
    subst hfuel
    have hPtM : CTCP_DELIM_CHAR ∉ P ++ t ++ M := by
      simp only [List.mem_append, not_or]
      exact ⟨⟨hP, ht⟩, hM⟩
    have hshape : P ++ t ++ R = (P ++ t ++ M) ++ CTCP_DELIM_CHAR ::
        (b2 ++ CTCP_DELIM_CHAR :: S) := by
      rw [hR]; simp
    rw [hrun2, hshape,
      ctcp_loop_span _ _ _ _ _ _ _ _ _ _ _ hPtM hb2 hne2 (hshape ▸ hfit2)]

theorem inline_text_replaces_span_witness :
    (CTCP_DELIM_CHAR ∉ "a ".toList ∧ CTCP_DELIM_CHAR ∉ "UTC 1".toList ∧ "UTC 1".toList ≠ [] ∧
      CTCP_DELIM_CHAR ∉ "Thu".toList ∧ CTCP_DELIM_CHAR ∉ " b".toList ∧
      fits sample_env
        ("a ".toList ++ CTCP_DELIM_CHAR :: ("UTC 1".toList ++ CTCP_DELIM_CHAR :: " b".toList)) ∧
      find_ctcp init_ctcp true (split_command "UTC 1".toList).1
        = some ("UTC".toList, utc_entry) ∧
      call_entry sample_env init_ctcp (do_ctcp sample_env init_ctcp 2) true utc_entry
          "bob".toList "me".toList (split_command "UTC 1".toList).1
          (handler_argument sample_env utc_entry "bob".toList "me".toList "UTC 1".toList
            (do_ctcp_entry sample_env true "bob".toList "me".toList
              ("a ".toList ++ CTCP_DELIM_CHAR ::
                ("UTC 1".toList ++ CTCP_DELIM_CHAR :: " b".toList)) sample_state).2.trace)
          (searched_state sample_env true "bob".toList "me".toList "UTC 1".toList
            (do_ctcp_entry sample_env true "bob".toList "me".toList
              ("a ".toList ++ CTCP_DELIM_CHAR ::
                ("UTC 1".toList ++ CTCP_DELIM_CHAR :: " b".toList)) sample_state).2)
        = some (some "Thu".toList, "1".toList, utc_state "a \x01UTC 1\x01 b".toList) ∧
      do_ctcp sample_env init_ctcp 3 true "bob".toList "me".toList
          ("a ".toList ++ CTCP_DELIM_CHAR ::
            ("UTC 1".toList ++ CTCP_DELIM_CHAR :: " b".toList)) sample_state
        = some ("a ".toList ++ "Thu".toList ++ " b".toList,
            (utc_state "a \x01UTC 1\x01 b".toList).log .pop_message_from)) ∧
    (fits sample_env ([] ++ "Thu".toList ++ "\x01VERSION\x01".toList) ∧
      (do_ctcp sample_env init_ctcp 3 true "bob".toList "me".toList
          ([] ++ CTCP_DELIM_CHAR ::
            ("UTC 1".toList ++ CTCP_DELIM_CHAR :: "\x01VERSION\x01".toList))
          sample_state).map (fun r => (r.1, r.2.trace.filter Event.is_handler))
        = some ("Thu".toList,
            [.handler .do_utc "bob".toList "me".toList "UTC".toList "1".toList,
             .handler .do_version "bob".toList "me".toList "VERSION".toList []])) :=
  ⟨⟨by decide, by decide, by decide, by decide, by decide, by unfold fits; decide,
      by decide, by decide,
      (inline_text_replaces_span sample_env init_ctcp 2 true "bob".toList "me".toList
        "a ".toList "UTC 1".toList " b".toList sample_state "UTC".toList utc_entry
        "Thu".toList "1".toList (utc_state "a \x01UTC 1\x01 b".toList)
        (by decide) (by decide) (by decide) (by decide) (by decide) (by unfold fits; decide)
        (sample_env_not_ignored _ _) (sample_env_not_flooding _) sample_env_target_open
        (fun _ => sample_env_request_hook_passes) (by decide) (by decide)
        (by decide)).2.1 (by decide) (by decide)⟩,
    ⟨by unfold fits; decide,
      (congrArg (Option.map (fun r => (r.1, r.2.trace.filter Event.is_handler)))
        ((inline_text_replaces_span sample_env init_ctcp 2 true "bob".toList "me".toList
          [] "UTC 1".toList "\x01VERSION\x01".toList sample_state "UTC".toList utc_entry
          "Thu".toList "1".toList (utc_state "\x01UTC 1\x01\x01VERSION\x01".toList)
          (by decide) (by decide) (by decide) (by decide) (by decide) (by unfold fits; decide)
          (sample_env_not_ignored _ _) (sample_env_not_flooding _) sample_env_target_open
          (fun _ => sample_env_request_hook_passes) (by decide) (by decide)
          (by decide)).2.2 [] "VERSION".toList [] 1 (by decide) (by decide) (by decide)
          (by decide) rfl (by unfold fits; decide))).trans (by decide)⟩⟩

/-! ## A handler that returns NULL for a verb that is not SPECIAL -/

/-- A span whose processing sets the latch and splices nothing: the loop ends
in the state that processing left, with every later span removed unseen. -/
theorem ctcp_loop_latch_set (env : Env) (bucket : Bucket) (reenter : Decoder)
    (request : Bool) (sender target : CStr) (fuel : Nat) (buffer : CStr) (st : State)
    (before the_ctcp after : CStr) (st1 : State)
    (hsplit : split_CTCP env.IRCD_BUFFER_SIZE buffer = some (before, the_ctcp, after))
    (hne : the_ctcp ≠ [])
    (hproc : process_span env bucket reenter request sender target the_ctcp st
      = some (none, true, st1))
    (hfuel : charcount buffer CTCP_DELIM_CHAR ≤ fuel + 1) :
    ∃ out,
      ctcp_loop env bucket reenter request sender target (fuel + 1) buffer false st =
        some (out, st1) ∧
      charcount out CTCP_DELIM_CHAR < 2 ∧
      (fits env buffer → out = strip_spans buffer) := by
  have hcnt := split_CTCP_some_count hsplit
  have hres : charcount (strlcat before after (env.BIG_BUFFER_SIZE + 1 - 2)) CTCP_DELIM_CHAR
      ≤ fuel := by
    have := count_strlcat_le CTCP_DELIM_CHAR before after (env.BIG_BUFFER_SIZE + 1 - 2)
    unfold charcount at hfuel ⊢
    omega
  have hpos : 0 < fuel := by
    unfold charcount at hfuel
    omega
  have hstep : ctcp_loop env bucket reenter request sender target (fuel + 1) buffer false st =
      ctcp_loop env bucket reenter request sender target fuel
        (strlcat before after (env.BIG_BUFFER_SIZE + 1 - 2)) true st1 := by
    rw [ctcp_loop, hsplit]
    simp only [hne, Bool.false_eq_true, or_self, if_false, hproc]
  obtain ⟨out, hout⟩ := ctcp_loop_latched env bucket reenter request sender target fuel
    (strlcat before after (env.BIG_BUFFER_SIZE + 1 - 2)) st1 hres hpos
  refine ⟨out, hstep.trans hout, ctcp_loop_result_lt_two _ _ _ _ _ _ _ _ _ _ _ _ hout, ?_⟩
  intro hfit
  obtain ⟨b, r, hbuf, hbefore, hb, -, hafter⟩ := split_CTCP_some_spec hsplit
  have hlen : buffer.length = before.length + b.length + r.length + 2 := by
    rw [hbuf]; simp; omega
  have hr : after = r := by
    rw [hafter]
    apply strlcpy_of_le
    have := hfit.1
    omega
  have hcat : strlcat before after (env.BIG_BUFFER_SIZE + 1 - 2) = before ++ r := by
    rw [hr]
    apply strlcat_of_le
    have := hfit.1
    have := hfit.2
    omega
  rw [hcat] at hout
  have hfit2 : fits env (before ++ r) :=
    fits_of_length_le hfit (by rw [hlen]; simp; omega)
  have hpos2 : charcount (before ++ r) CTCP_DELIM_CHAR ≤ fuel := by rw [← hcat]; exact hres
  rw [ctcp_loop_latched_fits env bucket reenter request sender target fuel (before ++ r) _ hpos2
    hpos hfit2] at hout
  simp only [Option.some.injEq, Prod.mk.injEq] at hout
  rw [← hout.1, hbuf, strip_spans_span before b r hbefore hb,
    strip_spans_append_left before r hbefore]

/-- A span whose entry is not SPECIAL and whose handler returns NULL gets the
default handling, and the latch is set. -/
theorem process_span_fallthrough (env : Env) (bucket : Bucket) (reenter : Decoder)
    (request : Bool) (sender target the_ctcp : CStr) (st : State)
    (name : CStr) (entry : CtcpEntry) (args : CStr) (st1 : State)
    (hh : request = true → env.do_hook st.trace .CTCP_REQUEST_LIST
      (offer_text env sender target the_ctcp st.trace) ≠ 0)
    (hfind : find_ctcp bucket request (split_command the_ctcp).1 = some (name, entry))
    (hspecial : entry.flag &&& CTCP_SPECIAL = 0)
    (hcall : call_entry env bucket reenter request entry sender target
        (split_command the_ctcp).1
        (handler_argument env entry sender target the_ctcp st.trace)
        (searched_state env request sender target the_ctcp st) = some (none, args, st1)) :
    process_span env bucket reenter request sender target the_ctcp st =
      some (none, true,
        default_handling env request sender target (split_command the_ctcp).1
          (shown_argument env entry sender target the_ctcp st.trace args) st1) := by
  rw [process_span_found env bucket reenter request sender target the_ctcp st name entry hh
    hfind, hcall]
  simp [hspecial]

/-- The request handlers of the REPLY verbs return NULL, leave their argument
as it is, and add to the trace nothing or the events of one `send_ctcp`. -/
theorem reply_handler_events (env : Env) (bucket : Bucket) (reenter : Decoder)
    (h : CTCP_Handler) (hq : h.is_reply_handler = true)
    (sender target cmd args : CStr) (st : State) :
    ∃ st' evs,
      call_handler env bucket reenter h sender target cmd args st = some (none, args, st') ∧
      st'.trace = st.trace ++ evs ∧
      (evs = [] ∨ ∃ type format, evs = send_ctcp_events env false sender type format st.trace) := by
  cases h <;> simp only [CTCP_Handler.is_reply_handler, Bool.false_eq_true] at hq
  · -- do_clientinfo
    unfold call_handler do_clientinfo
    dsimp only
    split
    · split
      · exact ⟨_, _, rfl, send_ctcp_trace _ _ _ _ _ _, Or.inr ⟨_, _, rfl⟩⟩
      · exact ⟨_, _, rfl, send_ctcp_trace _ _ _ _ _ _, Or.inr ⟨_, _, rfl⟩⟩
    · exact ⟨_, _, rfl, send_ctcp_trace _ _ _ _ _ _, Or.inr ⟨_, _, rfl⟩⟩
  · exact ⟨_, _, rfl, send_ctcp_trace _ _ _ _ _ _, Or.inr ⟨_, _, rfl⟩⟩
  · exact ⟨_, _, rfl, send_ctcp_trace _ _ _ _ _ _, Or.inr ⟨_, _, rfl⟩⟩
  · exact ⟨_, _, rfl, send_ctcp_trace _ _ _ _ _ _, Or.inr ⟨_, _, rfl⟩⟩
  · -- do_echo
    unfold call_handler do_echo
    dsimp only
    split
    · exact ⟨_, _, rfl, send_ctcp_trace _ _ _ _ _ _, Or.inr ⟨_, _, rfl⟩⟩
    · exact ⟨_, [], rfl, by simp, Or.inl rfl⟩
  · exact ⟨_, _, rfl, send_ctcp_trace _ _ _ _ _ _, Or.inr ⟨_, _, rfl⟩⟩
  · -- do_finger
    unfold call_handler do_finger
    dsimp only
    split
    · exact ⟨_, [], rfl, by simp, Or.inl rfl⟩
    · exact ⟨_, _, rfl, send_ctcp_trace _ _ _ _ _ _, Or.inr ⟨_, _, rfl⟩⟩

/-- Every verb of `reply_verbs` has, in `init_ctcp`, a request handler among
the reply handlers, no script, and neither `CTCP_SPECIAL` nor `CTCP_NORECODE`. -/
theorem reply_verbs_entries :
    ∀ v ∈ reply_verbs, ∃ item ∈ init_ctcp, find_ctcp init_ctcp true v = some item ∧
      item.2.user_func = none ∧ item.2.flag &&& CTCP_SPECIAL = 0 ∧
      item.2.flag &&& CTCP_NORECODE = 0 ∧
      ∃ h, item.2.func = some h ∧ h.is_reply_handler = true := by
  decide

theorem call_entry_native (env : Env) (bucket : Bucket) (reenter : Decoder)
    (entry : CtcpEntry) (h : CTCP_Handler) (sender target cmd arg : CStr) (st : State)
    (hu : entry.user_func = none) (hn : entry.func = some h) :
    call_entry env bucket reenter true entry sender target cmd arg st =
      match call_handler env bucket reenter h sender target cmd arg
          (st.in_ctcp_incr.log (.handler h sender target cmd arg)) with
      | none => none
      | some (ptr, args, st1) => some (ptr, args, st1.in_ctcp_decr) := by
  unfold call_entry
  simp only [if_true, hu, hn]

/-- A request the gates and the request hook let through, whose first span
carries a REPLY verb of `init_ctcp`: the handler of the verb runs, the span
then gets the default handling, and everything after it is removed unseen. -/
theorem do_ctcp_body_reply_verb (env : Env) (reenter : Decoder) (fuel : Nat)
    (sender target P b R : CStr) (st : State)
    (hP : CTCP_DELIM_CHAR ∉ P) (hb : CTCP_DELIM_CHAR ∉ b) (hne : b ≠ [])
    (hcount : charcount (P ++ CTCP_DELIM_CHAR :: (b ++ CTCP_DELIM_CHAR :: R))
      CTCP_DELIM_CHAR ≤ 8)
    (hfit : fits env (P ++ CTCP_DELIM_CHAR :: (b ++ CTCP_DELIM_CHAR :: R)))
    (hi : not_ignored env sender target) (hf : not_flooding env sender)
    (ht : target_open env target) (hh : request_hook_passes env)
    (hverb : (split_command b).1 ∈ reply_verbs)
    (hfuel : charcount (P ++ CTCP_DELIM_CHAR :: (b ++ CTCP_DELIM_CHAR :: R))
      CTCP_DELIM_CHAR ≤ fuel) :
    ∃ h evs st',
      do_ctcp_body env init_ctcp reenter fuel true sender target
        (P ++ CTCP_DELIM_CHAR :: (b ++ CTCP_DELIM_CHAR :: R)) st
        = some (P ++ strip_spans R, st') ∧
      h.is_reply_handler = true ∧
      (find_ctcp init_ctcp true (split_command b).1).map (fun item => item.2.func)
        = some (some h) ∧
      (evs = [] ∨ ∃ type format tr,
        evs = send_ctcp_events env false sender type format tr) ∧
      st'.trace =
        st.trace ++ entry_events env true sender target
            (P ++ CTCP_DELIM_CHAR :: (b ++ CTCP_DELIM_CHAR :: R)) st.trace
          ++ [.do_hook .CTCP_REQUEST_LIST
               (offer_text env sender target b (st.trace ++ entry_events env true sender target
                 (P ++ CTCP_DELIM_CHAR :: (b ++ CTCP_DELIM_CHAR :: R)) st.trace)),
              .handler h sender target (split_command b).1
               (span_argument env sender target b (st.trace ++ entry_events env true sender
                 target (P ++ CTCP_DELIM_CHAR :: (b ++ CTCP_DELIM_CHAR :: R)) st.trace))]
          ++ evs
          ++ default_events env true sender target (split_command b).1
              (span_argument env sender target b (st.trace ++ entry_events env true sender
                target (P ++ CTCP_DELIM_CHAR :: (b ++ CTCP_DELIM_CHAR :: R)) st.trace))
              (st.trace ++ entry_events env true sender target
                  (P ++ CTCP_DELIM_CHAR :: (b ++ CTCP_DELIM_CHAR :: R)) st.trace
                ++ [.do_hook .CTCP_REQUEST_LIST
                     (offer_text env sender target b (st.trace ++ entry_events env true sender
                       target (P ++ CTCP_DELIM_CHAR :: (b ++ CTCP_DELIM_CHAR :: R)) st.trace)),
                    .handler h sender target (split_command b).1
                     (span_argument env sender target b (st.trace ++ entry_events env true
                       sender target (P ++ CTCP_DELIM_CHAR :: (b ++ CTCP_DELIM_CHAR :: R))
                       st.trace))]
                ++ evs)
          ++ [.pop_message_from] := by
  obtain ⟨item, -, hfind, hu, hspecial, hnorecode, h, hfunc, hq⟩ :=
    reply_verbs_entries _ hverb
  obtain ⟨name, entry⟩ := item
  have hc := count_span P b R hP hb
  obtain ⟨n, rfl⟩ : ∃ n, fuel = n + 1 := ⟨fuel - 1, by omega⟩
  have hPR : fits env (P ++ R) := fits_of_length_le hfit (by simp; omega)
  have hcPR : charcount (P ++ R) CTCP_DELIM_CHAR ≤ n := by
    have : charcount (P ++ R) CTCP_DELIM_CHAR = charcount R CTCP_DELIM_CHAR := by
      unfold charcount
      simp [List.count_eq_zero_of_not_mem hP]
    omega
  have hlen : (P ++ strip_spans R).length + 1 ≤ env.BIG_BUFFER_SIZE := by
    have h1 := hPR.1
    have h2 := hPR.2
    have h3 := strip_spans_length_le R
    simp at h1 ⊢
    omega
  -- the state in which the loop meets the span
  generalize hst0 : (do_ctcp_entry env true sender target
    (P ++ CTCP_DELIM_CHAR :: (b ++ CTCP_DELIM_CHAR :: R)) st).2 = st0
  have htr0 : st0.trace = st.trace ++ entry_events env true sender target
      (P ++ CTCP_DELIM_CHAR :: (b ++ CTCP_DELIM_CHAR :: R)) st.trace := by
    rw [← hst0, do_ctcp_entry_trace]
  have harg : handler_argument env entry sender target b st0.trace
      = span_argument env sender target b st0.trace := by
    unfold handler_argument
    rw [if_neg (by simpa using hnorecode)]
  obtain ⟨sth, evs, hhandler, htrh, hevs⟩ := reply_handler_events env init_ctcp reenter h hq
    sender target (split_command b).1 (span_argument env sender target b st0.trace)
    ((searched_state env true sender target b st0).in_ctcp_incr.log
      (.handler h sender target (split_command b).1
        (span_argument env sender target b st0.trace)))
  have hcall : call_entry env init_ctcp reenter true entry sender target (split_command b).1
      (handler_argument env entry sender target b st0.trace)
      (searched_state env true sender target b st0)
      = some (none, span_argument env sender target b st0.trace, sth.in_ctcp_decr) := by
    rw [harg, call_entry_native env init_ctcp reenter entry h _ _ _ _ _ hu hfunc, hhandler]
  have hshown : shown_argument env entry sender target b st0.trace
      (span_argument env sender target b st0.trace)
      = span_argument env sender target b st0.trace := by
    unfold shown_argument
    split <;> rfl
  have hproc := process_span_fallthrough env init_ctcp reenter true sender target b st0
    name entry _ _ (fun _ => hh _ _) hfind hspecial hcall
  rw [hshown] at hproc
  refine ⟨h, evs,
    (default_handling env true sender target (split_command b).1
      (span_argument env sender target b st0.trace) sth.in_ctcp_decr).log .pop_message_from,
    ?_, hq, ?_, ?_, ?_⟩
  · rw [do_ctcp_body_open _ _ _ _ _ _ _ _ _ (by omega) hfit
        (do_ctcp_entry_open _ _ _ _ _ _ hcount hi hf ht),
      ctcp_loop_span _ _ _ _ _ _ _ _ _ _ _ hP hb hne hfit, hst0, hproc]
    dsimp only
    rw [ctcp_loop_latched_fits _ _ _ _ _ _ _ _ _ hcPR (by omega) hPR,
      do_ctcp_finish_some _ _ _ (by rw [strip_spans_append_left _ _ hP]; exact hlen),
      strip_spans_append_left _ _ hP]
  · rw [hfind]
    exact congrArg some hfunc
  · rcases hevs with hnil | ⟨type, format, hsend⟩
    · exact Or.inl hnil
    · exact Or.inr ⟨type, format, _, hsend⟩
  · simp only [log_trace, default_handling_trace, in_ctcp_decr_trace, htrh, in_ctcp_incr_trace,
      searched_state_trace, request_offer, if_true, htr0, offer_text, span_argument,
      List.append_assoc, List.singleton_append, List.cons_append, List.nil_append]

theorem default_events_is_seen_offer (env : Env) (request : Bool)
    (sender target cmd arg : CStr) (tr : Trace) :
    (default_events env request sender target cmd arg tr).filter Event.is_seen_offer
      = [.do_hook (seen_list request)
          (sender ++ [' '] ++ target ++ [' '] ++ cmd ++ [' '] ++ arg)] := by
  unfold default_events seen_list
  cases request <;> simp <;> split_ifs <;> simp [Event.is_seen_offer]

/-- C22: a span the request hook lets through, whose registry entry is not
SPECIAL and whose handler returns NULL, gets the default handling and sets the
latch; the loop then ends in the state the default handling left, so no later
span is offered to a hook, handled or answered.  For a request over the
registry of `init_ctcp` that fits the protocol buffer, passes every gate, and
whose first span carries one of the REPLY verbs: the handler of that verb
runs, the span is then offered to the hook on `CTCP_LIST` (and shown unless
the hook returns zero), and whatever follows, a second REPLY span included, is
removed with no handler call, no hook offer and no reply: the run enters one
handler and calls `send_ctcp` at most once. -/
theorem fallthrough_sets_latch :
    (∀ (env : Env) (bucket : Bucket) (reenter : Decoder) (request : Bool)
        (sender target : CStr) (fuel : Nat) (buffer : CStr) (st : State)
        (before the_ctcp after name : CStr) (entry : CtcpEntry) (args : CStr) (st1 : State),
      split_CTCP env.IRCD_BUFFER_SIZE buffer = some (before, the_ctcp, after) →
      the_ctcp ≠ [] →
      (request = true → env.do_hook st.trace .CTCP_REQUEST_LIST
        (offer_text env sender target the_ctcp st.trace) ≠ 0) →
      find_ctcp bucket request (split_command the_ctcp).1 = some (name, entry) →
      entry.flag &&& CTCP_SPECIAL = 0 →
      call_entry env bucket reenter request entry sender target (split_command the_ctcp).1
          (handler_argument env entry sender target the_ctcp st.trace)
          (searched_state env request sender target the_ctcp st) = some (none, args, st1) →
      charcount buffer CTCP_DELIM_CHAR ≤ fuel + 1 →
      process_span env bucket reenter request sender target the_ctcp st =
        some (none, true,
          default_handling env request sender target (split_command the_ctcp).1
            (shown_argument env entry sender target the_ctcp st.trace args) st1) ∧
      ∃ out,
        ctcp_loop env bucket reenter request sender target (fuel + 1) buffer false st =
          some (out, default_handling env request sender target (split_command the_ctcp).1
            (shown_argument env entry sender target the_ctcp st.trace args) st1) ∧
        charcount out CTCP_DELIM_CHAR < 2 ∧
        (fits env buffer → out = strip_spans buffer)) ∧
    (∀ (env : Env) (fuel : Nat) (sender target P b R : CStr) (st : State),
      CTCP_DELIM_CHAR ∉ P → CTCP_DELIM_CHAR ∉ b → b ≠ [] →
      charcount (P ++ CTCP_DELIM_CHAR :: (b ++ CTCP_DELIM_CHAR :: R)) CTCP_DELIM_CHAR ≤ 8 →
      fits env (P ++ CTCP_DELIM_CHAR :: (b ++ CTCP_DELIM_CHAR :: R)) →
      not_ignored env sender target → not_flooding env sender → target_open env target →
      request_hook_passes env →
      (split_command b).1 ∈ reply_verbs →
      charcount (P ++ CTCP_DELIM_CHAR :: (b ++ CTCP_DELIM_CHAR :: R)) CTCP_DELIM_CHAR ≤ fuel →
      ∃ h st',
        do_ctcp env init_ctcp fuel true sender target
          (P ++ CTCP_DELIM_CHAR :: (b ++ CTCP_DELIM_CHAR :: R)) st
          = some (P ++ strip_spans R, st') ∧
        (find_ctcp init_ctcp true (split_command b).1).map (fun item => item.2.func)
          = some (some h) ∧
        st'.trace.filter Event.is_handler = st.trace.filter Event.is_handler ++
          [.handler h sender target (split_command b).1
            (span_argument env sender target b (st.trace ++ entry_events env true sender
              target (P ++ CTCP_DELIM_CHAR :: (b ++ CTCP_DELIM_CHAR :: R)) st.trace))] ∧
        st'.trace.filter Event.is_seen_offer = st.trace.filter Event.is_seen_offer ++
          [.do_hook .CTCP_LIST
            (offer_text env sender target b (st.trace ++ entry_events env true sender
              target (P ++ CTCP_DELIM_CHAR :: (b ++ CTCP_DELIM_CHAR :: R)) st.trace))] ∧
        (st'.trace.filter Event.is_say).length ≤ (st.trace.filter Event.is_say).length + 1 ∧
        (st'.trace.filter Event.is_send_ctcp).length
          ≤ (st.trace.filter Event.is_send_ctcp).length + 1) := by
  refine ⟨?_, ?_⟩
  · intro env bucket reenter request sender target fuel buffer st before the_ctcp after name
      entry args st1 hsplit hne hh hfind hspecial hcall hfuel
    have hproc := process_span_fallthrough env bucket reenter request sender target the_ctcp st
      name entry args st1 hh hfind hspecial hcall
    exact ⟨hproc, ctcp_loop_latch_set env bucket reenter request sender target fuel buffer st
      before the_ctcp after _ hsplit hne hproc hfuel⟩
  · intro env fuel sender target P b R st hP hb hne hcount hfit hi hf ht hh hverb hfuel
    obtain ⟨reenter, hre⟩ := do_ctcp_eq_body env init_ctcp fuel
    obtain ⟨h, evs, st', hrun, -, hfunc, hevs, htr⟩ := do_ctcp_body_reply_verb env reenter fuel
      sender target P b R st hP hb hne hcount hfit hi hf ht hh hverb hfuel
    rw [hre]
    refine ⟨h, st', hrun, hfunc, ?_, ?_, ?_, ?_⟩
    · rw [htr]
      simp only [List.filter_append]
      rw [entry_events_filter _ _ _ _ _ _ _ (fun _ _ _ _ => rfl) (fun _ _ _ _ _ => rfl)
          (fun _ _ => rfl),
        default_events_filter _ _ _ _ _ _ _ _ (fun _ _ => rfl) (fun _ => rfl)]
      have he : evs.filter Event.is_handler = [] := by
        rcases hevs with hnil | ⟨type, format, tr, hsend⟩
        · rw [hnil]; rfl
        · rw [hsend]
          exact send_ctcp_events_filter _ _ _ _ _ _ _ (fun _ _ _ _ => rfl) (fun _ => rfl)
            (fun _ => rfl) (fun _ _ _ => rfl) rfl
      rw [he]
      simp [Event.is_handler]
    · rw [htr]
      simp only [List.filter_append]
      rw [entry_events_filter _ _ _ _ _ _ _ (fun _ _ _ _ => rfl) (fun _ _ _ _ _ => rfl)
          (fun _ _ => rfl), default_events_is_seen_offer]
      have he : evs.filter Event.is_seen_offer = [] := by
        rcases hevs with hnil | ⟨type, format, tr, hsend⟩
        · rw [hnil]; rfl
        · rw [hsend]
          exact send_ctcp_events_filter _ _ _ _ _ _ _ (fun _ _ _ _ => rfl) (fun _ => rfl)
            (fun _ => rfl) (fun _ _ _ => rfl) rfl
      rw [he]
      simp [Event.is_seen_offer, seen_list, offer_text, span_argument]
    · rw [htr]
      simp only [List.filter_append, List.length_append]
      rw [entry_events_filter _ _ _ _ _ _ _ (fun _ _ _ _ => rfl) (fun _ _ _ _ _ => rfl)
          (fun _ _ => rfl), default_events_is_say]
      have he : evs.filter Event.is_say = [] := by
        rcases hevs with hnil | ⟨type, format, tr, hsend⟩
        · rw [hnil]; rfl
        · rw [hsend]
          exact send_ctcp_events_filter _ _ _ _ _ _ _ (fun _ _ _ _ => rfl) (fun _ => rfl)
            (fun _ => rfl) (fun _ _ _ => rfl) rfl
      rw [he]
      simp only [Event.is_say, List.filter_cons, List.filter_nil, Bool.false_eq_true, if_false,
        List.length_nil, Nat.add_zero]
      split_ifs <;> omega
    · rw [htr]
      simp only [List.filter_append, List.length_append]
      rw [entry_events_filter _ _ _ _ _ _ _ (fun _ _ _ _ => rfl) (fun _ _ _ _ _ => rfl)
          (fun _ _ => rfl),
        default_events_filter _ _ _ _ _ _ _ _ (fun _ _ => rfl) (fun _ => rfl)]
      have he : (evs.filter Event.is_send_ctcp).length ≤ 1 := by
        rcases hevs with hnil | ⟨type, format, tr, hsend⟩
        · rw [hnil]; simp
        · rw [hsend, send_ctcp_events_is_send_ctcp]; simp
      simp only [Event.is_send_ctcp, List.filter_cons, List.filter_nil, Bool.false_eq_true,
        if_false, List.length_nil, Nat.add_zero]
      omega

theorem fallthrough_sets_latch_witness :
    (split_CTCP sample_env.IRCD_BUFFER_SIZE "\x01VERSION\x01\x01PING 1\x01".toList
        = some ([], "VERSION".toList, "\x01PING 1\x01".toList) ∧
      find_ctcp init_ctcp true (split_command "VERSION".toList).1
        = some ("VERSION".toList, version_entry) ∧
      version_entry.flag &&& CTCP_SPECIAL = 0 ∧
      call_entry sample_env init_ctcp (do_ctcp sample_env init_ctcp 3) true version_entry
          "bob".toList "me".toList (split_command "VERSION".toList).1
          (handler_argument sample_env version_entry "bob".toList "me".toList
            "VERSION".toList sample_state.trace)
          (searched_state sample_env true "bob".toList "me".toList "VERSION".toList
            sample_state)
        = some (none, [], version_state) ∧
      ctcp_loop sample_env init_ctcp (do_ctcp sample_env init_ctcp 3) true "bob".toList
          "me".toList (3 + 1) "\x01VERSION\x01\x01PING 1\x01".toList false sample_state
        = some (strip_spans "\x01VERSION\x01\x01PING 1\x01".toList,
            default_handling sample_env true "bob".toList "me".toList
              (split_command "VERSION".toList).1
              (shown_argument sample_env version_entry "bob".toList "me".toList
                "VERSION".toList sample_state.trace [])
              version_state)) ∧
    ((split_command "VERSION".toList).1 ∈ reply_verbs ∧
      fits sample_env
        ([] ++ CTCP_DELIM_CHAR :: ("VERSION".toList ++ CTCP_DELIM_CHAR ::
          "\x01PING 1\x01".toList)) ∧
      ∃ h st',
        do_ctcp sample_env init_ctcp 4 true "bob".toList "me".toList
          ([] ++ CTCP_DELIM_CHAR :: ("VERSION".toList ++ CTCP_DELIM_CHAR ::
            "\x01PING 1\x01".toList)) sample_state
          = some ([], st') ∧
        (find_ctcp init_ctcp true "VERSION".toList).map (fun item => item.2.func)
          = some (some h) ∧
        st'.trace.filter Event.is_handler
          = [.handler h "bob".toList "me".toList "VERSION".toList []] ∧
        st'.trace.filter Event.is_seen_offer
          = [.do_hook .CTCP_LIST "bob me VERSION ".toList] ∧
        (st'.trace.filter Event.is_send_ctcp).length ≤ 1) :=
  ⟨⟨by decide, by decide, by decide, by decide,
      ((fallthrough_sets_latch.1 sample_env init_ctcp (do_ctcp sample_env init_ctcp 3) true
        "bob".toList "me".toList 3 "\x01VERSION\x01\x01PING 1\x01".toList sample_state
        [] "VERSION".toList "\x01PING 1\x01".toList "VERSION".toList version_entry []
        version_state (by decide) (by decide) (fun _ => by decide) (by decide) (by decide)
        (by decide) (by decide)).2).elim
        fun out h => by rw [h.1, ← h.2.2 (by unfold fits; decide)]⟩,
    ⟨by decide, by unfold fits; decide,
      (fallthrough_sets_latch.2 sample_env 4 "bob".toList "me".toList [] "VERSION".toList
        "\x01PING 1\x01".toList sample_state (by decide) (by decide) (by decide) (by decide)
        (by unfold fits; decide) (sample_env_not_ignored _ _) (sample_env_not_flooding _)
        sample_env_target_open sample_env_request_hook_passes (by decide) (by decide)).imp
        fun _ h => h.imp fun _ h =>
          ⟨h.1.trans rfl, h.2.1, h.2.2.1.trans rfl, h.2.2.2.1.trans (by decide),
            h.2.2.2.2.2⟩⟩⟩

/-! ## ACTION spans -/

theorem do_atmosphere_filter_of (env : Env) (sender target args : CStr) (st : State)
    (p : Event → Bool)
    (h1 : ∀ a b c, p (.check_ignore_channel a b c .LEVEL_ACTION) = false)
    (h2 : ∀ a b c d, p (.new_check_flooding a b c d .LEVEL_ACTION) = false)
    (h3 : ∀ a, p (.message_from a .LEVEL_ACTION) = false)
    (h4 : ∀ a, p (.do_hook .ACTION_LIST a) = false)
    (h5 : ∀ a, p (.put_it a) = false)
    (h6 : p .pop_message_from = false) :
    (do_atmosphere env sender target args st).2.2.trace.filter p = st.trace.filter p := by
  unfold do_atmosphere
  simp only
  split_ifs <;> simp [List.filter_append, h1, h2, h3, h4, h5, h6]

theorem split_command_action (a : CStr) :
    split_command ("ACTION ".toList ++ a) = ("ACTION".toList, a) := by
  have h : cut_at ' ' ("ACTION".toList ++ ' ' :: a) = some ("ACTION".toList, a) :=
    cut_at_append_cons a (by decide)
  unfold split_command
  have e : "ACTION ".toList ++ a = "ACTION".toList ++ ' ' :: a := by simp
  rw [e, h]

theorem find_ctcp_action (request : Bool) :
    find_ctcp init_ctcp request "ACTION".toList = some ("ACTION".toList, action_entry) := by
  cases request <;> decide

theorem call_entry_action (env : Env) (reenter : Decoder) (request : Bool)
    (sender target arg : CStr) (st : State) :
    call_entry env init_ctcp reenter request action_entry sender target "ACTION".toList arg st =
      some (none, (do_atmosphere env sender target arg
          (st.in_ctcp_incr.log (.handler .do_atmosphere sender target "ACTION".toList arg))).2.1,
        (do_atmosphere env sender target arg
          (st.in_ctcp_incr.log
            (.handler .do_atmosphere sender target "ACTION".toList arg))).2.2.in_ctcp_decr) := by
  have hp := do_atmosphere_ptr env sender target arg
    (st.in_ctcp_incr.log (.handler .do_atmosphere sender target "ACTION".toList arg))
  unfold call_entry
  cases request <;>
    simp only [action_entry, if_true, Bool.false_eq_true, if_false, call_handler] <;>
    rw [← hp]

/-- An ACTION span the request hook lets through: `do_atmosphere` is entered
once, the latch stays clear, and nothing is offered to the CTCP-seen hook or
shown with `say`. -/
theorem process_span_action (env : Env) (reenter : Decoder) (request : Bool)
    (sender target a : CStr) (st : State)
    (hh : request = true → request_hook_passes env) :
    ∃ st1, process_span env init_ctcp reenter request sender target ("ACTION ".toList ++ a) st
        = some (none, false, st1) ∧
      st1.trace.filter Event.is_handler = st.trace.filter Event.is_handler ++
        [.handler .do_atmosphere sender target "ACTION".toList
          ((env.inbound_recode st.trace sender target a).getD a)] ∧
      st1.trace.filter Event.is_seen_offer = st.trace.filter Event.is_seen_offer ∧
      st1.trace.filter Event.is_say = st.trace.filter Event.is_say := by
  have hfind : find_ctcp init_ctcp request (split_command ("ACTION ".toList ++ a)).1
      = some ("ACTION".toList, action_entry) := by
    rw [split_command_action]; exact find_ctcp_action request
  have hproc := process_span_found env init_ctcp reenter request sender target
    ("ACTION ".toList ++ a) st "ACTION".toList action_entry (fun hr => hh hr _ _) hfind
  have harg : handler_argument env action_entry sender target ("ACTION ".toList ++ a) st.trace
      = (env.inbound_recode st.trace sender target a).getD a := by
    unfold handler_argument span_argument
    rw [split_command_action, if_neg (by decide)]
  rw [split_command_action] at hproc
  dsimp only at hproc
  rw [harg, call_entry_action] at hproc
  dsimp only at hproc
  rw [if_pos (by decide)] at hproc
  refine ⟨_, hproc, ?_, ?_, ?_⟩
  · rw [in_ctcp_decr_trace, do_atmosphere_filter_of _ _ _ _ _ _ (fun _ _ _ => rfl)
      (fun _ _ _ _ => rfl) (fun _ => rfl) (fun _ => rfl) (fun _ => rfl) rfl]
    simp only [log_trace, in_ctcp_incr_trace, searched_state_trace, request_offer,
      List.filter_append]
    cases request <;> simp [Event.is_handler]
  · rw [in_ctcp_decr_trace, do_atmosphere_filter_of _ _ _ _ _ _ (fun _ _ _ => rfl)
      (fun _ _ _ _ => rfl) (fun _ => rfl) (fun _ => rfl) (fun _ => rfl) rfl]
    simp only [log_trace, in_ctcp_incr_trace, searched_state_trace, request_offer,
      List.filter_append]
    cases request <;> simp [Event.is_seen_offer]
  · rw [in_ctcp_decr_trace, do_atmosphere_filter_of _ _ _ _ _ _ (fun _ _ _ => rfl)
      (fun _ _ _ _ => rfl) (fun _ => rfl) (fun _ => rfl) (fun _ => rfl) rfl]
    simp only [log_trace, in_ctcp_incr_trace, searched_state_trace, request_offer,
      List.filter_append]
    cases request <;> simp [Event.is_say]

theorem action_plain_length_le (spans : List (CStr × CStr)) (rest : CStr) :
    (action_plain spans rest).length ≤ (action_message spans rest).length := by
  induction spans with
  | nil => exact le_refl _
  | cons s tl ih =>
    obtain ⟨P, a⟩ := s
    simp [action_plain, action_message]
    omega

theorem count_action_message (spans : List (CStr × CStr)) (rest : CStr)
    (hspans : ∀ s ∈ spans, CTCP_DELIM_CHAR ∉ s.1 ∧ CTCP_DELIM_CHAR ∉ s.2)
    (hrest : CTCP_DELIM_CHAR ∉ rest) :
    charcount (action_message spans rest) CTCP_DELIM_CHAR = 2 * spans.length := by
  induction spans with
  | nil =>
    unfold charcount
    simp [action_message, List.count_eq_zero_of_not_mem hrest]
  | cons s tl ih =>
    obtain ⟨P, a⟩ := s
    have h1 := hspans (P, a) (List.mem_cons_self _ _)
    have hb : CTCP_DELIM_CHAR ∉ "ACTION ".toList ++ a := by
      simp only [List.mem_append, not_or]
      exact ⟨by decide, h1.2⟩
    have ih' := ih (fun s hs => hspans s (List.mem_cons_of_mem _ hs))
    show charcount (P ++ CTCP_DELIM_CHAR ::
      (("ACTION ".toList ++ a) ++ CTCP_DELIM_CHAR :: action_message tl rest))
      CTCP_DELIM_CHAR = _
    rw [count_span P _ _ h1.1 hb, ih']
    simp
    omega

/-- The loop on a message of ACTION spans, with the latch clear: every span is
handed to `do_atmosphere`, in order, and the plain text is what is left. -/
theorem ctcp_loop_actions (env : Env) (reenter : Decoder) (request : Bool)
    (sender target rest : CStr) (hrest : CTCP_DELIM_CHAR ∉ rest)
    (hh : request = true → request_hook_passes env) :
    ∀ (spans : List (CStr × CStr)) (Q : CStr) (st : State) (fuel : Nat),
      CTCP_DELIM_CHAR ∉ Q →
      (∀ s ∈ spans, CTCP_DELIM_CHAR ∉ s.1 ∧ CTCP_DELIM_CHAR ∉ s.2) →
      fits env (Q ++ action_message spans rest) →
      2 * spans.length < fuel →
      ∃ st' hs,
        ctcp_loop env init_ctcp reenter request sender target fuel
          (Q ++ action_message spans rest) false st = some (Q ++ action_plain spans rest, st') ∧
        st'.trace.filter Event.is_handler = st.trace.filter Event.is_handler ++ hs ∧
        List.Forall₂ (is_action_call env sender target) hs spans ∧
        st'.trace.filter Event.is_seen_offer = st.trace.filter Event.is_seen_offer ∧
        st'.trace.filter Event.is_say = st.trace.filter Event.is_say := by
  intro spans
  induction spans with
  | nil =>
    intro Q st fuel hQ _ _ hfuel
    obtain ⟨n, rfl⟩ : ∃ n, fuel = n + 1 := ⟨fuel - 1, by omega⟩
    refine ⟨st, [], ?_, by simp, List.Forall₂.nil, rfl, rfl⟩
    apply ctcp_loop_done
    unfold charcount
    simp [action_message, List.count_eq_zero_of_not_mem hQ,
      List.count_eq_zero_of_not_mem hrest]
  | cons s tl ih =>
    intro Q st fuel hQ hspans hfit hfuel
    obtain ⟨P, a⟩ := s
    obtain ⟨n, rfl⟩ : ∃ n, fuel = n + 1 := ⟨fuel - 1, by omega⟩
    have h1 := hspans (P, a) (List.mem_cons_self _ _)
    have hb : CTCP_DELIM_CHAR ∉ "ACTION ".toList ++ a := by
      simp only [List.mem_append, not_or]
      exact ⟨by decide, h1.2⟩
    have hQP : CTCP_DELIM_CHAR ∉ Q ++ P := by
      simp only [List.mem_append, not_or]
      exact ⟨hQ, h1.1⟩
    have hshape : Q ++ action_message ((P, a) :: tl) rest =
        (Q ++ P) ++ CTCP_DELIM_CHAR ::
          (("ACTION ".toList ++ a) ++ CTCP_DELIM_CHAR :: action_message tl rest) := by
      simp [action_message]
    obtain ⟨st1, hproc, hh1, hs1, hy1⟩ := process_span_action env reenter request sender target
      a st hh
    have hfit' : fits env ((Q ++ P) ++ action_message tl rest) :=
      fits_of_length_le hfit (by rw [hshape]; simp; omega)
    obtain ⟨st', hs, hloop, hh2, hfa, hs2, hy2⟩ := ih (Q ++ P) st1 n hQP
      (fun s hs => hspans s (List.mem_cons_of_mem _ hs)) hfit'
      (by simp at hfuel; omega)
    refine ⟨st', _ :: hs, ?_, ?_, List.Forall₂.cons ⟨st.trace, rfl⟩ hfa, hs2.trans hs1,
      hy2.trans hy1⟩
    · rw [hshape, ctcp_loop_span _ _ _ _ _ _ _ _ _ _ _ hQP hb (by simp) (hshape ▸ hfit), hproc]
      dsimp only
      rw [hloop]
      simp [action_plain]
    · rw [hh2, hh1]
      simp

/-- C23 (as stated, refuted), in two ways.  First, with the buffer sizes 512
and 2048, the ungated request made of the two spans `ACTION a` and `ACTION`
followed by 503 bytes has four delimiters; `split_CTCP` copies what follows
the first span with `strlcpy(.., IRCD_BUFFER_SIZE - 1)`, which cuts the closing
delimiter of the second span off: `do_atmosphere` is entered once, not twice,
and the text returned is the opening delimiter and 509 bytes of the second
span, not the input with its two spans removed, which is empty.  Second, with
a script on `CTCP_REQUEST_LIST` that takes spans over, the ungated request
made of the one span `ACTION waves` never enters `do_atmosphere`. -/
theorem action_spans_oversize_or_claimed :
    (charcount (action_message [([], "a".toList), ([], List.replicate 503 'x')] [])
        CTCP_DELIM_CHAR = 4 ∧
      (do_ctcp_entry sample_env true "bob".toList "me".toList
        (action_message [([], "a".toList), ([], List.replicate 503 'x')] [])
        sample_state).1 = false ∧
      action_plain [([], "a".toList), ([], List.replicate 503 'x')] [] = [] ∧
      (do_ctcp sample_env init_ctcp 4 true "bob".toList "me".toList
          (action_message [([], "a".toList), ([], List.replicate 503 'x')] [])
          sample_state).map (fun r => (r.1, r.2.trace.filter Event.is_handler))
        = some (CTCP_DELIM_CHAR :: ("ACTION ".toList ++ List.replicate 502 'x'),
            [.handler .do_atmosphere "bob".toList "me".toList "ACTION".toList "a".toList])) ∧
    ((do_ctcp_entry claim_env true "bob".toList "me".toList
        (action_message [([], "waves".toList)] []) sample_state).1 = false ∧
      (do_ctcp claim_env init_ctcp 2 true "bob".toList "me".toList
          (action_message [([], "waves".toList)] []) sample_state).map
        (fun r => (r.1, r.2.trace.filter Event.is_handler)) = some ([], [])) := by
  refine ⟨⟨?_, ?_, by decide, ?_⟩, by decide, by decide⟩
  · set_option maxRecDepth 100000 in decide
  · set_option maxRecDepth 100000 in decide
  · set_option maxRecDepth 100000 in decide

/-- C23 (amended): take a message made of ACTION spans, each between plain
texts without delimiters, that fits the protocol buffer, passes every gate (at
most eight delimiters, so at most four spans; sender not ignored and not
flooding; target open) and, in request mode, whose spans the request hook lets
through.  Then `do_ctcp` over the registry of `init_ctcp` returns the message
with its spans removed, and enters `do_atmosphere` once for each span, in
message order, with the argument of the span as recoded; nothing is offered
to the CTCP-seen hook and nothing is shown with `say`. -/
theorem action_spans_all_dispatched (env : Env) (fuel : Nat) (request : Bool)
    (sender target : CStr) (spans : List (CStr × CStr)) (rest : CStr) (st : State)
    (hk : spans ≠ [])
    (hspans : ∀ s ∈ spans, CTCP_DELIM_CHAR ∉ s.1 ∧ CTCP_DELIM_CHAR ∉ s.2)
    (hrest : CTCP_DELIM_CHAR ∉ rest)
    (hcount : charcount (action_message spans rest) CTCP_DELIM_CHAR ≤ 8)
    (hfit : fits env (action_message spans rest))
    (hi : not_ignored env sender target) (hf : not_flooding env sender)
    (ht : target_open env target) (hh : request = true → request_hook_passes env)
    (hfuel : charcount (action_message spans rest) CTCP_DELIM_CHAR < fuel) :
    spans.length ≤ 4 ∧
    ∃ st' hs,
      do_ctcp env init_ctcp fuel request sender target (action_message spans rest) st
        = some (action_plain spans rest, st') ∧
      st'.trace.filter Event.is_handler = st.trace.filter Event.is_handler ++ hs ∧
      List.Forall₂ (is_action_call env sender target) hs spans ∧
      hs.length = spans.length ∧
      st'.trace.filter Event.is_seen_offer = st.trace.filter Event.is_seen_offer ∧
      st'.trace.filter Event.is_say = st.trace.filter Event.is_say := by
  have hc := count_action_message spans rest hspans hrest
  have hpos : 0 < spans.length := List.length_pos.mpr hk
  refine ⟨by omega, ?_⟩
  obtain ⟨reenter, hre⟩ := do_ctcp_eq_body env init_ctcp fuel
  obtain ⟨st1, hs, hloop, hh1, hfa, hs1, hy1⟩ := ctcp_loop_actions env reenter request sender
    target rest hrest hh spans [] (do_ctcp_entry env request sender target
      (action_message spans rest) st).2 fuel (by simp) hspans (by simpa using hfit) (by omega)
  simp only [List.nil_append] at hloop
  refine ⟨st1.log .pop_message_from, hs, ?_, ?_, hfa, hfa.length_eq, ?_, ?_⟩
  · rw [hre, do_ctcp_body_open _ _ _ _ _ _ _ _ _ (by omega) hfit
        (do_ctcp_entry_open _ _ _ _ _ _ hcount hi hf ht), hloop]
    apply do_ctcp_finish_some
    have := action_plain_length_le spans rest
    have := hfit.1
    have := hfit.2
    omega
  · rw [log_trace, List.filter_append, hh1, do_ctcp_entry_trace, List.filter_append,
      entry_events_filter _ _ _ _ _ _ _ (fun _ _ _ _ => rfl) (fun _ _ _ _ _ => rfl)
        (fun _ _ => rfl)]
    simp [Event.is_handler]
  · rw [log_trace, List.filter_append, hs1, do_ctcp_entry_trace, List.filter_append,
      entry_events_filter _ _ _ _ _ _ _ (fun _ _ _ _ => rfl) (fun _ _ _ _ _ => rfl)
        (fun _ _ => rfl)]
    simp [Event.is_seen_offer]
  · rw [log_trace, List.filter_append, hy1, do_ctcp_entry_trace, List.filter_append,
      entry_events_filter _ _ _ _ _ _ _ (fun _ _ _ _ => rfl) (fun _ _ _ _ _ => rfl)
        (fun _ _ => rfl)]
    simp [Event.is_say]

theorem action_spans_all_dispatched_witness :
    [("a ".toList, "waves".toList), (" b ".toList, "nods".toList)] ≠ [] ∧
    CTCP_DELIM_CHAR ∉ " c".toList ∧
    action_message [("a ".toList, "waves".toList), (" b ".toList, "nods".toList)] " c".toList
      = "a \x01ACTION waves\x01 b \x01ACTION nods\x01 c".toList ∧
    fits sample_env
      (action_message [("a ".toList, "waves".toList), (" b ".toList, "nods".toList)]
        " c".toList) ∧
    ∃ st',
      do_ctcp sample_env init_ctcp 5 true "bob".toList "me".toList
        (action_message [("a ".toList, "waves".toList), (" b ".toList, "nods".toList)]
          " c".toList) sample_state = some ("a  b  c".toList, st') ∧
      st'.trace.filter Event.is_handler =
        [.handler .do_atmosphere "bob".toList "me".toList "ACTION".toList "waves".toList,
         .handler .do_atmosphere "bob".toList "me".toList "ACTION".toList "nods".toList] ∧
      st'.trace.filter Event.is_seen_offer = [] ∧
      st'.trace.filter Event.is_say = [] :=
  ⟨by decide, by decide, by decide, by unfold fits; decide,
    ((action_spans_all_dispatched sample_env 5 true "bob".toList "me".toList
      [("a ".toList, "waves".toList), (" b ".toList, "nods".toList)] " c".toList sample_state
      (by decide) (by decide) (by decide) (by decide) (by unfold fits; decide)
      (sample_env_not_ignored _ _) (sample_env_not_flooding _) sample_env_target_open
      (fun _ => sample_env_request_hook_passes) (by decide)).2).elim
      fun st' h => h.elim fun hs h =>
        ⟨st', h.1.trans rfl,
          by
            have h1 := h.1
            have h2 : (do_ctcp sample_env init_ctcp 5 true "bob".toList "me".toList
                (action_message [("a ".toList, "waves".toList), (" b ".toList, "nods".toList)]
                  " c".toList) sample_state).map
                (fun r => r.2.trace.filter Event.is_handler) =
              some [.handler .do_atmosphere "bob".toList "me".toList "ACTION".toList
                  "waves".toList,
                .handler .do_atmosphere "bob".toList "me".toList "ACTION".toList
                  "nods".toList] := by decide
            rw [h1] at h2
            exact Option.some.inj h2,
          h.2.2.2.2.1, h.2.2.2.2.2⟩⟩

/-! ## Empty spans -/

/-- More fuel does not change what the loop returns. -/
theorem ctcp_loop_fuel_mono (env : Env) (bucket : Bucket) (reenter : Decoder)
    (request : Bool) (sender target : CStr) :
    ∀ (fuel : Nat) (buffer : CStr) (dpm : Bool) (st : State) (r : CStr × State),
      ctcp_loop env bucket reenter request sender target fuel buffer dpm st = some r →
      ctcp_loop env bucket reenter request sender target (fuel + 1) buffer dpm st = some r := by
  intro fuel
  induction fuel with
  | zero => intro buffer dpm st r h; simp [ctcp_loop] at h
  | succ fuel ih =>
    intro buffer dpm st r h
    rw [ctcp_loop] at h ⊢
    cases hs : split_CTCP env.IRCD_BUFFER_SIZE buffer with
    | none => rw [hs] at h; exact h
    | some parts =>
      obtain ⟨before, the_ctcp, after⟩ := parts
      rw [hs] at h
      dsimp only at h ⊢
      split_ifs at h ⊢ with hc
      · exact ih _ _ _ _ h
      · cases hp : process_span env bucket reenter request sender target the_ctcp st with
        | none => rw [hp] at h; cases h
        | some res =>
          obtain ⟨ptr, dpm', st1⟩ := res
          rw [hp] at h
          cases ptr with
          | some t => exact ih _ _ _ _ h
          | none => exact ih _ _ _ _ h

/-- In reply mode the entry of `do_ctcp` reads the text only to count its
delimiters. -/
theorem do_ctcp_entry_reply (env : Env) (sender target str str' : CStr) (st : State)
    (h8 : charcount str CTCP_DELIM_CHAR ≤ 8) (h8' : charcount str' CTCP_DELIM_CHAR ≤ 8) :
    do_ctcp_entry env false sender target str st
      = do_ctcp_entry env false sender target str' st := by
  unfold do_ctcp_entry gated
  simp only [Bool.false_eq_true, if_false]
  have e1 : decide (charcount str CTCP_DELIM_CHAR > 8) = false := by simp; omega
  have e2 : decide (charcount str' CTCP_DELIM_CHAR > 8) = false := by simp; omega
  rw [e1, e2]

/-- C24 (as stated, refuted): with the buffer sizes 512 and 2048, take the
ungated request made of an empty span, 505 bytes of plain text and the span
VERSION (four delimiters).  The turn of the loop that drops the empty span
copies what follows it with `strlcpy(.., IRCD_BUFFER_SIZE - 1)`, which cuts the
VERSION span in the middle: no handler is entered and the text returned is the
plain text followed by a delimiter and `VERS`.  The same message with the
empty span deleted enters `do_version` and returns the plain text alone. -/
theorem empty_span_oversize :
    charcount (CTCP_DELIM_CHAR :: CTCP_DELIM_CHAR ::
      (List.replicate 505 'a' ++ "\x01VERSION\x01".toList)) CTCP_DELIM_CHAR = 4 ∧
    (do_ctcp_entry sample_env true "bob".toList "me".toList
      (CTCP_DELIM_CHAR :: CTCP_DELIM_CHAR ::
        (List.replicate 505 'a' ++ "\x01VERSION\x01".toList)) sample_state).1 = false ∧
    (do_ctcp sample_env init_ctcp 4 true "bob".toList "me".toList
        (CTCP_DELIM_CHAR :: CTCP_DELIM_CHAR ::
          (List.replicate 505 'a' ++ "\x01VERSION\x01".toList)) sample_state).map
      (fun r => (r.1, r.2.trace.filter Event.is_handler))
      = some (List.replicate 505 'a' ++ "\x01VERS".toList, []) ∧
    (do_ctcp sample_env init_ctcp 4 true "bob".toList "me".toList
        (List.replicate 505 'a' ++ "\x01VERSION\x01".toList) sample_state).map
      (fun r => (r.1, r.2.trace.filter Event.is_handler))
      = some (List.replicate 505 'a',
          [.handler .do_version "bob".toList "me".toList "VERSION".toList []]) := by
  refine ⟨?_, ?_, ?_, ?_⟩
  · set_option maxRecDepth 100000 in decide
  · set_option maxRecDepth 100000 in decide
  · set_option maxRecDepth 100000 in decide
  · set_option maxRecDepth 100000 in decide

/-- C24 (amended): take a message that fits the protocol buffer and begins with
plain text, an empty span, and a rest that holds a span.  The turn of the
loop that meets the empty span leaves the latch and the state as they are and
goes on with the message without the empty span: no hook offer, no handler
call, no display.  So the run on the message is the rest of the loop on the
message without the empty span, started from the entry of the message with
it, and the run on the message without the empty span is the same loop on the
same text started from its own entry.  In reply mode, with at most eight
delimiters, the two entries are equal, and whatever text and state the run on
the message returns, the run on the message without the empty span returns
too.  In request mode the two entries differ in the text handed to the flood
predicate. -/
theorem empty_span_dropped (env : Env) (bucket : Bucket) (fuel : Nat) (request : Bool)
    (sender target P R : CStr) (st : State)
    (hP : CTCP_DELIM_CHAR ∉ P)
    (hR : 2 ≤ charcount R CTCP_DELIM_CHAR)
    (hfit : fits env (P ++ CTCP_DELIM_CHAR :: CTCP_DELIM_CHAR :: R)) :
    (∀ (reenter : Decoder) (dpm : Bool) (st0 : State),
      ctcp_loop env bucket reenter request sender target (fuel + 1)
          (P ++ CTCP_DELIM_CHAR :: CTCP_DELIM_CHAR :: R) dpm st0 =
        ctcp_loop env bucket reenter request sender target fuel (P ++ R) dpm st0) ∧
    do_ctcp env bucket (fuel + 1) request sender target
        (P ++ CTCP_DELIM_CHAR :: CTCP_DELIM_CHAR :: R) st =
      do_ctcp_finish env
        (ctcp_loop env bucket (do_ctcp env bucket fuel) request sender target fuel (P ++ R)
          (do_ctcp_entry env request sender target
            (P ++ CTCP_DELIM_CHAR :: CTCP_DELIM_CHAR :: R) st).1
          (do_ctcp_entry env request sender target
            (P ++ CTCP_DELIM_CHAR :: CTCP_DELIM_CHAR :: R) st).2) ∧
    do_ctcp env bucket (fuel + 1) request sender target (P ++ R) st =
      do_ctcp_finish env
        (ctcp_loop env bucket (do_ctcp env bucket fuel) request sender target (fuel + 1)
          (P ++ R)
          (do_ctcp_entry env request sender target (P ++ R) st).1
          (do_ctcp_entry env request sender target (P ++ R) st).2) ∧
    (request = false →
      charcount (P ++ CTCP_DELIM_CHAR :: CTCP_DELIM_CHAR :: R) CTCP_DELIM_CHAR ≤ 8 →
      do_ctcp_entry env request sender target (P ++ CTCP_DELIM_CHAR :: CTCP_DELIM_CHAR :: R) st
        = do_ctcp_entry env request sender target (P ++ R) st ∧
      ∀ r, do_ctcp env bucket (fuel + 1) request sender target
          (P ++ CTCP_DELIM_CHAR :: CTCP_DELIM_CHAR :: R) st = some r →
        do_ctcp env bucket (fuel + 1) request sender target (P ++ R) st = some r) := by
  have hc : charcount (P ++ CTCP_DELIM_CHAR :: CTCP_DELIM_CHAR :: R) CTCP_DELIM_CHAR
      = charcount R CTCP_DELIM_CHAR + 2 := count_span P [] R hP (by simp)
  have hcPR : charcount (P ++ R) CTCP_DELIM_CHAR = charcount R CTCP_DELIM_CHAR := by
    unfold charcount
    simp [List.count_eq_zero_of_not_mem hP]
  have hfitPR : fits env (P ++ R) := fits_of_length_le hfit (by simp; omega)
  have hloop : ∀ (reenter : Decoder) (dpm : Bool) (st0 : State),
      ctcp_loop env bucket reenter request sender target (fuel + 1)
          (P ++ CTCP_DELIM_CHAR :: CTCP_DELIM_CHAR :: R) dpm st0 =
        ctcp_loop env bucket reenter request sender target fuel (P ++ R) dpm st0 :=
    fun reenter dpm st0 =>
      ctcp_loop_drop env bucket reenter request sender target fuel P [] R dpm st0 hP (by simp)
        (Or.inl rfl) hfit
  have h1 : do_ctcp env bucket (fuel + 1) request sender target
        (P ++ CTCP_DELIM_CHAR :: CTCP_DELIM_CHAR :: R) st =
      do_ctcp_finish env
        (ctcp_loop env bucket (do_ctcp env bucket fuel) request sender target fuel (P ++ R)
          (do_ctcp_entry env request sender target
            (P ++ CTCP_DELIM_CHAR :: CTCP_DELIM_CHAR :: R) st).1
          (do_ctcp_entry env request sender target
            (P ++ CTCP_DELIM_CHAR :: CTCP_DELIM_CHAR :: R) st).2) := by
    show do_ctcp_body env bucket (do_ctcp env bucket fuel) (fuel + 1) request sender target
      (P ++ CTCP_DELIM_CHAR :: CTCP_DELIM_CHAR :: R) st = _
    rw [do_ctcp_body_fits _ _ _ _ _ _ _ _ _ (by omega) hfit, hloop]
    rfl
  have h2 : do_ctcp env bucket (fuel + 1) request sender target (P ++ R) st =
      do_ctcp_finish env
        (ctcp_loop env bucket (do_ctcp env bucket fuel) request sender target (fuel + 1)
          (P ++ R)
          (do_ctcp_entry env request sender target (P ++ R) st).1
          (do_ctcp_entry env request sender target (P ++ R) st).2) := by
    show do_ctcp_body env bucket (do_ctcp env bucket fuel) (fuel + 1) request sender target
      (P ++ R) st = _
    rw [do_ctcp_body_fits _ _ _ _ _ _ _ _ _ (by omega) hfitPR]
    rfl
  refine ⟨hloop, h1, h2, ?_⟩
  intro hreq h8
  subst hreq
  have he := do_ctcp_entry_reply env sender target
    (P ++ CTCP_DELIM_CHAR :: CTCP_DELIM_CHAR :: R) (P ++ R) st h8 (by omega)
  refine ⟨he, ?_⟩
  intro r hr
  rw [h1, he] at hr
  rw [h2]
  cases hl : ctcp_loop env bucket (do_ctcp env bucket fuel) false sender target fuel (P ++ R)
      (do_ctcp_entry env false sender target (P ++ R) st).1
      (do_ctcp_entry env false sender target (P ++ R) st).2 with
  | none => rw [hl] at hr; cases hr
  | some res =>
    rw [hl] at hr
    rw [ctcp_loop_fuel_mono _ _ _ _ _ _ _ _ _ _ _ hl]
    exact hr

theorem empty_span_dropped_witness :
    CTCP_DELIM_CHAR ∉ "a".toList ∧
    2 ≤ charcount "b\x01VERSION\x01c".toList CTCP_DELIM_CHAR ∧
    fits sample_env ("a".toList ++ CTCP_DELIM_CHAR :: CTCP_DELIM_CHAR ::
      "b\x01VERSION\x01c".toList) ∧
    charcount ("a".toList ++ CTCP_DELIM_CHAR :: CTCP_DELIM_CHAR ::
      "b\x01VERSION\x01c".toList) CTCP_DELIM_CHAR ≤ 8 ∧
    do_ctcp notice_env init_ctcp (3 + 1) false "bob".toList "me".toList
        ("a".toList ++ CTCP_DELIM_CHAR :: CTCP_DELIM_CHAR :: "b\x01VERSION\x01c".toList)
        sample_state
      = do_ctcp notice_env init_ctcp (3 + 1) false "bob".toList "me".toList
        ("a".toList ++ "b\x01VERSION\x01c".toList) sample_state ∧
    (do_ctcp sample_env init_ctcp (3 + 1) true "bob".toList "me".toList
        ("a".toList ++ CTCP_DELIM_CHAR :: CTCP_DELIM_CHAR :: "b\x01VERSION\x01c".toList)
        sample_state).map (fun r => (r.1, r.2.trace.filter Event.is_handler))
      = some ("abc".toList,
          [.handler .do_version "bob".toList "me".toList "VERSION".toList []]) :=
  ⟨by decide, by decide, by unfold fits; decide, by decide,
    (by
      have h := ((empty_span_dropped notice_env init_ctcp 3 false "bob".toList "me".toList
        "a".toList "b\x01VERSION\x01c".toList sample_state (by decide) (by decide)
        (by unfold fits; decide)).2.2.2 rfl (by decide)).2
      cases hr : do_ctcp notice_env init_ctcp (3 + 1) false "bob".toList "me".toList
        ("a".toList ++ CTCP_DELIM_CHAR :: CTCP_DELIM_CHAR :: "b\x01VERSION\x01c".toList)
        sample_state with
      | none => exact absurd hr (by decide)
      | some r => exact (h r hr).symm),
    (congrArg (Option.map (fun r => (r.1, r.2.trace.filter Event.is_handler)))
      (empty_span_dropped sample_env init_ctcp 3 true "bob".toList "me".toList
        "a".toList "b\x01VERSION\x01c".toList sample_state (by decide) (by decide)
        (by unfold fits; decide)).2.1).trans (by decide)⟩

/-! ## Decoding twice -/

/-- C25: whatever text `do_ctcp` returns, in whatever mode and for whatever
sender, target and text, holds fewer than two delimiters, so a further call of
`do_ctcp` on it, in any mode, environment and state, returns at the test of
line 693: the text comes back as it is and the state is untouched, so nothing
is offered to a hook, no predicate is consulted and no handler is entered.
And the first call does return, with fuel for as many turns as the text has
delimiters, when no collaborator supplies inline text with two delimiters or
more. -/
theorem do_ctcp_idempotent (env : Env) (bucket : Bucket) (fuel : Nat) (request : Bool)
    (sender target x : CStr) (st : State) :
    (∀ out st', do_ctcp env bucket fuel request sender target x st = some (out, st') →
      charcount out CTCP_DELIM_CHAR < 2 ∧
      do_ctcp env bucket fuel request sender target out st' = some (out, st') ∧
      ∀ (env2 : Env) (bucket2 : Bucket) (fuel2 : Nat) (request2 : Bool)
        (sender2 target2 : CStr) (st2 : State),
        do_ctcp env2 bucket2 fuel2 request2 sender2 target2 out st2 = some (out, st2)) ∧
    (inline_bounded env → charcount x CTCP_DELIM_CHAR ≤ fuel →
      ∃ out st', do_ctcp env bucket fuel request sender target x st = some (out, st') ∧
        do_ctcp env bucket fuel request sender target out st' = some (out, st')) := by
  have h1 : ∀ out st', do_ctcp env bucket fuel request sender target x st = some (out, st') →
      charcount out CTCP_DELIM_CHAR < 2 :=
    fun out st' h => do_ctcp_result_lt_two env bucket fuel request sender target x st out st' h
  refine ⟨fun out st' h => ⟨h1 out st' h, do_ctcp_of_lt_two _ _ _ _ _ _ _ _ (h1 out st' h),
    fun env2 bucket2 fuel2 request2 sender2 target2 st2 =>
      do_ctcp_of_lt_two _ _ _ _ _ _ _ _ (h1 out st' h)⟩, ?_⟩
  intro hb hf
  obtain ⟨out, st', h⟩ := do_ctcp_terminates env bucket fuel request sender target x st hb hf
  exact ⟨out, st', h, do_ctcp_of_lt_two _ _ _ _ _ _ _ _ (h1 out st' h)⟩

theorem do_ctcp_idempotent_witness :
    inline_bounded sample_env ∧
    charcount "hi \x01VERSION\x01 \x01UTC 1\x01 bye".toList CTCP_DELIM_CHAR ≤ 4 ∧
    (do_ctcp sample_env init_ctcp 4 true "bob".toList "me".toList
        "hi \x01VERSION\x01 \x01UTC 1\x01 bye".toList sample_state).map Prod.fst
      = some "hi   bye".toList ∧
    ∃ out st',
      do_ctcp sample_env init_ctcp 4 true "bob".toList "me".toList
        "hi \x01VERSION\x01 \x01UTC 1\x01 bye".toList sample_state = some (out, st') ∧
      do_ctcp sample_env init_ctcp 4 true "bob".toList "me".toList out st'
        = some (out, st') ∧
      do_ctcp flood_env init_ctcp 0 false "al".toList "#c".toList out sample_state
        = some (out, sample_state) :=
  ⟨sample_env_inline_bounded, by decide, by decide,
    ((do_ctcp_idempotent sample_env init_ctcp 4 true "bob".toList "me".toList
      "hi \x01VERSION\x01 \x01UTC 1\x01 bye".toList sample_state).2
      sample_env_inline_bounded (by decide)).imp fun out h => h.imp fun st' h =>
        ⟨h.1, h.2,
          ((do_ctcp_idempotent sample_env init_ctcp 4 true "bob".toList "me".toList
            "hi \x01VERSION\x01 \x01UTC 1\x01 bye".toList sample_state).1 out st' h.1).2.2
            flood_env init_ctcp 0 false "al".toList "#c".toList sample_state⟩⟩

/-! ## The turns of the loop -/

/-- The loop, one turn at a time. -/
theorem ctcp_loop_eq_turn (env : Env) (bucket : Bucket) (reenter : Decoder) (request : Bool)
    (sender target : CStr) (fuel : Nat) (buffer : CStr) (dpm : Bool) (st : State) :
    ctcp_loop env bucket reenter request sender target (fuel + 1) buffer dpm st =
      match ctcp_turn env bucket reenter request sender target buffer dpm st with
      | none => none
      | some none => some (buffer, st)
      | some (some (buffer', dpm', st')) =>
        ctcp_loop env bucket reenter request sender target fuel buffer' dpm' st' := by
  rw [ctcp_loop]
  unfold ctcp_turn
  cases split_CTCP env.IRCD_BUFFER_SIZE buffer with
  | none => rfl
  | some parts =>
    obtain ⟨before, the_ctcp, after⟩ := parts
    dsimp only
    split_ifs
    · rfl
    · cases process_span env bucket reenter request sender target the_ctcp st with
      | none => rfl
      | some res =>
        obtain ⟨ptr, dpm', st1⟩ := res
        cases ptr <;> rfl

/-- The loop is left exactly when the buffer holds fewer than two delimiters. -/
theorem ctcp_turn_break_iff (env : Env) (bucket : Bucket) (reenter : Decoder)
    (request : Bool) (sender target buffer : CStr) (dpm : Bool) (st : State) :
    ctcp_turn env bucket reenter request sender target buffer dpm st = some none ↔
      charcount buffer CTCP_DELIM_CHAR < 2 := by
  rw [← split_CTCP_eq_none_iff env.IRCD_BUFFER_SIZE]
  unfold ctcp_turn
  cases split_CTCP env.IRCD_BUFFER_SIZE buffer with
  | none => simp
  | some parts =>
    obtain ⟨before, the_ctcp, after⟩ := parts
    dsimp only
    split_ifs
    · simp
    · cases process_span env bucket reenter request sender target the_ctcp st with
      | none => simp
      | some res =>
        obtain ⟨ptr, dpm', st1⟩ := res
        cases ptr <;> simp

/-! ## Replies are not answered -/

/-- Every entry of `init_ctcp` has no script for reply mode, and for function
there none or one of `do_atmosphere`, `do_dcc_reply`, `do_crypto`, `do_utc` and
`do_ping_reply`. -/
theorem init_ctcp_reply_functions :
    ∀ item ∈ init_ctcp, item.2.user_repl = none ∧
      (item.2.repl = none ∨ item.2.repl = some .do_atmosphere ∨
        item.2.repl = some .do_dcc_reply ∨ item.2.repl = some .do_crypto ∨
        item.2.repl = some .do_utc ∨ item.2.repl = some .do_ping_reply) := by
  decide

/-- A reply-mode call of an entry of `init_ctcp` adds no event `p` marks, when
`p` marks none of the events of the five reply functions and the decoder
`do_crypto` re-enters adds none. -/
theorem call_entry_reply_init_ctcp (env : Env) (reenter : Decoder) (p : Event → Bool)
    (hmark : ∀ a b c d e, p (.handler a b c d e) = false)
    (h1 : ∀ a b c, p (.check_ignore_channel a b c .LEVEL_ACTION) = false)
    (h2 : ∀ a b c d, p (.new_check_flooding a b c d .LEVEL_ACTION) = false)
    (h3 : ∀ a, p (.message_from a .LEVEL_ACTION) = false)
    (h4 : ∀ a, p (.do_hook .ACTION_LIST a) = false)
    (h5 : ∀ a, p (.put_it a) = false)
    (h6 : p .pop_message_from = false)
    (h7 : ∀ a b c, p (.dcc_reject a b c) = false)
    (h8 : ∀ a, p (.say a) = false)
    (hk : ∀ e, e.is_key_store = true → p e = false)
    (hr : crypto_quiet env p reenter)
    (name : CStr) (entry : CtcpEntry) (sender target cmd arg : CStr) (st : State)
    (r : HandlerResult)
    (hfind : find_ctcp init_ctcp false cmd = some (name, entry))
    (h : call_entry env init_ctcp reenter false entry sender target cmd arg st = some r) :
    r.2.2.trace.filter p = st.trace.filter p := by
  have hmem : (name, entry) ∈ init_ctcp := List.mem_of_find?_eq_some hfind
  obtain ⟨hu, hrepl⟩ := init_ctcp_reply_functions (name, entry) hmem
  dsimp only at hu hrepl
  unfold call_entry at h
  simp only [Bool.false_eq_true, if_false, hu] at h
  have hstep : ∀ hd : CTCP_Handler,
      (∀ res, call_handler env init_ctcp reenter hd sender target cmd arg
          (st.in_ctcp_incr.log (.handler hd sender target cmd arg)) = some res →
        res.2.2.trace.filter p
          = (st.in_ctcp_incr.log (.handler hd sender target cmd arg)).trace.filter p) →
      entry.repl = some hd → r.2.2.trace.filter p = st.trace.filter p := by
    intro hd hq he
    rw [he] at h
    dsimp only at h
    cases hc : call_handler env init_ctcp reenter hd sender target cmd arg
        (st.in_ctcp_incr.log (.handler hd sender target cmd arg)) with
    | none => rw [hc] at h; cases h
    | some res =>
      rw [hc] at h
      simp only [Option.some.injEq] at h
      rw [← h]
      have := hq res hc
      simpa [List.filter_append, hmark] using this
  rcases hrepl with he | he | he | he | he | he
  · rw [he] at h
    simp only [Option.some.injEq] at h
    rw [← h]
    rfl
  · exact hstep .do_atmosphere (fun res hres => by
      cases hres
      exact do_atmosphere_filter_of _ _ _ _ _ _ h1 h2 h3 h4 h5 h6) he
  · exact hstep .do_dcc_reply (fun res hres => by
      cases hres
      exact do_dcc_reply_filter _ _ _ _ _ _ h7) he
  · exact hstep .do_crypto
      (fun res hres => do_crypto_filter env reenter p hk hr _ _ _ _ _ _ hres) he
  · exact hstep .do_utc (fun res hres => by
      cases hres
      exact do_utc_filter _ _ _ _) he
  · exact hstep .do_ping_reply (fun res hres => by
      cases hres
      exact do_ping_reply_filter _ _ _ _ h8) he

theorem is_key_store_not_send_ctcp (e : Event) (h : e.is_key_store = true) :
    e.is_send_ctcp = false := by
  cases e <;> simp [Event.is_key_store] at h <;> rfl

theorem is_key_store_not_send_text (e : Event) (h : e.is_key_store = true) :
    e.is_send_text = false := by
  cases e <;> simp [Event.is_key_store] at h <;> rfl

/-- In reply mode over `init_ctcp`, with every re-entry from `do_crypto` in
reply mode too, `send_ctcp` is never entered. -/
theorem do_ctcp_reply_no_send_ctcp (env : Env)
    (hpriv : ∀ tr, env.get_server_doing_privmsg tr = false) (fuel : Nat) :
    reply_quiet Event.is_send_ctcp (do_ctcp env init_ctcp fuel) :=
  do_ctcp_reply_filter env init_ctcp _ (fun _ _ _ => rfl) (fun _ => rfl) rfl (fun _ => rfl)
    (fun _ => rfl)
    (fun reenter hr name entry sender target cmd arg st r hfind h =>
      call_entry_reply_init_ctcp env reenter _ (fun _ _ _ _ _ => rfl) (fun _ _ _ => rfl)
        (fun _ _ _ _ => rfl) (fun _ => rfl) (fun _ => rfl) (fun _ => rfl) rfl
        (fun _ _ _ => rfl) (fun _ => rfl) is_key_store_not_send_ctcp
        (crypto_quiet_of_reply_quiet env _ reenter hpriv hr) name entry sender target cmd arg
        st r hfind h)
    fuel

/-- In reply mode over `init_ctcp`, with every re-entry from `do_crypto` in
reply mode too, nothing is handed to `send_text`. -/
theorem do_ctcp_reply_no_send_text (env : Env)
    (hpriv : ∀ tr, env.get_server_doing_privmsg tr = false) (fuel : Nat) :
    reply_quiet Event.is_send_text (do_ctcp env init_ctcp fuel) :=
  do_ctcp_reply_filter env init_ctcp _ (fun _ _ _ => rfl) (fun _ => rfl) rfl (fun _ => rfl)
    (fun _ => rfl)
    (fun reenter hr name entry sender target cmd arg st r hfind h =>
      call_entry_reply_init_ctcp env reenter _ (fun _ _ _ _ _ => rfl) (fun _ _ _ => rfl)
        (fun _ _ _ _ => rfl) (fun _ => rfl) (fun _ => rfl) (fun _ => rfl) rfl
        (fun _ _ _ => rfl) (fun _ => rfl) is_key_store_not_send_text
        (crypto_quiet_of_reply_quiet env _ reenter hpriv hr) name entry sender target cmd arg
        st r hfind h)
    fuel

theorem do_ctcp_entry_open_reply (env : Env) (sender target str : CStr) (st : State)
    (hc : charcount str CTCP_DELIM_CHAR ≤ 8) (hi : not_ignored env sender target)
    (ht : target_open env target) :
    (do_ctcp_entry env false sender target str st).1 = false := by
  unfold do_ctcp_entry gated
  have h1 : ¬ charcount str CTCP_DELIM_CHAR > 8 := by omega
  have h2 := hi st.trace
  obtain ⟨h3, h4⟩ := ht
  by_cases hh : target.head? = some '#'
  · simp [h1, h2, h3, hh, h4 hh]
  · simp [h1, h2, h3, hh]

/-- A reply the gates let through, whose first span has a verb without a
function for reply mode: the span gets the default handling for replies and
everything after it is removed unseen. -/
theorem do_ctcp_body_reply_unrecognized (env : Env) (bucket : Bucket) (reenter : Decoder)
    (fuel : Nat) (sender target P b R : CStr) (st : State)
    (hP : CTCP_DELIM_CHAR ∉ P) (hb : CTCP_DELIM_CHAR ∉ b) (hne : b ≠ [])
    (hcount : charcount (P ++ CTCP_DELIM_CHAR :: (b ++ CTCP_DELIM_CHAR :: R))
      CTCP_DELIM_CHAR ≤ 8)
    (hfit : fits env (P ++ CTCP_DELIM_CHAR :: (b ++ CTCP_DELIM_CHAR :: R)))
    (hi : not_ignored env sender target) (ht : target_open env target)
    (hu : find_ctcp bucket false (split_command b).1 = none)
    (hfuel : charcount (P ++ CTCP_DELIM_CHAR :: (b ++ CTCP_DELIM_CHAR :: R))
      CTCP_DELIM_CHAR ≤ fuel) :
    ∃ st',
      do_ctcp_body env bucket reenter fuel false sender target
        (P ++ CTCP_DELIM_CHAR :: (b ++ CTCP_DELIM_CHAR :: R)) st
        = some (P ++ strip_spans R, st') ∧
      st'.trace = st.trace ++ entry_events env false sender target
          (P ++ CTCP_DELIM_CHAR :: (b ++ CTCP_DELIM_CHAR :: R)) st.trace
        ++ default_events env false sender target (split_command b).1
            (span_argument env sender target b (st.trace ++ entry_events env false sender
              target (P ++ CTCP_DELIM_CHAR :: (b ++ CTCP_DELIM_CHAR :: R)) st.trace))
            (st.trace ++ entry_events env false sender target
              (P ++ CTCP_DELIM_CHAR :: (b ++ CTCP_DELIM_CHAR :: R)) st.trace)
        ++ [.pop_message_from] := by
  have hc := count_span P b R hP hb
  obtain ⟨n, rfl⟩ : ∃ n, fuel = n + 1 := ⟨fuel - 1, by omega⟩
  have hPR : fits env (P ++ R) := fits_of_length_le hfit (by simp; omega)
  have hcPR : charcount (P ++ R) CTCP_DELIM_CHAR ≤ n := by
    have : charcount (P ++ R) CTCP_DELIM_CHAR = charcount R CTCP_DELIM_CHAR := by
      unfold charcount
      simp [List.count_eq_zero_of_not_mem hP]
    omega
  have hlen : (P ++ strip_spans R).length + 1 ≤ env.BIG_BUFFER_SIZE := by
    have h1 := hPR.1
    have h2 := hPR.2
    have h3 := strip_spans_length_le R
    simp at h1 ⊢
    omega
  rw [do_ctcp_body_fits _ _ _ _ _ _ _ _ _ (by omega) hfit,
    do_ctcp_entry_open_reply _ _ _ _ _ hcount hi ht,
    ctcp_loop_span _ _ _ _ _ _ _ _ _ _ _ hP hb hne hfit,
    process_span_reply, dispatch_span_unrecognized _ _ _ _ _ _ _ _ _ _ hu]
  simp only []
  rw [ctcp_loop_latched_fits _ _ _ _ _ _ _ _ _ hcPR (by omega) hPR]
  simp only []
  rw [strip_spans_append_left _ _ hP, strlcpy_of_le hlen]
  refine ⟨_, rfl, ?_⟩
  simp only [log_trace, default_handling_trace, do_ctcp_entry_trace, span_argument,
    List.append_assoc]

/-- C27: over the registry of `init_ctcp`, while the server is not handling a
PRIVMSG (so that `do_crypto` re-enters the decoder in reply mode or not at
all), a reply-mode call of `do_ctcp` never enters `send_ctcp` and hands
nothing to `send_text`, whatever the message; and it does return when inline
text is bounded.  VERSION, ECHO, CLIENTINFO, USERINFO, ERRMSG, FINGER and TIME
have no function for reply mode: a first span with one of these verbs, in a
reply that fits the protocol buffer and passes the gates, is offered to the
hook on `CTCP_REPLY_LIST`, shown as a reply unless the hook returns zero, and
nothing else happens: no handler, no answer. -/
theorem reply_never_sends_ctcp (env : Env)
    (hpriv : ∀ tr, env.get_server_doing_privmsg tr = false) :
    (∀ (fuel : Nat) (sender target str : CStr) (st : State) (out : CStr) (st' : State),
      do_ctcp env init_ctcp fuel false sender target str st = some (out, st') →
      st'.trace.filter Event.is_send_ctcp = st.trace.filter Event.is_send_ctcp ∧
      st'.trace.filter Event.is_send_text = st.trace.filter Event.is_send_text) ∧
    (inline_bounded env →
      ∀ (fuel : Nat) (sender target str : CStr) (st : State),
        charcount str CTCP_DELIM_CHAR ≤ fuel →
        ∃ out st', do_ctcp env init_ctcp fuel false sender target str st = some (out, st') ∧
          st'.trace.filter Event.is_send_ctcp = st.trace.filter Event.is_send_ctcp) ∧
    (∀ v ∈ request_only_verbs, find_ctcp init_ctcp false v = none) ∧
    (∀ (fuel : Nat) (sender target P b R : CStr) (st : State),
      CTCP_DELIM_CHAR ∉ P → CTCP_DELIM_CHAR ∉ b → b ≠ [] →
      (split_command b).1 ∈ request_only_verbs →
      charcount (P ++ CTCP_DELIM_CHAR :: (b ++ CTCP_DELIM_CHAR :: R)) CTCP_DELIM_CHAR ≤ 8 →
      fits env (P ++ CTCP_DELIM_CHAR :: (b ++ CTCP_DELIM_CHAR :: R)) →
      not_ignored env sender target → target_open env target →
      charcount (P ++ CTCP_DELIM_CHAR :: (b ++ CTCP_DELIM_CHAR :: R)) CTCP_DELIM_CHAR ≤ fuel →
      ∃ st',
        do_ctcp env init_ctcp fuel false sender target
          (P ++ CTCP_DELIM_CHAR :: (b ++ CTCP_DELIM_CHAR :: R)) st
          = some (P ++ strip_spans R, st') ∧
        st'.trace = st.trace ++ entry_events env false sender target
            (P ++ CTCP_DELIM_CHAR :: (b ++ CTCP_DELIM_CHAR :: R)) st.trace
          ++ default_events env false sender target (split_command b).1
              (span_argument env sender target b (st.trace ++ entry_events env false sender
                target (P ++ CTCP_DELIM_CHAR :: (b ++ CTCP_DELIM_CHAR :: R)) st.trace))
              (st.trace ++ entry_events env false sender target
                (P ++ CTCP_DELIM_CHAR :: (b ++ CTCP_DELIM_CHAR :: R)) st.trace)
          ++ [.pop_message_from] ∧
        st'.trace.filter Event.is_handler = st.trace.filter Event.is_handler ∧
        st'.trace.filter Event.is_seen_offer = st.trace.filter Event.is_seen_offer ++
          [.do_hook .CTCP_REPLY_LIST
            (offer_text env sender target b (st.trace ++ entry_events env false sender
              target (P ++ CTCP_DELIM_CHAR :: (b ++ CTCP_DELIM_CHAR :: R)) st.trace))] ∧
        st'.trace.filter Event.is_send_ctcp = st.trace.filter Event.is_send_ctcp) := by
  have hverbs : ∀ v ∈ request_only_verbs, find_ctcp init_ctcp false v = none := by decide
  refine ⟨?_, ?_, hverbs, ?_⟩
  · intro fuel sender target str st out st' h
    exact ⟨do_ctcp_reply_no_send_ctcp env hpriv fuel sender target str st out st' h,
      do_ctcp_reply_no_send_text env hpriv fuel sender target str st out st' h⟩
  · intro hb fuel sender target str st hf
    obtain ⟨out, st', h⟩ := do_ctcp_terminates env init_ctcp fuel false sender target str st
      hb hf
    exact ⟨out, st', h, do_ctcp_reply_no_send_ctcp env hpriv fuel sender target str st out st'
      h⟩
  · intro fuel sender target P b R st hP hb hne hverb hcount hfit hi ht hfuel
    obtain ⟨reenter, hre⟩ := do_ctcp_eq_body env init_ctcp fuel
    obtain ⟨st', hrun, htr⟩ := do_ctcp_body_reply_unrecognized env init_ctcp reenter fuel
      sender target P b R st hP hb hne hcount hfit hi ht (hverbs _ hverb) hfuel
    have hrun2 : do_ctcp env init_ctcp fuel false sender target
        (P ++ CTCP_DELIM_CHAR :: (b ++ CTCP_DELIM_CHAR :: R)) st
        = some (P ++ strip_spans R, st') := by rw [hre]; exact hrun
    refine ⟨st', hrun2, htr, ?_, ?_,
      do_ctcp_reply_no_send_ctcp env hpriv fuel sender target _ st _ st' hrun2⟩
    · rw [htr]
      simp only [List.filter_append]
      rw [entry_events_filter _ _ _ _ _ _ _ (fun _ _ _ _ => rfl) (fun _ _ _ _ _ => rfl)
          (fun _ _ => rfl),
        default_events_filter _ _ _ _ _ _ _ _ (fun _ _ => rfl) (fun _ => rfl)]
      simp [Event.is_handler]
    · rw [htr]
      simp only [List.filter_append]
      rw [entry_events_filter _ _ _ _ _ _ _ (fun _ _ _ _ => rfl) (fun _ _ _ _ _ => rfl)
          (fun _ _ => rfl), default_events_is_seen_offer]
      simp [Event.is_seen_offer, seen_list, offer_text, span_argument]

theorem reply_never_sends_ctcp_witness :
    (∀ tr, notice_env.get_server_doing_privmsg tr = false) ∧
    inline_bounded notice_env ∧
    (∃ out st',
      do_ctcp notice_env init_ctcp 4 false "bob".toList "me".toList
        "\x01PING 75\x01\x01VERSION x\x01".toList sample_state = some (out, st') ∧
      st'.trace.filter Event.is_send_ctcp = []) ∧
    ((split_command "VERSION ircII".toList).1 ∈ request_only_verbs ∧
      fits notice_env ("a".toList ++ CTCP_DELIM_CHAR ::
        ("VERSION ircII".toList ++ CTCP_DELIM_CHAR :: " b".toList)) ∧
      ∃ st',
        do_ctcp notice_env init_ctcp 2 false "bob".toList "me".toList
          ("a".toList ++ CTCP_DELIM_CHAR ::
            ("VERSION ircII".toList ++ CTCP_DELIM_CHAR :: " b".toList)) sample_state
          = some ("a b".toList, st') ∧
        st'.trace = [.check_ignore_channel "bob".toList "u@h".toList "me".toList .LEVEL_CTCP,
          .message_from "me".toList .LEVEL_CTCP,
          .do_hook .CTCP_REPLY_LIST "bob me VERSION ircII".toList,
          .say "CTCP VERSION reply from bob: ircII".toList,
          .pop_message_from] ∧
        st'.trace.filter Event.is_send_ctcp = []) :=
  ⟨fun _ => rfl, sample_env_inline_bounded,
    ((reply_never_sends_ctcp notice_env (fun _ => rfl)).2.1 sample_env_inline_bounded 4
      "bob".toList "me".toList "\x01PING 75\x01\x01VERSION x\x01".toList sample_state
      (by decide)).imp fun _ h => h.imp fun _ h => ⟨h.1, h.2⟩,
    ⟨by decide, by unfold fits; decide,
      ((reply_never_sends_ctcp notice_env (fun _ => rfl)).2.2.2 2 "bob".toList "me".toList
        "a".toList "VERSION ircII".toList " b".toList sample_state (by decide) (by decide)
        (by decide) (by decide) (by decide) (by unfold fits; decide)
        (fun _ => by show (0 : Int) ≠ 1; decide)
        ⟨by decide, fun h => absurd h (by decide)⟩ (by decide)).imp fun _ h =>
          ⟨h.1.trans rfl, h.2.1.trans (by decide), h.2.2.2.2⟩⟩⟩

theorem span_bodies_aux_of_lt_two (n : Nat) (s : CStr)
    (h : s.count CTCP_DELIM_CHAR < 2) : span_bodies_aux n s = [] := by
  cases n with
  | zero => rfl
  | succ n =>
    cases h1 : cut_at CTCP_DELIM_CHAR s with
    | none => simp only [span_bodies_aux, h1]
    | some ab =>
      obtain ⟨a, b⟩ := ab
      have c1 := cut_at_count h1
      cases h2 : cut_at CTCP_DELIM_CHAR b with
      | none => simp only [span_bodies_aux, h1, h2]
      | some cd =>
        obtain ⟨c, d⟩ := cd
        have c2 := cut_at_count h2
        omega

theorem span_bodies_aux_fuel (n : Nat) : ∀ (m : Nat) (s : CStr),
    s.count CTCP_DELIM_CHAR < 2 * n + 2 → s.count CTCP_DELIM_CHAR < 2 * m + 2 →
    span_bodies_aux n s = span_bodies_aux m s := by
  induction n with
  | zero =>
    intro m s hn _
    rw [span_bodies_aux_of_lt_two 0 s (by omega), span_bodies_aux_of_lt_two m s (by omega)]
  | succ n ih =>
    intro m s hn hm
    cases m with
    | zero =>
      rw [span_bodies_aux_of_lt_two _ s (by omega), span_bodies_aux_of_lt_two 0 s (by omega)]
    | succ m =>
      cases h1 : cut_at CTCP_DELIM_CHAR s with
      | none => simp only [span_bodies_aux, h1]
      | some ab =>
        obtain ⟨a, b⟩ := ab
        have c1 := cut_at_count h1
        cases h2 : cut_at CTCP_DELIM_CHAR b with
        | none => simp only [span_bodies_aux, h1, h2]
        | some cd =>
          obtain ⟨c, d⟩ := cd
          have c2 := cut_at_count h2
          simp only [span_bodies_aux, h1, h2]
          rw [ih m d (by omega) (by omega)]

theorem span_bodies_eq_aux (n : Nat) (s : CStr) (h : s.count CTCP_DELIM_CHAR < 2 * n + 2) :
    span_bodies s = span_bodies_aux n s := by
  unfold span_bodies
  apply span_bodies_aux_fuel
  · have := List.count_le_length CTCP_DELIM_CHAR s
    omega
  · exact h

/-- The first span is the first body; the rest is treated alike. -/
theorem span_bodies_span (p b r : CStr) (hp : CTCP_DELIM_CHAR ∉ p) (hb : CTCP_DELIM_CHAR ∉ b) :
    span_bodies (p ++ CTCP_DELIM_CHAR :: (b ++ CTCP_DELIM_CHAR :: r)) = b :: span_bodies r := by
  have hc : (p ++ CTCP_DELIM_CHAR :: (b ++ CTCP_DELIM_CHAR :: r)).count CTCP_DELIM_CHAR
      = r.count CTCP_DELIM_CHAR + 2 := by
    simp [List.count_eq_zero_of_not_mem hp, List.count_eq_zero_of_not_mem hb]
  rw [span_bodies_eq_aux (r.count CTCP_DELIM_CHAR + 1) _ (by omega),
    span_bodies_eq_aux (r.count CTCP_DELIM_CHAR) r (by omega)]
  rw [span_bodies_aux, cut_at_append_cons _ hp]
  simp only
  rw [cut_at_append_cons _ hb]

/-- Text without a delimiter in front of a text adds no span. -/
theorem span_bodies_append_left (p r : CStr) (hp : CTCP_DELIM_CHAR ∉ p) :
    span_bodies (p ++ r) = span_bodies r := by
  by_cases h : r.count CTCP_DELIM_CHAR < 2
  · unfold span_bodies
    rw [span_bodies_aux_of_lt_two _ r h, span_bodies_aux_of_lt_two]
    simp [List.count_eq_zero_of_not_mem hp]; exact h
  · have hne : cut_at CTCP_DELIM_CHAR r ≠ none := by
      intro hn
      have := (cut_at_eq_none_iff _ _).mp hn
      rw [List.count_eq_zero_of_not_mem this] at h
      omega
    cases h1 : cut_at CTCP_DELIM_CHAR r with
    | none => exact absurd h1 hne
    | some ab =>
      obtain ⟨a, b⟩ := ab
      obtain ⟨hr, ha⟩ := cut_at_some_spec h1
      have c1 := cut_at_count h1
      cases h2 : cut_at CTCP_DELIM_CHAR b with
      | none =>
        have := (cut_at_eq_none_iff _ _).mp h2
        rw [List.count_eq_zero_of_not_mem this] at c1
        omega
      | some cd =>
        obtain ⟨c, d⟩ := cd
        obtain ⟨hbd, hc⟩ := cut_at_some_spec h2
        have hpa : CTCP_DELIM_CHAR ∉ p ++ a := by simp [hp, ha]
        rw [hr, hbd, ← List.append_assoc, span_bodies_span (p ++ a) c d hpa hc,
          span_bodies_span a c d ha hc]

/-- The loop when nothing is spliced inline: every span goes, whatever the
latch and whatever the handlers do besides. -/
theorem ctcp_loop_no_inline (env : Env) (bucket : Bucket) (reenter : Decoder)
    (request : Bool) (sender target : CStr) :
    ∀ (fuel : Nat) (buffer : CStr) (dpm : Bool) (st : State),
      charcount buffer CTCP_DELIM_CHAR ≤ fuel → 0 < fuel → fits env buffer →
      no_inline_text env bucket reenter request sender target buffer →
      ∃ st', ctcp_loop env bucket reenter request sender target fuel buffer dpm st
        = some (strip_spans buffer, st') := by
  intro fuel
  induction fuel with
  | zero => intro _ _ _ _ h0; omega
  | succ n ih =>
    intro buffer dpm st hc _ hfit hno
    by_cases h2 : charcount buffer CTCP_DELIM_CHAR < 2
    · rw [ctcp_loop_done _ _ _ _ _ _ _ _ _ _ h2, strip_spans_of_lt_two _ h2]
      exact ⟨st, rfl⟩
    · cases hs : split_CTCP env.IRCD_BUFFER_SIZE buffer with
      | none => exact absurd ((split_CTCP_eq_none_iff _ _).mp hs) h2
      | some t =>
        obtain ⟨P, body, after⟩ := t
        obtain ⟨b, R, rfl, hP, hb, -, -⟩ := split_CTCP_some_spec hs
        have hcs := count_span P b R hP hb
        have hPR : fits env (P ++ R) := fits_of_length_le hfit (by simp; omega)
        have hcPR : charcount (P ++ R) CTCP_DELIM_CHAR ≤ n := by
          have : charcount (P ++ R) CTCP_DELIM_CHAR = charcount R CTCP_DELIM_CHAR := by
            unfold charcount
            simp [List.count_eq_zero_of_not_mem hP]
          omega
        have hn : 0 < n := by omega
        have hnoPR : no_inline_text env bucket reenter request sender target (P ++ R) := by
          intro b' hb' hne' st1
          rw [span_bodies_append_left _ _ hP] at hb'
          exact hno b' (by rw [span_bodies_span _ _ _ hP hb]; exact List.mem_cons_of_mem _ hb')
            hne' st1
        have hstrip : strip_spans (P ++ CTCP_DELIM_CHAR :: (b ++ CTCP_DELIM_CHAR :: R))
            = strip_spans (P ++ R) := by
          rw [strip_spans_span _ _ _ hP hb, strip_spans_append_left _ _ hP]
        rw [hstrip]
        by_cases hd : b = [] ∨ dpm = true
        · rw [ctcp_loop_drop _ _ _ _ _ _ _ _ _ _ _ _ hP hb hd hfit]
          exact ih _ _ _ hcPR hn hPR hnoPR
        · have hne : b ≠ [] := fun h => hd (Or.inl h)
          have hdpm : dpm = false := by
            cases dpm with
            | false => rfl
            | true => exact absurd (Or.inr rfl) hd
          subst hdpm
          obtain ⟨dpm1, st1, hp⟩ := hno b
            (by rw [span_bodies_span _ _ _ hP hb]; exact List.mem_cons_self _ _) hne st
          rw [ctcp_loop_span _ _ _ _ _ _ _ _ _ _ _ hP hb hne hfit, hp]
          exact ih _ _ _ hcPR hn hPR hnoPR

/-- The whole body when nothing is spliced inline. -/
theorem do_ctcp_body_no_inline (env : Env) (bucket : Bucket) (reenter : Decoder) (fuel : Nat)
    (request : Bool) (sender target str : CStr) (st : State)
    (hfuel : charcount str CTCP_DELIM_CHAR ≤ fuel) (hfit : fits env str)
    (hno : no_inline_text env bucket reenter request sender target str) :
    ∃ st', do_ctcp_body env bucket reenter fuel request sender target str st
      = some (strip_spans str, st') := by
  by_cases h2 : charcount str CTCP_DELIM_CHAR < 2
  · rw [do_ctcp_body_of_lt_two _ _ _ _ _ _ _ _ _ h2, strip_spans_of_lt_two _ h2]
    exact ⟨st, rfl⟩
  · obtain ⟨st', h⟩ := ctcp_loop_no_inline env bucket reenter request sender target fuel str
      (do_ctcp_entry env request sender target str st).1
      (do_ctcp_entry env request sender target str st).2 hfuel (by omega) hfit hno
    have hlen : (strip_spans str).length + 1 ≤ env.BIG_BUFFER_SIZE := by
      have h1 := hfit.1
      have h2 := hfit.2
      have h3 := strip_spans_length_le str
      omega
    rw [do_ctcp_body_fits _ _ _ _ _ _ _ _ _ (by omega) hfit, h]
    simp only []
    rw [strlcpy_of_le hlen]
    exact ⟨_, rfl⟩

theorem call_handler_plain (env : Env) (bucket : Bucket) (reenter : Decoder)
    (h : CTCP_Handler) (sender target cmd args : CStr) (st : State)
    (hp : h.is_plain = true) :
    ∃ args' st', call_handler env bucket reenter h sender target cmd args st
      = some (none, args', st') := by
  have none_case : ∀ r : HandlerResult, r.1 = none →
      ∃ args' st', some r = some (none, args', st') := by
    intro r hr1
    obtain ⟨p, a, s⟩ := r
    cases hr1
    exact ⟨a, s, rfl⟩
  cases h with
  | do_crypto => cases hp
  | do_utc => cases hp
  | do_atmosphere => exact none_case _ (do_atmosphere_ptr _ _ _ _ _)
  | do_dcc => exact none_case _ (do_dcc_ptr _ _ _ _ _)
  | do_clientinfo => exact none_case _ (do_clientinfo_ptr _ _ _ _ _ _)
  | do_version => exact none_case _ (do_version_ptr _ _ _ _ _)
  | do_time => exact none_case _ rfl
  | do_userinfo => exact none_case _ rfl
  | do_echo => exact none_case _ (do_echo_ptr _ _ _ _ _ _)
  | do_ping => exact none_case _ rfl
  | do_finger => exact none_case _ (do_finger_ptr _ _ _ _ _)
  | do_dcc_reply => exact none_case _ (do_dcc_reply_ptr _ _ _ _ _)
  | do_ping_reply => exact none_case _ (do_ping_reply_ptr _ _ _)

theorem dispatch_span_plain (env : Env) (bucket : Bucket) (reenter : Decoder) (request : Bool)
    (sender target cmd orig : CStr) (extra : Option CStr) (st : State)
    (hp : plain_verb bucket request cmd = true) :
    ∃ dpm st', dispatch_span env bucket reenter request sender target cmd orig extra st
      = some (none, dpm, st') := by
  unfold plain_verb at hp
  unfold dispatch_span
  dsimp only
  cases hf : find_ctcp bucket request cmd with
  | none => exact ⟨_, _, rfl⟩
  | some ne =>
    obtain ⟨name, entry⟩ := ne
    rw [hf] at hp
    simp only [Bool.and_eq_true, Option.isNone_iff_eq_none] at hp
    obtain ⟨hu, hnat⟩ := hp
    have hcall : ∀ arg, ∃ args' st',
        call_entry env bucket reenter request entry sender target cmd arg st
          = some (none, args', st') := by
      intro arg
      unfold call_entry
      dsimp only
      rw [hu]
      cases hn : (if request = true then entry.func else entry.repl) with
      | none => exact ⟨_, _, rfl⟩
      | some h =>
        rw [hn] at hnat
        obtain ⟨a, s, he⟩ := call_handler_plain env bucket reenter h sender target cmd arg
          (State.log st.in_ctcp_incr (.handler h sender target cmd arg)) hnat
        dsimp only
        rw [he]
        exact ⟨_, _, rfl⟩
    obtain ⟨a, s, he⟩ := hcall
      (if (decide (entry.flag &&& CTCP_NORECODE ≠ 0)) = true then orig else extra.getD orig)
    dsimp only
    rw [he]
    dsimp only
    split
    · exact ⟨_, _, rfl⟩
    · exact ⟨_, _, rfl⟩

/-- A span whose verb has no function for the mode, or a native one that
returns NULL on every path, is given no inline text, whatever the
environment. -/
theorem process_span_plain (env : Env) (bucket : Bucket) (reenter : Decoder) (request : Bool)
    (sender target b : CStr) (st : State)
    (hp : plain_verb bucket request (split_command b).1 = true) :
    ∃ dpm st', process_span env bucket reenter request sender target b st
      = some (none, dpm, st') := by
  unfold process_span
  dsimp only
  split
  · split
    · exact ⟨_, _, rfl⟩
    · exact dispatch_span_plain _ _ _ _ _ _ _ _ _ _ hp
  · exact dispatch_span_plain _ _ _ _ _ _ _ _ _ _ hp

theorem no_inline_text_of_plain (env : Env) (bucket : Bucket) (reenter : Decoder)
    (request : Bool) (sender target str : CStr)
    (h : ∀ b ∈ span_bodies str, plain_verb bucket request (split_command b).1 = true) :
    no_inline_text env bucket reenter request sender target str :=
  fun b hb _ st => process_span_plain env bucket reenter request sender target b st (h b hb)

/-- C28: for a message that fits the protocol buffer, any two runs of
`do_ctcp` in which no span is given inline text return the same text, the
message with every left-to-right paired delimiter span removed
(`strip_spans`), whatever the two environments (ignore verdict, flood verdict,
channel membership, hook results), registries, modes, senders, targets and
states are.  Both runs do return, given one unit of fuel for each delimiter. -/
theorem returned_text_independent_of_gates (env1 env2 : Env) (bucket1 bucket2 : Bucket)
    (request1 request2 : Bool) (sender1 target1 sender2 target2 str : CStr)
    (st1 st2 : State) (fuel1 fuel2 : Nat)
    (hfit1 : fits env1 str) (hfit2 : fits env2 str)
    (hno1 : no_inline_text env1 bucket1 (do_ctcp env1 bucket1 fuel1) request1 sender1 target1
      str)
    (hno2 : no_inline_text env2 bucket2 (do_ctcp env2 bucket2 fuel2) request2 sender2 target2
      str)
    (hfuel1 : charcount str CTCP_DELIM_CHAR ≤ fuel1 + 1)
    (hfuel2 : charcount str CTCP_DELIM_CHAR ≤ fuel2 + 1) :
    ∃ out1 out2 st1' st2',
      do_ctcp env1 bucket1 (fuel1 + 1) request1 sender1 target1 str st1 = some (out1, st1') ∧
      do_ctcp env2 bucket2 (fuel2 + 1) request2 sender2 target2 str st2 = some (out2, st2') ∧
      out1 = out2 ∧ out1 = strip_spans str := by
  obtain ⟨s1, h1⟩ := do_ctcp_body_no_inline env1 bucket1 (do_ctcp env1 bucket1 fuel1)
    (fuel1 + 1) request1 sender1 target1 str st1 hfuel1 hfit1 hno1
  obtain ⟨s2, h2⟩ := do_ctcp_body_no_inline env2 bucket2 (do_ctcp env2 bucket2 fuel2)
    (fuel2 + 1) request2 sender2 target2 str st2 hfuel2 hfit2 hno2
  exact ⟨strip_spans str, strip_spans str, s1, s2, h1, h2, rfl, rfl⟩

theorem returned_text_independent_of_gates_witness :
    span_bodies "a\x01VERSION\x01b\x01FOO x\x01c".toList = ["VERSION".toList, "FOO x".toList] ∧
    strip_spans "a\x01VERSION\x01b\x01FOO x\x01c".toList = "abc".toList ∧
    ∃ out1 out2 st1' st2',
      do_ctcp sample_env init_ctcp 5 true "bob".toList "me".toList
        "a\x01VERSION\x01b\x01FOO x\x01c".toList sample_state = some (out1, st1') ∧
      do_ctcp ignoring_env [] 5 false "bob".toList "#chan".toList
        "a\x01VERSION\x01b\x01FOO x\x01c".toList sample_state = some (out2, st2') ∧
      out1 = out2 ∧ out1 = strip_spans "a\x01VERSION\x01b\x01FOO x\x01c".toList :=
  ⟨by decide, by decide,
    returned_text_independent_of_gates sample_env ignoring_env init_ctcp [] true false
      "bob".toList "me".toList "bob".toList "#chan".toList
      "a\x01VERSION\x01b\x01FOO x\x01c".toList sample_state sample_state 4 4
      (by unfold fits; decide) (by unfold fits; decide)
      (no_inline_text_of_plain _ _ _ _ _ _ _ (by decide))
      (no_inline_text_of_plain _ _ _ _ _ _ _ (by decide))
      (by decide) (by decide)⟩

/-- C14 (amended): `init_ctcp` sets `CTCP_NOLIMIT` on ACTION, DCC, the crypto
verbs and UTC, and these verbs are subject to CTCP flood control like every
other verb.  For every request with two delimiters or more, whatever the
registry and whatever the verbs and flags of its spans, when the flood
predicate returns 1 at the CTCP level the run goes to its end with no span
dispatched: the trace gains the entry events and the final release only, so no
handler is entered, nothing is offered to a hook and nothing is shown, and the
text returned has fewer than two delimiters (it is the text with every span
removed when it fits the protocol buffer). -/
theorem flood_control_covers_nolimit_verbs :
    (init_ctcp.filter (fun item => decide (item.2.flag &&& CTCP_NOLIMIT ≠ 0))).map
        (fun item => item.1)
      = ["ACTION".toList, "DCC".toList, "AESSHA256-CBC".toList, "AES256-CBC".toList,
          "CAST128ED-CBC".toList, "BLOWFISH-CBC".toList, "FISH".toList, "SED".toList,
          "SEDSHA".toList, "UTC".toList] ∧
    (∀ (env : Env) (bucket : Bucket) (fuel : Nat) (sender target str : CStr) (st : State),
      2 ≤ charcount str CTCP_DELIM_CHAR →
      flood_verdict env sender target str st.trace = 1 →
      charcount str CTCP_DELIM_CHAR ≤ fuel →
      ∃ out st',
        do_ctcp env bucket fuel true sender target str st = some (out, st') ∧
        st'.trace = st.trace ++ entry_events env true sender target str st.trace
          ++ [.pop_message_from] ∧
        st'.trace.filter Event.is_handler = st.trace.filter Event.is_handler ∧
        st'.trace.filter Event.is_do_hook = st.trace.filter Event.is_do_hook ∧
        st'.trace.filter Event.is_say = st.trace.filter Event.is_say ∧
        st'.trace.filter Event.is_send_ctcp = st.trace.filter Event.is_send_ctcp ∧
        charcount out CTCP_DELIM_CHAR < 2 ∧
        (fits env str → out = strip_spans str)) := by
  refine ⟨by decide, ?_⟩
  intro env bucket fuel sender target str st h2 hflood hfuel
  obtain ⟨reenter, hre⟩ := do_ctcp_eq_body env bucket fuel
  obtain ⟨out, st', hrun, htr, -, hlt, hstrip⟩ := do_ctcp_body_latched env bucket reenter fuel
    true sender target str st h2
    (do_ctcp_entry_gated env true sender target str st (Or.inr (Or.inl ⟨rfl, hflood⟩))) hfuel
  rw [hre]
  refine ⟨out, st', hrun, htr, ?_, ?_, ?_, ?_, hlt, hstrip⟩
  · rw [htr]
    simp only [List.filter_append]
    rw [entry_events_filter _ _ _ _ _ _ _ (fun _ _ _ _ => rfl) (fun _ _ _ _ _ => rfl)
      (fun _ _ => rfl)]
    simp [Event.is_handler]
  · rw [htr]
    simp only [List.filter_append]
    rw [entry_events_filter _ _ _ _ _ _ _ (fun _ _ _ _ => rfl) (fun _ _ _ _ _ => rfl)
      (fun _ _ => rfl)]
    simp [Event.is_do_hook]
  · rw [htr]
    simp only [List.filter_append]
    rw [entry_events_filter _ _ _ _ _ _ _ (fun _ _ _ _ => rfl) (fun _ _ _ _ _ => rfl)
      (fun _ _ => rfl)]
    simp [Event.is_say]
  · rw [htr]
    simp only [List.filter_append]
    rw [entry_events_filter _ _ _ _ _ _ _ (fun _ _ _ _ => rfl) (fun _ _ _ _ _ => rfl)
      (fun _ _ => rfl)]
    simp [Event.is_send_ctcp]

theorem flood_control_covers_nolimit_verbs_witness :
    2 ≤ charcount "\x01ACTION waves\x01 \x01UTC 1\x01".toList CTCP_DELIM_CHAR ∧
    flood_verdict flood_env "bob".toList "me".toList
      "\x01ACTION waves\x01 \x01UTC 1\x01".toList sample_state.trace = 1 ∧
    fits flood_env "\x01ACTION waves\x01 \x01UTC 1\x01".toList ∧
    ∃ out st',
      do_ctcp flood_env init_ctcp 4 true "bob".toList "me".toList
        "\x01ACTION waves\x01 \x01UTC 1\x01".toList sample_state = some (out, st') ∧
      st'.trace = [.check_ignore_channel "bob".toList "u@h".toList "me".toList .LEVEL_CTCP,
        .new_check_flooding "bob".toList "u@h".toList none
          "\x01ACTION waves\x01 \x01UTC 1\x01".toList .LEVEL_CTCP,
        .message_from "me".toList .LEVEL_CTCP,
        .pop_message_from] ∧
      st'.trace.filter Event.is_handler = [] ∧
      out = " ".toList :=
  ⟨by decide, by decide, by unfold fits; decide,
    (flood_control_covers_nolimit_verbs.2 flood_env init_ctcp 4 "bob".toList "me".toList
      "\x01ACTION waves\x01 \x01UTC 1\x01".toList sample_state (by decide) (by decide)
      (by decide)).imp fun _ h => h.imp fun _ h =>
        ⟨h.1, h.2.1.trans (by decide), h.2.2.1, (h.2.2.2.2.2.2.2 (by unfold fits; decide)).trans
          (by decide)⟩⟩

/-! ## The loop ends when the handlers return bounded inline text -/

theorem dispatch_span_of_handlers_bounded (env : Env) (bucket : Bucket) (reenter : Decoder)
    (request : Bool) (sender target cmd orig : CStr) (extra : Option CStr) (st : State)
    (hb : handlers_bounded env bucket reenter request sender target) :
    ∃ ptr dpm st', dispatch_span env bucket reenter request sender target cmd orig extra st
        = some (ptr, dpm, st') ∧
      ∀ t, ptr = some t → charcount t CTCP_DELIM_CHAR ≤ 1 := by
  unfold dispatch_span
  dsimp only
  cases hf : find_ctcp bucket request cmd with
  | none => exact ⟨_, _, _, rfl, fun t ht => by cases ht⟩
  | some ne =>
    obtain ⟨name, entry⟩ := ne
    obtain ⟨ptr, args', st', he, ht⟩ := hb name entry cmd
      (if (decide (entry.flag &&& CTCP_NORECODE ≠ 0)) = true then orig else extra.getD orig) st
      hf
    dsimp only
    rw [he]
    cases ptr with
    | some t => exact ⟨_, _, _, rfl, ht⟩
    | none =>
      dsimp only
      split
      · exact ⟨_, _, _, rfl, fun t ht => by cases ht⟩
      · exact ⟨_, _, _, rfl, fun t ht => by cases ht⟩

theorem process_span_of_handlers_bounded (env : Env) (bucket : Bucket) (reenter : Decoder)
    (request : Bool) (sender target the_ctcp : CStr) (st : State)
    (hb : handlers_bounded env bucket reenter request sender target) :
    ∃ ptr dpm st', process_span env bucket reenter request sender target the_ctcp st
        = some (ptr, dpm, st') ∧
      ∀ t, ptr = some t → charcount t CTCP_DELIM_CHAR ≤ 1 := by
  unfold process_span
  dsimp only
  split
  · split
    · exact ⟨_, _, _, rfl, fun t ht => by cases ht⟩
    · exact dispatch_span_of_handlers_bounded _ _ _ _ _ _ _ _ _ _ hb
  · exact dispatch_span_of_handlers_bounded _ _ _ _ _ _ _ _ _ _ hb

/-- A turn that finds a span leaves fewer delimiters in the buffer than it
found there, when the inline text of the handlers holds at most one; and no
turn fails. -/
theorem ctcp_turn_decreases (env : Env) (bucket : Bucket) (reenter : Decoder)
    (request : Bool) (sender target buffer : CStr) (dpm : Bool) (st : State)
    (hb : handlers_bounded env bucket reenter request sender target) :
    ctcp_turn env bucket reenter request sender target buffer dpm st = some none ∨
    ∃ buffer' dpm' st',
      ctcp_turn env bucket reenter request sender target buffer dpm st
        = some (some (buffer', dpm', st')) ∧
      charcount buffer' CTCP_DELIM_CHAR < charcount buffer CTCP_DELIM_CHAR := by
  unfold ctcp_turn
  cases hs : split_CTCP env.IRCD_BUFFER_SIZE buffer with
  | none => exact Or.inl rfl
  | some parts =>
    obtain ⟨before, the_ctcp, after⟩ := parts
    obtain ⟨hb0, hac⟩ := split_CTCP_some_count hs
    have hplain : charcount (strlcat before after (env.BIG_BUFFER_SIZE + 1 - 2))
        CTCP_DELIM_CHAR < charcount buffer CTCP_DELIM_CHAR := by
      have := count_strlcat_le CTCP_DELIM_CHAR before after (env.BIG_BUFFER_SIZE + 1 - 2)
      unfold charcount; omega
    right
    dsimp only
    split_ifs
    · exact ⟨_, _, _, rfl, hplain⟩
    · obtain ⟨ptr, dpm', st', he, ht⟩ := process_span_of_handlers_bounded env bucket reenter
        request sender target the_ctcp st hb
      rw [he]
      cases ptr with
      | none => exact ⟨_, _, _, rfl, hplain⟩
      | some t =>
        refine ⟨_, _, _, rfl, ?_⟩
        have h1 := count_strlcat_le CTCP_DELIM_CHAR
          (strlcat before t (env.BIG_BUFFER_SIZE + 1)) after (env.BIG_BUFFER_SIZE + 1 - 2)
        have h2 := count_strlcat_le CTCP_DELIM_CHAR before t (env.BIG_BUFFER_SIZE + 1)
        have h3 := ht t rfl
        unfold charcount at h3 ⊢
        omega

/-- With the inline text of the handlers bounded, the loop given as many calls
of `split_CTCP` as the buffer has delimiters (one, for a buffer without any)
returns, after at most one turn fewer than there are delimiters. -/
theorem ctcp_loop_turns_bound (env : Env) (bucket : Bucket) (reenter : Decoder)
    (request : Bool) (sender target : CStr)
    (hb : handlers_bounded env bucket reenter request sender target) :
    ∀ (fuel : Nat) (buffer : CStr) (dpm : Bool) (st : State),
      charcount buffer CTCP_DELIM_CHAR ≤ fuel → 0 < fuel →
      ∃ n out st',
        ctcp_loop_turns env bucket reenter request sender target fuel buffer dpm st = some n ∧
        n ≤ charcount buffer CTCP_DELIM_CHAR - 1 ∧
        ctcp_loop env bucket reenter request sender target fuel buffer dpm st
          = some (out, st') ∧
        charcount out CTCP_DELIM_CHAR < 2 := by
  intro fuel
  induction fuel with
  | zero => intro _ _ _ _ h; omega
  | succ fuel ih =>
    intro buffer dpm st hc _
    rw [ctcp_loop_eq_turn, ctcp_loop_turns]
    rcases ctcp_turn_decreases env bucket reenter request sender target buffer dpm st hb
      with hbreak | ⟨buffer', dpm', st', hturn, hlt⟩
    · rw [hbreak]
      exact ⟨0, buffer, st, rfl, Nat.zero_le _, rfl,
        (ctcp_turn_break_iff _ _ _ _ _ _ _ _ _).mp hbreak⟩
    · rw [hturn]
      have h2 : 2 ≤ charcount buffer CTCP_DELIM_CHAR := by
        by_contra hlt2
        have := (ctcp_turn_break_iff env bucket reenter request sender target buffer dpm
          st).mpr (by omega)
        rw [this] at hturn
        cases hturn
      obtain ⟨n, out, st2, hn, hle, hloop, hout⟩ := ih buffer' dpm' st' (by omega) (by omega)
      refine ⟨n + 1, out, st2, ?_, by omega, hloop, hout⟩
      dsimp only
      rw [hn]
      rfl

/-- What `do_crypto` returns when the nested decoder it calls returns on the
plaintext and leaves at most one delimiter there. -/
theorem do_crypto_decoded (env : Env) (reenter : Decoder) (sender target cmd args : CStr)
    (st : State) (hb : decoded_bounded env reenter) :
    ∃ t args' st', do_crypto env reenter sender target cmd args st = some (some t, args', st') ∧
      charcount t CTCP_DELIM_CHAR ≤ 1 := by
  obtain ⟨_, _, hdec, hrec⟩ := hb
  unfold do_crypto
  rcases hcd : crypto_decrypt env sender target cmd args st with ⟨key, ret, st1⟩
  have hret : ∀ k r, key = some k → ret = some r →
      ∃ tr a k', env.decrypt_msg tr a k' = some r := by
    intro k r hk hr'
    unfold crypto_decrypt at hcd
    rcases hck : crypto_key env sender target cmd st with ⟨key0, st0⟩
    rw [hck] at hcd
    cases key0 with
    | none => simp at hcd; rw [← hcd.1] at hk; cases hk
    | some k0 =>
      simp only [Prod.mk.injEq] at hcd
      rw [← hcd.2.1] at hr'
      exact ⟨_, _, _, hr'⟩
  cases key with
  | none => exact ⟨_, _, _, rfl, by decide⟩
  | some k =>
    cases ret with
    | none => exact ⟨_, _, _, rfl, by decide⟩
    | some r =>
      obtain ⟨tr, a, k', hd⟩ := hret k r rfl rfl
      obtain ⟨out, st2, hnest, hout⟩ := hdec tr a k' r hd sender target st1
      simp only
      rw [hnest]
      simp only
      cases hre : env.inbound_recode st2.trace sender target out with
      | none => exact ⟨_, _, _, rfl, hout⟩
      | some x => exact ⟨_, _, _, rfl, hrec _ _ _ _ _ hout hre⟩

theorem call_handler_decoded (env : Env) (bucket : Bucket) (reenter : Decoder)
    (h : CTCP_Handler) (sender target cmd args : CStr) (st : State)
    (hb : decoded_bounded env reenter) :
    ∃ ptr args' st', call_handler env bucket reenter h sender target cmd args st
        = some (ptr, args', st') ∧
      ∀ t, ptr = some t → charcount t CTCP_DELIM_CHAR ≤ 1 := by
  by_cases hp : h.is_plain = true
  · obtain ⟨a, s, he⟩ := call_handler_plain env bucket reenter h sender target cmd args st hp
    exact ⟨none, a, s, he, fun t ht => by cases ht⟩
  · cases h with
    | do_crypto =>
      obtain ⟨t, args', st', he, ht⟩ := do_crypto_decoded env reenter sender target cmd args st
        hb
      exact ⟨some t, args', st', he, fun t' ht' => by cases ht'; exact ht⟩
    | do_utc =>
      simp only [call_handler, do_utc]
      split
      · exact ⟨_, _, _, rfl, fun t ht => by cases ht; decide⟩
      · exact ⟨_, _, _, rfl, fun t ht => by cases ht; exact hb.2.1 _⟩
    | _ => exact absurd rfl hp

/-- The premise on the handlers holds in every environment `decoded_bounded`
describes, whatever the registry, the mode, the sender and the target. -/
theorem handlers_bounded_of_decoded (env : Env) (bucket : Bucket) (reenter : Decoder)
    (request : Bool) (sender target : CStr) (hb : decoded_bounded env reenter) :
    handlers_bounded env bucket reenter request sender target := by
  intro name entry cmd arg st _
  unfold call_entry
  dsimp only
  cases (if request = true then entry.user_func else entry.user_repl) with
  | some code => exact ⟨_, _, _, rfl, fun t ht => hb.1 _ _ _ _ _ ht⟩
  | none =>
    cases (if request = true then entry.func else entry.repl) with
    | none => exact ⟨_, _, _, rfl, fun t ht => by cases ht⟩
    | some h =>
      obtain ⟨ptr, args', st', he, ht⟩ := call_handler_decoded env bucket reenter h sender target
        cmd arg (State.log st.in_ctcp_incr (.handler h sender target cmd arg)) hb
      dsimp only
      rw [he]
      exact ⟨_, _, _, rfl, ht⟩

/-- Collaborators that supply at most one delimiter each make an environment
`decoded_bounded` describes, the nested decoder having nothing to do. -/
theorem decoded_bounded_of_inline_bounded (env : Env) (reenter : Decoder)
    (hb : inline_bounded env) (hr : returns_plain reenter) : decoded_bounded env reenter := by
  obtain ⟨h1, h2, h3, h4⟩ := hb
  refine ⟨h1, h2, ?_, fun tr sender target text t _ h => h4 tr sender target text t h⟩
  intro tr args key ret hd sender target st
  have hc := h3 tr args key ret hd
  refine ⟨ret, st, ?_, hc⟩
  split
  · exact hr _ _ _ _ _ (by omega)
  · split
    · exact hr _ _ _ _ _ (by omega)
    · rfl

/-- In `nested_env` the nested decoder has a VERSION span to decode in every
plaintext, and returns with the span removed. -/
theorem nested_env_decoded_bounded (fuel : Nat) (hfuel : 2 ≤ fuel) :
    decoded_bounded nested_env (do_ctcp nested_env init_ctcp fuel) := by
  refine ⟨?_, ?_, ?_, ?_⟩
  · intro tr name code args t h
    simp [nested_env, sample_env] at h
  · intro n
    show charcount "Thu".toList CTCP_DELIM_CHAR ≤ 1
    decide
  · intro tr args key ret hd sender target st
    have hret : ret = "hi \x01VERSION\x01 there".toList := by
      have : some "hi \x01VERSION\x01 there".toList = some ret := hd
      exact (Option.some.inj this).symm
    subst hret
    obtain ⟨reenter, hre⟩ := do_ctcp_eq_body nested_env init_ctcp fuel
    obtain ⟨st', hrun⟩ := do_ctcp_body_no_inline nested_env init_ctcp reenter fuel true sender
      target "hi \x01VERSION\x01 there".toList st
      (le_trans (by decide) hfuel) (by unfold fits; decide)
      (no_inline_text_of_plain _ _ _ _ _ _ _ (by decide))
    refine ⟨strip_spans "hi \x01VERSION\x01 there".toList, st', ?_, by decide⟩
    have hp : nested_env.get_server_doing_privmsg st.trace = true := rfl
    rw [if_pos hp, hre]
    exact hrun
  · intro tr sender target text t hc h
    have : some text = some t := h
    rw [← Option.some.inj this]
    exact hc

/-- C26: take a registry whose handlers, called from the loop, return, with
inline text that holds at most one delimiter byte (for `do_crypto` this says
that the nested decoder returns on the plaintext).  Then every turn of the
loop of `do_ctcp` either finds fewer than two delimiters in the working buffer
and leaves the loop, or leaves strictly fewer delimiters in the buffer than it
found.  So for a message with `c` delimiters, `c` at least two, the loop
given `c` calls of `split_CTCP` returns: its body runs at most `c - 1` times
before `split_CTCP` fails, and `do_ctcp` returns what the loop left. -/
theorem scan_loop_terminates (env : Env) (bucket : Bucket) (fuel : Nat) (request : Bool)
    (sender target : CStr)
    (hb : handlers_bounded env bucket (do_ctcp env bucket fuel) request sender target) :
    (∀ (buffer : CStr) (dpm : Bool) (st : State),
      (ctcp_turn env bucket (do_ctcp env bucket fuel) request sender target buffer dpm st
          = some none ∧ charcount buffer CTCP_DELIM_CHAR < 2) ∨
      (2 ≤ charcount buffer CTCP_DELIM_CHAR ∧
        ∃ buffer' dpm' st',
          ctcp_turn env bucket (do_ctcp env bucket fuel) request sender target buffer dpm st
            = some (some (buffer', dpm', st')) ∧
          charcount buffer' CTCP_DELIM_CHAR < charcount buffer CTCP_DELIM_CHAR)) ∧
    (∀ (str : CStr) (st : State),
      2 ≤ charcount str CTCP_DELIM_CHAR →
      charcount str CTCP_DELIM_CHAR ≤ fuel + 1 →
      ∃ n out st1,
        ctcp_loop_turns env bucket (do_ctcp env bucket fuel) request sender target (fuel + 1)
            (strlcpy str (env.BIG_BUFFER_SIZE + 1 - 2))
            (do_ctcp_entry env request sender target str st).1
            (do_ctcp_entry env request sender target str st).2 = some n ∧
        n ≤ charcount str CTCP_DELIM_CHAR - 1 ∧
        ctcp_loop env bucket (do_ctcp env bucket fuel) request sender target (fuel + 1)
            (strlcpy str (env.BIG_BUFFER_SIZE + 1 - 2))
            (do_ctcp_entry env request sender target str st).1
            (do_ctcp_entry env request sender target str st).2 = some (out, st1) ∧
        charcount out CTCP_DELIM_CHAR < 2 ∧
        do_ctcp env bucket (fuel + 1) request sender target str st
          = some (strlcpy out env.BIG_BUFFER_SIZE, st1.log .pop_message_from)) := by
  refine ⟨?_, ?_⟩
  · intro buffer dpm st
    rcases ctcp_turn_decreases env bucket (do_ctcp env bucket fuel) request sender target
      buffer dpm st hb with hbreak | ⟨buffer', dpm', st', hturn, hlt⟩
    · exact Or.inl ⟨hbreak, (ctcp_turn_break_iff _ _ _ _ _ _ _ _ _).mp hbreak⟩
    · refine Or.inr ⟨?_, buffer', dpm', st', hturn, hlt⟩
      by_contra hlt2
      have := (ctcp_turn_break_iff env bucket (do_ctcp env bucket fuel) request sender target
        buffer dpm st).mpr (by omega)
      rw [this] at hturn
      cases hturn
  · intro str st h2 hf
    have hle : charcount (strlcpy str (env.BIG_BUFFER_SIZE + 1 - 2)) CTCP_DELIM_CHAR
        ≤ charcount str CTCP_DELIM_CHAR := count_take_le _ _ _
    obtain ⟨n, out, st1, hn, hbound, hloop, hout⟩ := ctcp_loop_turns_bound env bucket
      (do_ctcp env bucket fuel) request sender target hb
      (fuel + 1) (strlcpy str (env.BIG_BUFFER_SIZE + 1 - 2))
      (do_ctcp_entry env request sender target str st).1
      (do_ctcp_entry env request sender target str st).2 (by omega) (by omega)
    refine ⟨n, out, st1, hn, by omega, hloop, hout, ?_⟩
    show do_ctcp_body env bucket (do_ctcp env bucket fuel) (fuel + 1) request sender target
      str st = _
    unfold do_ctcp_body
    rw [if_neg (by omega), hloop]

theorem scan_loop_terminates_witness :
    handlers_bounded nested_env init_ctcp (do_ctcp nested_env init_ctcp 5) true "bob".toList
      "me".toList ∧
    ¬ inline_bounded nested_env ∧
    charcount "\x01SED abc\x01 \x01\x01 \x01VERSION\x01".toList CTCP_DELIM_CHAR = 6 ∧
    (∃ (n : Nat) (out : CStr) (st1 : State),
      ctcp_loop_turns nested_env init_ctcp (do_ctcp nested_env init_ctcp 5) true "bob".toList
          "me".toList (5 + 1)
          (strlcpy "\x01SED abc\x01 \x01\x01 \x01VERSION\x01".toList
            (nested_env.BIG_BUFFER_SIZE + 1 - 2))
          (do_ctcp_entry nested_env true "bob".toList "me".toList
            "\x01SED abc\x01 \x01\x01 \x01VERSION\x01".toList sample_state).1
          (do_ctcp_entry nested_env true "bob".toList "me".toList
            "\x01SED abc\x01 \x01\x01 \x01VERSION\x01".toList sample_state).2 = some n ∧
      n ≤ 6 - 1 ∧
      charcount out CTCP_DELIM_CHAR < 2 ∧
      do_ctcp nested_env init_ctcp (5 + 1) true "bob".toList "me".toList
          "\x01SED abc\x01 \x01\x01 \x01VERSION\x01".toList sample_state
        = some (strlcpy out nested_env.BIG_BUFFER_SIZE, st1.log .pop_message_from)) ∧
    ctcp_loop_turns nested_env init_ctcp (do_ctcp nested_env init_ctcp 5) true "bob".toList
        "me".toList (5 + 1)
        (strlcpy "\x01SED abc\x01 \x01\x01 \x01VERSION\x01".toList
          (nested_env.BIG_BUFFER_SIZE + 1 - 2))
        (do_ctcp_entry nested_env true "bob".toList "me".toList
          "\x01SED abc\x01 \x01\x01 \x01VERSION\x01".toList sample_state).1
        (do_ctcp_entry nested_env true "bob".toList "me".toList
          "\x01SED abc\x01 \x01\x01 \x01VERSION\x01".toList sample_state).2 = some 3 ∧
    (do_ctcp nested_env init_ctcp (5 + 1) true "bob".toList "me".toList
        "\x01SED abc\x01 \x01\x01 \x01VERSION\x01".toList sample_state).map
      (fun r => (r.1, r.2.trace.filter Event.is_handler))
      = some ("hi  there  ".toList,
          [.handler .do_crypto "bob".toList "me".toList "SED".toList "abc".toList,
           .handler .do_version "bob".toList "me".toList "VERSION".toList [],
           .handler .do_version "bob".toList "me".toList "VERSION".toList []]) :=
  ⟨handlers_bounded_of_decoded _ _ _ _ _ _ (nested_env_decoded_bounded 5 (by decide)),
    fun h => absurd (h.2.2.1 [] [] 0 "hi \x01VERSION\x01 there".toList rfl) (by decide),
    by decide,
    ((scan_loop_terminates nested_env init_ctcp 5 true "bob".toList "me".toList
      (handlers_bounded_of_decoded _ _ _ _ _ _ (nested_env_decoded_bounded 5 (by decide)))).2
      "\x01SED abc\x01 \x01\x01 \x01VERSION\x01".toList sample_state
      (by decide) (by decide)).imp fun _ h => h.imp fun _ h => h.imp fun _ h =>
        ⟨h.1, le_trans h.2.1 (by decide), h.2.2.2.1, h.2.2.2.2⟩,
    by decide, by decide⟩

end Ctcp
